import Mathlib

/-!
CoolKey: byte buffers, APDU frames and the attribute store.

A shallow embedding of `src/libckyapplet/cky_base.c` (the growable byte
buffer `CKYBuffer` and the command frame `CKYAPDU`) and of the attribute
store of `src/coolkey/object.cpp`, together with the properties of these
that the specification states.

Conventions of the embedding

* A `CKYByte` is a natural number; the bytes a function stores are the ones
  the C code computes (`(val >> 8) & 0xff`, `(CKYByte) len`, ...).
* `CKYSize` and `CKYOffset` are unbounded naturals: every statement is about
  calls whose size arithmetic does not wrap around.
* A `CKYBuffer` is the allocated block `data` (its length is the C field
  `size`) and the logical length `len`.  The bytes of the block at and after
  `len` are kept, because the C code keeps them too (`CKYBuffer_Resize` to a
  smaller length only lowers `len`).
* `realloc` always succeeds; what it leaves in the part of the block it adds
  is indeterminate in C and is read from the parameter `junk` here, so that
  every theorem holds for every content of fresh memory.
* A function that updates a buffer through a pointer and returns a status
  returns the pair of the status and the updated buffer.
* What depends on the platform is read from a `Host`: the size and the byte
  order of `unsigned long`, and what the host makes of a shift of an `int` by
  32 or more and of a read beyond the 32 entries of `boolType`.
* A function that throws a `PKCS11Exception` returns `Except CK_RV`; the
  constructor of an object from a card blob returns an `Option` of it, `none`
  standing for a loop of `parseOldObject` cut short, which does not occur
  (`PKCS11Object_data_total`).
* A pointer of the DER reader of `object.cpp` is a `Ptr`: the block it points
  into and an offset.  A read outside the block is undefined in C; `Ptr.read`
  returns `none` there, and every function of the reader returns an `Option`
  whose `none` stands for such a read.  The null pointer is the `none` of an
  `Option Ptr`.
* A conversion between integer types is written out where the code has one:
  `Host.toLong` for `unsigned long` to `CK_LONG`, `toInt` for the cast
  `(int)`, and `% 2 ^ 32` for arithmetic in `unsigned int`.
* The loop of `GetCN` runs on a number of rounds given with it; `GetCN` gives
  it the number of bytes to read, which is enough, as every round that goes
  on takes at least 2 bytes.
-/

namespace CoolKey

/-! ## The byte buffer of `cky_base.c` -/

/-- The values of `CKYStatus` (declared in `cky_base.h`) that `cky_base.c`
returns. -/
inductive CKYStatus where
  | CKYSUCCESS
  | CKYNOMEM
  | CKYDATATOOLONG
  deriving DecidableEq, Repr

open CKYStatus

/-- The buffer `CKYBuffer`: `data` is the allocated block (of `size` bytes)
and `len` the number of bytes in use. -/
structure CKYBuffer where
  data : List Nat
  len : Nat
  deriving DecidableEq, Repr

/-- The C field `size`: the number of bytes allocated. -/
def CKYBuffer.size (buf : CKYBuffer) : Nat := buf.data.length

/-- The representation invariant of the C structure: the bytes in use lie
inside the allocated block. -/
def CKYBuffer.WF (buf : CKYBuffer) : Prop := buf.len ≤ buf.data.length

instance (buf : CKYBuffer) : Decidable buf.WF := by
  unfold CKYBuffer.WF
  infer_instance

/-- The function `CKYBuffer_Size`. -/
def CKYBuffer_Size (buf : CKYBuffer) : Nat := buf.len

/-- The bytes a caller sees through `CKYBuffer_Data` and `CKYBuffer_Size`:
the first `len` bytes of the block. -/
def CKYBuffer_Data (buf : CKYBuffer) : List Nat := buf.data.take buf.len

/-- The C library's `realloc` on a block that grows: the old bytes are kept
and the added ones are whatever the allocator leaves there. -/
def realloc (junk : Nat → Nat) (data : List Nat) (newSize : Nat) : Option (List Nat) :=
  some (data.take newSize ++
    (List.range (newSize - data.length)).map (fun i => junk (data.length + i) % 256))

/-- The C library's `memset(data + off, val, n)`, for `off + n` inside the block. -/
def memset (data : List Nat) (off val n : Nat) : List Nat :=
  data.take off ++ List.replicate n val ++ data.drop (off + n)

/-- The C library's `memcpy(data + off, src, |src|)`, for `off + |src|` inside
the block. -/
def memcpy (data : List Nat) (off : Nat) (src : List Nat) : List Nat :=
  data.take off ++ src ++ data.drop (off + src.length)

/-- The function `ckyBuffer_initBuffer`: no block, nothing in use. -/
def ckyBuffer_initBuffer : CKYBuffer := { data := [], len := 0 }

/-- The function `CKYBuffer_InitEmpty`. -/
def CKYBuffer_InitEmpty : CKYStatus × CKYBuffer := (CKYSUCCESS, ckyBuffer_initBuffer)

/-- The function `CKYBuffer_Reserve`. -/
def CKYBuffer_Reserve (junk : Nat → Nat) (buf : CKYBuffer) (newSize : Nat) :
    CKYStatus × CKYBuffer :=
  if buf.size ≥ newSize then (CKYSUCCESS, buf)
  else
    match realloc junk buf.data newSize with
    | none => (CKYNOMEM, { data := [], len := 0 })
    | some d => (CKYSUCCESS, { buf with data := d })

/-- The function `CKYBuffer_Resize`. -/
def CKYBuffer_Resize (junk : Nat → Nat) (buf : CKYBuffer) (newLen : Nat) :
    CKYStatus × CKYBuffer :=
  if buf.len < newLen then
    let r := CKYBuffer_Reserve junk buf newLen
    if r.1 ≠ CKYSUCCESS then r
    else (CKYSUCCESS,
      { data := memset r.2.data r.2.len 0 (newLen - r.2.len), len := newLen })
  else (CKYSUCCESS, { buf with len := newLen })

/-- The function `CKYBuffer_InitFromLen`. -/
def CKYBuffer_InitFromLen (junk : Nat → Nat) (len : Nat) : CKYStatus × CKYBuffer :=
  let r := CKYBuffer_Reserve junk ckyBuffer_initBuffer len
  if r.1 ≠ CKYSUCCESS then r
  else (CKYSUCCESS, { data := memset r.2.data 0 0 len, len := len })

/-- The function `CKYBuffer_InitFromData`. -/
def CKYBuffer_InitFromData (junk : Nat → Nat) (data : List Nat) : CKYStatus × CKYBuffer :=
  let r := CKYBuffer_Reserve junk ckyBuffer_initBuffer data.length
  if r.1 ≠ CKYSUCCESS then r
  else (CKYSUCCESS, { data := memcpy r.2.data 0 data, len := data.length })

/-- The function `CKYBuffer_AppendChar`. -/
def CKYBuffer_AppendChar (junk : Nat → Nat) (buf : CKYBuffer) (val : Nat) :
    CKYStatus × CKYBuffer :=
  let r := CKYBuffer_Reserve junk buf (buf.len + 1)
  if r.1 ≠ CKYSUCCESS then r
  else (CKYSUCCESS, { data := r.2.data.set r.2.len val, len := r.2.len + 1 })

/-- The function `CKYBuffer_AppendShort`: a 16-bit value in network order. -/
def CKYBuffer_AppendShort (junk : Nat → Nat) (buf : CKYBuffer) (val : Nat) :
    CKYStatus × CKYBuffer :=
  let r := CKYBuffer_Reserve junk buf (buf.len + 2)
  if r.1 ≠ CKYSUCCESS then r
  else
    let d0 := r.2.data.set (r.2.len + 0) ((val >>> 8) &&& 0xff)
    let d1 := d0.set (r.2.len + 1) ((val >>> 0) &&& 0xff)
    (CKYSUCCESS, { data := d1, len := r.2.len + 2 })

/-- The function `CKYBuffer_Replace`. -/
def CKYBuffer_Replace (junk : Nat → Nat) (buf : CKYBuffer) (offset : Nat) (data : List Nat) :
    CKYStatus × CKYBuffer :=
  let r := CKYBuffer_Reserve junk buf (offset + data.length)
  if r.1 ≠ CKYSUCCESS then r
  else (CKYSUCCESS,
    { data := memcpy r.2.data offset data,
      len := if r.2.len < offset + data.length then offset + data.length else r.2.len })

/-- The function `CKYBuffer_AppendData`. -/
def CKYBuffer_AppendData (junk : Nat → Nat) (buf : CKYBuffer) (data : List Nat) :
    CKYStatus × CKYBuffer :=
  let r := CKYBuffer_Reserve junk buf (buf.len + data.length)
  if r.1 ≠ CKYSUCCESS then r
  else (CKYSUCCESS, { data := memcpy r.2.data r.2.len data, len := r.2.len + data.length })

/-- The function `CKYBuffer_SetChar`. -/
def CKYBuffer_SetChar (junk : Nat → Nat) (buf : CKYBuffer) (offset val : Nat) :
    CKYStatus × CKYBuffer :=
  let r := if buf.len < offset + 1 then CKYBuffer_Resize junk buf (offset + 1)
           else (CKYSUCCESS, buf)
  if r.1 ≠ CKYSUCCESS then r
  else (CKYSUCCESS, { data := r.2.data.set offset val, len := r.2.len })

/-- The function `CKYBuffer_SetShort`. -/
def CKYBuffer_SetShort (junk : Nat → Nat) (buf : CKYBuffer) (offset val : Nat) :
    CKYStatus × CKYBuffer :=
  let r := if buf.len < offset + 2 then CKYBuffer_Resize junk buf (offset + 2)
           else (CKYSUCCESS, buf)
  if r.1 ≠ CKYSUCCESS then r
  else
    let d0 := r.2.data.set (offset + 0) ((val >>> 8) &&& 0xff)
    let d1 := d0.set (offset + 1) ((val >>> 0) &&& 0xff)
    (CKYSUCCESS, { data := d1, len := r.2.len })

/-- The function `CKYBuffer_SetShortLE`. -/
def CKYBuffer_SetShortLE (junk : Nat → Nat) (buf : CKYBuffer) (offset val : Nat) :
    CKYStatus × CKYBuffer :=
  let r := if buf.len < offset + 2 then CKYBuffer_Resize junk buf (offset + 2)
           else (CKYSUCCESS, buf)
  if r.1 ≠ CKYSUCCESS then r
  else
    let d0 := r.2.data.set (offset + 1) ((val >>> 8) &&& 0xff)
    let d1 := d0.set (offset + 0) ((val >>> 0) &&& 0xff)
    (CKYSUCCESS, { data := d1, len := r.2.len })

/-- The function `CKYBuffer_SetLong`. -/
def CKYBuffer_SetLong (junk : Nat → Nat) (buf : CKYBuffer) (offset val : Nat) :
    CKYStatus × CKYBuffer :=
  let r := if buf.len < offset + 4 then CKYBuffer_Resize junk buf (offset + 4)
           else (CKYSUCCESS, buf)
  if r.1 ≠ CKYSUCCESS then r
  else
    let d0 := r.2.data.set (offset + 0) ((val >>> 24) &&& 0xff)
    let d1 := d0.set (offset + 1) ((val >>> 16) &&& 0xff)
    let d2 := d1.set (offset + 2) ((val >>> 8) &&& 0xff)
    let d3 := d2.set (offset + 3) ((val >>> 0) &&& 0xff)
    (CKYSUCCESS, { data := d3, len := r.2.len })

/-- The function `CKYBuffer_SetLongLE`. -/
def CKYBuffer_SetLongLE (junk : Nat → Nat) (buf : CKYBuffer) (offset val : Nat) :
    CKYStatus × CKYBuffer :=
  let r := if buf.len < offset + 4 then CKYBuffer_Resize junk buf (offset + 4)
           else (CKYSUCCESS, buf)
  if r.1 ≠ CKYSUCCESS then r
  else
    let d0 := r.2.data.set (offset + 3) ((val >>> 24) &&& 0xff)
    let d1 := d0.set (offset + 2) ((val >>> 16) &&& 0xff)
    let d2 := d1.set (offset + 1) ((val >>> 8) &&& 0xff)
    let d3 := d2.set (offset + 0) ((val >>> 0) &&& 0xff)
    (CKYSUCCESS, { data := d3, len := r.2.len })

/-- The read `buf->data[i]`. -/
def CKYBuffer.at (buf : CKYBuffer) (i : Nat) : Nat := buf.data.getD i 0

/-- The function `CKYBuffer_GetChar`. -/
def CKYBuffer_GetChar (buf : CKYBuffer) (offset : Nat) : Nat :=
  if buf.len < offset + 1 then 0
  else buf.at offset

/-- The function `CKYBuffer_GetShort`; the result is an `unsigned short`. -/
def CKYBuffer_GetShort (buf : CKYBuffer) (offset : Nat) : Nat :=
  if buf.len < offset + 2 then 0
  else
    let val := (buf.at (offset + 0) <<< 8) % 65536
    (val ||| (buf.at (offset + 1) <<< 0) % 65536)

/-- The function `CKYBuffer_GetShortLE`; the result is an `unsigned short`. -/
def CKYBuffer_GetShortLE (buf : CKYBuffer) (offset : Nat) : Nat :=
  if buf.len < offset + 2 then 0
  else
    let val := (buf.at (offset + 1) <<< 8) % 65536
    (val ||| (buf.at (offset + 0) <<< 0) % 65536)

/-- The function `CKYBuffer_GetLong`. -/
def CKYBuffer_GetLong (buf : CKYBuffer) (offset : Nat) : Nat :=
  if buf.len < offset + 4 then 0
  else
    let val := buf.at (offset + 0) <<< 24
    let val := val ||| (buf.at (offset + 1) <<< 16)
    let val := val ||| (buf.at (offset + 2) <<< 8)
    (val ||| (buf.at (offset + 3) <<< 0))

/-- The function `CKYBuffer_GetLongLE`. -/
def CKYBuffer_GetLongLE (buf : CKYBuffer) (offset : Nat) : Nat :=
  if buf.len < offset + 4 then 0
  else
    let val := buf.at (offset + 3) <<< 24
    let val := val ||| (buf.at (offset + 2) <<< 16)
    let val := val ||| (buf.at (offset + 1) <<< 8)
    (val ||| (buf.at (offset + 0) <<< 0))

/-! ## The command frame of `cky_base.c` -/

/-- Modelled from the spec: the constant `CKYAPDU_MAX_DATA_LEN` of `cky_base.h`,
which is not part of the sources at hand ("If payload length < 256: direct
encoding"). -/
def CKYAPDU_MAX_DATA_LEN : Nat := 256

/-- Modelled from the spec: the constant `CKYAPDU_MAX_T1_DATA_LEN` of
`cky_base.h` ("Payload length ≥ 65536 is an encoding error"). -/
def CKYAPDU_MAX_T1_DATA_LEN : Nat := 65536

/-- Modelled from the spec: the constant `CKYAPDU_MIN_LEN` of `cky_base.h`, the
length of a frame without data ("Fixed 4-byte header (CLA, INS, P1, P2) at
offsets 0–3"). -/
def CKYAPDU_MIN_LEN : Nat := 4

/-- Modelled from the spec: the constant `CKYAPDU_HEADER_LEN` of `cky_base.h`,
the offset of the data of a direct frame ("a single length byte (Lc) followed
immediately by the payload", after the 4-byte header). -/
def CKYAPDU_HEADER_LEN : Nat := 5

/-- Modelled from the spec: `CKY_CLA_OFFSET` of `cky_base.h` (header byte 0). -/
def CKY_CLA_OFFSET : Nat := 0

/-- Modelled from the spec: `CKY_INS_OFFSET` of `cky_base.h` (header byte 1). -/
def CKY_INS_OFFSET : Nat := 1

/-- Modelled from the spec: `CKY_P1_OFFSET` of `cky_base.h` (header byte 2). -/
def CKY_P1_OFFSET : Nat := 2

/-- Modelled from the spec: `CKY_P2_OFFSET` of `cky_base.h` (header byte 3). -/
def CKY_P2_OFFSET : Nat := 3

/-- Modelled from the spec: `CKY_LC_OFFSET` of `cky_base.h`, the offset of the
length byte, right after the 4-byte header. -/
def CKY_LC_OFFSET : Nat := 4

/-- Modelled from the spec: `CKY_LE_OFFSET` of `cky_base.h`; in a frame without
data the expected response length takes the place of the length byte. -/
def CKY_LE_OFFSET : Nat := 4

/-- The frame `CKYAPDU`: a buffer holding the bytes to send. -/
structure CKYAPDU where
  apduBuf : CKYBuffer
  deriving DecidableEq, Repr

/-- The function `CKYAPDU_Init`. -/
def CKYAPDU_Init (junk : Nat → Nat) : CKYStatus × CKYAPDU :=
  let r := CKYBuffer_Resize junk ckyBuffer_initBuffer CKYAPDU_MIN_LEN
  (r.1, ⟨r.2⟩)

/-- The function `CKYAPDU_GetCLA`. -/
def CKYAPDU_GetCLA (apdu : CKYAPDU) : Nat := CKYBuffer_GetChar apdu.apduBuf CKY_CLA_OFFSET

/-- The function `CKYAPDU_SetCLA`. -/
def CKYAPDU_SetCLA (junk : Nat → Nat) (apdu : CKYAPDU) (b : Nat) : CKYStatus × CKYAPDU :=
  let r := CKYBuffer_SetChar junk apdu.apduBuf CKY_CLA_OFFSET b
  (r.1, ⟨r.2⟩)

/-- The function `CKYAPDU_GetINS`. -/
def CKYAPDU_GetINS (apdu : CKYAPDU) : Nat := CKYBuffer_GetChar apdu.apduBuf CKY_INS_OFFSET

/-- The function `CKYAPDU_SetINS`. -/
def CKYAPDU_SetINS (junk : Nat → Nat) (apdu : CKYAPDU) (b : Nat) : CKYStatus × CKYAPDU :=
  let r := CKYBuffer_SetChar junk apdu.apduBuf CKY_INS_OFFSET b
  (r.1, ⟨r.2⟩)

/-- The function `CKYAPDU_GetP1`. -/
def CKYAPDU_GetP1 (apdu : CKYAPDU) : Nat := CKYBuffer_GetChar apdu.apduBuf CKY_P1_OFFSET

/-- The function `CKYAPDU_SetP1`. -/
def CKYAPDU_SetP1 (junk : Nat → Nat) (apdu : CKYAPDU) (b : Nat) : CKYStatus × CKYAPDU :=
  let r := CKYBuffer_SetChar junk apdu.apduBuf CKY_P1_OFFSET b
  (r.1, ⟨r.2⟩)

/-- The function `CKYAPDU_GetP2`. -/
def CKYAPDU_GetP2 (apdu : CKYAPDU) : Nat := CKYBuffer_GetChar apdu.apduBuf CKY_P2_OFFSET

/-- The function `CKYAPDU_SetP2`. -/
def CKYAPDU_SetP2 (junk : Nat → Nat) (apdu : CKYAPDU) (b : Nat) : CKYStatus × CKYAPDU :=
  let r := CKYBuffer_SetChar junk apdu.apduBuf CKY_P2_OFFSET b
  (r.1, ⟨r.2⟩)

/-- The function `CKYAPDU_SetSendData`; `data` is the C pair of a pointer and a length.
The casts `(CKYByte) len` and `(unsigned short) len` are the remainders. -/
def CKYAPDU_SetSendData (junk : Nat → Nat) (apdu : CKYAPDU) (data : List Nat) :
    CKYStatus × CKYAPDU :=
  let len := data.length
  if len < CKYAPDU_MAX_DATA_LEN then
    let offset := 0
    let r := CKYBuffer_Resize junk apdu.apduBuf (len + offset + CKYAPDU_HEADER_LEN)
    if r.1 ≠ CKYSUCCESS then (r.1, ⟨r.2⟩)
    else
      let r := CKYBuffer_SetChar junk r.2 CKY_LC_OFFSET (len % 256)
      if r.1 ≠ CKYSUCCESS then (r.1, ⟨r.2⟩)
      else
        let r := CKYBuffer_Replace junk r.2 (CKYAPDU_HEADER_LEN + offset) data
        (r.1, ⟨r.2⟩)
  else if len < CKYAPDU_MAX_T1_DATA_LEN then
    let offset := 2
    let r := CKYBuffer_Resize junk apdu.apduBuf (len + offset + CKYAPDU_HEADER_LEN)
    if r.1 ≠ CKYSUCCESS then (r.1, ⟨r.2⟩)
    else
      let r := CKYBuffer_SetChar junk r.2 CKY_LC_OFFSET 0
      if r.1 ≠ CKYSUCCESS then (r.1, ⟨r.2⟩)
      else
        let r := CKYBuffer_SetShort junk r.2 (CKY_LC_OFFSET + 1) (len % 65536)
        if r.1 ≠ CKYSUCCESS then (r.1, ⟨r.2⟩)
        else
          let r := CKYBuffer_Replace junk r.2 (CKYAPDU_HEADER_LEN + offset) data
          (r.1, ⟨r.2⟩)
  else (CKYDATATOOLONG, apdu)

/-- The function `CKYAPDU_AppendSendData`. -/
def CKYAPDU_AppendSendData (junk : Nat → Nat) (apdu : CKYAPDU) (data : List Nat) :
    CKYStatus × CKYAPDU :=
  if CKYBuffer_Size apdu.apduBuf ≤ CKYAPDU_MIN_LEN then CKYAPDU_SetSendData junk apdu data
  else
    let dataLen := CKYBuffer_Size apdu.apduBuf + data.length - CKYAPDU_HEADER_LEN
    if dataLen ≥ CKYAPDU_MAX_DATA_LEN then (CKYDATATOOLONG, apdu)
    else
      let r := CKYBuffer_AppendData junk apdu.apduBuf data
      if r.1 ≠ CKYSUCCESS then (r.1, ⟨r.2⟩)
      else
        let r := CKYBuffer_SetChar junk r.2 CKY_LC_OFFSET (dataLen % 256)
        (r.1, ⟨r.2⟩)

/-- The function `CKYAPDU_SetReceiveLen`; `recvlen` is a `CKYByte`. -/
def CKYAPDU_SetReceiveLen (junk : Nat → Nat) (apdu : CKYAPDU) (recvlen : Nat) :
    CKYStatus × CKYAPDU :=
  let r := CKYBuffer_Resize junk apdu.apduBuf CKYAPDU_HEADER_LEN
  if r.1 ≠ CKYSUCCESS then (r.1, ⟨r.2⟩)
  else
    let r := CKYBuffer_SetChar junk r.2 CKY_LE_OFFSET recvlen
    (r.1, ⟨r.2⟩)

/-- The function `CKYAPDU_SetShortReceiveLen`; `recvlen` is an `unsigned short`. -/
def CKYAPDU_SetShortReceiveLen (junk : Nat → Nat) (apdu : CKYAPDU) (recvlen : Nat) :
    CKYStatus × CKYAPDU :=
  if recvlen ≤ CKYAPDU_MAX_DATA_LEN then
    CKYAPDU_SetReceiveLen junk apdu ((recvlen &&& 0xff) % 256)
  else
    let r := CKYBuffer_Resize junk apdu.apduBuf (CKYAPDU_HEADER_LEN + 2)
    if r.1 ≠ CKYSUCCESS then (r.1, ⟨r.2⟩)
    else
      let r := CKYBuffer_SetChar junk r.2 CKY_LE_OFFSET 0
      if r.1 ≠ CKYSUCCESS then (r.1, ⟨r.2⟩)
      else
        let r := CKYBuffer_SetShort junk r.2 (CKY_LE_OFFSET + 1) recvlen
        (r.1, ⟨r.2⟩)

/-- The function `CKYAPDU_SetReceiveLength`; `recvlen` is a `CKYSize`. -/
def CKYAPDU_SetReceiveLength (junk : Nat → Nat) (apdu : CKYAPDU) (recvlen : Nat) :
    CKYStatus × CKYAPDU :=
  if recvlen ≤ CKYAPDU_MAX_T1_DATA_LEN then
    CKYAPDU_SetShortReceiveLen junk apdu ((recvlen &&& 0xffff) % 65536)
  else (CKYDATATOOLONG, apdu)

/-- The function `CKYAPDU_AppendReceiveLen`; `recvlen` is a `CKYByte`. -/
def CKYAPDU_AppendReceiveLen (junk : Nat → Nat) (apdu : CKYAPDU) (recvlen : Nat) :
    CKYStatus × CKYAPDU :=
  if CKYBuffer_Size apdu.apduBuf > CKYAPDU_MIN_LEN ∧
      CKYBuffer_GetChar apdu.apduBuf CKY_LC_OFFSET = 0 then
    let r := CKYBuffer_AppendShort junk apdu.apduBuf
      (if recvlen ≠ 0 then recvlen else CKYAPDU_MAX_DATA_LEN)
    (r.1, ⟨r.2⟩)
  else
    let r := CKYBuffer_AppendChar junk apdu.apduBuf recvlen
    (r.1, ⟨r.2⟩)

/-- The function `CKYAPDU_AppendShortReceiveLen`; `recvlen` is an `unsigned short`, and
`(CKYByte)recvlen&0xff` is the low byte. -/
def CKYAPDU_AppendShortReceiveLen (junk : Nat → Nat) (apdu : CKYAPDU) (recvlen : Nat) :
    CKYStatus × CKYAPDU :=
  if CKYBuffer_Size apdu.apduBuf > CKYAPDU_MIN_LEN then
    if CKYBuffer_GetChar apdu.apduBuf CKY_LC_OFFSET ≠ 0 then
      if recvlen = 0 ∨ recvlen > CKYAPDU_MAX_DATA_LEN then (CKYDATATOOLONG, apdu)
      else
        let r := CKYBuffer_AppendChar junk apdu.apduBuf ((recvlen % 256) &&& 0xff)
        (r.1, ⟨r.2⟩)
    else
      let r := CKYBuffer_AppendShort junk apdu.apduBuf recvlen
      (r.1, ⟨r.2⟩)
  else if recvlen ≠ 0 ∧ recvlen ≤ CKYAPDU_MAX_DATA_LEN then
    let r := CKYBuffer_AppendChar junk apdu.apduBuf ((recvlen % 256) &&& 0xff)
    (r.1, ⟨r.2⟩)
  else
    let r := CKYBuffer_AppendChar junk apdu.apduBuf 0
    if r.1 ≠ CKYSUCCESS then (r.1, ⟨r.2⟩)
    else
      let r := CKYBuffer_AppendShort junk r.2 recvlen
      (r.1, ⟨r.2⟩)

/-- The function `CKYAPDU_AppendReceiveLength`; `recvlen` is a `CKYSize`. -/
def CKYAPDU_AppendReceiveLength (junk : Nat → Nat) (apdu : CKYAPDU) (recvlen : Nat) :
    CKYStatus × CKYAPDU :=
  if recvlen > CKYAPDU_MAX_T1_DATA_LEN then (CKYDATATOOLONG, apdu)
  else CKYAPDU_AppendShortReceiveLen junk apdu ((recvlen &&& 0xffff) % 65536)

/-- The bytes of the frame, as the transport layer reads them. -/
def CKYAPDU.frame (apdu : CKYAPDU) : List Nat := CKYBuffer_Data apdu.apduBuf

/-- The frame `apdu` brought to the header `cla ins p1 p2` by the four header
setters. -/
def setHeader (junk : Nat → Nat) (apdu : CKYAPDU) (cla ins p1 p2 : Nat) : CKYAPDU :=
  (CKYAPDU_SetP2 junk (CKYAPDU_SetP1 junk (CKYAPDU_SetINS junk
    (CKYAPDU_SetCLA junk apdu cla).2 ins).2 p1).2 p2).2

/-! ## The attribute store of `object.cpp` -/

/-- Modelled from the spec: the class `PKCS11Attribute` of `object.h`, which is
not part of the sources at hand ("Attribute: `(type: u32, value: bytes)`";
"value is an owned byte sequence"). -/
structure PKCS11Attribute where
  type : Nat
  value : List Nat
  deriving DecidableEq, Repr

/-- Modelled from the spec: `PKCS11Attribute::setValue(data, size)` of
`object.h` ("`setAttribute` on an existing type overwrites in place"): the
value becomes the given bytes, the type stays. -/
def PKCS11Attribute.setValue (a : PKCS11Attribute) (data : List Nat) : PKCS11Attribute :=
  { a with value := data }

/-- Modelled from the spec: the constructor `PKCS11Attribute(type, value)` of
`object.h`: an attribute of the given type that owns a copy of the bytes of
the buffer. -/
def PKCS11Attribute.new (type : Nat) (value : CKYBuffer) : PKCS11Attribute :=
  { type := type, value := CKYBuffer_Data value }

/-- The predicate `AttributeTypeMatch` of `object.cpp`. -/
def AttributeTypeMatch (type : Nat) (cmp : PKCS11Attribute) : Bool :=
  cmp.type == type

/-- The library algorithm `std::find_if` over a list: the position of the
first element that satisfies `pred`, and `none` for `end()`. -/
def find_if {α : Type} (pred : α → Bool) : List α → Option Nat
  | [] => none
  | a :: as => if pred a then some 0 else (find_if pred as).map (· + 1)

/-- The update `iter->f()` of the element an iterator points at. -/
def updateAt {α : Type} (l : List α) (iter : Nat) (f : α → α) : List α :=
  match l[iter]? with
  | some a => l.set iter (f a)
  | none => l

/-- The method `PKCS11Object::attributeExists`, on the member `attributes`. -/
def attributeExists (attributes : List PKCS11Attribute) (type : Nat) : Bool :=
  match find_if (AttributeTypeMatch type) attributes with
  | some _ => true
  | none => false

/-- The method `PKCS11Object::getAttribute`, on the member `attributes`; `none` is the
null pointer. -/
def getAttribute (attributes : List PKCS11Attribute) (type : Nat) : Option (List Nat) :=
  match find_if (AttributeTypeMatch type) attributes with
  | none => none
  | some iter => (attributes[iter]?).map (·.value)

/-- The method `PKCS11Object::setAttribute(type, value)` for a buffer `value`, on the
member `attributes`. -/
def setAttribute (attributes : List PKCS11Attribute) (type : Nat) (value : CKYBuffer) :
    List PKCS11Attribute :=
  match find_if (AttributeTypeMatch type) attributes with
  | some iter => updateAt attributes iter (fun a => a.setValue (CKYBuffer_Data value))
  | none => attributes ++ [PKCS11Attribute.new type value]

/-- The function `CKYBuffer_DataIsEqual`; `buf2` is the memory at the C pointer
and `buf2Len` the length given with it. `memcmp` over `n` bytes is 0 exactly
when the first `n` bytes agree. -/
def CKYBuffer_DataIsEqual (buf1 : CKYBuffer) (buf2 : List Nat) (buf2Len : Nat) : Bool :=
  if buf1.len ≠ buf2Len then false
  else if buf1.len = 0 then true
  else decide (buf1.data.take buf1.len = buf2.take buf1.len)

/-! ## The host and the PKCS #11 interface -/

/-- The properties of the machine the module is compiled for that the code of
`object.cpp` depends on. `sizeofULong` is `sizeof(unsigned long)`, which is
also `sizeof(CK_ULONG)`, in bytes, and `bigEndian` tells the byte order of an
integer in memory. The last two fields stand for what C leaves undefined in
`expandAttributes`: `shiftBeyondInt i` is the value the host gives the `int`
expression `1 << i` for `i ≥ 32`, and `readBeyondTable i` the value it reads
as `boolType[i]` for `i ≥ 32`, beyond the 32 entries of the table. -/
structure Host where
  sizeofULong : Nat
  bigEndian : Bool
  shiftBeyondInt : Nat → Nat
  readBeyondTable : Nat → Nat

/-- The bytes of an `unsigned long` of value `v` in the memory of the host:
what `(const CKYByte *)&value` points at, over `sizeof(CK_ULONG)` bytes. -/
def Host.encodeULong (host : Host) (v : Nat) : List Nat :=
  let le := (List.range host.sizeofULong).map (fun i => (v >>> (8 * i)) &&& 0xff)
  if host.bigEndian then le.reverse else le

/-- The value of the `unsigned long` that the host reads from bytes of its
memory: what `memcpy(&value, bytes, sizeof(CK_ULONG))` leaves in `value`. -/
def Host.decodeULong (host : Host) (bytes : List Nat) : Nat :=
  let le := if host.bigEndian then bytes.reverse else bytes
  le.foldr (fun b acc => b + 256 * acc) 0

/-- The value `(CK_ULONG)-1`. -/
def Host.ulongMinusOne (host : Host) : Nat := 2 ^ (8 * host.sizeofULong) - 1

/-- The subtraction `a - b` of two `unsigned long` values, which wraps around. -/
def Host.usub (host : Host) (a b : Nat) : Nat :=
  (a % 2 ^ (8 * host.sizeofULong) + 2 ^ (8 * host.sizeofULong) - b % 2 ^ (8 * host.sizeofULong))
    % 2 ^ (8 * host.sizeofULong)

/-- The value of the C expression `1 << i`, an `int` shift, converted to
`unsigned long`: `2^i` below 31, the sign-extended `INT_MIN` at 31, and what
the host makes of it from 32 on. -/
def Host.intShl1 (host : Host) (i : Nat) : Nat :=
  if i < 31 then 2 ^ i
  else if i = 31 then 2 ^ (8 * host.sizeofULong) - 2 ^ 31
  else host.shiftBeyondInt i % 2 ^ (8 * host.sizeofULong)

/-- The return values `CK_RV` that `object.cpp` throws in a `PKCS11Exception`. -/
inductive CK_RV where
  | CKR_DEVICE_ERROR
  | CKR_ATTRIBUTE_TYPE_INVALID
  | CKR_BUFFER_TOO_SMALL
  | CKR_FUNCTION_FAILED
  deriving DecidableEq, Repr

open CK_RV

/-- Modelled from the spec: the structure `CK_ATTRIBUTE` of the PKCS #11
header, which is not part of the sources at hand ("a sequence of `(type,
optional buffer, capacity)` triples"). `pValue` is `none` for a null pointer
and else the bytes of the memory it points at. -/
structure CK_ATTRIBUTE where
  type : Nat
  pValue : Option (List Nat)
  ulValueLen : Nat
  deriving DecidableEq, Repr

/-- Modelled from the spec: the constant `CKA_CLASS` of the PKCS #11 header
("CLASS"), with its PKCS #11 value. -/
def CKA_CLASS : Nat := 0x0

/-- Modelled from the spec: the constant `CKA_TOKEN` of the PKCS #11 header
("TOKEN"), with its PKCS #11 value. -/
def CKA_TOKEN : Nat := 0x1

/-- Modelled from the spec: the constant `CKA_PRIVATE` of the PKCS #11 header
("PRIVATE"), with its PKCS #11 value. -/
def CKA_PRIVATE : Nat := 0x2

/-- Modelled from the spec: the constant `CKA_LABEL` of the PKCS #11 header,
with its PKCS #11 value. -/
def CKA_LABEL : Nat := 0x3

/-- Modelled from the spec: the constant `CKA_CERTIFICATE_TYPE` of the
PKCS #11 header ("CERTIFICATE_TYPE"), with its PKCS #11 value. -/
def CKA_CERTIFICATE_TYPE : Nat := 0x80

/-- Modelled from the spec: the constant `CKA_KEY_TYPE` of the PKCS #11 header
("KEY_TYPE"), with its PKCS #11 value. -/
def CKA_KEY_TYPE : Nat := 0x100

/-- Modelled from the spec: the constant `CKA_ID` of the PKCS #11 header
("CKA_ID"), with its PKCS #11 value. -/
def CKA_ID : Nat := 0x102

/-- Modelled from the spec: the constant `CKA_SENSITIVE` of the PKCS #11 header
("SENSITIVE"), with its PKCS #11 value. -/
def CKA_SENSITIVE : Nat := 0x103

/-- Modelled from the spec: the constant `CKA_ENCRYPT` of the PKCS #11 header
("ENCRYPT"), with its PKCS #11 value. -/
def CKA_ENCRYPT : Nat := 0x104

/-- Modelled from the spec: the constant `CKA_DECRYPT` of the PKCS #11 header
("DECRYPT"), with its PKCS #11 value. -/
def CKA_DECRYPT : Nat := 0x105

/-- Modelled from the spec: the constant `CKA_WRAP` of the PKCS #11 header
("WRAP"), with its PKCS #11 value. -/
def CKA_WRAP : Nat := 0x106

/-- Modelled from the spec: the constant `CKA_UNWRAP` of the PKCS #11 header
("UNWRAP"), with its PKCS #11 value. -/
def CKA_UNWRAP : Nat := 0x107

/-- Modelled from the spec: the constant `CKA_SIGN` of the PKCS #11 header
("SIGN"), with its PKCS #11 value. -/
def CKA_SIGN : Nat := 0x108

/-- Modelled from the spec: the constant `CKA_SIGN_RECOVER` of the PKCS #11
header ("SIGN_RECOVER"), with its PKCS #11 value. -/
def CKA_SIGN_RECOVER : Nat := 0x109

/-- Modelled from the spec: the constant `CKA_VERIFY` of the PKCS #11 header
("VERIFY"), with its PKCS #11 value. -/
def CKA_VERIFY : Nat := 0x10A

/-- Modelled from the spec: the constant `CKA_VERIFY_RECOVER` of the PKCS #11
header ("VERIFY_RECOVER"), with its PKCS #11 value. -/
def CKA_VERIFY_RECOVER : Nat := 0x10B

/-- Modelled from the spec: the constant `CKA_DERIVE` of the PKCS #11 header
("DERIVE"), with its PKCS #11 value. -/
def CKA_DERIVE : Nat := 0x10C

/-- Modelled from the spec: the constant `CKA_EXTRACTABLE` of the PKCS #11
header ("EXTRACTABLE"), with its PKCS #11 value. -/
def CKA_EXTRACTABLE : Nat := 0x162

/-- Modelled from the spec: the constant `CKA_LOCAL` of the PKCS #11 header
("LOCAL"), with its PKCS #11 value. -/
def CKA_LOCAL : Nat := 0x163

/-- Modelled from the spec: the constant `CKA_NEVER_EXTRACTABLE` of the
PKCS #11 header ("NEVER_EXTRACTABLE"), with its PKCS #11 value. -/
def CKA_NEVER_EXTRACTABLE : Nat := 0x164

/-- Modelled from the spec: the constant `CKA_ALWAYS_SENSITIVE` of the
PKCS #11 header ("ALWAYS_SENSITIVE"), with its PKCS #11 value. -/
def CKA_ALWAYS_SENSITIVE : Nat := 0x165

/-- Modelled from the spec: the constant `CKA_MODIFIABLE` of the PKCS #11
header ("MODIFIABLE"), with its PKCS #11 value. -/
def CKA_MODIFIABLE : Nat := 0x170

/-- Modelled from the spec: the constant `CKO_MOZ_READER` of `mypkcs11.h`, the
class of a reader pseudo-object ("objects explicitly flagged as
platform/reader pseudo-objects"); a vendor-defined value. -/
def CKO_MOZ_READER : Nat := 0xCE534355

/-- Modelled from the spec: the constant `CKA_MOZ_IS_COOL_KEY` of `mypkcs11.h`,
a vendor-defined attribute type of a reader object. -/
def CKA_MOZ_IS_COOL_KEY : Nat := 0xCE534368

/-- Modelled from the spec: the constant `CKA_MOZ_ATR` of `mypkcs11.h`, a
vendor-defined attribute type of a reader object. -/
def CKA_MOZ_ATR : Nat := 0xCE534369

/-- Modelled from the spec: the PKCS #11 constant `TRUE` of type `CK_BBOOL`
("value is 1/0"). -/
def CK_TRUE : Nat := 1

/-- Modelled from the spec: the PKCS #11 constant `FALSE` of type `CK_BBOOL`
("value is 1/0"). -/
def CK_FALSE : Nat := 0

/-! ## Attribute queries of `object.cpp` -/

instance : Inhabited PKCS11Attribute := ⟨⟨0, []⟩⟩

/-- Modelled from the spec: the default constructor `PKCS11Attribute()` of
`object.h`: type 0 and an empty value. -/
def PKCS11Attribute.empty : PKCS11Attribute := { type := 0, value := [] }

/-- Modelled from the spec: `PKCS11Attribute::setType` of `object.h`. -/
def PKCS11Attribute.setType (a : PKCS11Attribute) (type : Nat) : PKCS11Attribute :=
  { a with type := type }

/-- Modelled from the spec: `PKCS11Attribute::getType` of `object.h`. -/
def PKCS11Attribute.getType (a : PKCS11Attribute) : Nat := a.type

/-- Modelled from the spec: `PKCS11Attribute::getValue` of `object.h`: the
buffer that holds the value bytes. -/
def PKCS11Attribute.getValue (a : PKCS11Attribute) : CKYBuffer :=
  { data := a.value, len := a.value.length }

/-- The element `*iter` an iterator into the attribute list points at. -/
def deref (attributes : List PKCS11Attribute) (iter : Nat) : PKCS11Attribute :=
  attributes.getD iter PKCS11Attribute.empty

/-- The predicate `AttributeMatch` of `object.cpp`: the type of the template
entry `attr` is the type of `cmp`, and the `ulValueLen` bytes at `pValue` are
the value of `cmp`. A null `pValue` points at no bytes. -/
def AttributeMatch (attr : CK_ATTRIBUTE) (cmp : PKCS11Attribute) : Bool :=
  (attr.type == cmp.getType) &&
    CKYBuffer_DataIsEqual cmp.getValue (attr.pValue.getD []) attr.ulValueLen

/-- The loop of `PKCS11Object::getAttributeValue` over the entries of the
template that are left, with the two flags it keeps; it returns the entries as
it leaves them and the flags at the end. -/
def getAttributeValue_loop (host : Host) (attributes : List PKCS11Attribute) :
    List CK_ATTRIBUTE → Bool → Bool → List CK_ATTRIBUTE × Bool × Bool
  | [], attrTypeInvalid, bufferTooSmall => ([], attrTypeInvalid, bufferTooSmall)
  | t :: rest, attrTypeInvalid, bufferTooSmall =>
    match find_if (AttributeTypeMatch t.type) attributes with
    | none =>
      let r := getAttributeValue_loop host attributes rest true bufferTooSmall
      ({ t with ulValueLen := host.ulongMinusOne } :: r.1, r.2)
    | some iter =>
      if t.pValue = none then
        let r := getAttributeValue_loop host attributes rest attrTypeInvalid bufferTooSmall
        ({ t with ulValueLen := CKYBuffer_Size (deref attributes iter).getValue } :: r.1, r.2)
      else if t.ulValueLen < CKYBuffer_Size (deref attributes iter).getValue then
        let r := getAttributeValue_loop host attributes rest attrTypeInvalid true
        ({ t with ulValueLen := host.ulongMinusOne } :: r.1, r.2)
      else
        let r := getAttributeValue_loop host attributes rest attrTypeInvalid bufferTooSmall
        ({ t with
            pValue := t.pValue.map
              (fun buf => memcpy buf 0 (CKYBuffer_Data (deref attributes iter).getValue)),
            ulValueLen := CKYBuffer_Size (deref attributes iter).getValue } :: r.1, r.2)

/-- The method `PKCS11Object::getAttributeValue`, on the member `attributes`:
the exception it throws, if any, and the template as it leaves it. -/
def getAttributeValue (host : Host) (attributes : List PKCS11Attribute)
    (pTemplate : List CK_ATTRIBUTE) : Except CK_RV Unit × List CK_ATTRIBUTE :=
  let r := getAttributeValue_loop host attributes pTemplate false false
  if r.2.1 then (Except.error CKR_ATTRIBUTE_TYPE_INVALID, r.1)
  else if r.2.2 then (Except.error CKR_BUFFER_TOO_SMALL, r.1)
  else (Except.ok (), r.1)

/-- The entry `rdr_template[0]` of `object.cpp`: the class of a reader object,
as the bytes of an `unsigned long` of the host. -/
def rdr_template0 (host : Host) : CK_ATTRIBUTE :=
  { type := CKA_CLASS, pValue := some (host.encodeULong CKO_MOZ_READER),
    ulValueLen := host.sizeofULong }

/-- The loop of `PKCS11Object::matchesTemplate` over the entries of the
template that are left. -/
def matchesTemplate_loop (attributes : List PKCS11Attribute) : List CK_ATTRIBUTE → Bool
  | [] => true
  | t :: rest =>
    match find_if (AttributeMatch t) attributes with
    | none => false
    | some _ => matchesTemplate_loop attributes rest

/-- The method `PKCS11Object::matchesTemplate`, on the member `attributes`;
`hide` tells whether `NSS_HIDE_NONSTANDARD_OBJECTS` is defined. -/
def matchesTemplate (hide : Bool) (host : Host) (attributes : List PKCS11Attribute)
    (pTemplate : List CK_ATTRIBUTE) : Bool :=
  if hide ∧ pTemplate.length = 0 then
    match find_if (AttributeMatch (rdr_template0 host)) attributes with
    | none => true
    | some _ => false
  else matchesTemplate_loop attributes pTemplate

/-- What `getAttributeValue` leaves in one template entry: the sentinel length
for an absent type, the stored length when no buffer is given, the sentinel
length when the buffer is too small, and else the stored bytes and their
length. -/
def entryOut (host : Host) (attributes : List PKCS11Attribute) (t : CK_ATTRIBUTE) :
    CK_ATTRIBUTE :=
  match getAttribute attributes t.type with
  | none => { t with ulValueLen := host.ulongMinusOne }
  | some v =>
    match t.pValue with
    | none => { t with ulValueLen := v.length }
    | some buf =>
      if t.ulValueLen < v.length then { t with ulValueLen := host.ulongMinusOne }
      else { t with pValue := some (v ++ buf.drop v.length), ulValueLen := v.length }

/-- The template entry asks for a type the store does not hold. -/
def entryAbsent (attributes : List PKCS11Attribute) (t : CK_ATTRIBUTE) : Bool :=
  (getAttribute attributes t.type).isNone

/-- The template entry gives a buffer that is too small for the stored value. -/
def entrySmall (attributes : List PKCS11Attribute) (t : CK_ATTRIBUTE) : Bool :=
  match getAttribute attributes t.type, t.pValue with
  | some v, some _ => decide (t.ulValueLen < v.length)
  | _, _ => false


/-- A host for the examples: `unsigned long` of 4 bytes, little-endian. With 32
bits no shift of `expandAttributes` goes beyond `1 << 31`. -/
def host32 : Host :=
  { sizeofULong := 4, bigEndian := false, shiftBeyondInt := fun _ => 0,
    readBeyondTable := fun _ => 0 }

/-- A host for the examples: `unsigned long` of 8 bytes, little-endian, whose
shift of an `int` takes the count modulo 32, as the x86-64 instruction does. -/
def host64 : Host :=
  { sizeofULong := 8, bigEndian := false,
    shiftBeyondInt := fun i => if i % 32 = 31 then 2 ^ 64 - 2 ^ 31 else 2 ^ (i % 32),
    readBeyondTable := fun _ => 0 }

/-! ## Objects of `object.cpp` -/

/-- The enumeration `PKCS11Object::KeyType`. -/
inductive KeyType where
  | unknown
  | rsa
  | ecc
  deriving DecidableEq, Repr

/-- The members of the class `PKCS11Object` that its constructors in
`object.cpp` set. `label` and `name` are `none` for a null pointer. -/
structure PKCS11Object where
  muscleObjID : Nat
  handle : Nat
  label : Option (List Nat)
  name : Option (List Nat)
  keyType : KeyType
  pubKey : CKYBuffer
  attributes : List PKCS11Attribute
  deriving DecidableEq, Repr

/-- The constructor `PKCS11Object::PKCS11Object(muscleObjID, handle)`. -/
def PKCS11Object_PKCS11Object (muscleObjID handle : Nat) : PKCS11Object :=
  { muscleObjID := muscleObjID, handle := handle, label := none, name := none,
    keyType := KeyType.unknown, pubKey := CKYBuffer_InitEmpty.2, attributes := [] }

/-- The method `PKCS11Object::setAttribute(type, string)` for a C string, given
as its characters without the final zero, on the member `attributes`. -/
def setAttribute_string (junk : Nat → Nat) (attributes : List PKCS11Attribute) (type : Nat)
    (string : List Nat) : List PKCS11Attribute :=
  let buf := (CKYBuffer_InitFromData junk string).2
  setAttribute attributes type buf

/-- The method `PKCS11Object::setAttributeBool`, on the member `attributes`;
`sizeof(CK_BBOOL)` is 1. -/
def setAttributeBool (junk : Nat → Nat) (attributes : List PKCS11Attribute) (type value : Nat) :
    List PKCS11Attribute :=
  let buf := (CKYBuffer_InitFromData junk [value]).2
  setAttribute attributes type buf

/-- The method `PKCS11Object::setAttributeULong`, on the member `attributes`. -/
def setAttributeULong (junk : Nat → Nat) (host : Host) (attributes : List PKCS11Attribute)
    (type value : Nat) : List PKCS11Attribute :=
  let buf := (CKYBuffer_InitFromData junk (host.encodeULong value)).2
  setAttribute attributes type buf

/-- The constructor `Reader::Reader`; `reader` is a C string, given as its
characters without the final zero. -/
def Reader_Reader (junk : Nat → Nat) (host : Host) (muscleObjID handle : Nat)
    (reader : List Nat) (cardATR : CKYBuffer) (isCoolkey : Bool) : PKCS11Object :=
  let o := PKCS11Object_PKCS11Object muscleObjID handle
  let a := setAttributeULong junk host o.attributes CKA_CLASS CKO_MOZ_READER
  let a := setAttribute_string junk a CKA_LABEL reader
  let a := setAttributeBool junk a CKA_TOKEN CK_TRUE
  let a := setAttributeBool junk a CKA_PRIVATE CK_FALSE
  let a := setAttributeBool junk a CKA_MODIFIABLE CK_FALSE
  let a := setAttributeBool junk a CKA_MOZ_IS_COOL_KEY (if isCoolkey then CK_TRUE else CK_FALSE)
  let a := setAttribute a CKA_MOZ_ATR cardATR
  { o with attributes := a }

/-! ## The decoder of card objects of `object.cpp` -/

/-- Modelled from the spec: the helper `makeLEUInt(data, offset)` of
`object.h`, which is not part of the sources at hand ("the 4-byte value is
reinterpreted as a little-endian unsigned 32-bit integer read from the
card"). -/
def makeLEUInt (data : CKYBuffer) (offset : Nat) : Nat :=
  data.at offset + 2 ^ 8 * data.at (offset + 1) + 2 ^ 16 * data.at (offset + 2)
    + 2 ^ 24 * data.at (offset + 3)

/-- The `attrLen` bytes at `CKYBuffer_Data(data) + idx`: a read through the raw
pointer into the block. -/
def bytesAt (data : CKYBuffer) (idx attrLen : Nat) : List Nat :=
  (data.data.drop idx).take attrLen

/-- The loop of `PKCS11Object::parseOldObject`. The first argument bounds the
number of iterations and `none` is returned when it is used up with records
left; the loop itself stops when `idx` reaches the size, and every iteration
moves `idx` on by 6 or more. The test `idx - CKYBuffer_Size(data) < 6` is
taken as C takes it, in `unsigned long`. The result is the exception thrown or
the member `attributes` at the end. -/
def parseOldObject_loop (host : Host) (data : CKYBuffer) :
    Nat → Nat → List PKCS11Attribute → Option (Except CK_RV (List PKCS11Attribute))
  | 0, idx, attributes =>
    if idx < CKYBuffer_Size data then none else some (Except.ok attributes)
  | fuel + 1, idx, attributes =>
    if ¬ idx < CKYBuffer_Size data then some (Except.ok attributes)
    else if host.usub idx (CKYBuffer_Size data) < 6 then some (Except.error CKR_DEVICE_ERROR)
    else
      let attrib := PKCS11Attribute.empty.setType (CKYBuffer_GetLong data idx)
      let idx := idx + 4
      let attrLen := CKYBuffer_GetShort data idx
      let idx := idx + 2
      if attrLen > CKYBuffer_Size data ∨ idx + attrLen > CKYBuffer_Size data then
        some (Except.error CKR_DEVICE_ERROR)
      else if attrib.getType = CKA_CLASS ∨ attrib.getType = CKA_CERTIFICATE_TYPE ∨
          attrib.getType = CKA_KEY_TYPE then
        if attrLen ≠ 4 then some (Except.error CKR_DEVICE_ERROR)
        else
          let value := makeLEUInt data idx
          let attrib := attrib.setValue (host.encodeULong value)
          parseOldObject_loop host data fuel (idx + attrLen) (attributes ++ [attrib])
      else
        let attrib := attrib.setValue (bytesAt data idx attrLen)
        parseOldObject_loop host data fuel (idx + attrLen) (attributes ++ [attrib])

/-- The method `PKCS11Object::parseOldObject`, on the member `attributes`. As
many iterations as the blob has bytes are allowed for the loop. -/
def parseOldObject (host : Host) (data : CKYBuffer) (attributes : List PKCS11Attribute) :
    Option (Except CK_RV (List PKCS11Attribute)) :=
  if CKYBuffer_Size data < 7 then some (Except.error CKR_DEVICE_ERROR)
  else
    let attrDataLen := CKYBuffer_GetShort data 5
    if CKYBuffer_Size data ≠ attrDataLen + 7 then some (Except.error CKR_DEVICE_ERROR)
    else parseOldObject_loop host data (CKYBuffer_Size data) 7 attributes

/-- The table `boolMask` of `object.cpp`. -/
def boolMask : List Nat :=
  [0x00000380, 0x00000380,
   0x000c5f80, 0x00f3af80,
   0x00f5ff80, 0x00000000,
   0x00000000, 0x00000000]

/-- The table `boolType` of `object.cpp`. -/
def boolType : List Nat :=
  [0, 0, 0, 0,
   0, 0, 0, CKA_TOKEN,
   CKA_PRIVATE, CKA_MODIFIABLE, CKA_DERIVE, CKA_LOCAL,
   CKA_ENCRYPT, CKA_DECRYPT, CKA_WRAP, CKA_UNWRAP,
   CKA_SIGN, CKA_SIGN_RECOVER, CKA_VERIFY, CKA_VERIFY_RECOVER,
   CKA_SENSITIVE, CKA_ALWAYS_SENSITIVE, CKA_EXTRACTABLE, CKA_NEVER_EXTRACTABLE,
   0, 0, 0, 0,
   0, 0, 0, 0]

/-- The read `boolType[i]`; beyond the 32 entries it is what the host finds
there. -/
def Host.boolTypeAt (host : Host) (i : Nat) : Nat :=
  match boolType[i]? with
  | some type => type
  | none => host.readBeyondTable i

/-- The loop of `PKCS11Object::expandAttributes` over the bit positions from
`i` on, of which `n` are left. -/
def expandAttributes_loop (host : Host) (mask fixedAttrs : Nat) :
    Nat → Nat → List PKCS11Attribute → List PKCS11Attribute
  | 0, _, attributes => attributes
  | n + 1, i, attributes =>
    let iMask := host.intShl1 i
    if mask &&& iMask = 0 then expandAttributes_loop host mask fixedAttrs n (i + 1) attributes
    else if attributeExists attributes (host.boolTypeAt i) then
      expandAttributes_loop host mask fixedAttrs n (i + 1) attributes
    else
      let bVal := if fixedAttrs &&& iMask ≠ 0 then 1 else 0
      let attrib := (PKCS11Attribute.empty.setType (host.boolTypeAt i)).setValue [bVal]
      expandAttributes_loop host mask fixedAttrs n (i + 1) (attributes ++ [attrib])

/-- The method `PKCS11Object::expandAttributes`, on the member `attributes`.
The loop runs over `i` from 1 to `sizeof(unsigned long)*8 - 1`. -/
def expandAttributes (host : Host) (attributes : List PKCS11Attribute) (fixedAttrs : Nat) :
    List PKCS11Attribute :=
  let cka_id := (fixedAttrs &&& 0xf) % 256
  let objectType := (fixedAttrs >>> 4) &&& 0x7
  let mask := boolMask.getD objectType 0
  let attributes :=
    if ¬ attributeExists attributes CKA_ID then
      attributes ++ [(PKCS11Attribute.empty.setType CKA_ID).setValue [cka_id]]
    else attributes
  let attributes :=
    if ¬ attributeExists attributes CKA_CLASS then
      attributes ++ [(PKCS11Attribute.empty.setType CKA_CLASS).setValue
        (host.encodeULong objectType)]
    else attributes
  expandAttributes_loop host mask fixedAttrs (host.sizeofULong * 8 - 1) 1 attributes

/-- Modelled from the spec: the data-kind tag `DATATYPE_STRING` of the applet
header, which is not part of the sources at hand ("STRING (2-byte length +
bytes)"). -/
def DATATYPE_STRING : Nat := 0

/-- Modelled from the spec: the data-kind tag `DATATYPE_INTEGER` of the applet
header ("INTEGER (4-byte big-endian value)"). -/
def DATATYPE_INTEGER : Nat := 1

/-- Modelled from the spec: the data-kind tag `DATATYPE_BOOL_FALSE` of the
applet header ("BOOL_TRUE/BOOL_FALSE (0-byte payload, value is 1/0)"). -/
def DATATYPE_BOOL_FALSE : Nat := 2

/-- Modelled from the spec: the data-kind tag `DATATYPE_BOOL_TRUE` of the
applet header ("BOOL_TRUE/BOOL_FALSE (0-byte payload, value is 1/0)"). -/
def DATATYPE_BOOL_TRUE : Nat := 3

/-- The loop of `PKCS11Object::parseNewObject` that loads the explicit
attributes, with `n` of the `attributeCount` records left. -/
def parseNewObject_loop (host : Host) (data : CKYBuffer) :
    Nat → Nat → List PKCS11Attribute → Except CK_RV (List PKCS11Attribute)
  | 0, _, attributes => Except.ok attributes
  | n + 1, offset, attributes =>
    if ¬ offset < CKYBuffer_Size data then Except.ok attributes
    else
      let attributeDataType := CKYBuffer_GetChar data (offset + 4)
      let attrib := PKCS11Attribute.empty.setType (CKYBuffer_GetLong data offset)
      let offset := offset + 5
      if attributeDataType = DATATYPE_STRING then
        let attrLen := CKYBuffer_GetShort data offset
        let offset := offset + 2
        if attrLen > CKYBuffer_Size data ∨ offset + attrLen > CKYBuffer_Size data then
          Except.error CKR_DEVICE_ERROR
        else
          let attrib := attrib.setValue (bytesAt data offset attrLen)
          parseNewObject_loop host data n (offset + attrLen) (attributes ++ [attrib])
      else if attributeDataType = DATATYPE_BOOL_FALSE ∨
          attributeDataType = DATATYPE_BOOL_TRUE then
        let bval := attributeDataType &&& 1
        let attrib := attrib.setValue [bval]
        parseNewObject_loop host data n (offset + 0) (attributes ++ [attrib])
      else if attributeDataType = DATATYPE_INTEGER then
        let value := CKYBuffer_GetLong data offset
        let attrib := attrib.setValue (host.encodeULong value)
        parseNewObject_loop host data n (offset + 4) (attributes ++ [attrib])
      else Except.error CKR_DEVICE_ERROR

/-- The method `PKCS11Object::parseNewObject`, on the member `attributes`. -/
def parseNewObject (host : Host) (data : CKYBuffer) (attributes : List PKCS11Attribute) :
    Except CK_RV (List PKCS11Attribute) :=
  if CKYBuffer_Size data < 11 then Except.error CKR_DEVICE_ERROR
  else
    let attributeCount := CKYBuffer_GetShort data 9
    let fixedAttrs := CKYBuffer_GetLong data 5
    match parseNewObject_loop host data attributeCount 11 attributes with
    | Except.error e => Except.error e
    | Except.ok attributes => Except.ok (expandAttributes host attributes fixedAttrs)

/-- The constructor `PKCS11Object::PKCS11Object(muscleObjID, data, handle)`:
`none` when the loop of `parseOldObject` is cut short, else the exception
thrown or the object built. -/
def PKCS11Object_PKCS11Object_data (host : Host) (muscleObjID : Nat) (data : CKYBuffer)
    (handle : Nat) : Option (Except CK_RV PKCS11Object) :=
  let o := PKCS11Object_PKCS11Object muscleObjID handle
  let type := CKYBuffer_GetChar data 0
  if CKYBuffer_GetLong data 1 ≠ muscleObjID then some (Except.error CKR_DEVICE_ERROR)
  else if type = 0 then
    match parseOldObject host data o.attributes with
    | none => none
    | some (Except.error e) => some (Except.error e)
    | some (Except.ok attributes) => some (Except.ok { o with attributes := attributes })
  else if type = 1 then
    match parseNewObject host data o.attributes with
    | Except.error e => some (Except.error e)
    | Except.ok attributes => some (Except.ok { o with attributes := attributes })
  else some (Except.ok o)

/-! ## The layout of a card object, for the statements -/

/-- The two bytes of a 16-bit value, high byte first. -/
def BE16 (v : Nat) : List Nat := [(v >>> 8) &&& 0xff, (v >>> 0) &&& 0xff]

/-- The four bytes of a 32-bit value, high byte first. -/
def BE32 (v : Nat) : List Nat :=
  [(v >>> 24) &&& 0xff, (v >>> 16) &&& 0xff, (v >>> 8) &&& 0xff, (v >>> 0) &&& 0xff]

/-- The value of four bytes read as a little-endian integer; 0 for a list that
is not four bytes long. -/
def LE32value : List Nat → Nat
  | [b0, b1, b2, b3] => b0 + 2 ^ 8 * b1 + 2 ^ 16 * b2 + 2 ^ 24 * b3
  | _ => 0

/-- The record of a format-0 blob for the type and the value bytes of `r`: the
type in four bytes, the length of the value in two, both high byte first,
and the value. -/
def encodeRecord (r : PKCS11Attribute) : List Nat :=
  BE32 r.type ++ BE16 r.value.length ++ r.value

/-- The records of a list, one after the other. -/
def encodeRecords : List PKCS11Attribute → List Nat
  | [] => []
  | r :: rs => encodeRecord r ++ encodeRecords rs

/-- The three attribute types whose value the format-0 decoder reads as an
integer. -/
def isIntegerType (type : Nat) : Prop :=
  type = CKA_CLASS ∨ type = CKA_CERTIFICATE_TYPE ∨ type = CKA_KEY_TYPE

instance (type : Nat) : Decidable (isIntegerType type) := by
  unfold isIntegerType
  infer_instance

/-- A record the format-0 decoder accepts: a type of 32 bits, a value of at
most 65535 bytes, and four bytes for one of the three integer types. -/
def goodRecord (r : PKCS11Attribute) : Prop :=
  r.type < 2 ^ 32 ∧ r.value.length ≤ 65535 ∧ (isIntegerType r.type → r.value.length = 4)

instance (r : PKCS11Attribute) : Decidable (goodRecord r) := by
  unfold goodRecord
  infer_instance

/-- The attribute the format-0 decoder stores for a record: the value bytes,
or, for one of the three integer types, the bytes of the host's
`unsigned long` whose value is the four bytes read low byte first. -/
def storedAttribute (host : Host) (r : PKCS11Attribute) : PKCS11Attribute :=
  if isIntegerType r.type then { type := r.type, value := host.encodeULong (LE32value r.value) }
  else r

/-- The value of the attribute `a` comes from inside the blob `data`: it is a
run of bytes of the blob that ends at or before its last byte, or the bytes of
the host's `unsigned long` for four such bytes read low byte first. -/
def insideBlob (host : Host) (data : CKYBuffer) (a : PKCS11Attribute) : Prop :=
  ∃ i n, i + n ≤ data.len ∧
    (a.value = ((CKYBuffer_Data data).drop i).take n ∨
      (n = 4 ∧ a.value = host.encodeULong (LE32value (((CKYBuffer_Data data).drop i).take n))))

/-- A format-0 blob for the examples: object id 7 and two records, `41 42` of
type 3 and the class `03 01 00 00`. -/
def blob0 : CKYBuffer :=
  { data := [0, 0, 0, 0, 7, 0, 18, 0, 0, 0, 3, 0, 2, 0x41, 0x42, 0, 0, 0, 0, 0, 4, 3, 1, 0, 0],
    len := 25 }

/-! ## The layout of a format-1 card object, for the statements -/

/-- A record of a format-1 blob: a string of bytes, a boolean or an integer,
each with its attribute type. -/
inductive Record1 where
  | string (type : Nat) (value : List Nat)
  | bool (type : Nat) (b : Bool)
  | integer (type : Nat) (value : Nat)
  deriving DecidableEq, Repr

/-- The bytes of a record of a format-1 blob: the type in four bytes, high byte
first, the kind tag, and the payload of the kind: the length in two bytes and
the bytes of a string, nothing for a boolean, the four bytes of an integer,
high byte first. -/
def Record1.encode : Record1 → List Nat
  | Record1.string t v => BE32 t ++ [DATATYPE_STRING] ++ BE16 v.length ++ v
  | Record1.bool t b => BE32 t ++ [if b then DATATYPE_BOOL_TRUE else DATATYPE_BOOL_FALSE]
  | Record1.integer t v => BE32 t ++ [DATATYPE_INTEGER] ++ BE32 v

/-- The fields of a record fit their widths: a type of 32 bits, a string of at
most 65535 bytes, an integer of 32 bits. -/
def Record1.good : Record1 → Prop
  | Record1.string t v => t < 2 ^ 32 ∧ v.length ≤ 65535
  | Record1.bool t _ => t < 2 ^ 32
  | Record1.integer t v => t < 2 ^ 32 ∧ v < 2 ^ 32

instance (r : Record1) : Decidable r.good := by
  cases r <;> unfold Record1.good <;> infer_instance

/-- The attribute type of a record. -/
def Record1.type : Record1 → Nat
  | Record1.string t _ => t
  | Record1.bool t _ => t
  | Record1.integer t _ => t

/-- The attribute a record stands for: the bytes of a string, the byte 1 or 0
of a boolean, the bytes of the host's `unsigned long` for an integer. -/
def Record1.stored (host : Host) : Record1 → PKCS11Attribute
  | Record1.string t v => { type := t, value := v }
  | Record1.bool t b => { type := t, value := [if b then 1 else 0] }
  | Record1.integer t v => { type := t, value := host.encodeULong v }

/-- The records of a list, one after the other. -/
def encodeRecords1 : List Record1 → List Nat
  | [] => []
  | r :: rs => r.encode ++ encodeRecords1 rs

/-- The attributes `ext` are new to the store `attrs`: none has the type of an
attribute of `attrs`, and no two have the same type. -/
def AddsNew (attrs ext : List PKCS11Attribute) : Prop :=
  (∀ a ∈ ext, ∀ b ∈ attrs, a.type ≠ b.type) ∧ (ext.map (fun a => a.type)).Nodup

/-- The flag attributes in the order of their bits, as the specification lists
them: `CKA_TOKEN` is bit 7 and `CKA_NEVER_EXTRACTABLE` is bit 23. -/
def flagAttributes : List Nat :=
  [CKA_TOKEN, CKA_PRIVATE, CKA_MODIFIABLE, CKA_DERIVE, CKA_LOCAL, CKA_ENCRYPT, CKA_DECRYPT,
   CKA_WRAP, CKA_UNWRAP, CKA_SIGN, CKA_SIGN_RECOVER, CKA_VERIFY, CKA_VERIFY_RECOVER,
   CKA_SENSITIVE, CKA_ALWAYS_SENSITIVE, CKA_EXTRACTABLE, CKA_NEVER_EXTRACTABLE]

/-- The bit of the flags word that belongs to a flag attribute, 0 for another
type. -/
def flagBit (type : Nat) : Nat :=
  match flagAttributes.indexOf? type with
  | some k => 7 + k
  | none => 0

/-- The flag attributes that the specification documents for a class index:
data (0), certificate (1), public key (2), private key (3), secret key (4), and
none for 5 to 7. -/
def documentedFlags (c : Nat) : List Nat :=
  if c = 0 ∨ c = 1 then [CKA_TOKEN, CKA_PRIVATE, CKA_MODIFIABLE]
  else if c = 2 then
    [CKA_TOKEN, CKA_PRIVATE, CKA_MODIFIABLE, CKA_DERIVE, CKA_LOCAL, CKA_ENCRYPT, CKA_WRAP,
     CKA_VERIFY, CKA_VERIFY_RECOVER]
  else if c = 3 then
    [CKA_TOKEN, CKA_PRIVATE, CKA_MODIFIABLE, CKA_DERIVE, CKA_LOCAL, CKA_DECRYPT, CKA_UNWRAP,
     CKA_SIGN, CKA_SIGN_RECOVER, CKA_SENSITIVE, CKA_ALWAYS_SENSITIVE, CKA_EXTRACTABLE,
     CKA_NEVER_EXTRACTABLE]
  else if c = 4 then
    [CKA_TOKEN, CKA_PRIVATE, CKA_MODIFIABLE, CKA_DERIVE, CKA_LOCAL, CKA_ENCRYPT, CKA_DECRYPT,
     CKA_WRAP, CKA_UNWRAP, CKA_SIGN, CKA_VERIFY, CKA_SENSITIVE, CKA_ALWAYS_SENSITIVE,
     CKA_EXTRACTABLE, CKA_NEVER_EXTRACTABLE]
  else []

/-- The attribute that the specification documents for a flag attribute and a
flags word `f`: one byte, 1 when the bit of the attribute is set in `f` and
else 0. -/
def documentedFlag (f type : Nat) : PKCS11Attribute :=
  { type := type, value := [if f &&& 2 ^ flagBit type ≠ 0 then 1 else 0] }

/-- A host for the examples: `unsigned long` of 8 bytes, little-endian, whose
shift of an `int` takes the count modulo 32, and that finds beyond the 32
entries of `boolType` values that are no attribute type of the store. -/
def hostLP64 : Host :=
  { sizeofULong := 8, bigEndian := false,
    shiftBeyondInt := fun i => if i % 32 = 31 then 2 ^ 64 - 2 ^ 31 else 2 ^ (i % 32),
    readBeyondTable := fun i => 0xFFFF0000 + i }

/-! ## Pointers into a block of bytes -/

/-- A pointer `const CKYByte *` of `object.cpp`: the block of memory it points
into and the offset in the block of the byte it points at. -/
structure Ptr where
  mem : List Nat
  off : Nat
  deriving DecidableEq, Repr

/-- The read `p[i]`; `none` stands for a read outside the block, which C leaves
undefined. -/
def Ptr.read (p : Ptr) (i : Nat) : Option Nat := p.mem[p.off + i]?

/-- The pointer `p + n`. -/
def Ptr.add (p : Ptr) (n : Nat) : Ptr := { p with off := p.off + n }

/-- The difference `p - q` of two pointers into one block. -/
def Ptr.diff (p q : Ptr) : Nat := p.off - q.off

/-- The `len` bytes at `p`, as `memcpy` reads them; `none` when they are not
all inside the block. -/
def Ptr.bytes (p : Ptr) (len : Nat) : Option (List Nat) :=
  if p.off + len ≤ p.mem.length then some ((p.mem.drop p.off).take len) else none

/-- The pointer that the function `CKYBuffer_Data` returns: the start of the
block, and the null pointer (`none`) for a buffer without a block. -/
def CKYBuffer_DataPtr (buf : CKYBuffer) : Option Ptr :=
  if buf.data = [] then none else some { mem := buf.data, off := 0 }

/-- The structure `CCItem` of `object.cpp`; `data` is `none` for a null
pointer. -/
structure CCItem where
  data : Option Ptr
  len : Nat
  deriving DecidableEq, Repr

/-- The enumeration `SECStatus` of `object.cpp`. -/
inductive SECStatus where
  | SECSuccess
  | SECFailure
  deriving DecidableEq, Repr

open SECStatus

/-! ## The DER helpers of `object.cpp` -/

/-- The `while (len_count-- > 0)` loop of `dataStart`: the pair of
`*data_length` and `used_length` at its end. `*data_length` is an
`unsigned int`, so the shift drops the bits from 32 on. -/
def dataStart_loop (buf : Ptr) : Nat → Nat → Nat → Option (Nat × Nat)
  | 0, data_length, used_length => some (data_length, used_length)
  | len_count + 1, data_length, used_length =>
    match buf.read used_length with
    | none => none
    | some b =>
      dataStart_loop buf len_count (((data_length <<< 8) % 2 ^ 32) ||| b) (used_length + 1)

/-- The end of `dataStart`, from the comment "paranoia, can't happen" on: the
pointer returned and `*data_length`. -/
def dataStart_tail (buf : Ptr) (length data_length used_length : Nat) (includeTag : Bool) :
    Option Ptr × Nat :=
  if length < used_length then (none, data_length)
  else if data_length > length - used_length then (none, data_length)
  else
    let data_length := if includeTag then (data_length + used_length) % 2 ^ 32 else data_length
    (some (buf.add (if includeTag then 0 else used_length)), data_length)

/-- The function `dataStart`: the pointer returned (`none` for `NULL`) and the
value left in `*data_length`. The outer `none` stands for a read outside the
block. -/
def dataStart (buf : Option Ptr) (length : Nat) (includeTag : Bool) :
    Option (Option Ptr × Nat) :=
  match buf with
  | none => some (none, 0)
  | some buf =>
    if length < 2 then some (none, 0)
    else
      match buf.read 0 with
      | none => none
      | some tag =>
        if tag = 0 then some (none, 0)
        else
          match buf.read 1 with
          | none => none
          | some data_length =>
            let used_length := 2
            if data_length &&& 0x80 ≠ 0 then
              let len_count := data_length &&& 0x7f
              if len_count + used_length > length then some (none, data_length)
              else
                match dataStart_loop buf len_count 0 used_length with
                | none => none
                | some (data_length, used_length) =>
                  some (dataStart_tail buf length data_length used_length includeTag)
            else some (dataStart_tail buf length data_length used_length includeTag)

/-- The function `unwrapBitString`: the pointer returned and the value stored
in `*retLen`, or `none` for `NULL`. The outer `none` stands for a read outside
the block. -/
def unwrapBitString (buf : Ptr) (len : Nat) : Option (Option (Ptr × Nat)) :=
  match buf.read 0 with
  | none => none
  | some b0 =>
    if b0 ≠ 0 then some none
    else if len < 1 then some none
    else some (some (buf.add 1, len - 1))

/-- The array `rsaOID` of `object.cpp`. -/
def rsaOID : List Nat := [0x2A, 0x86, 0x48, 0x86, 0xF7, 0x0D, 0x01, 0x01, 0x1]

/-- The array `eccOID` of `object.cpp`. -/
def eccOID : List Nat := [0x2a, 0x86, 0x48, 0xce, 0x3d, 0x02, 0x01]

/-- The loop of `GetKeyOIDMatches` from the index `i` on, with `n` iterations
left: `false` at the first index where the two bytes differ. -/
def GetKeyOIDMatches_loop (spki_data oid_data : Ptr) : Nat → Nat → Option Bool
  | 0, _ => some true
  | n + 1, i =>
    match spki_data.read i, oid_data.read i with
    | some a, some b =>
      if a ≠ b then some false else GetKeyOIDMatches_loop spki_data oid_data n (i + 1)
    | _, _ => none

/-- The function `GetKeyOIDMatches`. The outer `none` stands for a read outside
one of the two blocks. -/
def GetKeyOIDMatches (spki_data : Option Ptr) (length : Nat) (oid_data : Option Ptr) :
    Option Bool :=
  match spki_data, oid_data with
  | some spki_data, some oid_data => GetKeyOIDMatches_loop spki_data oid_data length 0
  | _, _ => some false

/-- The function `GetKeyAlgorithmId`, called with a non-null `algorithmId`: the
status and the item. -/
def GetKeyAlgorithmId (spki_data : Option Ptr) (spki_length : Nat) :
    Option (SECStatus × CCItem) :=
  let buf := spki_data
  let buf_length := spki_length
  match dataStart buf buf_length false with
  | none => none
  | some (data, len) =>
    if data = none then some (SECFailure, { data := data, len := len })
    else some (SECSuccess, { data := data, len := len })

/-- The function `GetKeyTypeFromSPKI`: the key type or the exception thrown.
The outer `none` stands for a read outside a block. -/
def GetKeyTypeFromSPKI (key : CKYBuffer) : Option (Except CK_RV KeyType) :=
  match GetKeyAlgorithmId (CKYBuffer_DataPtr key) (CKYBuffer_Size key) with
  | none => none
  | some (ret, algIdItem) =>
    if ret ≠ SECSuccess then some (Except.error CKR_FUNCTION_FAILED)
    else
      match dataStart algIdItem.data algIdItem.len false with
      | none => none
      | some (keyData, length) =>
        if keyData = none then some (Except.error CKR_FUNCTION_FAILED)
        else if length ≤ 3 ∨ length ≥ algIdItem.len then some (Except.error CKR_FUNCTION_FAILED)
        else
          match GetKeyOIDMatches keyData length (some { mem := rsaOID, off := 0 }) with
          | none => none
          | some true => some (Except.ok KeyType.rsa)
          | some false =>
            match GetKeyOIDMatches keyData length (some { mem := eccOID, off := 0 }) with
            | none => none
            | some true => some (Except.ok KeyType.ecc)
            | some false => some (Except.error CKR_FUNCTION_FAILED)

/-- The function `GetKeyFieldItems`: the status and the two items, which are
as they were given where the function has not set them. The outer `none`
stands for a read outside the block. -/
def GetKeyFieldItems (spki_data : Option Ptr) (spki_length : Nat) (modulus exponent : CCItem) :
    Option (SECStatus × CCItem × CCItem) :=
  let buf := spki_data
  let buf_length := spki_length
  match dataStart buf buf_length false with
  | none => none
  | some (dummy, dummylen) =>
    match buf, dummy with
    | some buf, some dummy =>
      let buf_length := buf_length - (dummy.diff buf + dummylen)
      let buf := dummy.add dummylen
      match dataStart (some buf) buf_length false with
      | none => none
      | some (none, _) => some (SECFailure, modulus, exponent)
      | some (some buf, buf_length) =>
        match unwrapBitString buf buf_length with
        | none => none
        | some none => some (SECFailure, modulus, exponent)
        | some (some (buf, buf_length)) =>
          match dataStart (some buf) buf_length false with
          | none => none
          | some (none, _) => some (SECFailure, modulus, exponent)
          | some (some buf, buf_length) =>
            match dataStart (some buf) buf_length false with
            | none => none
            | some (none, len) => some (SECFailure, { data := none, len := len }, exponent)
            | some (some data, len) =>
              let modulus : CCItem := { data := some data, len := len }
              let buf_length := buf_length - (data.diff buf + len)
              let buf := data.add len
              match dataStart (some buf) buf_length false with
              | none => none
              | some (none, len) => some (SECFailure, modulus, { data := none, len := len })
              | some (some data, len) =>
                let exponent : CCItem := { data := some data, len := len }
                some (SECSuccess, modulus, exponent)
    | _, _ => some (SECFailure, modulus, exponent)

/-- The copy `CKYBuffer_Replace(buf, 0, item.data, item.len)` of the bytes of an
item into a buffer; `none` when the bytes are not all inside the block of the
item, or the pointer is null and the length is not 0. -/
def replaceWithItem (junk : Nat → Nat) (buf : CKYBuffer) (item : CCItem) : Option CKYBuffer :=
  match item.data with
  | none => if item.len = 0 then some (CKYBuffer_Replace junk buf 0 []).2 else none
  | some data =>
    match data.bytes item.len with
    | none => none
    | some bytes => some (CKYBuffer_Replace junk buf 0 bytes).2

/-- The function `GetKeyFields`: the exception thrown or the buffers `modulus`
and `exponent`. `stack` is what the local items hold before they are set. The
outer `none` stands for a read outside a block. -/
def GetKeyFields (junk : Nat → Nat) (stack : CCItem) (spki modulus exponent : CKYBuffer) :
    Option (Except CK_RV (CKYBuffer × CKYBuffer)) :=
  match GetKeyFieldItems (CKYBuffer_DataPtr spki) (CKYBuffer_Size spki) stack stack with
  | none => none
  | some (rv, modulusItem, exponentItem) =>
    if rv ≠ SECSuccess then some (Except.error CKR_FUNCTION_FAILED)
    else
      match replaceWithItem junk modulus modulusItem, replaceWithItem junk exponent exponentItem with
      | some modulus, some exponent => some (Except.ok (modulus, exponent))
      | _, _ => none

/-- The items that `GetCertFieldItems` fills. -/
structure CertItems where
  issuer : CCItem
  serial : CCItem
  derSN : Option CCItem
  subject : CCItem
  valid : CCItem
  subjkey : CCItem
  deriving DecidableEq, Repr

/-- The function `GetCertFieldItems` from the comment "subject key info" on. -/
def GetCertFieldItems_subjkey (buf : Ptr) (buf_length : Nat) (items : CertItems) :
    Option (SECStatus × CertItems) :=
  match dataStart (some buf) buf_length false with
  | none => none
  | some (none, len) => some (SECFailure, { items with subjkey := { data := none, len := len } })
  | some (some data, len) =>
    some (SECSuccess, { items with subjkey := { data := some data, len := len } })

/-- The function `GetCertFieldItems` from the comment "subject" on. -/
def GetCertFieldItems_subject (buf : Ptr) (buf_length : Nat) (items : CertItems) :
    Option (SECStatus × CertItems) :=
  match dataStart (some buf) buf_length true with
  | none => none
  | some (none, len) => some (SECFailure, { items with subject := { data := none, len := len } })
  | some (some data, len) =>
    let items := { items with subject := { data := some data, len := len } }
    let buf_length := buf_length - (data.diff buf + len)
    let buf := data.add len
    GetCertFieldItems_subjkey buf buf_length items

/-- The function `GetCertFieldItems` from the comment "validity" on. -/
def GetCertFieldItems_validity (buf : Ptr) (buf_length : Nat) (items : CertItems) :
    Option (SECStatus × CertItems) :=
  match dataStart (some buf) buf_length false with
  | none => none
  | some (none, len) => some (SECFailure, { items with valid := { data := none, len := len } })
  | some (some data, len) =>
    let items := { items with valid := { data := some data, len := len } }
    let buf_length := buf_length - (data.diff buf + len)
    let buf := data.add len
    GetCertFieldItems_subject buf buf_length items

/-- The function `GetCertFieldItems` from the comment "issuer" on. -/
def GetCertFieldItems_issuer (buf : Ptr) (buf_length : Nat) (items : CertItems) :
    Option (SECStatus × CertItems) :=
  match dataStart (some buf) buf_length true with
  | none => none
  | some (none, len) => some (SECFailure, { items with issuer := { data := none, len := len } })
  | some (some data, len) =>
    let items := { items with issuer := { data := some data, len := len } }
    let buf_length := buf_length - (data.diff buf + len)
    let buf := data.add len
    GetCertFieldItems_validity buf buf_length items

/-- The function `GetCertFieldItems` from the comment "skip the OID" on. -/
def GetCertFieldItems_oid (buf : Ptr) (buf_length : Nat) (items : CertItems) :
    Option (SECStatus × CertItems) :=
  match dataStart (some buf) buf_length false with
  | none => none
  | some (none, _) => some (SECFailure, items)
  | some (some dummy, dummylen) =>
    let buf_length := buf_length - (dummy.diff buf + dummylen)
    let buf := dummy.add dummylen
    GetCertFieldItems_issuer buf buf_length items

/-- The function `GetCertFieldItems` from the comment "serial number" on, with
the pointer `buf` and the length `buf_length` that the first part leaves. -/
def GetCertFieldItems_serial (buf : Ptr) (buf_length : Nat) (items : CertItems) :
    Option (SECStatus × CertItems) :=
  match (match items.derSN with
      | none => some items
      | some _ =>
        match dataStart (some buf) buf_length true with
        | none => none
        | some (data, len) => some { items with derSN := some { data := data, len := len } })
  with
  | none => none
  | some items =>
    match dataStart (some buf) buf_length false with
    | none => none
    | some (none, len) =>
      some (SECFailure, { items with serial := { data := none, len := len } })
    | some (some data, len) =>
      let items := { items with serial := { data := some data, len := len } }
      let buf_length := buf_length - (data.diff buf + len)
      let buf := data.add len
      GetCertFieldItems_oid buf buf_length items

/-- The function `GetCertFieldItems` from the comment "skip past any optional
version number" on. -/
def GetCertFieldItems_version (buf : Ptr) (buf_length : Nat) (items : CertItems) :
    Option (SECStatus × CertItems) :=
  match buf.read 0 with
  | none => none
  | some b0 =>
    if b0 &&& 0xa0 = 0xa0 then
      match dataStart (some buf) buf_length false with
      | none => none
      | some (none, _) => some (SECFailure, items)
      | some (some dummy, dummylen) =>
        let buf_length := buf_length - (dummy.diff buf + dummylen)
        let buf := dummy.add dummylen
        GetCertFieldItems_serial buf buf_length items
    else GetCertFieldItems_serial buf buf_length items

/-- The function `GetCertFieldItems`: the status and the items, which are as
they were given where the function has not set them; `derSN` is `none` for a
null pointer. The outer `none` stands for a read outside the block. -/
def GetCertFieldItems (dercert : Option Ptr) (cert_length : Nat) (items : CertItems) :
    Option (SECStatus × CertItems) :=
  match dataStart dercert cert_length false with
  | none => none
  | some (none, _) => some (SECFailure, items)
  | some (some buf, buf_length) =>
    match dataStart (some buf) buf_length false with
    | none => none
    | some (none, _) => some (SECFailure, items)
    | some (some buf, buf_length) => GetCertFieldItems_version buf buf_length items

/-- The function `GetCertFields`: the exception thrown or the buffers
`derSerial`, `derSubject`, `derIssuer` and `subjectKey`. `stack` is what the
local items hold before they are set. The outer `none` stands for a read
outside a block. -/
def GetCertFields (junk : Nat → Nat) (stack : CCItem)
    (derCert derSerial derSubject derIssuer subjectKey : CKYBuffer) :
    Option (Except CK_RV (CKYBuffer × CKYBuffer × CKYBuffer × CKYBuffer)) :=
  match GetCertFieldItems (CKYBuffer_DataPtr derCert) (CKYBuffer_Size derCert)
      { issuer := stack, serial := stack, derSN := some stack, subject := stack, valid := stack,
        subjkey := stack } with
  | none => none
  | some (rv, items) =>
    if rv ≠ SECSuccess then some (Except.error CKR_FUNCTION_FAILED)
    else
      match items.derSN with
      | none => none
      | some derSerialItem =>
        match replaceWithItem junk derSerial derSerialItem,
          replaceWithItem junk derIssuer items.issuer,
          replaceWithItem junk derSubject items.subject,
          replaceWithItem junk subjectKey items.subjkey with
        | some derSerial, some derIssuer, some derSubject, some subjectKey =>
          some (Except.ok (derSerial, derSubject, derIssuer, subjectKey))
        | _, _, _, _ => none

/-! ## The layout of DER elements, for the statements -/

/-- The value of a run of bytes read as a big-endian integer. -/
def BEvalue (bytes : List Nat) : Nat := bytes.foldl (fun acc b => acc * 256 + b) 0

/-- The list `lf` is a length field that `dataStart` reads as the length `L`:
the one byte `L` below 128, or the byte `0x80 + k` followed by `k` bytes, at
most 4, whose big-endian value is `L`. -/
def lengthField (lf : List Nat) (L : Nat) : Prop :=
  (L < 128 ∧ lf = [L]) ∨
  (∃ bytes, bytes.length ≤ 4 ∧ (∀ b ∈ bytes, b < 256) ∧ lf = (0x80 + bytes.length) :: bytes ∧
    BEvalue bytes = L)

/-- The list `t` is an element with the tag `tag` and the content `content`:
the tag byte, which is not 0, a length field for the length of the content,
and the content. -/
def IsTLV (t : List Nat) (tag : Nat) (content : List Nat) : Prop :=
  tag ≠ 0 ∧ ∃ lf, lengthField lf content.length ∧ t = tag :: lf ++ content

/-- The length field of DER for a length below `2^32`: one byte below 128, and
else the count of the bytes that follow and the length in as few bytes as it
takes, high byte first. -/
def derLength (n : Nat) : List Nat :=
  if n < 128 then [n]
  else if n < 2 ^ 8 then [0x81, n]
  else if n < 2 ^ 16 then 0x82 :: BE16 n
  else if n < 2 ^ 24 then [0x83, (n >>> 16) &&& 0xff, (n >>> 8) &&& 0xff, (n >>> 0) &&& 0xff]
  else 0x84 :: BE32 n

/-- The DER element with the tag `tag` and the content `content`. -/
def TLV (tag : Nat) (content : List Nat) : List Nat :=
  tag :: derLength content.length ++ content

/-- The number of bytes that the tag and the length field of an element take,
as the specification describes it: 2 when the length byte has its top bit
clear, and 2 more than the low 7 bits of the length byte when it is set. -/
def headerLength (buf : List Nat) : Nat :=
  if buf.getD 1 0 &&& 0x80 ≠ 0 then 2 + (buf.getD 1 0 &&& 0x7f) else 2

/-- The length that an element declares, as the specification describes it:
the length byte when its top bit is clear, and else the big-endian value of
as many bytes after it as its low 7 bits say, held in an `unsigned int`. -/
def declaredLength (buf : List Nat) : Nat :=
  if buf.getD 1 0 &&& 0x80 ≠ 0 then
    BEvalue ((buf.drop 2).take (buf.getD 1 0 &&& 0x7f)) % 2 ^ 32
  else buf.getD 1 0

/-- The cases in which the specification has `dataStart` return no value. -/
def dataStartFails (buf : List Nat) : Prop :=
  buf.length < 2 ∨ buf.getD 0 0 = 0 ∨
  (buf.getD 1 0 &&& 0x80 ≠ 0 ∧ 2 + (buf.getD 1 0 &&& 0x7f) > buf.length) ∨
  declaredLength buf > buf.length - headerLength buf

instance (buf : List Nat) : Decidable (dataStartFails buf) := by
  unfold dataStartFails
  infer_instance

/-- The bytes at the pointer `p` are `bytes`, all inside the block. -/
def At (p : Ptr) (bytes : List Nat) : Prop :=
  ∃ pre post, p.mem = pre ++ bytes ++ post ∧ p.off = pre.length

/-- A key blob for the examples: the algorithm identifier of RSA with null
parameters, and the bit string of the sequence of the modulus `00 C3` and the
exponent `01 00 01`. -/
def keyRSA : CKYBuffer :=
  { data := TLV 0x30 (TLV 0x06 rsaOID ++ [5, 0])
      ++ TLV 0x03 (0 :: TLV 0x30 (TLV 0x02 [0, 0xC3] ++ TLV 0x02 [1, 0, 1])),
    len := 29 }

/-- The subject public key info of the certificate for the examples: the
sequence whose content is the key blob `keyRSA`. -/
def spkiExample : List Nat := TLV 0x30 keyRSA.data

/-- The bytes of a certificate for the examples: version 3, the serial number
`02 01 01`, a signature algorithm, an issuer, a validity, a subject and the
subject public key info `spkiExample`, and after them a signature algorithm
and a signature. -/
def certBytes : List Nat :=
  TLV 0x30 (TLV 0x30 (TLV 0xA0 (TLV 0x02 [2]) ++ (TLV 0x02 [1] ++ (TLV 0x30 (TLV 0x06 [0x2A, 3])
    ++ (TLV 0x30 (TLV 0x31 [0x0C]) ++ (TLV 0x30 [] ++ (TLV 0x30 (TLV 0x31 [0x0D])
    ++ (spkiExample ++ []))))))) ++ (TLV 0x30 [] ++ TLV 0x03 [0]))

/-- A certificate for the examples: the buffer of the bytes `certBytes`. -/
def certExample : CKYBuffer := { data := certBytes, len := certBytes.length }

/-- The bytes of a certificate for the examples whose first element has the
tag `80`: the elements `80 01 02`, `02 01 01`, four sequences and the subject
public key info `spkiExample`. -/
def certBytes80 : List Nat :=
  TLV 0x30 (TLV 0x30 (TLV 0x80 [2] ++ (TLV 0x02 [1] ++ (TLV 0x30 (TLV 0x06 [0x2A, 3])
    ++ (TLV 0x30 (TLV 0x31 [0x0C]) ++ (TLV 0x30 [] ++ (TLV 0x30 (TLV 0x31 [0x0D])
    ++ spkiExample)))))) ++ (TLV 0x30 [] ++ TLV 0x03 [0]))

/-- A certificate for the examples: the buffer of the bytes `certBytes80`. -/
def certExample80 : CKYBuffer := { data := certBytes80, len := certBytes80.length }

/-- The Le rule of the specification, for the statements: a frame of 5 bytes
carries the receive length in byte 4, 0 standing for 256; a frame of 7 bytes
whose byte 4 is 0 carries it in bytes 5 and 6, high byte first, 0 standing for
65536; no other frame is read. -/
def decodeLe (frame : List Nat) : Option Nat :=
  if frame.length = 5 then
    some (if frame.getD 4 0 = 0 then 256 else frame.getD 4 0)
  else if frame.length = 7 ∧ frame.getD 4 0 = 0 then
    some (if frame.getD 5 0 * 256 + frame.getD 6 0 = 0 then 65536
      else frame.getD 5 0 * 256 + frame.getD 6 0)
  else none

/-! ## The secret key object of `object.cpp` -/

/-- The function `CKYBuffer_InitFromCopy`. -/
def CKYBuffer_InitFromCopy (junk : Nat → Nat) (src : CKYBuffer) : CKYStatus × CKYBuffer :=
  if src.len = 0 then (CKYSUCCESS, ckyBuffer_initBuffer)
  else
    let r := CKYBuffer_Reserve junk ckyBuffer_initBuffer src.len
    if r.1 ≠ CKYSUCCESS then r
    else (CKYSUCCESS, { data := memcpy r.2.data 0 (CKYBuffer_Data src), len := src.len })

/-- The function `CKYBuffer_AppendCopy`. -/
def CKYBuffer_AppendCopy (junk : Nat → Nat) (buf src : CKYBuffer) : CKYStatus × CKYBuffer :=
  CKYBuffer_AppendData junk buf (CKYBuffer_Data src)

/-- The function `CKYBuffer_FreeData`. -/
def CKYBuffer_FreeData (_buf : CKYBuffer) : CKYStatus × CKYBuffer :=
  (CKYSUCCESS, ckyBuffer_initBuffer)

/-- The conversion of an `unsigned long` value to `CK_LONG`, a `long` of the
same size, as two's complement hosts do it: values from `2^(w-1)` on become
negative. -/
def Host.toLong (host : Host) (x : Nat) : Int :=
  if x % 2 ^ (8 * host.sizeofULong) < 2 ^ (8 * host.sizeofULong - 1) then
    Int.ofNat (x % 2 ^ (8 * host.sizeofULong))
  else Int.ofNat (x % 2 ^ (8 * host.sizeofULong)) - Int.ofNat (2 ^ (8 * host.sizeofULong))

/-- The method `SecretKey::adjustToKeyValueLength`; the buffer is `none` for a
null pointer, and the result is the buffer as the method leaves it. The outer
`none` stands for a read outside the block of the buffer. The calls of
`CKYBuffer_FreeData` before an init function are left out: an init function
reads nothing of the buffer it fills. -/
def SecretKey_adjustToKeyValueLength (junk : Nat → Nat) (host : Host)
    (secretKeyBuffer : Option CKYBuffer) (valueLength : Nat) : Option (Option CKYBuffer) :=
  let MAX_DIFF : Int := 200
  match secretKeyBuffer with
  | none => some none
  | some buf =>
    let actual_length := CKYBuffer_Size buf
    let diff := host.toLong (host.usub valueLength actual_length)
    if diff = 0 then some (some buf)
    else if diff > 0 ∧ diff < MAX_DIFF then
      let scratch := (CKYBuffer_InitFromLen junk diff.toNat).2
      let scratch := (CKYBuffer_AppendCopy junk scratch buf).2
      some (some (CKYBuffer_InitFromCopy junk scratch).2)
    else if diff < 0 then
      match CKYBuffer_DataPtr buf with
      | none => none
      | some p =>
        match (p.add (-diff).toNat).bytes valueLength with
        | none => none
        | some bytes =>
          let scratch := (CKYBuffer_InitFromData junk bytes).2
          some (some (CKYBuffer_InitFromCopy junk scratch).2)
    else some (some buf)

/-- Modelled from the spec: the constant `CKA_VALUE` of the PKCS #11 header
("CKA_VALUE"), with its PKCS #11 value. -/
def CKA_VALUE : Nat := 0x11

/-- Modelled from the spec: the constant `CKA_VALUE_LEN` of the PKCS #11
header ("CKA_VALUE_LEN"), with its PKCS #11 value. -/
def CKA_VALUE_LEN : Nat := 0x161

/-- Modelled from the spec: the constant `CKO_SECRET_KEY` of the PKCS #11
header ("CKO_SECRET_KEY"), with its PKCS #11 value. -/
def CKO_SECRET_KEY : Nat := 0x4

/-- Modelled from the spec: the constant `CKK_GENERIC_SECRET` of the PKCS #11
header ("CKK_GENERIC_SECRET"), with its PKCS #11 value. -/
def CKK_GENERIC_SECRET : Nat := 0x10

/-- The conversion `(int) x` of an `unsigned long` value, as two's complement
hosts do it: the low 32 bits, negative from `2^31` on. -/
def toInt (x : Nat) : Int :=
  if x % 2 ^ 32 < 2 ^ 31 then Int.ofNat (x % 2 ^ 32)
  else Int.ofNat (x % 2 ^ 32) - Int.ofNat (2 ^ 32)

/-- The loop of `SecretKey::SecretKey` over the entries of the template that
are left: the member `attributes` and the variable `valueLength` at its end.
The memory at a null `pValue` is empty, and `none` stands for a read beyond
the memory at `pValue`. -/
def SecretKey_loop (junk : Nat → Nat) (host : Host) :
    List CK_ATTRIBUTE → List PKCS11Attribute → Nat → Option (List PKCS11Attribute × Nat)
  | [], attributes, valueLength => some (attributes, valueLength)
  | attr :: rest, attributes, valueLength =>
    if attr.type = CKA_VALUE_LEN then
      if (attr.pValue.getD []).length < host.sizeofULong then none
      else SecretKey_loop junk host rest attributes
        (host.decodeULong ((attr.pValue.getD []).take host.sizeofULong))
    else
      if (attr.pValue.getD []).length < attr.ulValueLen then none
      else
        let val := (CKYBuffer_InitFromData junk ((attr.pValue.getD []).take attr.ulValueLen)).2
        SecretKey_loop junk host rest (setAttribute attributes attr.type val) valueLength

/-- The constructor `SecretKey::SecretKey`: the object built and the key
buffer as the constructor leaves it. `pTemplate` is the array at the pointer,
`none` stands for a read outside it or outside the memory of an entry or of
the key buffer. -/
def SecretKey_SecretKey (junk : Nat → Nat) (host : Host) (muscleObjID handle : Nat)
    (secretKeyBuffer : Option CKYBuffer) (pTemplate : List CK_ATTRIBUTE)
    (ulAttributeCount : Nat) : Option (PKCS11Object × Option CKYBuffer) :=
  let o := PKCS11Object_PKCS11Object muscleObjID handle
  let objClass := CKO_SECRET_KEY
  let keyType := CKK_GENERIC_SECRET
  let value := 0x1
  match secretKeyBuffer with
  | none => some (o, none)
  | some _ =>
    if pTemplate.length < (toInt ulAttributeCount).toNat then none
    else
      match SecretKey_loop junk host (pTemplate.take (toInt ulAttributeCount).toNat)
          o.attributes 0 with
      | none => none
      | some (a, valueLength) =>
        match SecretKey_adjustToKeyValueLength junk host secretKeyBuffer valueLength with
        | none => none
        | some none => none
        | some (some buf) =>
          let a := if ¬ attributeExists a CKA_CLASS then
            setAttributeULong junk host a CKA_CLASS objClass else a
          let a := if ¬ attributeExists a CKA_KEY_TYPE then
            setAttributeULong junk host a CKA_KEY_TYPE keyType else a
          let a := if ¬ attributeExists a CKA_TOKEN then
            setAttributeBool junk a CKA_TOKEN value else a
          let a := if ¬ attributeExists a CKA_DERIVE then
            setAttributeBool junk a CKA_DERIVE value else a
          some ({ o with attributes := setAttribute a CKA_VALUE buf }, some buf)

/-- The last entry of a template that has the type `t`, for the statements. -/
def lastEntry : List CK_ATTRIBUTE → Nat → Option CK_ATTRIBUTE
  | [], _ => none
  | e :: rest, t =>
    match lastEntry rest t with
    | some x => some x
    | none => if e.type = t then some e else none

/-- The value that a template specifies for the type `t`: the `ulValueLen`
bytes at `pValue` of the last entry of that type. -/
def templateValue (tpl : List CK_ATTRIBUTE) (t : Nat) : Option (List Nat) :=
  (lastEntry tpl t).map (fun e => (e.pValue.getD []).take e.ulValueLen)

/-- The length that a template requests: the `CK_ULONG` at `pValue` of its
last entry of type `CKA_VALUE_LEN`, and 0 without such an entry. -/
def templateValueLength (host : Host) (tpl : List CK_ATTRIBUTE) : Nat :=
  ((lastEntry tpl CKA_VALUE_LEN).map
    (fun e => host.decodeULong ((e.pValue.getD []).take host.sizeofULong))).getD 0

/-- The memory at `pValue` of a template entry holds the bytes that
`SecretKey::SecretKey` reads there: a `CK_ULONG` for `CKA_VALUE_LEN` and
`ulValueLen` bytes for another type. -/
def entryReadable (host : Host) (e : CK_ATTRIBUTE) : Prop :=
  if e.type = CKA_VALUE_LEN then host.sizeofULong ≤ (e.pValue.getD []).length
  else e.ulValueLen ≤ (e.pValue.getD []).length

instance (host : Host) (e : CK_ATTRIBUTE) : Decidable (entryReadable host e) := by
  unfold entryReadable
  infer_instance

/-- The attribute `a` is what `parseNewObject` stores for a record whose
header, the 4 bytes of the type and the kind tag, lies inside the blob at
offset `i`: for a string the 2 bytes of the length and the bytes lie inside
the blob too and are the value, for a boolean the value is the byte 0 or 1, and
for an integer whose 4 payload bytes lie inside the blob the value is the
`unsigned long` of their big-endian value. -/
def recordAt (host : Host) (data : CKYBuffer) (i : Nat) (a : PKCS11Attribute) : Prop :=
  i + 5 ≤ data.len ∧ a.type = CKYBuffer_GetLong data i ∧
  ((CKYBuffer_GetChar data (i + 4) = DATATYPE_STRING ∧
      i + 7 + CKYBuffer_GetShort data (i + 5) ≤ data.len ∧
      a.value = ((CKYBuffer_Data data).drop (i + 7)).take (CKYBuffer_GetShort data (i + 5))) ∨
    (CKYBuffer_GetChar data (i + 4) = DATATYPE_BOOL_FALSE ∧ a.value = [0]) ∨
    (CKYBuffer_GetChar data (i + 4) = DATATYPE_BOOL_TRUE ∧ a.value = [1]) ∨
    (CKYBuffer_GetChar data (i + 4) = DATATYPE_INTEGER ∧
      (i + 9 ≤ data.len → a.value = host.encodeULong (CKYBuffer_GetLong data (i + 5)))))

/-- The offset behind the record at offset `i` of a format-1 blob. -/
def recordEnd (data : CKYBuffer) (i : Nat) : Nat :=
  if CKYBuffer_GetChar data (i + 4) = DATATYPE_STRING then
    i + 7 + CKYBuffer_GetShort data (i + 5)
  else if CKYBuffer_GetChar data (i + 4) = DATATYPE_INTEGER then i + 9
  else i + 5

/-- The attributes `attrs` are stored for records that follow one another in
the blob from offset `i` to offset `j`. -/
def StoredFrom (host : Host) (data : CKYBuffer) : Nat → List PKCS11Attribute → Nat → Prop
  | i, [], j => j = i
  | i, a :: rest, j => recordAt host data i a ∧ StoredFrom host data (recordEnd data i) rest j

/-- A format-1 blob for the examples: object id 7, flags word 0, the count 2
and one record, a true boolean of type `CKA_TOKEN`. -/
def blobShort : CKYBuffer :=
  { data := [1, 0, 0, 0, 7, 0, 0, 0, 0, 0, 2, 0, 0, 0, 1, 3], len := 16 }

/-- A format-1 blob for the examples: object id 7, flags word 0, the count 1
and an integer record of type `CKA_KEY_TYPE` with one payload byte where four
are due. -/
def blobCut : CKYBuffer :=
  { data := [1, 0, 0, 0, 7, 0, 0, 0, 0, 0, 1, 0, 0, 1, 0, 1, 0xAB], len := 17 }

/-! ## The signature conversion of `object.cpp` -/

/-- The function `CKYBuffer_Zero`. -/
def CKYBuffer_Zero (buf : CKYBuffer) : CKYBuffer :=
  { data := if buf.size ≠ 0 then memset buf.data 0 0 buf.size else buf.data, len := 0 }

/-- The loop `for (i = 0; i < (int) diff; i++) if (intBuf[i] != 0) return -1;`
of `getRawSignature` over the `n` rounds that are left from index `i`: `false`
when it returns -1, and `none` for a read outside the block. -/
def getRawSignature_loop (intBuf : Ptr) : Nat → Nat → Option Bool
  | 0, _ => some true
  | n + 1, i =>
    match intBuf.read i with
    | none => none
    | some b => if b ≠ 0 then some false else getRawSignature_loop intBuf n (i + 1)

/-- The block `if (int_length > expected_piece_size) { ... }` of
`getRawSignature`, which the method has once for each integer: the pointer and
the length behind it, the inner `none` when it returns -1. -/
def getRawSignature_chop (intBuf : Ptr) (int_length expected_piece_size : Nat) :
    Option (Option (Ptr × Nat)) :=
  if int_length > expected_piece_size then
    let diff := int_length - expected_piece_size
    match getRawSignature_loop intBuf (toInt diff).toNat 0 with
    | none => none
    | some false => some none
    | some true => some (some (intBuf.add diff, int_length - diff))
  else some (some (intBuf, int_length))

/-- The method `DEREncodedSignature::getRawSignature` on the member
`derEncodedSignature`: the `int` returned and the buffer `rawSig` as the
method leaves it; `rawSig` is `none` for a null pointer, and the outer `none`
stands for a read outside a block. `keySize` is an `unsigned int`. -/
def DEREncodedSignature_getRawSignature (junk : Nat → Nat) (derEncodedSignature : CKYBuffer)
    (rawSig : Option CKYBuffer) (keySize : Nat) : Option (Int × Option CKYBuffer) :=
  match rawSig with
  | none => some (-1, none)
  | some rawSig =>
    if CKYBuffer_Size derEncodedSignature = 0 then some (-1, some rawSig)
    else
      let rawSig := CKYBuffer_Zero rawSig
      let expected_sig_len := (((keySize + 7) % 2 ^ 32) / 8 * 2) % 2 ^ 32
      let expected_piece_size := expected_sig_len / 2
      match dataStart (CKYBuffer_DataPtr derEncodedSignature)
          (CKYBuffer_Size derEncodedSignature) false with
      | none => none
      | some (none, _) => some (-1, some rawSig)
      | some (some buf, seq_length) =>
        match dataStart (some buf) seq_length false with
        | none => none
        | some (none, _) => some (-1, some rawSig)
        | some (some int1Buf, int_length) =>
          match getRawSignature_chop int1Buf int_length expected_piece_size with
          | none => none
          | some none => some (-1, some rawSig)
          | some (some (int1Buf, int_length)) =>
            let seq_length := seq_length - (int1Buf.diff buf + int_length)
            let buf := int1Buf.add int_length
            match dataStart (some buf) seq_length false with
            | none => none
            | some (none, _) => some (-1, some rawSig)
            | some (some int2Buf, second_int_length) =>
              match getRawSignature_chop int2Buf second_int_length expected_piece_size with
              | none => none
              | some none => some (-1, some rawSig)
              | some (some (int2Buf, second_int_length)) =>
                match int1Buf.bytes int_length, int2Buf.bytes second_int_length with
                | some bytes1, some bytes2 =>
                  let rawSig := (CKYBuffer_AppendData junk rawSig bytes1).2
                  let rawSig := (CKYBuffer_AppendData junk rawSig bytes2).2
                  some (0, some rawSig)
                | _, _ => none

/-- All bytes of a list are zero. -/
def allZero (l : List Nat) : Prop := ∀ b ∈ l, b = 0

instance (l : List Nat) : Decidable (allZero l) := by
  unfold allZero
  infer_instance

/-- A signature for the examples: the sequence of two integers of 33 bytes,
a zero byte before 32 bytes `11` and a zero byte before 32 bytes `22`. -/
def sig33 : CKYBuffer :=
  { data := TLV 0x30 (TLV 0x02 (0 :: List.replicate 32 0x11)
      ++ (TLV 0x02 (0 :: List.replicate 32 0x22) ++ [])),
    len := 72 }

/-- A signature for the examples: the sequence of two integers of 32 bytes,
32 bytes `11` and 32 bytes `22`. -/
def sig32 : CKYBuffer :=
  { data := TLV 0x30 (TLV 0x02 (List.replicate 32 0x11)
      ++ (TLV 0x02 (List.replicate 32 0x22) ++ [])),
    len := 70 }

/-- A signature for the examples: the sequence of an integer of 31 bytes `11`
and an integer of 32 bytes `22`, as a card gives it for a first integer below
`2^248`. -/
def sig31 : CKYBuffer :=
  { data := TLV 0x30 (TLV 0x02 (List.replicate 31 0x11)
      ++ (TLV 0x02 (List.replicate 32 0x22) ++ [])),
    len := 69 }

/-! ## The common name of `object.cpp` -/

/-- The array `CN_DATA`: the object identifier 2.5.4.3 of the common name. -/
def CN_DATA : List Nat := [0x55, 0x4, 0x3]

/-- The constant `CN_LENGTH`. -/
def CN_LENGTH : Nat := CN_DATA.length

/-- The `while (buf_length)` loop of `GetCN` with `fuel` rounds left, at the
pointer `buf` with `buf_length` bytes left: the status returned and the item
`cn` as the function leaves it. Every round that goes on takes at least 2
bytes, so `buf_length` rounds are enough; `none` stands for a read outside the
block, and for the rounds used up with bytes left, which does not occur from
`GetCN`. -/
def GetCN_loop (cn : CCItem) : Nat → Ptr → Nat → Option (SECStatus × CCItem)
  | 0, _, buf_length => if buf_length = 0 then some (SECFailure, cn) else none
  | fuel + 1, buf, buf_length =>
    if buf_length = 0 then some (SECFailure, cn)
    else
      match dataStart (some buf) buf_length false with
      | none => none
      | some (none, _) => some (SECFailure, cn)
      | some (some name, name_length) =>
        match dataStart (some name) name_length false with
        | none => none
        | some (none, _) => some (SECFailure, cn)
        | some (some name2, name_length2) =>
          match dataStart (some name2) name_length2 false with
          | none => none
          | some (none, _) => some (SECFailure, cn)
          | some (some oid, oid_length) =>
            if oid_length ≠ CN_LENGTH then
              GetCN_loop cn fuel (name.add name_length)
                (buf_length - (name.diff buf + name_length))
            else
              match oid.bytes CN_LENGTH with
              | none => none
              | some bytes =>
                if bytes ≠ CN_DATA then
                  GetCN_loop cn fuel (name.add name_length)
                    (buf_length - (name.diff buf + name_length))
                else
                  match dataStart (some (oid.add oid_length))
                      (name_length2 - (oid.diff name2 + oid_length)) false with
                  | none => none
                  | some (none, len) => some (SECFailure, { data := none, len := len })
                  | some (some data, len) => some (SECSuccess, { data := some data, len := len })

/-- The function `GetCN`: the status returned and the item `cn` as the
function leaves it; `none` stands for a read outside the block. -/
def GetCN (dn : Option Ptr) (dn_length : Nat) (cn : CCItem) : Option (SECStatus × CCItem) :=
  match dataStart dn dn_length false with
  | none => none
  | some (none, _) => some (SECFailure, cn)
  | some (some buf, buf_length) => GetCN_loop cn buf_length buf buf_length

/-- A set of a distinguished name, for the statements: an element whose
content starts with an element `SEQ`, whose content is an element of content
`oid` followed by the bytes `after`. -/
def NameSet (X oid after : List Nat) : Prop :=
  ∃ tX tQ tO SEQ more OID, IsTLV X tX (SEQ ++ more) ∧ IsTLV SEQ tQ (OID ++ after) ∧
    IsTLV OID tO oid

/-- A distinguished name for the examples: a set of the country `US` and a
set of the common name `Jo`. -/
def dnExample : CKYBuffer :=
  { data := TLV 0x30 (TLV 0x31 (TLV 0x30 (TLV 0x06 [0x55, 4, 6] ++ TLV 0x13 [0x55, 0x53]) ++ [])
      ++ (TLV 0x31 (TLV 0x30 (TLV 0x06 [0x55, 4, 3] ++ (TLV 0x0C [0x4A, 0x6F] ++ [])) ++ [])
      ++ [])),
    len := 26 }

/-- The bytes `tail` do not start with a set that `GetCN` reads through: they
are no element, or an element whose content is no element, or a set whose
sequence has a content that is no element, or a set of the common name in
which no element follows the object identifier. -/
def MalformedName (tail : List Nat) : Prop :=
  dataStartFails tail ∨
  (∃ X rest tX c, tail = X ++ rest ∧ IsTLV X tX c ∧ dataStartFails c) ∨
  (∃ X rest tX tQ SEQ more c, tail = X ++ rest ∧ IsTLV X tX (SEQ ++ more) ∧
    IsTLV SEQ tQ c ∧ dataStartFails c) ∨
  (∃ X rest after, tail = X ++ rest ∧ NameSet X CN_DATA after ∧ dataStartFails after)

/-! ## The objects of a CAC card of `object.cpp` -/

/-- Modelled from the spec: the constant `CKO_CERTIFICATE` of the PKCS #11
header ("certificate"), with its PKCS #11 value. -/
def CKO_CERTIFICATE : Nat := 0x1

/-- Modelled from the spec: the constant `CKO_PUBLIC_KEY` of the PKCS #11
header ("public key"), with its PKCS #11 value. -/
def CKO_PUBLIC_KEY : Nat := 0x2

/-- Modelled from the spec: the constant `CKO_PRIVATE_KEY` of the PKCS #11
header ("private key"), with its PKCS #11 value. -/
def CKO_PRIVATE_KEY : Nat := 0x3

/-- Modelled from the spec: the constant `CKK_RSA` of the PKCS #11 header
("RSA"), with its PKCS #11 value. -/
def CKK_RSA : Nat := 0x0

/-- Modelled from the spec: the constant `CKK_EC` of the PKCS #11 header
("EC"), with its PKCS #11 value. -/
def CKK_EC : Nat := 0x3

/-- Modelled from the spec: the constant `CKC_X_509` of the PKCS #11 header
("X.509"), with its PKCS #11 value. -/
def CKC_X_509 : Nat := 0x0

/-- Modelled from the spec: the constant `CKA_ISSUER` of the PKCS #11 header
("issuer"), with its PKCS #11 value. -/
def CKA_ISSUER : Nat := 0x81

/-- Modelled from the spec: the constant `CKA_SERIAL_NUMBER` of the PKCS #11
header ("serial number"), with its PKCS #11 value. -/
def CKA_SERIAL_NUMBER : Nat := 0x82

/-- Modelled from the spec: the constant `CKA_SUBJECT` of the PKCS #11 header
("subject"), with its PKCS #11 value. -/
def CKA_SUBJECT : Nat := 0x101

/-- Modelled from the spec: the constant `CKA_START_DATE` of the PKCS #11
header, with its PKCS #11 value. -/
def CKA_START_DATE : Nat := 0x110

/-- Modelled from the spec: the constant `CKA_END_DATE` of the PKCS #11
header, with its PKCS #11 value. -/
def CKA_END_DATE : Nat := 0x111

/-- Modelled from the spec: the constant `CKA_MODULUS` of the PKCS #11 header
("modulus"), with its PKCS #11 value. -/
def CKA_MODULUS : Nat := 0x120

/-- Modelled from the spec: the constant `CKA_PUBLIC_EXPONENT` of the PKCS #11
header ("exponent"), with its PKCS #11 value. -/
def CKA_PUBLIC_EXPONENT : Nat := 0x122

/-- Modelled from the spec: the constant `CKA_EC_PARAMS` of the PKCS #11
header ("EC parameters"), with its PKCS #11 value. -/
def CKA_EC_PARAMS : Nat := 0x180

/-- Modelled from the spec: the constant `CKA_EC_POINT` of the PKCS #11 header
("EC point"), with its PKCS #11 value. -/
def CKA_EC_POINT : Nat := 0x181

/-- The function `GetECKeyFieldItems`: the status and the two items as the
function leaves them. The outer `none` stands for a read outside a block. -/
def GetECKeyFieldItems (spki_data : Option Ptr) (spki_length : Nat) (point params : CCItem) :
    Option (SECStatus × CCItem × CCItem) :=
  match spki_data with
  | none => some (SECFailure, point, params)
  | some buf =>
    let buf_length := spki_length
    let point : CCItem := { data := none, len := 0 }
    let params : CCItem := { data := none, len := 0 }
    match dataStart (some buf) buf_length false with
    | none => none
    | some (none, _) => some (SECFailure, point, params)
    | some (some dummy, dummylen) =>
      let buf_length := buf_length - (dummy.diff buf + dummylen)
      let buf := dummy.add dummylen
      let algid := dummy
      let algidlen := dummylen
      match dataStart (some algid) algidlen false with
      | none => none
      | some (none, _) => some (SECFailure, point, params)
      | some (some dummy, dummylen) =>
        let algidlen := algidlen - (dummy.diff algid + dummylen)
        let algid := dummy.add dummylen
        let params : CCItem := { data := some algid, len := algidlen }
        match dataStart (some buf) buf_length false with
        | none => none
        | some (none, _) => some (SECFailure, point, params)
        | some (some buf, buf_length) =>
          match unwrapBitString buf buf_length with
          | none => none
          | some none => some (SECFailure, point, params)
          | some (some (buf, buf_length)) =>
            some (SECSuccess, { data := some buf, len := buf_length }, params)

/-- The function `GetECKeyFields`: the exception thrown or the buffers `point`
and `params`. `stack` is what the local items hold before they are set. The
outer `none` stands for a read outside a block. -/
def GetECKeyFields (junk : Nat → Nat) (stack : CCItem) (spki point params : CKYBuffer) :
    Option (Except CK_RV (CKYBuffer × CKYBuffer)) :=
  match GetECKeyFieldItems (CKYBuffer_DataPtr spki) (CKYBuffer_Size spki) stack stack with
  | none => none
  | some (rv, pointItem, paramsItem) =>
    if rv ≠ SECSuccess then some (Except.error CKR_FUNCTION_FAILED)
    else
      match replaceWithItem junk point pointItem, replaceWithItem junk params paramsItem with
      | some point, some params => some (Except.ok (point, params))
      | _, _ => none

/-- The value `!b` of a `CK_BBOOL`. -/
def notBool (b : Nat) : Nat := if b = 0 then 1 else 0

/-- The buffer `id` that the constructors of the CAC objects build, with
`inst` for the parameter `instance`: `CKYBuffer_InitFromLen(&id, 1)` and
`CKYBuffer_SetChar(&id, 1, instance+1)`, the sum cut to a `CKYByte`. -/
def CAC_id (junk : Nat → Nat) (inst : Nat) : CKYBuffer :=
  let id := (CKYBuffer_InitFromLen junk 1).2
  (CKYBuffer_SetChar junk id 1 ((inst + 1) % 256)).2

/-- The constructor `CACPrivKey::CACPrivKey`: the exception thrown or the
object built. `inst` is the parameter `instance`, a `CKYByte`; `none` stands
for a read outside a block or through the null pointer that
`cert.getAttribute(CKA_LABEL)` returns for a certificate without a label. -/
def CACPrivKey_CACPrivKey (junk : Nat → Nat) (host : Host) (stack : CCItem) (inst : Nat)
    (cert : PKCS11Object) : Option (Except CK_RV PKCS11Object) :=
  let o := PKCS11Object_PKCS11Object ((0x6B <<< 24) ||| ((inst + 0x30) <<< 16))
    (inst ||| 0x400)
  let decrypt := if inst = 2 then CK_TRUE else CK_FALSE
  let empty := CKYBuffer_InitEmpty.2
  let a := setAttributeULong junk host o.attributes CKA_CLASS CKO_PRIVATE_KEY
  let a := setAttributeBool junk a CKA_TOKEN CK_TRUE
  let a := setAttributeBool junk a CKA_PRIVATE CK_FALSE
  match getAttribute cert.attributes CKA_LABEL with
  | none => none
  | some label =>
    let a := setAttribute a CKA_LABEL { data := label, len := label.length }
    let a := setAttributeBool junk a CKA_MODIFIABLE CK_FALSE
    let a := setAttribute a CKA_ID (CAC_id junk inst)
    let a := setAttribute a CKA_START_DATE empty
    let a := setAttribute a CKA_END_DATE empty
    let a := setAttributeBool junk a CKA_DERIVE CK_FALSE
    let a := setAttributeBool junk a CKA_LOCAL CK_TRUE
    let a := setAttributeULong junk host a CKA_KEY_TYPE CKK_RSA
    let a := setAttributeBool junk a CKA_SIGN (notBool decrypt)
    let a := setAttributeBool junk a CKA_SIGN_RECOVER (notBool decrypt)
    let a := setAttributeBool junk a CKA_UNWRAP CK_FALSE
    let a := setAttributeBool junk a CKA_SENSITIVE CK_TRUE
    let a := setAttributeBool junk a CKA_EXTRACTABLE CK_FALSE
    let param1 := CKYBuffer_InitEmpty.2
    let param2 := CKYBuffer_InitEmpty.2
    let key := cert.pubKey
    match GetKeyTypeFromSPKI key with
    | none => none
    | some (Except.error e) => some (Except.error e)
    | some (Except.ok KeyType.rsa) =>
      match GetKeyFields junk stack key param1 param2 with
      | none => none
      | some (Except.error e) => some (Except.error e)
      | some (Except.ok (param1, param2)) =>
        let a := setAttribute a CKA_MODULUS param1
        let a := setAttribute a CKA_PUBLIC_EXPONENT param2
        let a := setAttributeULong junk host a CKA_KEY_TYPE CKK_RSA
        let a := setAttributeBool junk a CKA_DECRYPT decrypt
        let a := setAttributeBool junk a CKA_DERIVE CK_FALSE
        some (Except.ok { o with keyType := KeyType.rsa, attributes := a })
    | some (Except.ok KeyType.ecc) =>
      match GetECKeyFields junk stack key param1 param2 with
      | none => none
      | some (Except.error e) => some (Except.error e)
      | some (Except.ok (param1, param2)) =>
        let a := setAttribute a CKA_EC_POINT param1
        let a := setAttribute a CKA_EC_PARAMS param2
        let a := setAttributeULong junk host a CKA_KEY_TYPE CKK_EC
        let a := setAttributeBool junk a CKA_DECRYPT CK_FALSE
        let a := setAttributeBool junk a CKA_DERIVE decrypt
        some (Except.ok { o with keyType := KeyType.ecc, attributes := a })
    | some (Except.ok KeyType.unknown) =>
      some (Except.ok { o with keyType := KeyType.unknown, attributes := a })

/-- The constructor `CACPubKey::CACPubKey`: the exception thrown or the object
built. `inst` is the parameter `instance`, a `CKYByte`; `none` stands for a
read outside a block or through the null pointer that
`cert.getAttribute(CKA_LABEL)` returns for a certificate without a label. -/
def CACPubKey_CACPubKey (junk : Nat → Nat) (host : Host) (stack : CCItem) (inst : Nat)
    (cert : PKCS11Object) : Option (Except CK_RV PKCS11Object) :=
  let o := PKCS11Object_PKCS11Object ((0x6B <<< 24) ||| ((inst + 0x35) <<< 16))
    (inst ||| 0x500)
  let encrypt := if inst = 2 then CK_TRUE else CK_FALSE
  let empty := CKYBuffer_InitEmpty.2
  let a := setAttributeULong junk host o.attributes CKA_CLASS CKO_PUBLIC_KEY
  let a := setAttributeBool junk a CKA_TOKEN CK_TRUE
  let a := setAttributeBool junk a CKA_PRIVATE CK_FALSE
  match getAttribute cert.attributes CKA_LABEL with
  | none => none
  | some label =>
    let a := setAttribute a CKA_LABEL { data := label, len := label.length }
    let a := setAttributeBool junk a CKA_MODIFIABLE CK_FALSE
    let a := setAttribute a CKA_ID (CAC_id junk inst)
    let a := setAttribute a CKA_START_DATE empty
    let a := setAttribute a CKA_END_DATE empty
    let a := setAttributeBool junk a CKA_DERIVE CK_FALSE
    let a := setAttributeBool junk a CKA_LOCAL CK_TRUE
    let a := setAttributeBool junk a CKA_ENCRYPT encrypt
    let a := setAttributeBool junk a CKA_VERIFY (notBool encrypt)
    let a := setAttributeBool junk a CKA_VERIFY_RECOVER (notBool encrypt)
    let a := setAttributeBool junk a CKA_WRAP CK_FALSE
    let param1 := CKYBuffer_InitEmpty.2
    let param2 := CKYBuffer_InitEmpty.2
    let key := cert.pubKey
    match GetKeyTypeFromSPKI key with
    | none => none
    | some (Except.error e) => some (Except.error e)
    | some (Except.ok KeyType.rsa) =>
      match GetKeyFields junk stack key param1 param2 with
      | none => none
      | some (Except.error e) => some (Except.error e)
      | some (Except.ok (param1, param2)) =>
        let a := setAttribute a CKA_MODULUS param1
        let a := setAttribute a CKA_PUBLIC_EXPONENT param2
        let a := setAttributeULong junk host a CKA_KEY_TYPE CKK_RSA
        some (Except.ok { o with keyType := KeyType.rsa, attributes := a })
    | some (Except.ok KeyType.ecc) =>
      match GetECKeyFields junk stack key param1 param2 with
      | none => none
      | some (Except.error e) => some (Except.error e)
      | some (Except.ok (param1, param2)) =>
        let a := setAttribute a CKA_EC_POINT param1
        let a := setAttribute a CKA_EC_PARAMS param2
        let a := setAttributeULong junk host a CKA_KEY_TYPE CKK_EC
        some (Except.ok { o with keyType := KeyType.ecc, attributes := a })
    | some (Except.ok KeyType.unknown) =>
      some (Except.ok { o with keyType := KeyType.unknown, attributes := a })

/-- The array `CAC_Label`: the three labels, each as the characters of the C
string without the final zero. -/
def CAC_Label : List (List Nat) :=
  [ "CAC ID Certificate".toList.map Char.toNat,
    "CAC Email Signature Certificate".toList.map Char.toNat,
    "CAC Email Encryption Certificate".toList.map Char.toNat ]

/-- The function `GetUserName`: the array of `cn.len + 1` characters it
returns, the bytes of the common name and a final zero, and the inner `none`
for the null pointer. `stack` is what the local item holds before it is set;
the outer `none` stands for a read outside a block. -/
def GetUserName (stack : CCItem) (dn : CKYBuffer) : Option (Option (List Nat)) :=
  match GetCN (CKYBuffer_DataPtr dn) (CKYBuffer_Size dn) stack with
  | none => none
  | some (rv, cn) =>
    if rv ≠ SECSuccess then some none
    else
      match cn.data with
      | none => if cn.len = 0 then some (some [0]) else none
      | some data =>
        match data.bytes cn.len with
        | none => none
        | some bytes => some (some (bytes ++ [0]))

/-- The constructor `CACCert::CACCert`: the exception thrown or the object
built. `inst` is the parameter `instance`, a `CKYByte`; `none` stands for a
read outside a block or beyond the three entries of `CAC_Label`. -/
def CACCert_CACCert (junk : Nat → Nat) (host : Host) (stack : CCItem) (inst : Nat)
    (derCert : CKYBuffer) : Option (Except CK_RV PKCS11Object) :=
  let o := PKCS11Object_PKCS11Object ((0x63 <<< 24) ||| ((inst + 0x30) <<< 16))
    (inst ||| 0x600)
  let a := setAttributeULong junk host o.attributes CKA_CLASS CKO_CERTIFICATE
  let a := setAttributeBool junk a CKA_TOKEN CK_TRUE
  let a := setAttributeBool junk a CKA_PRIVATE CK_FALSE
  let a := setAttributeBool junk a CKA_MODIFIABLE CK_FALSE
  let a := setAttribute a CKA_ID (CAC_id junk inst)
  let a := setAttributeULong junk host a CKA_CERTIFICATE_TYPE CKC_X_509
  match CAC_Label[inst]? with
  | none => none
  | some label =>
    let a := setAttribute_string junk a CKA_LABEL label
    let derSerial := CKYBuffer_InitEmpty.2
    let derSubject := CKYBuffer_InitEmpty.2
    let derIssuer := CKYBuffer_InitEmpty.2
    let pubKey := (CKYBuffer_Resize junk o.pubKey 0).2
    let a := setAttribute a CKA_VALUE derCert
    match GetCertFields junk stack derCert derSerial derSubject derIssuer pubKey with
    | none => none
    | some (Except.error e) => some (Except.error e)
    | some (Except.ok (derSerial, derSubject, derIssuer, pubKey)) =>
      let a := setAttribute a CKA_SERIAL_NUMBER derSerial
      let a := setAttribute a CKA_SUBJECT derSubject
      let a := setAttribute a CKA_ISSUER derIssuer
      match GetUserName stack derSubject with
      | none => none
      | some name => some (Except.ok { o with name := name, pubKey := pubKey, attributes := a })

/-- The result of a constructor for the examples: the object built, and an
empty object when none is built. -/
def built (r : Option (Except CK_RV PKCS11Object)) : PKCS11Object :=
  match r with
  | some (Except.ok o) => o
  | _ => PKCS11Object_PKCS11Object 0 0

/-- A content of fresh memory for the examples: every byte is `AA`. -/
def junkAA : Nat → Nat := fun _ => 0xAA

/-- A frame for the examples: initialised, then given the header `80 10 01 02`. -/
def apdu0 : CKYAPDU := setHeader junkAA (CKYAPDU_Init junkAA).2 0x80 0x10 0x01 0x02

/-- The certificate object for the examples: the CAC object of instance 0
built from the certificate `certExample`. -/
def cacCert0 : PKCS11Object :=
  built (CACCert_CACCert junkAA host32 ⟨none, 0⟩ 0 certExample)

/-- The public key object for the examples: the CAC object of instance 0 built
from the certificate object `cacCert0`. -/
def cacPub0 : PKCS11Object :=
  built (CACPubKey_CACPubKey junkAA host32 ⟨none, 0⟩ 0 cacCert0)

/-- The private key object for the examples: the CAC object of instance 0
built from the certificate object `cacCert0`. -/
def cacPriv0 : PKCS11Object :=
  built (CACPrivKey_CACPrivKey junkAA host32 ⟨none, 0⟩ 0 cacCert0)

/-- The first `n` bytes of `l` followed by zeros: what a buffer holding `l`
shows once its length has been raised to `n`. -/
def zeroExtend (l : List Nat) (n : Nat) : List Nat :=
  l ++ List.replicate (n - l.length) 0

/-- The effect of a positional set of width `w` at offset `o` that turns
the buffer `b` into `r`: the length becomes `max b.len (o + w)`, every byte
below the old length and outside `[o, o + w)` is the old byte, and every byte
between the old length and `o` is zero. -/
def SetFrame (b r : CKYBuffer) (o w : Nat) : Prop :=
  r.len = max b.len (o + w) ∧
  (∀ i, i < b.len → (i < o ∨ o + w ≤ i) → (CKYBuffer_Data r)[i]? = (CKYBuffer_Data b)[i]?) ∧
  (∀ i, b.len ≤ i → i < o → (CKYBuffer_Data r)[i]? = some 0)

/-! ## Properties of the byte buffer -/

section BufferLemmas

theorem length_Data {buf : CKYBuffer} (h : buf.WF) : (CKYBuffer_Data buf).length = buf.len := by
  unfold CKYBuffer_Data CKYBuffer.WF at *
  simp [List.length_take, h]

theorem length_zeroExtend (l : List Nat) (n : Nat) :
    (zeroExtend l n).length = max l.length n := by
  unfold zeroExtend
  simp only [List.length_append, List.length_replicate]
  omega

theorem zeroExtend_of_le {l : List Nat} {n : Nat} (h : n ≤ l.length) : zeroExtend l n = l := by
  unfold zeroExtend
  simp [Nat.sub_eq_zero_of_le h]

theorem Reserve_eq (junk : Nat → Nat) (buf : CKYBuffer) (n : Nat) :
    ∃ ext, CKYBuffer_Reserve junk buf n = (CKYSUCCESS, { data := buf.data ++ ext, len := buf.len })
      ∧ n ≤ (buf.data ++ ext).length := by
  unfold CKYBuffer_Reserve CKYBuffer.size realloc
  by_cases h : buf.data.length ≥ n
  · exact ⟨[], by simp [h], by simpa using h⟩
  · refine ⟨(List.range (n - buf.data.length)).map (fun i => junk (buf.data.length + i) % 256), ?_, ?_⟩
    · have : buf.data.take n = buf.data := List.take_of_length_le (by omega)
      simp [h, this]
    · simp only [List.length_append, List.length_map, List.length_range]
      omega

/-- What `CKYBuffer_Resize` does to a well-formed buffer. -/
theorem Resize_spec (junk : Nat → Nat) (buf : CKYBuffer) (n : Nat) (h : buf.WF) :
    (CKYBuffer_Resize junk buf n).1 = CKYSUCCESS ∧ (CKYBuffer_Resize junk buf n).2.len = n ∧
      (CKYBuffer_Resize junk buf n).2.WF ∧
      CKYBuffer_Data (CKYBuffer_Resize junk buf n).2 = (zeroExtend (CKYBuffer_Data buf) n).take n := by
  obtain ⟨ext, he, hle⟩ := Reserve_eq junk buf n
  have hl := length_Data h
  unfold CKYBuffer.WF at h
  unfold CKYBuffer_Resize
  by_cases hlt : buf.len < n
  · simp only [hlt, if_true, he, ne_eq, not_true_eq_false, if_false]
    refine ⟨trivial, trivial, ?_, ?_⟩
    · simp only [CKYBuffer.WF, memset, List.length_append, List.length_take, List.length_replicate,
        List.length_drop] at *
      omega
    · have e0 : (buf.data ++ ext).take buf.len = buf.data.take buf.len :=
        List.take_append_of_le_length h
      have e1 : (buf.data.take buf.len).length = buf.len := by
        rw [List.length_take]; omega
      have e2 : (buf.data.take buf.len ++ List.replicate (n - buf.len) 0).length = n := by
        rw [List.length_append, e1, List.length_replicate]; omega
      simp only [CKYBuffer_Data, memset, zeroExtend]
      rw [e0, e1, List.take_append_of_le_length (by omega)]
  · simp only [hlt, if_false]
    refine ⟨trivial, trivial, ?_, ?_⟩
    · simp only [CKYBuffer.WF]; omega
    · simp only [CKYBuffer_Data]
      rw [zeroExtend_of_le (by simp only [List.length_take]; omega), List.take_take]
      congr 1
      omega

theorem Data_set (d : List Nat) (L i v : Nat) :
    CKYBuffer_Data ⟨d.set i v, L⟩ = (CKYBuffer_Data ⟨d, L⟩).set i v := by
  simp only [CKYBuffer_Data, List.set_take]

theorem WF_set (d : List Nat) (L i v : Nat) :
    (CKYBuffer.mk (d.set i v) L).WF ↔ (CKYBuffer.mk d L).WF := by
  simp only [CKYBuffer.WF, List.length_set]

/-- The first step of every positional set: raise the length to `n` when it is
lower. -/
theorem grow_spec (junk : Nat → Nat) (buf : CKYBuffer) (n : Nat) (h : buf.WF) :
    (if buf.len < n then CKYBuffer_Resize junk buf n else (CKYSUCCESS, buf)).1 = CKYSUCCESS ∧
    (if buf.len < n then CKYBuffer_Resize junk buf n else (CKYSUCCESS, buf)).2.len
      = max buf.len n ∧
    (if buf.len < n then CKYBuffer_Resize junk buf n else (CKYSUCCESS, buf)).2.WF ∧
    CKYBuffer_Data (if buf.len < n then CKYBuffer_Resize junk buf n else (CKYSUCCESS, buf)).2
      = zeroExtend (CKYBuffer_Data buf) n := by
  obtain ⟨h1, h2, h3, h4⟩ := Resize_spec junk buf n h
  have hl := length_Data h
  by_cases hlt : buf.len < n
  · simp only [hlt, if_true]
    refine ⟨h1, by omega, h3, ?_⟩
    rw [h4, List.take_of_length_le]
    rw [length_zeroExtend]; omega
  · simp only [hlt, if_false]
    refine ⟨trivial, by omega, h, ?_⟩
    rw [zeroExtend_of_le (by omega)]

theorem SetChar_spec (junk : Nat → Nat) (buf : CKYBuffer) (o v : Nat) (h : buf.WF) :
    (CKYBuffer_SetChar junk buf o v).1 = CKYSUCCESS ∧
    (CKYBuffer_SetChar junk buf o v).2.len = max buf.len (o + 1) ∧
    (CKYBuffer_SetChar junk buf o v).2.WF ∧
    CKYBuffer_Data (CKYBuffer_SetChar junk buf o v).2
      = (zeroExtend (CKYBuffer_Data buf) (o + 1)).set o v := by
  obtain ⟨h1, h2, h3, h4⟩ := grow_spec junk buf (o + 1) h
  unfold CKYBuffer_SetChar
  simp only [h1, ne_eq, not_true_eq_false, if_false, Data_set, WF_set]
  exact ⟨trivial, h2, h3, by rw [← h4]⟩

theorem SetShort_spec (junk : Nat → Nat) (buf : CKYBuffer) (o v : Nat) (h : buf.WF) :
    (CKYBuffer_SetShort junk buf o v).1 = CKYSUCCESS ∧
    (CKYBuffer_SetShort junk buf o v).2.len = max buf.len (o + 2) ∧
    (CKYBuffer_SetShort junk buf o v).2.WF ∧
    CKYBuffer_Data (CKYBuffer_SetShort junk buf o v).2
      = ((zeroExtend (CKYBuffer_Data buf) (o + 2)).set (o + 0) ((v >>> 8) &&& 0xff)).set (o + 1) ((v >>> 0) &&& 0xff) := by
  obtain ⟨h1, h2, h3, h4⟩ := grow_spec junk buf (o + 2) h
  unfold CKYBuffer_SetShort
  simp only [h1, ne_eq, not_true_eq_false, if_false, Data_set, WF_set]
  exact ⟨trivial, h2, h3, by rw [← h4]⟩

theorem SetShortLE_spec (junk : Nat → Nat) (buf : CKYBuffer) (o v : Nat) (h : buf.WF) :
    (CKYBuffer_SetShortLE junk buf o v).1 = CKYSUCCESS ∧
    (CKYBuffer_SetShortLE junk buf o v).2.len = max buf.len (o + 2) ∧
    (CKYBuffer_SetShortLE junk buf o v).2.WF ∧
    CKYBuffer_Data (CKYBuffer_SetShortLE junk buf o v).2
      = ((zeroExtend (CKYBuffer_Data buf) (o + 2)).set (o + 1) ((v >>> 8) &&& 0xff)).set (o + 0) ((v >>> 0) &&& 0xff) := by
  obtain ⟨h1, h2, h3, h4⟩ := grow_spec junk buf (o + 2) h
  unfold CKYBuffer_SetShortLE
  simp only [h1, ne_eq, not_true_eq_false, if_false, Data_set, WF_set]
  exact ⟨trivial, h2, h3, by rw [← h4]⟩

theorem SetLong_spec (junk : Nat → Nat) (buf : CKYBuffer) (o v : Nat) (h : buf.WF) :
    (CKYBuffer_SetLong junk buf o v).1 = CKYSUCCESS ∧
    (CKYBuffer_SetLong junk buf o v).2.len = max buf.len (o + 4) ∧
    (CKYBuffer_SetLong junk buf o v).2.WF ∧
    CKYBuffer_Data (CKYBuffer_SetLong junk buf o v).2
      = ((((zeroExtend (CKYBuffer_Data buf) (o + 4)).set (o + 0) ((v >>> 24) &&& 0xff)).set (o + 1) ((v >>> 16) &&& 0xff)).set (o + 2) ((v >>> 8) &&& 0xff)).set (o + 3) ((v >>> 0) &&& 0xff) := by
  obtain ⟨h1, h2, h3, h4⟩ := grow_spec junk buf (o + 4) h
  unfold CKYBuffer_SetLong
  simp only [h1, ne_eq, not_true_eq_false, if_false, Data_set, WF_set]
  exact ⟨trivial, h2, h3, by rw [← h4]⟩

theorem SetLongLE_spec (junk : Nat → Nat) (buf : CKYBuffer) (o v : Nat) (h : buf.WF) :
    (CKYBuffer_SetLongLE junk buf o v).1 = CKYSUCCESS ∧
    (CKYBuffer_SetLongLE junk buf o v).2.len = max buf.len (o + 4) ∧
    (CKYBuffer_SetLongLE junk buf o v).2.WF ∧
    CKYBuffer_Data (CKYBuffer_SetLongLE junk buf o v).2
      = ((((zeroExtend (CKYBuffer_Data buf) (o + 4)).set (o + 3) ((v >>> 24) &&& 0xff)).set (o + 2) ((v >>> 16) &&& 0xff)).set (o + 1) ((v >>> 8) &&& 0xff)).set (o + 0) ((v >>> 0) &&& 0xff) := by
  obtain ⟨h1, h2, h3, h4⟩ := grow_spec junk buf (o + 4) h
  unfold CKYBuffer_SetLongLE
  simp only [h1, ne_eq, not_true_eq_false, if_false, Data_set, WF_set]
  exact ⟨trivial, h2, h3, by rw [← h4]⟩

/-- The read `buf->data[i]` below the length is a read of the visible bytes. -/
theorem at_eq_Data {buf : CKYBuffer} {i : Nat} (h : i < buf.len) :
    buf.at i = (CKYBuffer_Data buf).getD i 0 := by
  unfold CKYBuffer.at CKYBuffer_Data
  simp only [List.getD_eq_getElem?_getD, List.getElem?_take, h, if_true]

theorem GetChar_eq_Data (buf : CKYBuffer) (o : Nat) :
    CKYBuffer_GetChar buf o = (CKYBuffer_Data buf).getD o 0 := by
  unfold CKYBuffer_GetChar
  by_cases h : buf.len < o + 1
  · have : ¬ o < buf.len := by omega
    simp only [h, if_true, CKYBuffer_Data, List.getD_eq_getElem?_getD, List.getElem?_take, this,
      if_false, Option.getD_none]
  · simp only [h, if_false]
    exact at_eq_Data (by omega)

theorem getD_set_self {l : List Nat} {i : Nat} (v : Nat) (h : i < l.length) :
    (l.set i v).getD i 0 = v := by
  simp only [List.getD_eq_getElem?_getD, List.getElem?_set, h, if_true, Option.getD_some]

theorem getD_set_ne {l : List Nat} {i j : Nat} (v : Nat) (h : i ≠ j) :
    (l.set i v).getD j 0 = l.getD j 0 := by
  simp only [List.getD_eq_getElem?_getD, List.getElem?_set, h, if_false]

theorem byte_and (x : Nat) : x &&& 0xff = x % 256 :=
  Nat.and_pow_two_sub_one_eq_mod x 8

theorem or_low (a b k : Nat) (h : b < 2 ^ k) : (a <<< k) ||| b = a * 2 ^ k + b := by
  rw [Nat.shiftLeft_eq, Nat.mul_comm a, ← Nat.mul_add_lt_is_or h]

/-- A 16-bit value is rebuilt from its two bytes the way `CKYBuffer_GetShort` does it. -/
theorem short_of_bytes (v : Nat) (h : v < 2 ^ 16) :
    ((((v >>> 8) &&& 0xff) <<< 8) % 65536 ||| ((((v >>> 0) &&& 0xff) <<< 0) % 65536)) = v := by
  simp only [byte_and, Nat.shiftRight_eq_div_pow, Nat.shiftLeft_zero, Nat.shiftRight_zero, pow_zero,
    Nat.div_one]
  have e1 : ((v / 2 ^ 8 % 256) <<< 8) % 65536 = (v / 2 ^ 8 % 256) <<< 8 := by
    rw [Nat.shiftLeft_eq]; omega
  have e2 : v % 256 % 65536 = v % 256 := by omega
  rw [e1, e2, or_low _ _ _ (by omega)]
  omega

/-- A 32-bit value is rebuilt from its four bytes the way `CKYBuffer_GetLong` does it. -/
theorem long_of_bytes (v : Nat) (h : v < 2 ^ 32) :
    (((((v >>> 24) &&& 0xff) <<< 24) ||| (((v >>> 16) &&& 0xff) <<< 16)) |||
      (((v >>> 8) &&& 0xff) <<< 8)) ||| (((v >>> 0) &&& 0xff) <<< 0) = v := by
  simp only [byte_and, Nat.shiftRight_eq_div_pow, Nat.shiftLeft_zero, Nat.shiftRight_zero, pow_zero,
    Nat.div_one]
  rw [Nat.lor_assoc, Nat.lor_assoc]
  have e3 : ((v / 2 ^ 8 % 256) <<< 8) ||| (v % 256) = v / 2 ^ 8 % 256 * 2 ^ 8 + v % 256 :=
    or_low _ _ _ (by omega)
  rw [e3]
  have e2 : ((v / 2 ^ 16 % 256) <<< 16) ||| (v / 2 ^ 8 % 256 * 2 ^ 8 + v % 256)
      = v / 2 ^ 16 % 256 * 2 ^ 16 + (v / 2 ^ 8 % 256 * 2 ^ 8 + v % 256) :=
    or_low _ _ _ (by omega)
  rw [e2, or_low _ _ _ (by omega)]
  omega

theorem GetShort_eq_Data {buf : CKYBuffer} {o : Nat} (h : o + 2 ≤ buf.len) :
    CKYBuffer_GetShort buf o = (((CKYBuffer_Data buf).getD (o + 0) 0 <<< 8) % 65536 |||
      ((CKYBuffer_Data buf).getD (o + 1) 0 <<< 0) % 65536) := by
  unfold CKYBuffer_GetShort
  have hn : ¬ buf.len < o + 2 := by omega
  simp only [hn, if_false]
  rw [at_eq_Data (by omega : o + 0 < buf.len), at_eq_Data (by omega : o + 1 < buf.len)]

theorem GetShortLE_eq_Data {buf : CKYBuffer} {o : Nat} (h : o + 2 ≤ buf.len) :
    CKYBuffer_GetShortLE buf o = (((CKYBuffer_Data buf).getD (o + 1) 0 <<< 8) % 65536 |||
      ((CKYBuffer_Data buf).getD (o + 0) 0 <<< 0) % 65536) := by
  unfold CKYBuffer_GetShortLE
  have hn : ¬ buf.len < o + 2 := by omega
  simp only [hn, if_false]
  rw [at_eq_Data (by omega : o + 0 < buf.len), at_eq_Data (by omega : o + 1 < buf.len)]

theorem GetLong_eq_Data {buf : CKYBuffer} {o : Nat} (h : o + 4 ≤ buf.len) :
    CKYBuffer_GetLong buf o = ((((CKYBuffer_Data buf).getD (o + 0) 0 <<< 24 |||
      (CKYBuffer_Data buf).getD (o + 1) 0 <<< 16) ||| (CKYBuffer_Data buf).getD (o + 2) 0 <<< 8) |||
      (CKYBuffer_Data buf).getD (o + 3) 0 <<< 0) := by
  unfold CKYBuffer_GetLong
  have hn : ¬ buf.len < o + 4 := by omega
  simp only [hn, if_false]
  rw [at_eq_Data (by omega : o + 0 < buf.len), at_eq_Data (by omega : o + 1 < buf.len),
    at_eq_Data (by omega : o + 2 < buf.len), at_eq_Data (by omega : o + 3 < buf.len)]

theorem GetLongLE_eq_Data {buf : CKYBuffer} {o : Nat} (h : o + 4 ≤ buf.len) :
    CKYBuffer_GetLongLE buf o = ((((CKYBuffer_Data buf).getD (o + 3) 0 <<< 24 |||
      (CKYBuffer_Data buf).getD (o + 2) 0 <<< 16) ||| (CKYBuffer_Data buf).getD (o + 1) 0 <<< 8) |||
      (CKYBuffer_Data buf).getD (o + 0) 0 <<< 0) := by
  unfold CKYBuffer_GetLongLE
  have hn : ¬ buf.len < o + 4 := by omega
  simp only [hn, if_false]
  rw [at_eq_Data (by omega : o + 0 < buf.len), at_eq_Data (by omega : o + 1 < buf.len),
    at_eq_Data (by omega : o + 2 < buf.len), at_eq_Data (by omega : o + 3 < buf.len)]

theorem zeroExtend_getElem?_lt {l : List Nat} {i : Nat} (n : Nat) (h : i < l.length) :
    (zeroExtend l n)[i]? = l[i]? := by
  unfold zeroExtend
  rw [List.getElem?_append_left h]

theorem zeroExtend_getElem?_gap {l : List Nat} {i n : Nat} (h : l.length ≤ i) (hn : i < n) :
    (zeroExtend l n)[i]? = some 0 := by
  unfold zeroExtend
  rw [List.getElem?_append_right h, List.getElem?_replicate]
  simp only [ite_eq_left_iff, not_lt, reduceCtorEq, imp_false, not_le]
  omega

theorem AppendData_spec (junk : Nat → Nat) (buf : CKYBuffer) (d : List Nat) (h : buf.WF) :
    (CKYBuffer_AppendData junk buf d).1 = CKYSUCCESS ∧
    (CKYBuffer_AppendData junk buf d).2.len = buf.len + d.length ∧
    (CKYBuffer_AppendData junk buf d).2.WF ∧
    CKYBuffer_Data (CKYBuffer_AppendData junk buf d).2 = CKYBuffer_Data buf ++ d := by
  obtain ⟨ext, he, hle⟩ := Reserve_eq junk buf (buf.len + d.length)
  unfold CKYBuffer.WF at h
  have e0 : (buf.data ++ ext).take buf.len = buf.data.take buf.len :=
    List.take_append_of_le_length h
  have e1 : (buf.data.take buf.len).length = buf.len := by
    rw [List.length_take]; omega
  unfold CKYBuffer_AppendData
  simp only [he, ne_eq, not_true_eq_false, if_false, memcpy, e0]
  refine ⟨trivial, trivial, ?_, ?_⟩
  · simp only [CKYBuffer.WF, List.length_append, e1, List.length_drop] at *
    omega
  · simp only [CKYBuffer_Data]
    rw [List.take_append_of_le_length (by rw [List.length_append, e1]),
      List.take_of_length_le (by rw [List.length_append, e1])]

theorem take_set_succ {l : List Nat} {i : Nat} (v : Nat) (h : i < l.length) :
    (l.set i v).take (i + 1) = l.take i ++ [v] := by
  have e : (List.take i l).length = i := by rw [List.length_take]; omega
  rw [List.set_eq_take_cons_drop v h, List.take_append_eq_append_take, List.take_take, e]
  simp

theorem AppendChar_spec (junk : Nat → Nat) (buf : CKYBuffer) (v : Nat) (h : buf.WF) :
    (CKYBuffer_AppendChar junk buf v).1 = CKYSUCCESS ∧
    (CKYBuffer_AppendChar junk buf v).2.len = buf.len + 1 ∧
    (CKYBuffer_AppendChar junk buf v).2.WF ∧
    CKYBuffer_Data (CKYBuffer_AppendChar junk buf v).2 = CKYBuffer_Data buf ++ [v] := by
  obtain ⟨ext, he, hle⟩ := Reserve_eq junk buf (buf.len + 1)
  unfold CKYBuffer.WF at h
  have e0 : (buf.data ++ ext).take buf.len = buf.data.take buf.len :=
    List.take_append_of_le_length h
  unfold CKYBuffer_AppendChar
  simp only [he, ne_eq, not_true_eq_false, if_false]
  refine ⟨trivial, trivial, ?_, ?_⟩
  · simp only [CKYBuffer.WF, List.length_set]
    omega
  · simp only [CKYBuffer_Data]
    rw [take_set_succ v (by omega), e0]

theorem AppendShort_spec (junk : Nat → Nat) (buf : CKYBuffer) (v : Nat) (h : buf.WF) :
    (CKYBuffer_AppendShort junk buf v).1 = CKYSUCCESS ∧
    (CKYBuffer_AppendShort junk buf v).2.len = buf.len + 2 ∧
    (CKYBuffer_AppendShort junk buf v).2.WF ∧
    CKYBuffer_Data (CKYBuffer_AppendShort junk buf v).2
      = CKYBuffer_Data buf ++ [(v >>> 8) &&& 0xff, (v >>> 0) &&& 0xff] := by
  obtain ⟨ext, he, hle⟩ := Reserve_eq junk buf (buf.len + 2)
  unfold CKYBuffer.WF at h
  have e0 : (buf.data ++ ext).take buf.len = buf.data.take buf.len :=
    List.take_append_of_le_length h
  unfold CKYBuffer_AppendShort
  simp only [he, ne_eq, not_true_eq_false, if_false]
  refine ⟨trivial, trivial, ?_, ?_⟩
  · simp only [CKYBuffer.WF, List.length_set]
    omega
  · simp only [CKYBuffer_Data, Nat.add_zero]
    rw [show buf.len + 2 = (buf.len + 1) + 1 from rfl,
      take_set_succ _ (by rw [List.length_set]; omega),
      take_set_succ _ (by omega), e0, List.append_assoc]
    rfl

/-- What `CKYBuffer_Replace` does at an offset that is not beyond the length. -/
theorem Replace_spec (junk : Nat → Nat) (buf : CKYBuffer) (off : Nat) (d : List Nat)
    (h : buf.WF) (ho : off ≤ buf.len) :
    (CKYBuffer_Replace junk buf off d).1 = CKYSUCCESS ∧
    (CKYBuffer_Replace junk buf off d).2.len = max buf.len (off + d.length) ∧
    (CKYBuffer_Replace junk buf off d).2.WF ∧
    CKYBuffer_Data (CKYBuffer_Replace junk buf off d).2
      = (CKYBuffer_Data buf).take off ++ d ++ (CKYBuffer_Data buf).drop (off + d.length) := by
  obtain ⟨ext, he, hle⟩ := Reserve_eq junk buf (off + d.length)
  unfold CKYBuffer.WF at h
  have e0 : (buf.data ++ ext).take buf.len = buf.data.take buf.len :=
    List.take_append_of_le_length h
  have e1 : (buf.data ++ ext).take off = (buf.data.take buf.len).take off := by
    rw [List.take_take, Nat.min_eq_left ho, List.take_append_of_le_length (by omega)]
  have e2 : ((buf.data.take buf.len).take off).length = off := by
    simp only [List.length_take]; omega
  unfold CKYBuffer_Replace
  simp only [he, ne_eq, not_true_eq_false, if_false, memcpy, e1]
  refine ⟨trivial, ?_, ?_, ?_⟩
  · split <;> omega
  · simp only [CKYBuffer.WF, List.length_append, e2, List.length_drop]
    split <;> omega
  · simp only [CKYBuffer_Data]
    by_cases hlt : buf.len < off + d.length
    · simp only [hlt, if_true]
      rw [List.take_append_of_le_length (by simp only [List.length_append, e2]; omega),
        List.take_of_length_le (by simp only [List.length_append, e2]; omega),
        List.drop_eq_nil_of_le (by simp only [List.length_take]; omega), List.append_nil]
    · simp only [hlt, if_false]
      have e3 : (buf.data ++ ext).drop (off + d.length)
          = buf.data.drop (off + d.length) ++ ext :=
        List.drop_append_of_le_length (by omega)
      have e4 : ((buf.data.take buf.len).take off ++ d).length = off + d.length := by
        rw [List.length_append, e2]
      rw [List.take_append_eq_append_take, List.take_of_length_le (by rw [e4]; omega), e4, e3,
        List.take_append_of_le_length (by rw [List.length_drop]; omega), List.drop_take]

end BufferLemmas

/-! ## The positional accessors -/

/-- C1: on a well-formed buffer, for every offset, each positional set
succeeds and the matching get at the same offset returns the value that was
set, for the byte, the big- and little-endian 16-bit and the big- and
little-endian 32-bit accessors, whatever the offset is relative to the
current length. -/
theorem set_get_roundtrip (junk : Nat → Nat) (b : CKYBuffer) (o : Nat) (hb : b.WF) :
    (∀ v, v < 2 ^ 8 → (CKYBuffer_SetChar junk b o v).1 = CKYSUCCESS ∧
      CKYBuffer_GetChar (CKYBuffer_SetChar junk b o v).2 o = v) ∧
    (∀ v, v < 2 ^ 16 → (CKYBuffer_SetShort junk b o v).1 = CKYSUCCESS ∧
      CKYBuffer_GetShort (CKYBuffer_SetShort junk b o v).2 o = v) ∧
    (∀ v, v < 2 ^ 16 → (CKYBuffer_SetShortLE junk b o v).1 = CKYSUCCESS ∧
      CKYBuffer_GetShortLE (CKYBuffer_SetShortLE junk b o v).2 o = v) ∧
    (∀ v, v < 2 ^ 32 → (CKYBuffer_SetLong junk b o v).1 = CKYSUCCESS ∧
      CKYBuffer_GetLong (CKYBuffer_SetLong junk b o v).2 o = v) ∧
    (∀ v, v < 2 ^ 32 → (CKYBuffer_SetLongLE junk b o v).1 = CKYSUCCESS ∧
      CKYBuffer_GetLongLE (CKYBuffer_SetLongLE junk b o v).2 o = v) := by
  have hl := length_Data hb
  refine ⟨?_, ?_, ?_, ?_, ?_⟩
  · intro v _
    obtain ⟨h1, _, _, h4⟩ := SetChar_spec junk b o v hb
    refine ⟨h1, ?_⟩
    rw [GetChar_eq_Data, h4, getD_set_self]
    rw [length_zeroExtend]; omega
  · intro v hv
    obtain ⟨h1, h2, _, h4⟩ := SetShort_spec junk b o v hb
    refine ⟨h1, ?_⟩
    have hz : (zeroExtend (CKYBuffer_Data b) (o + 2)).length = max b.len (o + 2) := by
      rw [length_zeroExtend, hl]
    rw [GetShort_eq_Data (by omega), h4,
      getD_set_ne _ (by omega), getD_set_self _ (by rw [hz]; omega),
      getD_set_self _ (by rw [List.length_set, hz]; omega)]
    exact short_of_bytes v hv
  · intro v hv
    obtain ⟨h1, h2, _, h4⟩ := SetShortLE_spec junk b o v hb
    refine ⟨h1, ?_⟩
    have hz : (zeroExtend (CKYBuffer_Data b) (o + 2)).length = max b.len (o + 2) := by
      rw [length_zeroExtend, hl]
    rw [GetShortLE_eq_Data (by omega), h4,
      getD_set_ne _ (by omega), getD_set_self _ (by rw [hz]; omega),
      getD_set_self _ (by rw [List.length_set, hz]; omega)]
    exact short_of_bytes v hv
  · intro v hv
    obtain ⟨h1, h2, _, h4⟩ := SetLong_spec junk b o v hb
    refine ⟨h1, ?_⟩
    have hz : (zeroExtend (CKYBuffer_Data b) (o + 4)).length = max b.len (o + 4) := by
      rw [length_zeroExtend, hl]
    rw [GetLong_eq_Data (by omega), h4]
    simp only [getD_set_ne _ (by omega : o + 3 ≠ o + 0), getD_set_ne _ (by omega : o + 3 ≠ o + 1),
      getD_set_ne _ (by omega : o + 3 ≠ o + 2), getD_set_ne _ (by omega : o + 2 ≠ o + 0),
      getD_set_ne _ (by omega : o + 2 ≠ o + 1), getD_set_ne _ (by omega : o + 1 ≠ o + 0)]
    rw [getD_set_self _ (by rw [hz]; omega),
      getD_set_self _ (by rw [List.length_set, hz]; omega),
      getD_set_self _ (by rw [List.length_set, List.length_set, hz]; omega),
      getD_set_self _ (by rw [List.length_set, List.length_set, List.length_set, hz]; omega)]
    exact long_of_bytes v hv
  · intro v hv
    obtain ⟨h1, h2, _, h4⟩ := SetLongLE_spec junk b o v hb
    refine ⟨h1, ?_⟩
    have hz : (zeroExtend (CKYBuffer_Data b) (o + 4)).length = max b.len (o + 4) := by
      rw [length_zeroExtend, hl]
    rw [GetLongLE_eq_Data (by omega), h4]
    simp only [getD_set_ne _ (by omega : o + 0 ≠ o + 3), getD_set_ne _ (by omega : o + 0 ≠ o + 2),
      getD_set_ne _ (by omega : o + 0 ≠ o + 1), getD_set_ne _ (by omega : o + 1 ≠ o + 3),
      getD_set_ne _ (by omega : o + 1 ≠ o + 2), getD_set_ne _ (by omega : o + 2 ≠ o + 3)]
    rw [getD_set_self _ (by rw [hz]; omega),
      getD_set_self _ (by rw [List.length_set, hz]; omega),
      getD_set_self _ (by rw [List.length_set, List.length_set, hz]; omega),
      getD_set_self _ (by rw [List.length_set, List.length_set, List.length_set, hz]; omega)]
    exact long_of_bytes v hv


/-- C1, at a buffer of two bytes in a three-byte block and offset 4, beyond
its length. -/
theorem set_get_roundtrip_witness :
    (CKYBuffer.mk [1, 2, 3] 2).WF ∧
    CKYBuffer_GetChar (CKYBuffer_SetChar junkAA ⟨[1, 2, 3], 2⟩ 4 0x5A).2 4 = 0x5A ∧
    CKYBuffer_GetShort (CKYBuffer_SetShort junkAA ⟨[1, 2, 3], 2⟩ 4 0x1234).2 4 = 0x1234 ∧
    CKYBuffer_GetShortLE (CKYBuffer_SetShortLE junkAA ⟨[1, 2, 3], 2⟩ 4 0x1234).2 4
      = 0x1234 ∧
    CKYBuffer_GetLong (CKYBuffer_SetLong junkAA ⟨[1, 2, 3], 2⟩ 4 0x01020304).2 4
      = 0x01020304 ∧
    CKYBuffer_GetLongLE (CKYBuffer_SetLongLE junkAA ⟨[1, 2, 3], 2⟩ 4 0x01020304).2 4
      = 0x01020304 :=
  have h := set_get_roundtrip junkAA ⟨[1, 2, 3], 2⟩ 4 (by decide)
  ⟨by decide, (h.1 0x5A (by decide)).2, (h.2.1 0x1234 (by decide)).2,
    (h.2.2.1 0x1234 (by decide)).2, (h.2.2.2.1 0x01020304 (by decide)).2,
    (h.2.2.2.2 0x01020304 (by decide)).2⟩

/-- C2: a get whose field does not lie wholly below the buffer's length
returns 0, for the byte, the 16-bit and the 32-bit getters in both byte
orders; this includes a field that overlaps the end of the buffer only in
part. -/
theorem get_past_end_is_zero (b : CKYBuffer) (o : Nat) :
    (b.len < o + 1 → CKYBuffer_GetChar b o = 0) ∧
    (b.len < o + 2 → CKYBuffer_GetShort b o = 0 ∧ CKYBuffer_GetShortLE b o = 0) ∧
    (b.len < o + 4 → CKYBuffer_GetLong b o = 0 ∧ CKYBuffer_GetLongLE b o = 0) := by
  refine ⟨fun h => ?_, fun h => ⟨?_, ?_⟩, fun h => ⟨?_, ?_⟩⟩
  · simp only [CKYBuffer_GetChar, h, if_true]
  · simp only [CKYBuffer_GetShort, h, if_true]
  · simp only [CKYBuffer_GetShortLE, h, if_true]
  · simp only [CKYBuffer_GetLong, h, if_true]
  · simp only [CKYBuffer_GetLongLE, h, if_true]

/-- C2, at the three-byte buffer `01 02 03`: the byte at offset 3, the 16-bit
field at offset 2 and the 32-bit field at offset 1 all reach past the end and
read as 0, not as the bytes that are there. -/
theorem get_past_end_is_zero_witness :
    CKYBuffer_GetChar ⟨[1, 2, 3], 3⟩ 3 = 0 ∧
    (CKYBuffer_GetShort ⟨[1, 2, 3], 3⟩ 2 = 0 ∧ CKYBuffer_GetShortLE ⟨[1, 2, 3], 3⟩ 2 = 0) ∧
    (CKYBuffer_GetLong ⟨[1, 2, 3], 3⟩ 1 = 0 ∧ CKYBuffer_GetLongLE ⟨[1, 2, 3], 3⟩ 1 = 0) :=
  ⟨(get_past_end_is_zero ⟨[1, 2, 3], 3⟩ 3).1 (by decide),
    (get_past_end_is_zero ⟨[1, 2, 3], 3⟩ 2).2.1 (by decide),
    (get_past_end_is_zero ⟨[1, 2, 3], 3⟩ 1).2.2 (by decide)⟩

/-- C3: on a well-formed buffer of length `n`, each positional set of width
`w` at offset `o` leaves a buffer of length `max n (o + w)` in which every
byte below `n` and outside `[o, o + w)` has its old value and, when `o > n`,
every byte in `[n, o)` is zero. -/
theorem set_frame (junk : Nat → Nat) (b : CKYBuffer) (o v : Nat) (hb : b.WF) :
    SetFrame b (CKYBuffer_SetChar junk b o v).2 o 1 ∧
    SetFrame b (CKYBuffer_SetShort junk b o v).2 o 2 ∧
    SetFrame b (CKYBuffer_SetShortLE junk b o v).2 o 2 ∧
    SetFrame b (CKYBuffer_SetLong junk b o v).2 o 4 ∧
    SetFrame b (CKYBuffer_SetLongLE junk b o v).2 o 4 := by
  have hl := length_Data hb
  refine ⟨?_, ?_, ?_, ?_, ?_⟩
  · obtain ⟨_, h2, _, h4⟩ := SetChar_spec junk b o v hb
    refine ⟨h2, fun i hi ho => ?_, fun i hi ho => ?_⟩
    · rw [h4, List.getElem?_set_ne (by omega), zeroExtend_getElem?_lt _ (by omega)]
    · rw [h4, List.getElem?_set_ne (by omega), zeroExtend_getElem?_gap (by omega) (by omega)]
  · obtain ⟨_, h2, _, h4⟩ := SetShort_spec junk b o v hb
    refine ⟨h2, fun i hi ho => ?_, fun i hi ho => ?_⟩
    · rw [h4, List.getElem?_set_ne (by omega), List.getElem?_set_ne (by omega),
        zeroExtend_getElem?_lt _ (by omega)]
    · rw [h4, List.getElem?_set_ne (by omega), List.getElem?_set_ne (by omega),
        zeroExtend_getElem?_gap (by omega) (by omega)]
  · obtain ⟨_, h2, _, h4⟩ := SetShortLE_spec junk b o v hb
    refine ⟨h2, fun i hi ho => ?_, fun i hi ho => ?_⟩
    · rw [h4, List.getElem?_set_ne (by omega), List.getElem?_set_ne (by omega),
        zeroExtend_getElem?_lt _ (by omega)]
    · rw [h4, List.getElem?_set_ne (by omega), List.getElem?_set_ne (by omega),
        zeroExtend_getElem?_gap (by omega) (by omega)]
  · obtain ⟨_, h2, _, h4⟩ := SetLong_spec junk b o v hb
    refine ⟨h2, fun i hi ho => ?_, fun i hi ho => ?_⟩
    · rw [h4, List.getElem?_set_ne (by omega), List.getElem?_set_ne (by omega),
        List.getElem?_set_ne (by omega), List.getElem?_set_ne (by omega),
        zeroExtend_getElem?_lt _ (by omega)]
    · rw [h4, List.getElem?_set_ne (by omega), List.getElem?_set_ne (by omega),
        List.getElem?_set_ne (by omega), List.getElem?_set_ne (by omega),
        zeroExtend_getElem?_gap (by omega) (by omega)]
  · obtain ⟨_, h2, _, h4⟩ := SetLongLE_spec junk b o v hb
    refine ⟨h2, fun i hi ho => ?_, fun i hi ho => ?_⟩
    · rw [h4, List.getElem?_set_ne (by omega), List.getElem?_set_ne (by omega),
        List.getElem?_set_ne (by omega), List.getElem?_set_ne (by omega),
        zeroExtend_getElem?_lt _ (by omega)]
    · rw [h4, List.getElem?_set_ne (by omega), List.getElem?_set_ne (by omega),
        List.getElem?_set_ne (by omega), List.getElem?_set_ne (by omega),
        zeroExtend_getElem?_gap (by omega) (by omega)]

/-- C3, at a buffer of two bytes in a three-byte block, for sets at offset 4,
beyond its length. -/
theorem set_frame_witness :
    (CKYBuffer.mk [1, 2, 3] 2).WF ∧
    SetFrame ⟨[1, 2, 3], 2⟩ (CKYBuffer_SetChar junkAA ⟨[1, 2, 3], 2⟩ 4 0x5A).2 4 1 ∧
    SetFrame ⟨[1, 2, 3], 2⟩ (CKYBuffer_SetShort junkAA ⟨[1, 2, 3], 2⟩ 4 0x5A).2 4 2 ∧
    SetFrame ⟨[1, 2, 3], 2⟩ (CKYBuffer_SetShortLE junkAA ⟨[1, 2, 3], 2⟩ 4 0x5A).2 4 2 ∧
    SetFrame ⟨[1, 2, 3], 2⟩ (CKYBuffer_SetLong junkAA ⟨[1, 2, 3], 2⟩ 4 0x5A).2 4 4 ∧
    SetFrame ⟨[1, 2, 3], 2⟩ (CKYBuffer_SetLongLE junkAA ⟨[1, 2, 3], 2⟩ 4 0x5A).2 4 4 :=
  ⟨by decide, set_frame junkAA ⟨[1, 2, 3], 2⟩ 4 0x5A (by decide)⟩

/-! ## The command frame -/

section FrameLemmas

/-- The four header bytes of a frame whose bytes are `D`; a frame shorter than
the header counts as filled up with zeros, as `CKYBuffer_Resize` fills it. -/
theorem header_take (D : List Nat) (n : Nat) (hn : 4 ≤ n) :
    ((zeroExtend D n).take n).take 4 = (zeroExtend D 4).take 4 := by
  rw [List.take_take, Nat.min_eq_left hn]
  unfold zeroExtend
  rw [List.take_append_eq_append_take, List.take_append_eq_append_take, List.take_replicate,
    List.take_replicate]
  congr 2
  omega

theorem length_header (D : List Nat) : ((zeroExtend D 4).take 4).length = 4 := by
  rw [List.length_take, length_zeroExtend]
  omega

theorem header_of_take {D : List Nat} {h : List Nat} (hl : h.length = 4) (hd : D.take 4 = h) :
    (zeroExtend D 4).take 4 = h := by
  have : 4 ≤ D.length := by
    have := congrArg List.length hd
    rw [List.length_take, hl] at this
    omega
  rw [zeroExtend_of_le this, hd]

theorem set_at_length (h : List Nat) (x y : Nat) (t : List Nat) :
    (h ++ x :: t).set h.length y = h ++ y :: t := by
  induction h with
  | nil => rfl
  | cons a h ih => simp only [List.cons_append, List.length_cons, List.set_cons_succ, ih]

/-- The function `CKYAPDU_SetSendData` with fewer than 256 bytes of data. -/
theorem SetSendData_direct (junk : Nat → Nat) (apdu : CKYAPDU) (d : List Nat)
    (hwf : apdu.apduBuf.WF) (hn : d.length < 256) :
    (CKYAPDU_SetSendData junk apdu d).1 = CKYSUCCESS ∧
    (CKYAPDU_SetSendData junk apdu d).2.apduBuf.WF ∧
    (CKYAPDU_SetSendData junk apdu d).2.apduBuf.len = d.length + 5 ∧
    (CKYAPDU_SetSendData junk apdu d).2.frame
      = (zeroExtend apdu.frame 4).take 4 ++ d.length :: d := by
  obtain ⟨a1, a2, a3, a4⟩ := Resize_spec junk apdu.apduBuf (d.length + 0 + 5) hwf
  obtain ⟨b1, b2, b3, b4⟩ := SetChar_spec junk _ 4 (d.length % 256) a3
  obtain ⟨c1, c2, c3, c4⟩ := Replace_spec junk _ (5 + 0) d b3 (by omega)
  have hX : ((zeroExtend (CKYBuffer_Data apdu.apduBuf) (d.length + 0 + 5)).take
      (d.length + 0 + 5)).length = d.length + 5 := by
    rw [List.length_take, length_zeroExtend]; omega
  unfold CKYAPDU_SetSendData
  simp only [CKYAPDU_MAX_DATA_LEN, CKYAPDU_HEADER_LEN, CKY_LC_OFFSET, hn, if_true, a1, b1, ne_eq,
    not_true_eq_false, if_false, CKYAPDU.frame]
  refine ⟨c1, c3, by omega, ?_⟩
  rw [c4, b4, a4, zeroExtend_of_le (by omega),
    List.drop_eq_nil_of_le (by rw [List.length_set]; omega), List.append_nil,
    take_set_succ _ (by omega), header_take _ _ (by omega), Nat.mod_eq_of_lt hn]
  simp only [List.append_assoc, List.singleton_append]

/-- The function `CKYAPDU_SetSendData` with 256 to 65535 bytes of data. -/
theorem SetSendData_extended (junk : Nat → Nat) (apdu : CKYAPDU) (d : List Nat)
    (hwf : apdu.apduBuf.WF) (h1 : 256 ≤ d.length) (h2 : d.length < 65536) :
    (CKYAPDU_SetSendData junk apdu d).1 = CKYSUCCESS ∧
    (CKYAPDU_SetSendData junk apdu d).2.apduBuf.WF ∧
    (CKYAPDU_SetSendData junk apdu d).2.apduBuf.len = d.length + 7 ∧
    (CKYAPDU_SetSendData junk apdu d).2.frame
      = (zeroExtend apdu.frame 4).take 4 ++ 0 :: (d.length >>> 8) :: (d.length &&& 0xff) :: d := by
  obtain ⟨a1, a2, a3, a4⟩ := Resize_spec junk apdu.apduBuf (d.length + 2 + 5) hwf
  obtain ⟨b1, b2, b3, b4⟩ := SetChar_spec junk _ 4 0 a3
  obtain ⟨s1, s2, s3, s4⟩ := SetShort_spec junk _ (4 + 1) (d.length % 65536) b3
  obtain ⟨c1, c2, c3, c4⟩ := Replace_spec junk _ (5 + 2) d s3 (by omega)
  have hX : ((zeroExtend (CKYBuffer_Data apdu.apduBuf) (d.length + 2 + 5)).take
      (d.length + 2 + 5)).length = d.length + 7 := by
    rw [List.length_take, length_zeroExtend]; omega
  have hn : ¬ d.length < 256 := by omega
  have hhi : ((d.length % 65536) >>> 8) &&& 0xff = d.length >>> 8 := by
    rw [byte_and, Nat.shiftRight_eq_div_pow, Nat.shiftRight_eq_div_pow]; omega
  have hlo : ((d.length % 65536) >>> 0) &&& 0xff = d.length &&& 0xff := by
    rw [byte_and, byte_and, Nat.shiftRight_zero]; omega
  unfold CKYAPDU_SetSendData
  simp only [CKYAPDU_MAX_DATA_LEN, CKYAPDU_MAX_T1_DATA_LEN, CKYAPDU_HEADER_LEN, CKY_LC_OFFSET, hn,
    h2, if_true, a1, b1, s1, ne_eq, not_true_eq_false, if_false, CKYAPDU.frame]
  refine ⟨c1, c3, by omega, ?_⟩
  have hb : CKYBuffer_Data (CKYBuffer_SetChar junk
      (CKYBuffer_Resize junk apdu.apduBuf (d.length + 2 + 5)).2 4 0).2
      = ((zeroExtend (CKYBuffer_Data apdu.apduBuf) (d.length + 2 + 5)).take
          (d.length + 2 + 5)).set 4 0 := by
    rw [b4, a4, zeroExtend_of_le (by rw [hX]; omega)]
  rw [c4, s4, hb, zeroExtend_of_le (by rw [List.length_set, hX]; omega),
    List.drop_eq_nil_of_le (by rw [List.length_set, List.length_set, List.length_set, hX]; omega),
    List.append_nil, hhi, hlo]
  rw [show (5 : Nat) + 2 = (4 + 1 + 1) + 1 from rfl,
    take_set_succ _ (by rw [List.length_set, List.length_set, hX]; omega),
    show (4 : Nat) + 1 + 1 = (4 + 1 + 0) + 1 from rfl,
    take_set_succ _ (by rw [List.length_set, hX]; omega),
    show (4 : Nat) + 1 + 0 = 4 + 1 from rfl,
    take_set_succ _ (by rw [hX]; omega), header_take _ _ (by omega)]
  simp only [List.append_assoc, List.singleton_append, List.cons_append, List.nil_append]

/-- The function `CKYAPDU_AppendReceiveLen` on a frame longer than the header whose byte 4
is zero: the length goes out in two bytes. -/
theorem AppendReceiveLen_two_bytes (junk : Nat → Nat) (apdu : CKYAPDU) (r : Nat)
    (hwf : apdu.apduBuf.WF) (hlen : 4 < apdu.apduBuf.len)
    (hlc : CKYBuffer_GetChar apdu.apduBuf 4 = 0) (hr : r < 256) :
    (CKYAPDU_AppendReceiveLen junk apdu r).1 = CKYSUCCESS ∧
    (CKYAPDU_AppendReceiveLen junk apdu r).2.frame
      = apdu.frame ++ (if r = 0 then [1, 0] else [0, r]) := by
  unfold CKYAPDU_AppendReceiveLen CKYAPDU.frame
  simp only [CKYBuffer_Size, CKYAPDU_MIN_LEN, CKY_LC_OFFSET, CKYAPDU_MAX_DATA_LEN, gt_iff_lt, hlen,
    hlc, and_self, if_true]
  by_cases h0 : r = 0
  · obtain ⟨a1, _, _, a4⟩ := AppendShort_spec junk apdu.apduBuf 256 hwf
    simp only [h0, ne_eq, not_true_eq_false, if_false, if_true, a1, a4, true_and]
    rfl
  · obtain ⟨a1, _, _, a4⟩ := AppendShort_spec junk apdu.apduBuf r hwf
    have e1 : (r >>> 8) &&& 0xff = 0 := by
      rw [byte_and, Nat.shiftRight_eq_div_pow]; omega
    have e2 : (r >>> 0) &&& 0xff = r := by
      rw [byte_and, Nat.shiftRight_zero]; omega
    simp only [h0, ne_eq, not_false_eq_true, if_true, if_false, a1, a4, true_and, e1, e2]

/-- The function `CKYAPDU_AppendReceiveLen` on a frame longer than the header whose byte 4
is not zero: the length goes out in one byte. -/
theorem AppendReceiveLen_one_byte (junk : Nat → Nat) (apdu : CKYAPDU) (r : Nat)
    (hwf : apdu.apduBuf.WF) (hlc : CKYBuffer_GetChar apdu.apduBuf 4 ≠ 0) :
    (CKYAPDU_AppendReceiveLen junk apdu r).1 = CKYSUCCESS ∧
    (CKYAPDU_AppendReceiveLen junk apdu r).2.frame = apdu.frame ++ [r] := by
  obtain ⟨a1, _, _, a4⟩ := AppendChar_spec junk apdu.apduBuf r hwf
  unfold CKYAPDU_AppendReceiveLen CKYAPDU.frame
  simp only [CKY_LC_OFFSET, hlc, and_false, if_false, a1, a4, and_self]

/-- Byte 4 of a frame made of a four-byte header, a byte `x` and a tail is `x`. -/
theorem getChar_four {buf : CKYBuffer} {H t : List Nat} {x : Nat} (hH : H.length = 4)
    (h : CKYBuffer_Data buf = H ++ x :: t) : CKYBuffer_GetChar buf 4 = x := by
  rw [GetChar_eq_Data, h, List.getD_eq_getElem?_getD, List.getElem?_append_right (by omega)]
  simp only [hH, Nat.sub_self, List.getElem?_cons_zero, Option.getD_some]

end FrameLemmas

/-- C4: on a frame whose first four bytes are the header `cla ins p1 p2`,
`CKYAPDU_SetSendData` succeeds exactly for fewer than 65536 bytes of data;
below 256 the frame becomes the header, the length byte and the data, so that
the four header getters still return the header and byte 4 is the length;
from 256 on it becomes the header, a zero byte, the length in two bytes, high
byte first, and the data; from 65536 on the call returns `CKYDATATOOLONG` and
leaves the frame as it was. -/
theorem SetSendData_frame (junk : Nat → Nat) (apdu : CKYAPDU) (cla ins p1 p2 : Nat)
    (d : List Nat) (hwf : apdu.apduBuf.WF) (hdr : apdu.frame.take 4 = [cla, ins, p1, p2]) :
    ((CKYAPDU_SetSendData junk apdu d).1 = CKYSUCCESS ↔ d.length < 65536) ∧
    (d.length < 256 →
      (CKYAPDU_SetSendData junk apdu d).2.frame = [cla, ins, p1, p2, d.length] ++ d ∧
      CKYAPDU_GetCLA (CKYAPDU_SetSendData junk apdu d).2 = cla ∧
      CKYAPDU_GetINS (CKYAPDU_SetSendData junk apdu d).2 = ins ∧
      CKYAPDU_GetP1 (CKYAPDU_SetSendData junk apdu d).2 = p1 ∧
      CKYAPDU_GetP2 (CKYAPDU_SetSendData junk apdu d).2 = p2 ∧
      CKYBuffer_GetChar (CKYAPDU_SetSendData junk apdu d).2.apduBuf CKY_LC_OFFSET = d.length) ∧
    (256 ≤ d.length → d.length < 65536 →
      (CKYAPDU_SetSendData junk apdu d).2.frame
        = [cla, ins, p1, p2, 0x00, d.length >>> 8, d.length &&& 0xFF] ++ d) ∧
    (65536 ≤ d.length → CKYAPDU_SetSendData junk apdu d = (CKYDATATOOLONG, apdu)) := by
  have hh := header_of_take (by rfl) hdr
  have hlong : 65536 ≤ d.length → CKYAPDU_SetSendData junk apdu d = (CKYDATATOOLONG, apdu) := by
    intro h
    have n1 : ¬ d.length < 256 := by omega
    have n2 : ¬ d.length < 65536 := by omega
    simp only [CKYAPDU_SetSendData, CKYAPDU_MAX_DATA_LEN, CKYAPDU_MAX_T1_DATA_LEN, n1, n2, if_false]
  refine ⟨⟨fun h => ?_, fun h => ?_⟩, fun h => ?_, fun h1 h2 => ?_, hlong⟩
  · by_contra hc
    rw [hlong (by omega)] at h
    exact CKYStatus.noConfusion h
  · by_cases h256 : d.length < 256
    · exact (SetSendData_direct junk apdu d hwf h256).1
    · exact (SetSendData_extended junk apdu d hwf (by omega) h).1
  · obtain ⟨_, _, _, hf⟩ := SetSendData_direct junk apdu d hwf h
    rw [hh] at hf
    have hf0 := hf
    unfold CKYAPDU.frame at hf0
    refine ⟨hf, ?_, ?_, ?_, ?_, ?_⟩ <;>
      simp only [CKYAPDU_GetCLA, CKYAPDU_GetINS, CKYAPDU_GetP1, CKYAPDU_GetP2, CKY_CLA_OFFSET,
        CKY_INS_OFFSET, CKY_P1_OFFSET, CKY_P2_OFFSET, CKY_LC_OFFSET, GetChar_eq_Data, hf0] <;> rfl
  · obtain ⟨_, _, _, hf⟩ := SetSendData_extended junk apdu d hwf h1 h2
    rw [hh] at hf
    exact hf

/-- C4, at the initialised frame with header `80 10 01 02`: three bytes of
data give the direct form, 300 bytes the extended form with length `01 2C`. -/
theorem SetSendData_frame_witness :
    apdu0.apduBuf.WF ∧ apdu0.frame.take 4 = [0x80, 0x10, 0x01, 0x02] ∧
    (CKYAPDU_SetSendData junkAA apdu0 [9, 8, 7]).2.frame
      = [0x80, 0x10, 0x01, 0x02, 3] ++ [9, 8, 7] ∧
    (CKYAPDU_SetSendData junkAA apdu0 (List.replicate 300 7)).2.frame
      = [0x80, 0x10, 0x01, 0x02, 0x00, 300 >>> 8, 300 &&& 0xFF] ++ List.replicate 300 7 :=
  ⟨by decide, by decide,
    ((SetSendData_frame junkAA apdu0 0x80 0x10 0x01 0x02 [9, 8, 7] (by decide) (by decide)).2.1
      (by decide)).1,
    by
      have h := (SetSendData_frame junkAA apdu0 0x80 0x10 0x01 0x02 (List.replicate 300 7)
        (by decide) (by decide)).2.2.1 (by rw [List.length_replicate]; omega)
        (by rw [List.length_replicate]; omega)
      rw [List.length_replicate] at h
      exact h⟩

/-- C5: after `CKYAPDU_SetSendData` with `d1`, `CKYAPDU_AppendSendData` with
`d2` succeeds when the two together are shorter than 256 bytes, and leaves
the very frame that one `CKYAPDU_SetSendData` with `d1 ++ d2` builds from the
same frame: its length byte is `|d1| + |d2|` and its data is `d1 ++ d2`. -/
theorem AppendSendData_recomputes_Lc (junk : Nat → Nat) (apdu : CKYAPDU) (d1 d2 : List Nat)
    (hwf : apdu.apduBuf.WF) (h : d1.length + d2.length < 256) :
    (CKYAPDU_AppendSendData junk (CKYAPDU_SetSendData junk apdu d1).2 d2).1 = CKYSUCCESS ∧
    (CKYAPDU_SetSendData junk apdu (d1 ++ d2)).1 = CKYSUCCESS ∧
    (CKYAPDU_AppendSendData junk (CKYAPDU_SetSendData junk apdu d1).2 d2).2.frame
      = (CKYAPDU_SetSendData junk apdu (d1 ++ d2)).2.frame ∧
    CKYBuffer_GetChar (CKYAPDU_AppendSendData junk (CKYAPDU_SetSendData junk apdu d1).2 d2).2.apduBuf
      CKY_LC_OFFSET = d1.length + d2.length ∧
    (CKYAPDU_AppendSendData junk (CKYAPDU_SetSendData junk apdu d1).2 d2).2.frame.drop 5
      = d1 ++ d2 := by
  obtain ⟨_, w1, l1, f1⟩ := SetSendData_direct junk apdu d1 hwf (by omega)
  obtain ⟨s2, _, _, f2⟩ := SetSendData_direct junk apdu (d1 ++ d2) hwf
    (by rw [List.length_append]; exact h)
  obtain ⟨a1, a2, a3, a4⟩ := AppendData_spec junk _ d2 w1
  obtain ⟨b1, b2, b3, b4⟩ := SetChar_spec junk _ 4
    (((CKYAPDU_SetSendData junk apdu d1).2.apduBuf.len + d2.length - 5) % 256) a3
  have hH : ((zeroExtend (CKYBuffer_Data apdu.apduBuf) 4).take 4).length = 4 := length_header _
  have n1 : ¬ (CKYAPDU_SetSendData junk apdu d1).2.apduBuf.len ≤ 4 := by omega
  have n2 : ¬ (CKYAPDU_SetSendData junk apdu d1).2.apduBuf.len + d2.length - 5 ≥ 256 := by omega
  unfold CKYAPDU.frame at f1 f2
  have hfr : CKYBuffer_Data
      (CKYAPDU_AppendSendData junk (CKYAPDU_SetSendData junk apdu d1).2 d2).2.apduBuf
      = (zeroExtend (CKYBuffer_Data apdu.apduBuf) 4).take 4
        ++ (d1.length + d2.length) :: (d1 ++ d2) := by
    unfold CKYAPDU_AppendSendData
    simp only [CKYBuffer_Size, CKYAPDU_MIN_LEN, CKYAPDU_HEADER_LEN, CKYAPDU_MAX_DATA_LEN,
      CKY_LC_OFFSET, n1, n2, if_false, a1, ne_eq, not_true_eq_false]
    rw [b4, a4, f1, zeroExtend_of_le (by simp only [List.length_append, List.length_cons, hH]; omega),
      List.append_assoc, List.cons_append]
    have e := set_at_length ((zeroExtend (CKYBuffer_Data apdu.apduBuf) 4).take 4) d1.length
      (((CKYAPDU_SetSendData junk apdu d1).2.apduBuf.len + d2.length - 5) % 256) (d1 ++ d2)
    rw [hH] at e
    rw [e, l1]
    congr 2
    omega
  have hst : (CKYAPDU_AppendSendData junk (CKYAPDU_SetSendData junk apdu d1).2 d2).1
      = CKYSUCCESS := by
    unfold CKYAPDU_AppendSendData
    simp only [CKYBuffer_Size, CKYAPDU_MIN_LEN, CKYAPDU_HEADER_LEN, CKYAPDU_MAX_DATA_LEN,
      CKY_LC_OFFSET, n1, n2, if_false, a1, ne_eq, not_true_eq_false, b1]
  unfold CKYAPDU.frame
  refine ⟨hst, s2, ?_, ?_, ?_⟩
  · rw [hfr, f2, List.length_append]
  · rw [GetChar_eq_Data, hfr, CKY_LC_OFFSET, List.getD_eq_getElem?_getD,
      List.getElem?_append_right (by omega)]
    simp only [hH, Nat.sub_self, List.getElem?_cons_zero, Option.getD_some]
  · rw [hfr, show (5 : Nat) = ((zeroExtend (CKYBuffer_Data apdu.apduBuf) 4).take 4).length + 1
      by rw [hH], List.drop_append]
    rfl

/-- C5, at the initialised frame with header `80 10 01 02`. -/
theorem AppendSendData_recomputes_Lc_witness :
    apdu0.apduBuf.WF ∧ [9, 8, 7].length + [1, 2].length < 256 ∧
    (CKYAPDU_AppendSendData junkAA (CKYAPDU_SetSendData junkAA apdu0 [9, 8, 7]).2 [1, 2]).2.frame
      = (CKYAPDU_SetSendData junkAA apdu0 ([9, 8, 7] ++ [1, 2])).2.frame :=
  ⟨by decide, by decide,
    (AppendSendData_recomputes_Lc junkAA apdu0 [9, 8, 7] [1, 2] (by decide) (by decide)).2.2.1⟩

/-- C6: on a frame longer than the four header bytes, `CKYAPDU_AppendSendData`
with data that brings the data length (frame length - 5, plus the new bytes)
to 256 or more returns `CKYDATATOOLONG` and leaves the frame as it was; in
particular it does so, whatever is appended, on a frame that
`CKYAPDU_SetSendData` has built in the extended form. -/
theorem AppendSendData_too_long (junk : Nat → Nat) (apdu : CKYAPDU) (d2 : List Nat) :
    (4 < apdu.apduBuf.len → 256 ≤ (apdu.apduBuf.len - 5) + d2.length →
      CKYAPDU_AppendSendData junk apdu d2 = (CKYDATATOOLONG, apdu)) ∧
    (∀ d, apdu.apduBuf.WF → 256 ≤ d.length → d.length < 65536 →
      CKYAPDU_AppendSendData junk (CKYAPDU_SetSendData junk apdu d).2 d2
        = (CKYDATATOOLONG, (CKYAPDU_SetSendData junk apdu d).2)) := by
  have main : ∀ a : CKYAPDU, 4 < a.apduBuf.len → 256 ≤ (a.apduBuf.len - 5) + d2.length →
      CKYAPDU_AppendSendData junk a d2 = (CKYDATATOOLONG, a) := by
    intro a h1 h2
    have n1 : ¬ a.apduBuf.len ≤ 4 := by omega
    have n2 : a.apduBuf.len + d2.length - 5 ≥ 256 := by omega
    simp only [CKYAPDU_AppendSendData, CKYBuffer_Size, CKYAPDU_MIN_LEN, CKYAPDU_HEADER_LEN,
      CKYAPDU_MAX_DATA_LEN, n1, n2, if_false, if_true]
  refine ⟨main apdu, fun d hwf h1 h2 => ?_⟩
  obtain ⟨_, _, l, _⟩ := SetSendData_extended junk apdu d hwf h1 h2
  exact main _ (by omega) (by omega)

/-- C6, at the eight-byte frame `80 10 01 02 03 09 08 07`: 253 more bytes
would bring the data to 256 bytes. -/
theorem AppendSendData_too_long_witness :
    4 < (CKYAPDU.mk ⟨[0x80, 0x10, 1, 2, 3, 9, 8, 7], 8⟩).apduBuf.len ∧
    256 ≤ ((CKYAPDU.mk ⟨[0x80, 0x10, 1, 2, 3, 9, 8, 7], 8⟩).apduBuf.len - 5)
      + (List.replicate 253 0).length ∧
    CKYAPDU_AppendSendData junkAA ⟨⟨[0x80, 0x10, 1, 2, 3, 9, 8, 7], 8⟩⟩ (List.replicate 253 0)
      = (CKYDATATOOLONG, ⟨⟨[0x80, 0x10, 1, 2, 3, 9, 8, 7], 8⟩⟩) :=
  ⟨by decide, by rw [List.length_replicate]; decide,
    (AppendSendData_too_long junkAA ⟨⟨[0x80, 0x10, 1, 2, 3, 9, 8, 7], 8⟩⟩
      (List.replicate 253 0)).1 (by decide) (by rw [List.length_replicate]; decide)⟩

/-- C7 as stated fails for the empty payload: after `CKYAPDU_SetSendData` with
no data the length byte is 0, and `CKYAPDU_AppendReceiveLen` with 5 appends the
two bytes `00 05`, not the one byte `05`. -/
theorem AppendReceiveLen_empty_data_counterexample :
    apdu0.apduBuf.WF ∧ apdu0.frame.take 4 = [0x80, 0x10, 0x01, 0x02] ∧
    ([] : List Nat).length < 256 ∧
    (CKYAPDU_AppendReceiveLen junkAA (CKYAPDU_SetSendData junkAA apdu0 []).2 5).1 = CKYSUCCESS ∧
    (CKYAPDU_AppendReceiveLen junkAA (CKYAPDU_SetSendData junkAA apdu0 []).2 5).2.frame
      = [0x80, 0x10, 0x01, 0x02, 0, 0, 5] ∧
    (CKYAPDU_AppendReceiveLen junkAA (CKYAPDU_SetSendData junkAA apdu0 []).2 5).2.frame
      ≠ [0x80, 0x10, 0x01, 0x02, ([] : List Nat).length] ++ [] ++ [5] := by
  decide

/-- C7, amended: after `CKYAPDU_SetSendData` with 1 to 255 bytes of data on a
frame with header `cla ins p1 p2`, `CKYAPDU_AppendReceiveLen` with `r` succeeds
and appends the one byte `r`; after `CKYAPDU_SetSendData` with no data the
length byte is 0, which marks the extended form, and the call appends two
bytes: `00 r`, or `01 00` when `r` is 0. -/
theorem AppendReceiveLen_after_direct_data (junk : Nat → Nat) (apdu : CKYAPDU)
    (cla ins p1 p2 : Nat) (d : List Nat) (r : Nat) (hwf : apdu.apduBuf.WF)
    (hdr : apdu.frame.take 4 = [cla, ins, p1, p2]) (hn : d.length < 256) (hr : r < 256) :
    (CKYAPDU_AppendReceiveLen junk (CKYAPDU_SetSendData junk apdu d).2 r).1 = CKYSUCCESS ∧
    (1 ≤ d.length →
      (CKYAPDU_AppendReceiveLen junk (CKYAPDU_SetSendData junk apdu d).2 r).2.frame
        = [cla, ins, p1, p2, d.length] ++ d ++ [r]) ∧
    (d.length = 0 →
      (CKYAPDU_AppendReceiveLen junk (CKYAPDU_SetSendData junk apdu d).2 r).2.frame
        = [cla, ins, p1, p2, 0] ++ (if r = 0 then [1, 0] else [0, r])) := by
  have hh := header_of_take (by rfl) hdr
  obtain ⟨_, w, l, f⟩ := SetSendData_direct junk apdu d hwf hn
  have hlc := getChar_four (length_header apdu.frame) f
  rw [hh] at f
  by_cases h0 : d.length = 0
  · rw [h0] at hlc
    obtain ⟨t1, t2⟩ := AppendReceiveLen_two_bytes junk _ r w (by omega) hlc hr
    refine ⟨t1, fun h => absurd h0 (by omega), fun _ => ?_⟩
    rw [t2, f, h0, List.length_eq_zero.mp h0]
    rfl
  · obtain ⟨t1, t2⟩ := AppendReceiveLen_one_byte junk _ r w (by rw [hlc]; exact h0)
    refine ⟨t1, fun _ => ?_, fun h => absurd h h0⟩
    rw [t2, f]
    rfl

/-- C7, amended, at the initialised frame with header `80 10 01 02`, for one
byte of data and for none. -/
theorem AppendReceiveLen_after_direct_data_witness :
    apdu0.apduBuf.WF ∧ apdu0.frame.take 4 = [0x80, 0x10, 0x01, 0x02] ∧
    (CKYAPDU_AppendReceiveLen junkAA (CKYAPDU_SetSendData junkAA apdu0 [3]).2 5).2.frame
      = [0x80, 0x10, 0x01, 0x02, 1] ++ [3] ++ [5] ∧
    (CKYAPDU_AppendReceiveLen junkAA (CKYAPDU_SetSendData junkAA apdu0 []).2 0).2.frame
      = [0x80, 0x10, 0x01, 0x02, 0] ++ [1, 0] :=
  ⟨by decide, by decide,
    (AppendReceiveLen_after_direct_data junkAA apdu0 0x80 0x10 0x01 0x02 [3] 5 (by decide)
      (by decide) (by decide) (by decide)).2.1 (by decide),
    (AppendReceiveLen_after_direct_data junkAA apdu0 0x80 0x10 0x01 0x02 [] 0 (by decide)
      (by decide) (by decide) (by decide)).2.2 (by decide)⟩

/-- C8: on a frame longer than the four header bytes whose length byte is not
zero, `CKYAPDU_AppendShortReceiveLen` with `r` returns `CKYDATATOOLONG` and
leaves the frame as it was when `r` is 0 or above 256, and for `r` from 1 to
256 it succeeds and appends the one byte `r & 0xff`, which is `00` for 256. -/
theorem AppendShortReceiveLen_on_direct (junk : Nat → Nat) (apdu : CKYAPDU) (r : Nat)
    (hwf : apdu.apduBuf.WF) (hlen : 4 < apdu.apduBuf.len)
    (hlc : CKYBuffer_GetChar apdu.apduBuf CKY_LC_OFFSET ≠ 0) :
    (r = 0 ∨ 256 < r → CKYAPDU_AppendShortReceiveLen junk apdu r = (CKYDATATOOLONG, apdu)) ∧
    (1 ≤ r → r ≤ 256 →
      (CKYAPDU_AppendShortReceiveLen junk apdu r).1 = CKYSUCCESS ∧
      (CKYAPDU_AppendShortReceiveLen junk apdu r).2.frame = apdu.frame ++ [r &&& 0xff]) := by
  refine ⟨fun h => ?_, fun h1 h2 => ?_⟩
  · have h' : r = 0 ∨ r > 256 := h
    simp only [CKYAPDU_AppendShortReceiveLen, CKYBuffer_Size, CKYAPDU_MIN_LEN,
      CKYAPDU_MAX_DATA_LEN, gt_iff_lt, hlen, if_true, hlc, ne_eq, not_false_eq_true, h]
  · have n : ¬ (r = 0 ∨ 256 < r) := by omega
    have e : (r % 256) &&& 0xff = r &&& 0xff := by
      rw [byte_and, byte_and]; omega
    obtain ⟨a1, _, _, a4⟩ := AppendChar_spec junk apdu.apduBuf (r &&& 0xff) hwf
    simp only [CKYAPDU_AppendShortReceiveLen, CKYBuffer_Size, CKYAPDU_MIN_LEN,
      CKYAPDU_MAX_DATA_LEN, gt_iff_lt, hlen, if_true, hlc, ne_eq, not_false_eq_true, n, if_false,
      a1, CKYAPDU.frame, a4, e, and_self]

/-- C8, at the six-byte frame `80 10 01 02 01 03`: 0 and 257 are refused, and
256 is appended as `00`. -/
theorem AppendShortReceiveLen_on_direct_witness :
    (CKYBuffer.mk [0x80, 0x10, 1, 2, 1, 3] 6).WF ∧
    4 < (CKYBuffer.mk [0x80, 0x10, 1, 2, 1, 3] 6).len ∧
    CKYBuffer_GetChar ⟨[0x80, 0x10, 1, 2, 1, 3], 6⟩ CKY_LC_OFFSET ≠ 0 ∧
    CKYAPDU_AppendShortReceiveLen junkAA ⟨⟨[0x80, 0x10, 1, 2, 1, 3], 6⟩⟩ 0
      = (CKYDATATOOLONG, ⟨⟨[0x80, 0x10, 1, 2, 1, 3], 6⟩⟩) ∧
    CKYAPDU_AppendShortReceiveLen junkAA ⟨⟨[0x80, 0x10, 1, 2, 1, 3], 6⟩⟩ 257
      = (CKYDATATOOLONG, ⟨⟨[0x80, 0x10, 1, 2, 1, 3], 6⟩⟩) ∧
    (CKYAPDU_AppendShortReceiveLen junkAA ⟨⟨[0x80, 0x10, 1, 2, 1, 3], 6⟩⟩ 256).2.frame
      = (CKYAPDU.mk ⟨[0x80, 0x10, 1, 2, 1, 3], 6⟩).frame ++ [256 &&& 0xff] :=
  ⟨by decide, by decide, by decide,
    (AppendShortReceiveLen_on_direct junkAA ⟨⟨[0x80, 0x10, 1, 2, 1, 3], 6⟩⟩ 0 (by decide)
      (by decide) (by decide)).1 (by decide),
    (AppendShortReceiveLen_on_direct junkAA ⟨⟨[0x80, 0x10, 1, 2, 1, 3], 6⟩⟩ 257 (by decide)
      (by decide) (by decide)).1 (by decide),
    ((AppendShortReceiveLen_on_direct junkAA ⟨⟨[0x80, 0x10, 1, 2, 1, 3], 6⟩⟩ 256 (by decide)
      (by decide) (by decide)).2 (by decide) (by decide)).2⟩

set_option maxRecDepth 100000 in
/-- C9 as stated fails: on the frame that `CKYAPDU_SetSendData` builds from 256
bytes of data, which is in the extended form, `CKYAPDU_AppendReceiveLen` with 5
returns `CKYSUCCESS` and the frame is not the one before the call. -/
theorem AppendReceiveLen_on_extended_counterexample :
    256 ≤ (List.replicate 256 7).length ∧ (List.replicate 256 7).length < 65536 ∧
    (CKYAPDU_AppendReceiveLen junkAA
      (CKYAPDU_SetSendData junkAA apdu0 (List.replicate 256 7)).2 5).1 = CKYSUCCESS ∧
    (CKYAPDU_AppendReceiveLen junkAA
      (CKYAPDU_SetSendData junkAA apdu0 (List.replicate 256 7)).2 5).2.frame
      ≠ (CKYAPDU_SetSendData junkAA apdu0 (List.replicate 256 7)).2.frame := by
  decide

/-- C9, amended: on the frame that `CKYAPDU_SetSendData` builds from 256 to
65535 bytes of data, `CKYAPDU_AppendReceiveLen` with a byte `r` succeeds and
appends the expected length in two bytes, high byte first: `00 r`, or `01 00`
(256) when `r` is 0. -/
theorem AppendReceiveLen_on_extended (junk : Nat → Nat) (apdu : CKYAPDU) (d : List Nat)
    (r : Nat) (hwf : apdu.apduBuf.WF) (h1 : 256 ≤ d.length) (h2 : d.length < 65536)
    (hr : r < 256) :
    (CKYAPDU_AppendReceiveLen junk (CKYAPDU_SetSendData junk apdu d).2 r).1 = CKYSUCCESS ∧
    (CKYAPDU_AppendReceiveLen junk (CKYAPDU_SetSendData junk apdu d).2 r).2.frame
      = (CKYAPDU_SetSendData junk apdu d).2.frame ++ (if r = 0 then [1, 0] else [0, r]) := by
  obtain ⟨_, w, l, f⟩ := SetSendData_extended junk apdu d hwf h1 h2
  have hlc := getChar_four (length_header apdu.frame) f
  exact AppendReceiveLen_two_bytes junk _ r w (by omega) hlc hr

set_option maxRecDepth 100000 in
/-- C9, amended, at the initialised frame with header `80 10 01 02` and 256
bytes of data. -/
theorem AppendReceiveLen_on_extended_witness :
    apdu0.apduBuf.WF ∧ 256 ≤ (List.replicate 256 7).length ∧
    (List.replicate 256 7).length < 65536 ∧
    (CKYAPDU_AppendReceiveLen junkAA
      (CKYAPDU_SetSendData junkAA apdu0 (List.replicate 256 7)).2 5).2.frame
      = (CKYAPDU_SetSendData junkAA apdu0 (List.replicate 256 7)).2.frame
        ++ (if 5 = 0 then [1, 0] else [0, 5]) :=
  ⟨by decide, by decide, by decide,
    (AppendReceiveLen_on_extended junkAA apdu0 (List.replicate 256 7) 5 (by decide) (by decide)
      (by decide) (by decide)).2⟩

/-! ## The attribute store -/

section StoreLemmas

theorem find_if_none {α : Type} (pred : α → Bool) (l : List α)
    (h : ∀ x ∈ l, pred x = false) : find_if pred l = none := by
  induction l with
  | nil => rfl
  | cons a l ih =>
    have ha := h a (List.mem_cons_self a l)
    have hl := ih (fun x hx => h x (List.mem_cons_of_mem a hx))
    simp only [find_if, ha, hl, Bool.false_eq_true, if_false, Option.map_none']

theorem find_if_first {α : Type} (pred : α → Bool) (pre : List α) (a : α) (post : List α)
    (h : ∀ x ∈ pre, pred x = false) (ha : pred a = true) :
    find_if pred (pre ++ a :: post) = some pre.length := by
  induction pre with
  | nil => simp only [List.nil_append, find_if, ha, if_true, List.length_nil]
  | cons b pre ih =>
    have hb := h b (List.mem_cons_self b pre)
    have hp := ih (fun x hx => h x (List.mem_cons_of_mem b hx))
    show find_if pred (b :: (pre ++ a :: post)) = some (pre.length + 1)
    rw [find_if, hp]
    simp only [hb, Bool.false_eq_true, if_false, Option.map_some']

/-- A list with an element that satisfies `pred` splits at the first such
element. -/
theorem split_at_first {α : Type} (pred : α → Bool) (l : List α)
    (h : ∃ x ∈ l, pred x = true) :
    ∃ pre a post, l = pre ++ a :: post ∧ (∀ x ∈ pre, pred x = false) ∧ pred a = true := by
  induction l with
  | nil =>
    obtain ⟨x, hx, _⟩ := h
    exact absurd hx (List.not_mem_nil x)
  | cons b l ih =>
    by_cases hb : pred b = true
    · exact ⟨[], b, l, rfl, fun x hx => absurd hx (List.not_mem_nil x), hb⟩
    · obtain ⟨x, hx, hpx⟩ := h
      have hx' : x ∈ l := by
        rcases List.mem_cons.mp hx with e | e
        · rw [e] at hpx; exact absurd hpx hb
        · exact e
      obtain ⟨pre, a, post, e, hpre, ha⟩ := ih ⟨x, hx', hpx⟩
      refine ⟨b :: pre, a, post, by rw [e]; rfl, fun y hy => ?_, ha⟩
      rcases List.mem_cons.mp hy with e' | e'
      · rw [e']; exact Bool.eq_false_iff.mpr hb
      · exact hpre y e'

theorem updateAt_first {α : Type} (pre : List α) (a : α) (post : List α) (f : α → α) :
    updateAt (pre ++ a :: post) pre.length f = pre ++ f a :: post := by
  have e : (pre ++ a :: post)[pre.length]? = some a := by
    rw [List.getElem?_append_right (Nat.le_refl _), Nat.sub_self, List.getElem?_cons_zero]
  have e' : (pre ++ a :: post).set pre.length (f a) = pre ++ f a :: post := by
    induction pre with
    | nil => rfl
    | cons b pre ih =>
      show b :: (pre ++ a :: post).set pre.length (f a) = b :: (pre ++ f a :: post)
      rw [ih]
      rw [List.getElem?_append_right (Nat.le_refl _), Nat.sub_self, List.getElem?_cons_zero]
  unfold updateAt
  rw [e]
  exact e'

/-- The effect of `setAttribute` on a store whose first entry of the type is `a`. -/
theorem setAttribute_first (pre : List PKCS11Attribute) (a : PKCS11Attribute)
    (post : List PKCS11Attribute) (t : Nat) (v : CKYBuffer)
    (hpre : ∀ x ∈ pre, x.type ≠ t) (ha : a.type = t) :
    setAttribute (pre ++ a :: post) t v = pre ++ ⟨t, CKYBuffer_Data v⟩ :: post := by
  have h1 : ∀ x ∈ pre, AttributeTypeMatch t x = false := fun x hx => by
    simp only [AttributeTypeMatch, beq_eq_false_iff_ne, ne_eq]
    exact hpre x hx
  have h2 : AttributeTypeMatch t a = true := by
    simp only [AttributeTypeMatch, beq_iff_eq, ha]
  unfold setAttribute
  rw [find_if_first _ pre a post h1 h2]
  simp only [updateAt_first, PKCS11Attribute.setValue, ha]

/-- The effect of `setAttribute` on a store without an entry of the type. -/
theorem setAttribute_absent (attrs : List PKCS11Attribute) (t : Nat) (v : CKYBuffer)
    (h : ∀ x ∈ attrs, x.type ≠ t) :
    setAttribute attrs t v = attrs ++ [⟨t, CKYBuffer_Data v⟩] := by
  have h1 : ∀ x ∈ attrs, AttributeTypeMatch t x = false := fun x hx => by
    simp only [AttributeTypeMatch, beq_eq_false_iff_ne, ne_eq]
    exact h x hx
  unfold setAttribute
  rw [find_if_none _ attrs h1]
  rfl

/-- Every store either has a first entry of type `t` or none at all. -/
theorem store_cases (attrs : List PKCS11Attribute) (t : Nat) :
    (∃ pre a post, attrs = pre ++ a :: post ∧ (∀ x ∈ pre, x.type ≠ t) ∧ a.type = t) ∨
    (∀ x ∈ attrs, x.type ≠ t) := by
  by_cases h : ∃ x ∈ attrs, AttributeTypeMatch t x = true
  · obtain ⟨pre, a, post, e, hpre, ha⟩ := split_at_first _ attrs h
    refine Or.inl ⟨pre, a, post, e, fun x hx => ?_, ?_⟩
    · have := hpre x hx
      simpa only [AttributeTypeMatch, beq_eq_false_iff_ne, ne_eq] using this
    · simpa only [AttributeTypeMatch, beq_iff_eq] using ha
  · refine Or.inr fun x hx hxt => h ⟨x, hx, ?_⟩
    simp only [AttributeTypeMatch, beq_iff_eq, hxt]

theorem getAttribute_first (pre : List PKCS11Attribute) (a : PKCS11Attribute)
    (post : List PKCS11Attribute) (t : Nat)
    (hpre : ∀ x ∈ pre, x.type ≠ t) (ha : a.type = t) :
    getAttribute (pre ++ a :: post) t = some a.value := by
  have h1 : ∀ x ∈ pre, AttributeTypeMatch t x = false := fun x hx => by
    simp only [AttributeTypeMatch, beq_eq_false_iff_ne, ne_eq]
    exact hpre x hx
  have h2 : AttributeTypeMatch t a = true := by
    simp only [AttributeTypeMatch, beq_iff_eq, ha]
  unfold getAttribute
  rw [find_if_first _ pre a post h1 h2]
  simp only [List.getElem?_append_right (Nat.le_refl _), Nat.sub_self, List.getElem?_cons_zero,
    Option.map_some']

end StoreLemmas

/-- C10: `setAttribute` with type `t` and value `v`. When the first entry of
type `t` is `a`, after the entries `pre` and before the entries `post`, the
store becomes `pre`, the entry `(t, v)` and `post`: same length, same types in
the same order, every other entry as it was. When no entry has type `t` the
store becomes the old one followed by `(t, v)`. In both cases the lookup of
`t` then returns `v`, and a second `setAttribute` with the same type and a
value `w` gives the store a single `setAttribute` with `w` gives, of the same
length: one position, and the second value. -/
theorem setAttribute_overwrites_in_place (attrs : List PKCS11Attribute) (t : Nat)
    (v w : CKYBuffer) :
    (∀ pre a post, attrs = pre ++ a :: post → (∀ x ∈ pre, x.type ≠ t) → a.type = t →
      setAttribute attrs t v = pre ++ ⟨t, CKYBuffer_Data v⟩ :: post) ∧
    ((∃ a ∈ attrs, a.type = t) →
      (setAttribute attrs t v).length = attrs.length ∧
      (setAttribute attrs t v).map (·.type) = attrs.map (·.type)) ∧
    ((∀ a ∈ attrs, a.type ≠ t) → setAttribute attrs t v = attrs ++ [⟨t, CKYBuffer_Data v⟩]) ∧
    getAttribute (setAttribute attrs t v) t = some (CKYBuffer_Data v) ∧
    setAttribute (setAttribute attrs t v) t w = setAttribute attrs t w ∧
    (setAttribute (setAttribute attrs t v) t w).length = (setAttribute attrs t v).length := by
  have hfirst : ∀ pre a post, attrs = pre ++ a :: post → (∀ x ∈ pre, x.type ≠ t) → a.type = t →
      setAttribute attrs t v = pre ++ ⟨t, CKYBuffer_Data v⟩ :: post := by
    intro pre a post e hpre ha
    rw [e]
    exact setAttribute_first pre a post t v hpre ha
  refine ⟨hfirst, ?_, setAttribute_absent attrs t v, ?_, ?_, ?_⟩
  · intro hex
    rcases store_cases attrs t with ⟨pre, a, post, e, hpre, ha⟩ | habs
    · rw [hfirst pre a post e hpre ha, e]
      simp only [List.length_append, List.length_cons, List.map_append, List.map_cons, ha, and_self]
    · obtain ⟨a, ha, hat⟩ := hex
      exact absurd hat (habs a ha)
  · rcases store_cases attrs t with ⟨pre, a, post, e, hpre, ha⟩ | habs
    · rw [hfirst pre a post e hpre ha]
      exact getAttribute_first pre _ post t hpre rfl
    · rw [setAttribute_absent attrs t v habs]
      exact getAttribute_first attrs _ [] t habs rfl
  · rcases store_cases attrs t with ⟨pre, a, post, e, hpre, ha⟩ | habs
    · rw [hfirst pre a post e hpre ha, setAttribute_first pre _ post t w hpre rfl, e,
        setAttribute_first pre a post t w hpre ha]
    · rw [setAttribute_absent attrs t v habs, setAttribute_first attrs _ [] t w habs rfl,
        setAttribute_absent attrs t w habs]
  · rcases store_cases attrs t with ⟨pre, a, post, e, hpre, ha⟩ | habs
    · rw [hfirst pre a post e hpre ha, setAttribute_first pre _ post t w hpre rfl]
      simp only [List.length_append, List.length_cons]
    · rw [setAttribute_absent attrs t v habs, setAttribute_first attrs _ [] t w habs rfl]
      simp only [List.length_append, List.length_cons]

/-- C10, at a store of three entries of types 1, 2 and 1: the first entry of
type 1 takes the new value and the later one keeps its own; type 3 is absent
and is appended. -/
theorem setAttribute_overwrites_in_place_witness :
    setAttribute [⟨1, [10]⟩, ⟨2, [20]⟩, ⟨1, [30]⟩] 1 ⟨[7, 8, 9], 2⟩
      = [⟨1, [7, 8]⟩, ⟨2, [20]⟩, ⟨1, [30]⟩] ∧
    setAttribute [⟨1, [10]⟩, ⟨2, [20]⟩, ⟨1, [30]⟩] 3 ⟨[7, 8, 9], 2⟩
      = [⟨1, [10]⟩, ⟨2, [20]⟩, ⟨1, [30]⟩, ⟨3, [7, 8]⟩] :=
  ⟨(setAttribute_overwrites_in_place [⟨1, [10]⟩, ⟨2, [20]⟩, ⟨1, [30]⟩] 1 ⟨[7, 8, 9], 2⟩
      ⟨[], 0⟩).1 [] ⟨1, [10]⟩ [⟨2, [20]⟩, ⟨1, [30]⟩] rfl (by decide) rfl,
    (setAttribute_overwrites_in_place [⟨1, [10]⟩, ⟨2, [20]⟩, ⟨1, [30]⟩] 3 ⟨[7, 8, 9], 2⟩
      ⟨[], 0⟩).2.2.1 (by decide)⟩

/-! ## Attribute queries and the decoder of card objects -/

/-! ## Attribute queries -/

section QueryLemmas

theorem find_if_eq_none_iff {α : Type} (pred : α → Bool) (l : List α) :
    find_if pred l = none ↔ ∀ x ∈ l, pred x = false := by
  induction l with
  | nil => simp [find_if]
  | cons a l ih =>
    by_cases ha : pred a = true
    · simp [find_if, ha]
    · have ha' : pred a = false := Bool.eq_false_iff.mpr ha
      simp only [find_if, ha', Bool.false_eq_true, if_false, Option.map_eq_none', ih,
        List.mem_cons, forall_eq_or_imp, true_and]

theorem find_if_some_getElem {α : Type} (pred : α → Bool) (l : List α) (i : Nat)
    (h : find_if pred l = some i) : ∃ a, l[i]? = some a ∧ pred a = true := by
  induction l generalizing i with
  | nil => simp [find_if] at h
  | cons b l ih =>
    by_cases hb : pred b = true
    · simp only [find_if, hb, if_true, Option.some.injEq] at h
      subst h
      exact ⟨b, List.getElem?_cons_zero, hb⟩
    · have hb' : pred b = false := Bool.eq_false_iff.mpr hb
      simp only [find_if, hb', Bool.false_eq_true, if_false, Option.map_eq_some'] at h
      obtain ⟨j, hj, rfl⟩ := h
      obtain ⟨a, ha, hp⟩ := ih j hj
      exact ⟨a, by simpa using ha, hp⟩

theorem absent_iff (attrs : List PKCS11Attribute) (t : Nat) :
    find_if (AttributeTypeMatch t) attrs = none ↔ ∀ a ∈ attrs, a.type ≠ t := by
  rw [find_if_eq_none_iff]
  simp only [AttributeTypeMatch, beq_eq_false_iff_ne, ne_eq]

theorem getAttribute_eq_none_iff (attrs : List PKCS11Attribute) (t : Nat) :
    getAttribute attrs t = none ↔ ∀ a ∈ attrs, a.type ≠ t := by
  rw [← absent_iff]
  unfold getAttribute
  cases h : find_if (AttributeTypeMatch t) attrs with
  | none => simp
  | some i =>
    obtain ⟨a, ha, _⟩ := find_if_some_getElem _ _ _ h
    simp [ha]

theorem getAttribute_of_find {attrs : List PKCS11Attribute} {t i : Nat}
    (h : find_if (AttributeTypeMatch t) attrs = some i) :
    getAttribute attrs t = some (deref attrs i).value := by
  obtain ⟨a, ha, _⟩ := find_if_some_getElem _ _ _ h
  unfold getAttribute deref
  simp [h, ha, List.getD_eq_getElem?_getD]

theorem Size_getValue (a : PKCS11Attribute) : CKYBuffer_Size a.getValue = a.value.length := rfl

theorem Data_getValue (a : PKCS11Attribute) : CKYBuffer_Data a.getValue = a.value := by
  simp [CKYBuffer_Data, PKCS11Attribute.getValue]

theorem getAttributeValue_loop_eq (host : Host) (attrs : List PKCS11Attribute)
    (tpl : List CK_ATTRIBUTE) (inv small : Bool) :
    getAttributeValue_loop host attrs tpl inv small
      = (tpl.map (entryOut host attrs), inv || tpl.any (entryAbsent attrs),
          small || tpl.any (entrySmall attrs)) := by
  induction tpl generalizing inv small with
  | nil => simp [getAttributeValue_loop]
  | cons t rest ih =>
    unfold getAttributeValue_loop
    cases h : find_if (AttributeTypeMatch t.type) attrs with
    | none =>
      have hg : getAttribute attrs t.type = none := by
        rw [getAttribute_eq_none_iff, ← absent_iff]; exact h
      simp [ih, entryOut, entryAbsent, entrySmall, hg]
    | some i =>
      have hg := getAttribute_of_find h
      cases hp : t.pValue with
      | none =>
        simp [ih, entryOut, entryAbsent, entrySmall, hg, hp, Size_getValue]
      | some buf =>
        by_cases hlt : t.ulValueLen < (deref attrs i).value.length
        · simp [ih, entryOut, entryAbsent, entrySmall, hg, hp, Size_getValue, hlt]
        · simp [ih, entryOut, entryAbsent, entrySmall, hg, hp, Size_getValue, hlt, Data_getValue,
            memcpy]

end QueryLemmas

/-- C11: `getAttributeValue` throws `CKR_ATTRIBUTE_TYPE_INVALID` exactly when
some type of the template is absent from the store; when every type is
present it throws `CKR_BUFFER_TOO_SMALL` exactly when some entry gives a
buffer whose capacity is below the length of the stored value, and else it
throws nothing. In particular a template of an absent type and a present one
with too small a buffer gives `CKR_ATTRIBUTE_TYPE_INVALID` in either order. -/
theorem getAttributeValue_result (host : Host) (attrs : List PKCS11Attribute)
    (tpl : List CK_ATTRIBUTE) :
    ((getAttributeValue host attrs tpl).1 = Except.error CKR_ATTRIBUTE_TYPE_INVALID ↔
      ∃ t ∈ tpl, ∀ a ∈ attrs, a.type ≠ t.type) ∧
    ((∀ t ∈ tpl, ∃ a ∈ attrs, a.type = t.type) →
      ((getAttributeValue host attrs tpl).1 = Except.error CKR_BUFFER_TOO_SMALL ↔
        ∃ t ∈ tpl, ∃ buf v, t.pValue = some buf ∧ getAttribute attrs t.type = some v ∧
          t.ulValueLen < v.length)) ∧
    ((∀ t ∈ tpl, ∃ a ∈ attrs, a.type = t.type) →
      (¬ ∃ t ∈ tpl, ∃ buf v, t.pValue = some buf ∧ getAttribute attrs t.type = some v ∧
          t.ulValueLen < v.length) →
      (getAttributeValue host attrs tpl).1 = Except.ok ()) ∧
    (∀ absent present buf v, (∀ a ∈ attrs, a.type ≠ absent.type) →
      present.pValue = some buf → getAttribute attrs present.type = some v →
      present.ulValueLen < v.length →
      (getAttributeValue host attrs [absent, present]).1
        = Except.error CKR_ATTRIBUTE_TYPE_INVALID ∧
      (getAttributeValue host attrs [present, absent]).1
        = Except.error CKR_ATTRIBUTE_TYPE_INVALID) := by
  have habs : ∀ tpl : List CK_ATTRIBUTE, tpl.any (entryAbsent attrs) = true ↔
      ∃ t ∈ tpl, ∀ a ∈ attrs, a.type ≠ t.type := by
    intro tpl
    simp only [List.any_eq_true, entryAbsent, Option.isNone_iff_eq_none, getAttribute_eq_none_iff]
  have hsmall : ∀ tpl : List CK_ATTRIBUTE, tpl.any (entrySmall attrs) = true ↔
      ∃ t ∈ tpl, ∃ buf v, t.pValue = some buf ∧ getAttribute attrs t.type = some v ∧
        t.ulValueLen < v.length := by
    intro tpl
    simp only [List.any_eq_true]
    constructor
    · rintro ⟨t, ht, hs⟩
      refine ⟨t, ht, ?_⟩
      unfold entrySmall at hs
      cases hg : getAttribute attrs t.type with
      | none => simp [hg] at hs
      | some v =>
        cases hp : t.pValue with
        | none => simp [hg, hp] at hs
        | some buf =>
          simp only [hg, hp, decide_eq_true_eq] at hs
          exact ⟨buf, v, rfl, rfl, hs⟩
    · rintro ⟨t, ht, buf, v, hp, hg, hlt⟩
      exact ⟨t, ht, by simp [entrySmall, hg, hp, hlt]⟩
  have hinv : ∀ tpl : List CK_ATTRIBUTE,
      (getAttributeValue host attrs tpl).1 = Except.error CKR_ATTRIBUTE_TYPE_INVALID ↔
        ∃ t ∈ tpl, ∀ a ∈ attrs, a.type ≠ t.type := by
    intro tpl
    rw [← habs]
    unfold getAttributeValue
    rw [getAttributeValue_loop_eq]
    simp only [Bool.false_or]
    by_cases h1 : tpl.any (entryAbsent attrs) = true
    · simp [h1]
    · by_cases h2 : tpl.any (entrySmall attrs) = true
      · simp [h1, h2]
      · simp [h1, h2]
  have hpres : ∀ tpl : List CK_ATTRIBUTE, (∀ t ∈ tpl, ∃ a ∈ attrs, a.type = t.type) →
      tpl.any (entryAbsent attrs) = false := by
    intro tpl h
    rw [Bool.eq_false_iff, ne_eq, habs]
    rintro ⟨t, ht, ha⟩
    obtain ⟨a, ham, hat⟩ := h t ht
    exact ha a ham hat
  refine ⟨hinv tpl, fun hp => ?_, fun hp hs => ?_, ?_⟩
  · rw [← hsmall]
    unfold getAttributeValue
    rw [getAttributeValue_loop_eq]
    simp only [Bool.false_or, hpres tpl hp, Bool.false_eq_true, if_false]
    by_cases h2 : tpl.any (entrySmall attrs) = true
    · simp [h2]
    · simp [h2]
  · rw [← hsmall] at hs
    unfold getAttributeValue
    rw [getAttributeValue_loop_eq]
    simp only [Bool.false_or, hpres tpl hp, Bool.false_eq_true, if_false, hs]
  · intro absent present buf v ha _ _ _
    exact ⟨(hinv _).mpr ⟨absent, by simp, ha⟩, (hinv _).mpr ⟨absent, by simp, ha⟩⟩

/-- C11, at a store with types 1 and 2: type 7 is absent and the buffer given
for type 1 is too small, in both orders. -/
theorem getAttributeValue_result_witness :
    (getAttributeValue host32 [⟨1, [1, 2, 3]⟩, ⟨2, [9]⟩]
      [⟨7, some [0], 1⟩, ⟨1, some [0, 0], 2⟩]).1 = Except.error CKR_ATTRIBUTE_TYPE_INVALID ∧
    (getAttributeValue host32 [⟨1, [1, 2, 3]⟩, ⟨2, [9]⟩]
      [⟨1, some [0, 0], 2⟩, ⟨7, some [0], 1⟩]).1 = Except.error CKR_ATTRIBUTE_TYPE_INVALID :=
  (getAttributeValue_result host32 [⟨1, [1, 2, 3]⟩, ⟨2, [9]⟩]
    []).2.2.2 ⟨7, some [0], 1⟩ ⟨1, some [0, 0], 2⟩ [0, 0] [1, 2, 3] (by decide) rfl (by decide)
    (by decide)

/-- C12: `getAttributeValue` leaves a template of the same length in which
every entry depends on the entry it was alone: with the type absent the
length is `(CK_ULONG)-1`; with the type present and no buffer the length is
the stored length; with a buffer whose capacity is below the stored length the
length is `(CK_ULONG)-1` and the buffer is as it was; and else the buffer
starts with the stored bytes and the length is the stored length. This holds
whatever the call throws. -/
theorem getAttributeValue_entries (host : Host) (attrs : List PKCS11Attribute)
    (tpl : List CK_ATTRIBUTE) :
    (getAttributeValue host attrs tpl).2.length = tpl.length ∧
    ∀ (i : Nat) (t : CK_ATTRIBUTE), tpl[i]? = some t →
      ∃ t' : CK_ATTRIBUTE, (getAttributeValue host attrs tpl).2[i]? = some t' ∧
        t'.type = t.type ∧
        ((∀ a ∈ attrs, a.type ≠ t.type) →
          t'.ulValueLen = host.ulongMinusOne ∧ t'.pValue = t.pValue) ∧
        (∀ v, getAttribute attrs t.type = some v →
          (t.pValue = none → t'.ulValueLen = v.length ∧ t'.pValue = none) ∧
          (∀ buf, t.pValue = some buf → t.ulValueLen < v.length →
            t'.ulValueLen = host.ulongMinusOne ∧ t'.pValue = some buf) ∧
          (∀ buf, t.pValue = some buf → v.length ≤ t.ulValueLen →
            t'.ulValueLen = v.length ∧ t'.pValue = some (v ++ buf.drop v.length))) := by
  have hout : (getAttributeValue host attrs tpl).2 = tpl.map (entryOut host attrs) := by
    unfold getAttributeValue
    rw [getAttributeValue_loop_eq]
    simp only [Bool.false_or]
    split
    · rfl
    · split <;> rfl
  rw [hout]
  refine ⟨List.length_map _ _, fun i t hi => ⟨entryOut host attrs t, ?_, ?_, ?_, ?_⟩⟩
  · rw [List.getElem?_map, hi]; rfl
  · unfold entryOut
    split
    · rfl
    · split
      · rfl
      · split <;> rfl
  · intro ha
    rw [← getAttribute_eq_none_iff] at ha
    simp only [entryOut, ha, and_self]
  · intro v hv
    refine ⟨fun hp => ?_, fun buf hp hlt => ?_, fun buf hp hle => ?_⟩
    · simp only [entryOut, hv, hp, and_self]
    · simp only [entryOut, hv, hp, hlt, if_true, and_self]
    · have : ¬ t.ulValueLen < v.length := by omega
      simp only [entryOut, hv, hp, this, if_false, and_self]

/-- C12, at a store with types 1 and 2 and a template of four entries, of which
the second asks for an absent type. -/
theorem getAttributeValue_entries_witness :
    (getAttributeValue host32 [⟨1, [1, 2, 3]⟩, ⟨2, [9]⟩]
      [⟨1, some [0, 0, 0, 0, 0], 5⟩, ⟨7, some [0], 1⟩, ⟨2, none, 0⟩, ⟨1, some [0, 0], 2⟩]).2
      = [⟨1, some [1, 2, 3, 0, 0], 3⟩, ⟨7, some [0], 2 ^ 32 - 1⟩, ⟨2, none, 1⟩,
          ⟨1, some [0, 0], 2 ^ 32 - 1⟩] ∧
    ∃ t' : CK_ATTRIBUTE, (getAttributeValue host32 [⟨1, [1, 2, 3]⟩, ⟨2, [9]⟩]
      [⟨1, some [0, 0, 0, 0, 0], 5⟩, ⟨7, some [0], 1⟩, ⟨2, none, 0⟩, ⟨1, some [0, 0], 2⟩]).2[0]?
        = some t' ∧ t'.type = 1 :=
  ⟨by decide,
    by
      obtain ⟨t', h1, h2, _⟩ := (getAttributeValue_entries host32
        [⟨1, [1, 2, 3]⟩, ⟨2, [9]⟩]
        [⟨1, some [0, 0, 0, 0, 0], 5⟩, ⟨7, some [0], 1⟩, ⟨2, none, 0⟩, ⟨1, some [0, 0], 2⟩]).2
        0 ⟨1, some [0, 0, 0, 0, 0], 5⟩ rfl
      exact ⟨t', h1, h2⟩⟩

section MatchLemmas

theorem InitFromData_Data (junk : Nat → Nat) (d : List Nat) :
    CKYBuffer_Data (CKYBuffer_InitFromData junk d).2 = d := by
  obtain ⟨ext, he, hle⟩ := Reserve_eq junk ckyBuffer_initBuffer d.length
  unfold CKYBuffer_InitFromData
  simp only [he, ne_eq, not_true_eq_false, if_false, CKYBuffer_Data, memcpy, List.take_zero,
    List.nil_append, Nat.zero_add]
  rw [List.take_append_of_le_length (Nat.le_refl _), List.take_of_length_le (Nat.le_refl _)]

theorem length_encodeULong (host : Host) (v : Nat) :
    (host.encodeULong v).length = host.sizeofULong := by
  unfold Host.encodeULong
  split <;> simp

/-- When `AttributeMatch` holds: same type, same length, same bytes. -/
theorem AttributeMatch_iff (t : CK_ATTRIBUTE) (a : PKCS11Attribute) :
    AttributeMatch t a = true ↔
      a.type = t.type ∧ a.value.length = t.ulValueLen ∧
        a.value = (t.pValue.getD []).take t.ulValueLen := by
  unfold AttributeMatch CKYBuffer_DataIsEqual PKCS11Attribute.getValue PKCS11Attribute.getType
  simp only [Bool.and_eq_true, beq_iff_eq, ne_eq, ite_not]
  by_cases hl : a.value.length = t.ulValueLen
  · simp only [← hl, if_true, List.take_length, true_and]
    by_cases h0 : a.value.length = 0
    · have hv : a.value = [] := List.length_eq_zero.mp h0
      rw [hv]
      simp only [List.length_nil, if_true, and_true, List.take_zero]
      exact ⟨fun h => h.symm, fun h => h.symm⟩
    · simp only [h0, if_false, decide_eq_true_eq]
      exact ⟨fun ⟨h1, h2⟩ => ⟨h1.symm, h2⟩, fun ⟨h1, h2⟩ => ⟨h1.symm, h2⟩⟩
  · simp only [hl, if_false, Bool.false_eq_true, and_false, false_and]

theorem find_if_isSome_iff {α : Type} (pred : α → Bool) (l : List α) :
    (∃ i, find_if pred l = some i) ↔ ∃ x ∈ l, pred x = true := by
  constructor
  · rintro ⟨i, hi⟩
    by_contra hc
    have : find_if pred l = none := by
      rw [find_if_eq_none_iff]
      intro x hx
      by_contra hp
      exact hc ⟨x, hx, by simpa using hp⟩
    rw [this] at hi
    exact Option.noConfusion hi
  · rintro ⟨x, hx, hp⟩
    cases h : find_if pred l with
    | none =>
      rw [find_if_eq_none_iff] at h
      rw [h x hx] at hp
      exact Bool.noConfusion hp
    | some i => exact ⟨i, rfl⟩

theorem matchesTemplate_loop_iff (attrs : List PKCS11Attribute) (tpl : List CK_ATTRIBUTE) :
    matchesTemplate_loop attrs tpl = true ↔
      ∀ t ∈ tpl, ∃ a ∈ attrs, AttributeMatch t a = true := by
  induction tpl with
  | nil => simp [matchesTemplate_loop]
  | cons t rest ih =>
    unfold matchesTemplate_loop
    cases h : find_if (AttributeMatch t) attrs with
    | none =>
      have hn := (find_if_eq_none_iff _ _).mp h
      simp only [Bool.false_eq_true, List.mem_cons, forall_eq_or_imp, false_iff, not_and]
      intro hc
      obtain ⟨a, ha, hm⟩ := hc
      rw [hn a ha] at hm
      exact Bool.noConfusion hm
    | some i =>
      have hs := (find_if_isSome_iff _ _).mp ⟨i, h⟩
      simp only [ih, List.mem_cons, forall_eq_or_imp, hs, true_and]

/-- The function `setAttribute` keeps the entries of other types. -/
theorem setAttribute_mem_of_ne {attrs : List PKCS11Attribute} {a : PKCS11Attribute} (t : Nat)
    (v : CKYBuffer) (ha : a ∈ attrs) (hne : a.type ≠ t) : a ∈ setAttribute attrs t v := by
  rcases store_cases attrs t with ⟨pre, b, post, e, hpre, hb⟩ | habs
  · rw [e, setAttribute_first pre b post t v hpre hb]
    rw [e] at ha
    rcases List.mem_append.mp ha with h | h
    · exact List.mem_append_left _ h
    · rcases List.mem_cons.mp h with h | h
      · rw [h] at hne; exact absurd hb hne
      · exact List.mem_append_right _ (List.mem_cons_of_mem _ h)
  · rw [setAttribute_absent attrs t v habs]
    exact List.mem_append_left _ ha

/-- A reader object holds the class of a reader. -/
theorem Reader_class_mem (junk : Nat → Nat) (host : Host) (id handle : Nat) (reader : List Nat)
    (atr : CKYBuffer) (isCoolkey : Bool) :
    (⟨CKA_CLASS, host.encodeULong CKO_MOZ_READER⟩ : PKCS11Attribute)
      ∈ (Reader_Reader junk host id handle reader atr isCoolkey).attributes := by
  unfold Reader_Reader
  simp only [setAttribute_string, setAttributeBool]
  have h0 : (⟨CKA_CLASS, host.encodeULong CKO_MOZ_READER⟩ : PKCS11Attribute)
      ∈ setAttributeULong junk host (PKCS11Object_PKCS11Object id handle).attributes CKA_CLASS
          CKO_MOZ_READER := by
    unfold setAttributeULong PKCS11Object_PKCS11Object
    simp only
    rw [setAttribute_absent [] _ _ (fun x hx => absurd hx (List.not_mem_nil x)), InitFromData_Data]
    exact List.mem_singleton.mpr rfl
  have key : ∀ (l : List PKCS11Attribute) (t : Nat) (v : CKYBuffer), CKA_CLASS ≠ t →
      (⟨CKA_CLASS, host.encodeULong CKO_MOZ_READER⟩ : PKCS11Attribute) ∈ l →
      (⟨CKA_CLASS, host.encodeULong CKO_MOZ_READER⟩ : PKCS11Attribute) ∈ setAttribute l t v :=
    fun l t v hne hm => setAttribute_mem_of_ne t v hm hne
  exact key _ _ _ (by decide) (key _ _ _ (by decide) (key _ _ _ (by decide)
    (key _ _ _ (by decide) (key _ _ _ (by decide) (key _ _ _ (by decide) h0)))))

theorem AttributeMatch_rdr (host : Host) (a : PKCS11Attribute) :
    AttributeMatch (rdr_template0 host) a = true ↔
      a.type = CKA_CLASS ∧ a.value = host.encodeULong CKO_MOZ_READER := by
  rw [AttributeMatch_iff]
  simp only [rdr_template0, Option.getD_some]
  have hl := length_encodeULong host CKO_MOZ_READER
  rw [← hl, List.take_length]
  constructor
  · rintro ⟨h1, _, h3⟩; exact ⟨h1, h3⟩
  · rintro ⟨h1, h3⟩; exact ⟨h1, by rw [h3], h3⟩

end MatchLemmas

/-- C13: for a template that is not empty, `matchesTemplate` returns true
exactly when for every entry the store holds an attribute of the type of the
entry whose value has the length of the entry and is the bytes of the entry;
in particular an entry does not match when every attribute of its type has
another length, as a value of which the entry is only the beginning has. -/
theorem matchesTemplate_iff (hide : Bool) (host : Host) (attrs : List PKCS11Attribute)
    (tpl : List CK_ATTRIBUTE) (hne : tpl ≠ []) :
    (matchesTemplate hide host attrs tpl = true ↔
      ∀ t ∈ tpl, ∃ a ∈ attrs, a.type = t.type ∧ a.value.length = t.ulValueLen ∧
        a.value = (t.pValue.getD []).take t.ulValueLen) ∧
    (∀ t ∈ tpl, (∀ a ∈ attrs, a.type = t.type → a.value.length ≠ t.ulValueLen) →
      matchesTemplate hide host attrs tpl = false) := by
  have hlen : ¬ tpl.length = 0 := fun h => hne (List.length_eq_zero.mp h)
  have hiff : matchesTemplate hide host attrs tpl = true ↔
      ∀ t ∈ tpl, ∃ a ∈ attrs, a.type = t.type ∧ a.value.length = t.ulValueLen ∧
        a.value = (t.pValue.getD []).take t.ulValueLen := by
    unfold matchesTemplate
    simp only [hlen, and_false, if_false, matchesTemplate_loop_iff, AttributeMatch_iff]
  refine ⟨hiff, fun t ht hall => ?_⟩
  rw [Bool.eq_false_iff, ne_eq, hiff]
  intro hc
  obtain ⟨a, ha, h1, h2, _⟩ := hc t ht
  exact hall a ha h1 h2

/-- C13, at a store whose attribute of type 1 is `01 02 03`: the entry with the
same three bytes matches, and the entry `01 02`, the beginning of the value,
does not. -/
theorem matchesTemplate_iff_witness :
    ([⟨1, some [1, 2, 3], 3⟩] : List CK_ATTRIBUTE) ≠ [] ∧
    matchesTemplate true host32 [⟨1, [1, 2, 3]⟩, ⟨2, [9]⟩] [⟨1, some [1, 2, 3], 3⟩] = true ∧
    matchesTemplate true host32 [⟨1, [1, 2, 3]⟩, ⟨2, [9]⟩] [⟨1, some [1, 2, 3], 2⟩] = false :=
  ⟨by decide,
    (matchesTemplate_iff true host32 [⟨1, [1, 2, 3]⟩, ⟨2, [9]⟩] [⟨1, some [1, 2, 3], 3⟩]
      (by decide)).1.mpr (by decide),
    (matchesTemplate_iff true host32 [⟨1, [1, 2, 3]⟩, ⟨2, [9]⟩] [⟨1, some [1, 2, 3], 2⟩]
      (by decide)).2 ⟨1, some [1, 2, 3], 2⟩ (by decide) (by decide)⟩

/-- C14: with reader objects hidden, `matchesTemplate` with the empty template
returns true exactly for a store without an attribute of type `CKA_CLASS`
whose value is `CKO_MOZ_READER`, and so false for the store of every object
that `Reader::Reader` builds; and, hidden or not, the store of such an object
matches the template of the one entry `CKA_CLASS = CKO_MOZ_READER`. -/
theorem matchesTemplate_hides_readers (host : Host) (attrs : List PKCS11Attribute) :
    (matchesTemplate true host attrs [] = true ↔
      ¬ ∃ a ∈ attrs, a.type = CKA_CLASS ∧ a.value = host.encodeULong CKO_MOZ_READER) ∧
    (∀ junk id handle reader atr isCoolkey,
      matchesTemplate true host (Reader_Reader junk host id handle reader atr isCoolkey).attributes
        [] = false) ∧
    (∀ hide junk id handle reader atr isCoolkey,
      matchesTemplate hide host (Reader_Reader junk host id handle reader atr isCoolkey).attributes
        [⟨CKA_CLASS, some (host.encodeULong CKO_MOZ_READER), host.sizeofULong⟩] = true) := by
  have hempty : ∀ attrs : List PKCS11Attribute, matchesTemplate true host attrs [] = true ↔
      ¬ ∃ a ∈ attrs, a.type = CKA_CLASS ∧ a.value = host.encodeULong CKO_MOZ_READER := by
    intro attrs
    unfold matchesTemplate
    simp only [List.length_nil, and_self, if_true]
    cases h : find_if (AttributeMatch (rdr_template0 host)) attrs with
    | none =>
      have hn := (find_if_eq_none_iff _ _).mp h
      simp only [true_iff, not_exists, not_and]
      intro a ha h1 h2
      have := hn a ha
      rw [(AttributeMatch_rdr host a).mpr ⟨h1, h2⟩] at this
      exact Bool.noConfusion this
    | some i =>
      obtain ⟨a, ha, hm⟩ := (find_if_isSome_iff _ _).mp ⟨i, h⟩
      simp only [Bool.false_eq_true, false_iff, not_not]
      exact ⟨a, ha, (AttributeMatch_rdr host a).mp hm⟩
  refine ⟨hempty attrs, fun junk id handle reader atr isCoolkey => ?_,
    fun hide junk id handle reader atr isCoolkey => ?_⟩
  · rw [Bool.eq_false_iff, ne_eq, hempty, not_not]
    exact ⟨_, Reader_class_mem junk host id handle reader atr isCoolkey, rfl, rfl⟩
  · have h := (matchesTemplate_iff hide host
      (Reader_Reader junk host id handle reader atr isCoolkey).attributes
      [⟨CKA_CLASS, some (host.encodeULong CKO_MOZ_READER), host.sizeofULong⟩]
      (List.cons_ne_nil _ _)).1
    rw [h]
    intro t ht
    rw [List.mem_singleton] at ht
    subst ht
    refine ⟨_, Reader_class_mem junk host id handle reader atr isCoolkey, rfl, ?_, ?_⟩
    · exact length_encodeULong host _
    · simp only [Option.getD_some]
      rw [← length_encodeULong host CKO_MOZ_READER, List.take_length]

/-- C14, at the object that `Reader::Reader` builds on a 32-bit host for the
reader name `r` and a one-byte ATR. -/
theorem matchesTemplate_hides_readers_witness :
    matchesTemplate true host32
      (Reader_Reader junkAA host32 1 2 [0x72] ⟨[0x3b], 1⟩ true).attributes [] = false ∧
    matchesTemplate true host32
      (Reader_Reader junkAA host32 1 2 [0x72] ⟨[0x3b], 1⟩ true).attributes
      [⟨CKA_CLASS, some (host32.encodeULong CKO_MOZ_READER), host32.sizeofULong⟩] = true :=
  ⟨(matchesTemplate_hides_readers host32 []).2.1 junkAA 1 2 [0x72] ⟨[0x3b], 1⟩ true,
    (matchesTemplate_hides_readers host32 []).2.2 true junkAA 1 2 [0x72] ⟨[0x3b], 1⟩ true⟩

/-! ## The decoder of card objects -/

section DecoderLemmas

theorem Data_getElem? {data : CKYBuffer} {i x : Nat} (h : (CKYBuffer_Data data)[i]? = some x) :
    i < data.len ∧ data.at i = x := by
  unfold CKYBuffer_Data at h
  rw [List.getElem?_take] at h
  by_cases hi : i < data.len
  · simp only [hi, if_true] at h
    exact ⟨hi, by simp only [CKYBuffer.at, List.getD_eq_getElem?_getD, h, Option.getD_some]⟩
  · simp only [hi, if_false] at h
    exact Option.noConfusion h

theorem getElem?_mid (pre l post : List Nat) (k : Nat) (hk : k < l.length) :
    (pre ++ l ++ post)[pre.length + k]? = l[k]? := by
  rw [List.append_assoc, List.getElem?_append_right (Nat.le_add_right _ _),
    Nat.add_sub_cancel_left, List.getElem?_append_left hk]

theorem GetChar_of {data : CKYBuffer} {i x : Nat} (h : (CKYBuffer_Data data)[i]? = some x) :
    CKYBuffer_GetChar data i = x := by
  rw [GetChar_eq_Data, List.getD_eq_getElem?_getD, h, Option.getD_some]

theorem GetShort_of {data : CKYBuffer} {i x0 x1 : Nat}
    (h0 : (CKYBuffer_Data data)[i]? = some x0) (h1 : (CKYBuffer_Data data)[i + 1]? = some x1) :
    CKYBuffer_GetShort data i = ((x0 <<< 8) % 65536 ||| (x1 <<< 0) % 65536) := by
  have hl := (Data_getElem? h1).1
  rw [GetShort_eq_Data (by omega)]
  simp only [Nat.add_zero, List.getD_eq_getElem?_getD, h0, h1, Option.getD_some]

theorem GetLong_of {data : CKYBuffer} {i x0 x1 x2 x3 : Nat}
    (h0 : (CKYBuffer_Data data)[i]? = some x0) (h1 : (CKYBuffer_Data data)[i + 1]? = some x1)
    (h2 : (CKYBuffer_Data data)[i + 2]? = some x2) (h3 : (CKYBuffer_Data data)[i + 3]? = some x3) :
    CKYBuffer_GetLong data i = (((x0 <<< 24 ||| x1 <<< 16) ||| x2 <<< 8) ||| x3 <<< 0) := by
  have hl := (Data_getElem? h3).1
  rw [GetLong_eq_Data (by omega)]
  simp only [Nat.add_zero, List.getD_eq_getElem?_getD, h0, h1, h2, h3, Option.getD_some]

/-- Four bytes read high byte first. -/
theorem be32_value (x0 x1 x2 x3 : Nat) (h1 : x1 < 256) (h2 : x2 < 256) (h3 : x3 < 256) :
    (((x0 <<< 24 ||| x1 <<< 16) ||| x2 <<< 8) ||| x3 <<< 0)
      = x0 * 2 ^ 24 + x1 * 2 ^ 16 + x2 * 2 ^ 8 + x3 := by
  rw [Nat.shiftLeft_zero, Nat.lor_assoc, Nat.lor_assoc]
  have e3 : (x2 <<< 8) ||| x3 = x2 * 2 ^ 8 + x3 := or_low _ _ _ (by omega)
  rw [e3]
  have e2 : (x1 <<< 16) ||| (x2 * 2 ^ 8 + x3) = x1 * 2 ^ 16 + (x2 * 2 ^ 8 + x3) :=
    or_low _ _ _ (by omega)
  rw [e2, or_low _ _ _ (by omega)]
  omega

/-- The 32-bit read at the place of the four bytes of `v`. -/
theorem GetLong_BE32 {data : CKYBuffer} (pre post : List Nat) (v : Nat) (hv : v < 2 ^ 32)
    (h : CKYBuffer_Data data = pre ++ BE32 v ++ post) :
    CKYBuffer_GetLong data pre.length = v := by
  have g : ∀ k, k < 4 → (CKYBuffer_Data data)[pre.length + k]? = (BE32 v)[k]? := fun k hk => by
    rw [h]; exact getElem?_mid pre (BE32 v) post k hk
  have g0 : (CKYBuffer_Data data)[pre.length]? = (BE32 v)[0]? := g 0 (by omega)
  rw [GetLong_of g0 (g 1 (by omega)) (g 2 (by omega)) (g 3 (by omega))]
  exact long_of_bytes v hv

/-- The 16-bit read at the place of the two bytes of `v`. -/
theorem GetShort_BE16 {data : CKYBuffer} (pre post : List Nat) (v : Nat) (hv : v < 2 ^ 16)
    (h : CKYBuffer_Data data = pre ++ BE16 v ++ post) :
    CKYBuffer_GetShort data pre.length = v := by
  have g : ∀ k, k < 2 → (CKYBuffer_Data data)[pre.length + k]? = (BE16 v)[k]? := fun k hk => by
    rw [h]; exact getElem?_mid pre (BE16 v) post k hk
  have g0 : (CKYBuffer_Data data)[pre.length]? = (BE16 v)[0]? := g 0 (by omega)
  rw [GetShort_of g0 (g 1 (by omega))]
  exact short_of_bytes v hv

theorem length_BE32 (v : Nat) : (BE32 v).length = 4 := rfl

theorem length_BE16 (v : Nat) : (BE16 v).length = 2 := rfl

theorem length_encodeRecord (r : PKCS11Attribute) :
    (encodeRecord r).length = 6 + r.value.length := by
  simp only [encodeRecord, List.length_append, length_BE32, length_BE16]

/-- The bytes read through the raw pointer at the place of `v`. -/
theorem bytesAt_mid {data : CKYBuffer} (pre v post : List Nat)
    (h : CKYBuffer_Data data = pre ++ v ++ post) :
    bytesAt data pre.length v.length = v := by
  have e : data.data = (pre ++ v ++ post) ++ data.data.drop data.len := by
    rw [← h]; exact (List.take_append_drop data.len data.data).symm
  unfold bytesAt
  rw [e, List.append_assoc, List.append_assoc, List.drop_left, List.take_left]

theorem two_pow_host {host : Host} (hW : 4 ≤ host.sizeofULong) :
    2 ^ 32 ≤ 2 ^ (8 * host.sizeofULong) :=
  Nat.pow_le_pow_right (by decide) (by omega)

/-- The test `idx - CKYBuffer_Size(data) < 6` of `parseOldObject` is false
whenever `idx` is below the size: the difference wraps around. -/
theorem usub_ge (host : Host) (hW : 4 ≤ host.sizeofULong) (a b : Nat) (hab : a < b)
    (hb : b ≤ 65542) : ¬ host.usub a b < 6 := by
  have hM := two_pow_host hW
  unfold Host.usub
  generalize 2 ^ (8 * host.sizeofULong) = M at hM
  have hM' : (4294967296 : Nat) ≤ M := hM
  rw [Nat.mod_eq_of_lt (by omega : a < M), Nat.mod_eq_of_lt (by omega : b < M),
    Nat.mod_eq_of_lt (by omega : a + M - b < M)]
  omega

theorem Data_length_le (data : CKYBuffer) : (CKYBuffer_Data data).length ≤ data.len := by
  unfold CKYBuffer_Data
  rw [List.length_take]
  omega

theorem makeLEUInt_mid {data : CKYBuffer} (pre v post : List Nat) (hv : v.length = 4)
    (h : CKYBuffer_Data data = pre ++ v ++ post) :
    makeLEUInt data pre.length = LE32value v := by
  have g : ∀ k, k < 4 → (CKYBuffer_Data data)[pre.length + k]? = v[k]? := fun k hk => by
    rw [h]; exact getElem?_mid pre v post k (by omega)
  match v, hv with
  | [b0, b1, b2, b3], _ =>
    have g0 : (CKYBuffer_Data data)[pre.length]? = some b0 := g 0 (by omega)
    unfold makeLEUInt LE32value
    have g1 : (CKYBuffer_Data data)[pre.length + 1]? = some b1 := g 1 (by omega)
    have g2 : (CKYBuffer_Data data)[pre.length + 2]? = some b2 := g 2 (by omega)
    have g3 : (CKYBuffer_Data data)[pre.length + 3]? = some b3 := g 3 (by omega)
    rw [(Data_getElem? g0).2, (Data_getElem? g1).2, (Data_getElem? g2).2, (Data_getElem? g3).2]

/-- One record: an iteration of the loop of `parseOldObject` at the start of a
good record stores its attribute and moves on to its end. -/
theorem parseOldObject_loop_step (host : Host) (data : CKYBuffer) (hW : 4 ≤ host.sizeofULong)
    (hsz : data.len ≤ 65542) (r : PKCS11Attribute) (pre post : List Nat)
    (acc : List PKCS11Attribute) (fuel : Nat)
    (h : CKYBuffer_Data data = pre ++ encodeRecord r ++ post) (hr : goodRecord r) :
    parseOldObject_loop host data (fuel + 1) pre.length acc
      = parseOldObject_loop host data fuel (pre.length + (encodeRecord r).length)
          (acc ++ [storedAttribute host r]) := by
  obtain ⟨ht, hn, hint⟩ := hr
  have hlen : pre.length + 6 + r.value.length ≤ data.len := by
    have := Data_length_le data
    rw [h] at this
    simp only [List.length_append, length_encodeRecord] at this
    omega
  have e1 : CKYBuffer_GetLong data pre.length = r.type :=
    GetLong_BE32 pre (BE16 r.value.length ++ r.value ++ post) r.type ht (by
      rw [h]; simp only [encodeRecord, List.append_assoc])
  have e2 : CKYBuffer_GetShort data (pre.length + 4) = r.value.length := by
    have := @GetShort_BE16 data (pre ++ BE32 r.type) (r.value ++ post) r.value.length
      (by omega) (by rw [h]; simp only [encodeRecord, List.append_assoc])
    rw [List.length_append, length_BE32] at this
    exact this
  have e3 : bytesAt data (pre.length + 4 + 2) r.value.length = r.value := by
    have := @bytesAt_mid data (pre ++ BE32 r.type ++ BE16 r.value.length) r.value post
      (by rw [h]; simp only [encodeRecord, List.append_assoc])
    rw [List.length_append, List.length_append, length_BE32, length_BE16] at this
    exact this
  have e4 : r.value.length = 4 → makeLEUInt data (pre.length + 4 + 2) = LE32value r.value := by
    intro hv
    have := @makeLEUInt_mid data (pre ++ BE32 r.type ++ BE16 r.value.length) r.value post
      hv (by rw [h]; simp only [encodeRecord, List.append_assoc])
    rw [List.length_append, List.length_append, length_BE32, length_BE16] at this
    exact this
  have c1 : pre.length < data.len := by omega
  have c2 := usub_ge host hW pre.length data.len c1 hsz
  have c3 : ¬ (r.value.length > data.len ∨ pre.length + 4 + 2 + r.value.length > data.len) := by
    omega
  rw [parseOldObject_loop]
  simp only [CKYBuffer_Size, c1, not_true_eq_false, if_false, c2, e1, e2, c3,
    PKCS11Attribute.getType, PKCS11Attribute.setType, PKCS11Attribute.setValue,
    PKCS11Attribute.empty, length_encodeRecord]
  have ei : (r.type = CKA_CLASS ∨ r.type = CKA_CERTIFICATE_TYPE ∨ r.type = CKA_KEY_TYPE)
      ↔ isIntegerType r.type := Iff.rfl
  by_cases hs : isIntegerType r.type
  · have hv := hint hs
    have hv' : ¬ r.value.length ≠ 4 := by omega
    rw [if_pos (ei.mpr hs), if_neg hv', e4 hv]
    simp only [storedAttribute, hs, if_true]
    congr 1
    omega
  · rw [if_neg (fun hc => hs (ei.mp hc)), e3]
    simp only [storedAttribute, hs, if_false]
    congr 1
    omega

/-- Good records one after the other: the loop of `parseOldObject` stores
their attributes in order and arrives at the end of the last. -/
theorem parseOldObject_loop_records (host : Host) (data : CKYBuffer)
    (hW : 4 ≤ host.sizeofULong) (hsz : data.len ≤ 65542) (rs : List PKCS11Attribute) :
    ∀ (pre post : List Nat) (acc : List PKCS11Attribute) (fuel : Nat),
      CKYBuffer_Data data = pre ++ encodeRecords rs ++ post → (∀ r ∈ rs, goodRecord r) →
      parseOldObject_loop host data (fuel + rs.length) pre.length acc
        = parseOldObject_loop host data fuel (pre.length + (encodeRecords rs).length)
            (acc ++ rs.map (storedAttribute host)) := by
  induction rs with
  | nil =>
    intro pre post acc fuel _ _
    simp only [List.length_nil, Nat.add_zero, encodeRecords, List.map_nil, List.append_nil]
  | cons r rs ih =>
    intro pre post acc fuel h hg
    have h1 : CKYBuffer_Data data = pre ++ encodeRecord r ++ (encodeRecords rs ++ post) := by
      rw [h]; simp only [encodeRecords, List.append_assoc]
    have h2 : CKYBuffer_Data data = (pre ++ encodeRecord r) ++ encodeRecords rs ++ post := by
      rw [h]; simp only [encodeRecords, List.append_assoc]
    rw [show fuel + (r :: rs).length = (fuel + rs.length) + 1 by
      simp only [List.length_cons]; omega]
    rw [parseOldObject_loop_step host data hW hsz r pre _ acc _ h1
      (hg r (List.mem_cons_self r rs))]
    have := ih (pre ++ encodeRecord r) post (acc ++ [storedAttribute host r]) fuel h2
      (fun x hx => hg x (List.mem_cons_of_mem r hx))
    rw [List.length_append] at this
    rw [this]
    simp only [encodeRecords, List.length_append, List.map_cons, List.append_assoc,
      List.singleton_append, Nat.add_assoc]

end DecoderLemmas

section HostLemmas

theorem map_range_shift (v n : Nat) :
    (List.range n).map (fun i => (v >>> (8 * i)) &&& 0xff)
      = (List.range n).map (fun i => v / 256 ^ i % 256) := by
  apply List.map_congr_left
  intro i _
  rw [byte_and, Nat.shiftRight_eq_div_pow, Nat.pow_mul]

theorem foldr_le_bytes (n : Nat) : ∀ v : Nat,
    ((List.range n).map (fun i => v / 256 ^ i % 256)).foldr (fun b acc => b + 256 * acc) 0
      = v % 256 ^ n := by
  induction n with
  | zero => intro v; simp [Nat.mod_one]
  | succ n ih =>
    intro v
    rw [List.range_succ_eq_map, List.map_cons, List.map_map, List.foldr_cons]
    have e : ((fun i => v / 256 ^ i % 256) ∘ Nat.succ) = (fun i => (v / 256) / 256 ^ i % 256) := by
      funext i
      simp only [Function.comp, Nat.succ_eq_add_one, Nat.pow_succ, Nat.div_div_eq_div_mul]
      rw [Nat.mul_comm]
    rw [e, ih (v / 256), Nat.pow_zero, Nat.div_one, Nat.pow_succ]
    have h1 : v % (256 ^ n * 256) = v % 256 + 256 * (v / 256 % 256 ^ n) := by
      rw [Nat.mul_comm (256 ^ n) 256, Nat.mod_mul]
    rw [h1]

/-- The host reads back the value that it has put in memory. -/
theorem decode_encodeULong (host : Host) (v : Nat) (hv : v < 2 ^ (8 * host.sizeofULong)) :
    host.decodeULong (host.encodeULong v) = v := by
  have key : ((List.range host.sizeofULong).map (fun i => (v >>> (8 * i)) &&& 0xff)).foldr
      (fun b acc => b + 256 * acc) 0 = v := by
    rw [map_range_shift, foldr_le_bytes]
    have e : (256 : Nat) ^ host.sizeofULong = 2 ^ (8 * host.sizeofULong) := by
      rw [Nat.pow_mul]
    rw [e]
    exact Nat.mod_eq_of_lt hv
  unfold Host.decodeULong Host.encodeULong
  cases host.bigEndian with
  | false => simpa using key
  | true => simpa using key

end HostLemmas

section Format0Lemmas

theorem parseOldObject_loop_done (host : Host) (data : CKYBuffer) (fuel idx : Nat)
    (acc : List PKCS11Attribute) (h : ¬ idx < data.len) :
    parseOldObject_loop host data fuel idx acc = some (Except.ok acc) := by
  cases fuel with
  | zero => simp only [parseOldObject_loop, CKYBuffer_Size, h, if_false]
  | succ n => simp only [parseOldObject_loop, CKYBuffer_Size, h, not_false_eq_true, if_true]

theorem length_encodeRecords_ge (rs : List PKCS11Attribute) :
    rs.length ≤ (encodeRecords rs).length := by
  induction rs with
  | nil => exact Nat.le_refl _
  | cons r rs ih =>
    simp only [encodeRecords, List.length_cons, List.length_append, length_encodeRecord]
    omega

/-- The loop of `parseOldObject` where 1 to 5 bytes are left: the length read
is 0 and the bounds test throws. -/
theorem parseOldObject_loop_short (host : Host) (data : CKYBuffer) (hW : 4 ≤ host.sizeofULong)
    (hsz : data.len ≤ 65542) (fuel idx : Nat) (acc : List PKCS11Attribute)
    (h1 : idx < data.len) (h2 : data.len < idx + 6) :
    parseOldObject_loop host data (fuel + 1) idx acc = some (Except.error CKR_DEVICE_ERROR) := by
  have c2 := usub_ge host hW idx data.len h1 hsz
  have e2 : CKYBuffer_GetShort data (idx + 4) = 0 := by
    have h : data.len < idx + 4 + 2 := by omega
    simp only [CKYBuffer_GetShort, h, if_true]
  have c3 : (0 > data.len ∨ idx + 4 + 2 + 0 > data.len) := Or.inr (by omega)
  rw [parseOldObject_loop]
  simp only [CKYBuffer_Size, h1, not_true_eq_false, if_false, c2, e2, c3, if_true]

/-- The loop of `parseOldObject` at a record whose value is longer than what is
left of the blob. -/
theorem parseOldObject_loop_long (host : Host) (data : CKYBuffer) (hW : 4 ≤ host.sizeofULong)
    (hsz : data.len ≤ 65542) (hwf : data.WF) (fuel : Nat) (acc : List PKCS11Attribute)
    (pre rest : List Nat) (t n : Nat) (hn : n < 2 ^ 16) (hrest : rest.length < n)
    (h : CKYBuffer_Data data = pre ++ BE32 t ++ BE16 n ++ rest) :
    parseOldObject_loop host data (fuel + 1) pre.length acc
      = some (Except.error CKR_DEVICE_ERROR) := by
  have hlen : data.len = pre.length + 6 + rest.length := by
    rw [← length_Data hwf, h]
    simp only [List.length_append, length_BE32, length_BE16]
  have c1 : pre.length < data.len := by omega
  have c2 := usub_ge host hW pre.length data.len c1 hsz
  have e2 : CKYBuffer_GetShort data (pre.length + 4) = n := by
    have := @GetShort_BE16 data (pre ++ BE32 t) rest n hn h
    rw [List.length_append, length_BE32] at this
    exact this
  have c3 : (n > data.len ∨ pre.length + 4 + 2 + n > data.len) := Or.inr (by omega)
  rw [parseOldObject_loop]
  simp only [CKYBuffer_Size, c1, not_true_eq_false, if_false, c2, e2, c3, if_true]

/-- The loop of `parseOldObject` at a record of an integer type whose value is
not four bytes long. -/
theorem parseOldObject_loop_bad_integer (host : Host) (data : CKYBuffer)
    (hW : 4 ≤ host.sizeofULong) (hsz : data.len ≤ 65542) (fuel : Nat)
    (acc : List PKCS11Attribute) (pre post : List Nat) (r : PKCS11Attribute)
    (ht : r.type < 2 ^ 32) (hint : isIntegerType r.type) (hn : r.value.length ≤ 65535)
    (hbad : r.value.length ≠ 4) (h : CKYBuffer_Data data = pre ++ encodeRecord r ++ post) :
    parseOldObject_loop host data (fuel + 1) pre.length acc
      = some (Except.error CKR_DEVICE_ERROR) := by
  have hlen : pre.length + 6 + r.value.length ≤ data.len := by
    have := Data_length_le data
    rw [h] at this
    simp only [List.length_append, length_encodeRecord] at this
    omega
  have e1 : CKYBuffer_GetLong data pre.length = r.type :=
    GetLong_BE32 pre (BE16 r.value.length ++ r.value ++ post) r.type ht (by
      rw [h]; simp only [encodeRecord, List.append_assoc])
  have e2 : CKYBuffer_GetShort data (pre.length + 4) = r.value.length := by
    have := @GetShort_BE16 data (pre ++ BE32 r.type) (r.value ++ post) r.value.length
      (by omega) (by rw [h]; simp only [encodeRecord, List.append_assoc])
    rw [List.length_append, length_BE32] at this
    exact this
  have c1 : pre.length < data.len := by omega
  have c2 := usub_ge host hW pre.length data.len c1 hsz
  have c3 : ¬ (r.value.length > data.len ∨ pre.length + 4 + 2 + r.value.length > data.len) := by
    omega
  have ei : (r.type = CKA_CLASS ∨ r.type = CKA_CERTIFICATE_TYPE ∨ r.type = CKA_KEY_TYPE) := hint
  rw [parseOldObject_loop]
  simp only [CKYBuffer_Size, c1, not_true_eq_false, if_false, c2, e1, e2, c3,
    PKCS11Attribute.getType, PKCS11Attribute.setType, PKCS11Attribute.empty, ei, if_true, hbad,
    ne_eq, not_false_eq_true]

/-- The seven bytes before the records of a format-0 blob: the tag 0, the
object id and the length of what follows. -/
theorem length_header0 (id L : Nat) : ([0] ++ BE32 id ++ BE16 L).length = 7 := rfl

/-- The constructor on a format-0 blob with the right id and the right length
comes down to the loop of `parseOldObject` from offset 7. -/
theorem decode_format0 (host : Host) (id handle : Nat) (data : CKYBuffer) (body : List Nat)
    (hwf : data.WF) (hid : id < 2 ^ 32) (hL : body.length ≤ 65535)
    (hdata : CKYBuffer_Data data = [0] ++ BE32 id ++ BE16 body.length ++ body) :
    data.len = 7 + body.length ∧
    PKCS11Object_PKCS11Object_data host id data handle
      = match parseOldObject_loop host data data.len 7 [] with
        | none => none
        | some (Except.error e) => some (Except.error e)
        | some (Except.ok attributes) =>
          some (Except.ok { PKCS11Object_PKCS11Object id handle with attributes := attributes }) := by
  have hlen : data.len = 7 + body.length := by
    rw [← length_Data hwf, hdata]
    simp only [List.length_append, length_BE32, length_BE16, List.length_singleton]
  have e0 : CKYBuffer_GetChar data 0 = 0 := GetChar_of (by rw [hdata]; rfl)
  have e1 : CKYBuffer_GetLong data 1 = id := by
    have := @GetLong_BE32 data [0] (BE16 body.length ++ body) id hid
      (by rw [hdata]; simp only [List.append_assoc])
    exact this
  have e5 : CKYBuffer_GetShort data 5 = body.length := by
    have := @GetShort_BE16 data ([0] ++ BE32 id) body body.length (by omega) hdata
    exact this
  refine ⟨hlen, ?_⟩
  have c1 : ¬ data.len < 7 := by omega
  unfold PKCS11Object_PKCS11Object_data parseOldObject
  simp only [e0, e1, e5, ne_eq, not_true_eq_false, if_false, if_true, CKYBuffer_Size, c1]
  rw [if_neg (by omega : ¬ ¬ data.len = body.length + 7)]
  rfl

/-- The loop of `parseOldObject` over a blob of good records, 1 to 5 bytes or
nothing after them: the attributes of the records in order, or an error. -/
theorem parseOldObject_loop_good (host : Host) (data : CKYBuffer) (hW : 4 ≤ host.sizeofULong)
    (hsz : data.len ≤ 65542) (hdr : List Nat) (hh : hdr.length = 7) (rs : List PKCS11Attribute)
    (tail : List Nat) (hg : ∀ r ∈ rs, goodRecord r)
    (h : CKYBuffer_Data data = hdr ++ encodeRecords rs ++ tail) :
    parseOldObject_loop host data data.len 7 []
      = parseOldObject_loop host data (data.len - rs.length) (7 + (encodeRecords rs).length)
          (rs.map (storedAttribute host)) := by
  have hle : rs.length ≤ data.len := by
    have := Data_length_le data
    rw [h] at this
    simp only [List.length_append] at this
    have := length_encodeRecords_ge rs
    omega
  have := parseOldObject_loop_records host data hW hsz rs hdr tail [] (data.len - rs.length) h hg
  rw [Nat.sub_add_cancel hle, hh, List.nil_append] at this
  exact this

end Format0Lemmas

/-- C15: when the 32-bit value that the blob holds in bytes 1 to 4, high byte
first, is not the expected object id, the constructor throws
`CKR_DEVICE_ERROR`, whatever the tag and the other bytes are. (A blob of
fewer than 5 bytes reads as the value 0 there.) -/
theorem decode_id_mismatch (host : Host) (id handle : Nat) (data : CKYBuffer) :
    (CKYBuffer_GetLong data 1 ≠ id →
      PKCS11Object_PKCS11Object_data host id data handle
        = some (Except.error CKR_DEVICE_ERROR)) ∧
    (∀ tag b1 b2 b3 b4 rest, CKYBuffer_Data data = tag :: b1 :: b2 :: b3 :: b4 :: rest →
      b1 < 256 → b2 < 256 → b3 < 256 → b4 < 256 →
      b1 * 2 ^ 24 + b2 * 2 ^ 16 + b3 * 2 ^ 8 + b4 ≠ id →
      PKCS11Object_PKCS11Object_data host id data handle
        = some (Except.error CKR_DEVICE_ERROR)) := by
  have main : CKYBuffer_GetLong data 1 ≠ id →
      PKCS11Object_PKCS11Object_data host id data handle
        = some (Except.error CKR_DEVICE_ERROR) := by
    intro h
    unfold PKCS11Object_PKCS11Object_data
    simp only [h, ne_eq, not_false_eq_true, if_true]
  refine ⟨main, fun tag b1 b2 b3 b4 rest hd _ h2 h3 h4 hne => main ?_⟩
  have e : CKYBuffer_GetLong data 1 = (((b1 <<< 24 ||| b2 <<< 16) ||| b3 <<< 8) ||| b4 <<< 0) :=
    GetLong_of (by rw [hd]; rfl) (by rw [hd]; rfl) (by rw [hd]; rfl) (by rw [hd]; simp)
  rw [e, be32_value b1 b2 b3 b4 h2 h3 h4]
  exact hne

/-- C15, at the blob `00 00 00 00 07 ...` and the expected id 8. -/
theorem decode_id_mismatch_witness :
    CKYBuffer_GetLong blob0 1 ≠ 8 ∧
    PKCS11Object_PKCS11Object_data host32 8 blob0 99 = some (Except.error CKR_DEVICE_ERROR) :=
  ⟨by decide, (decode_id_mismatch host32 8 99 blob0).1 (by decide)⟩

/-- C16: for a blob with tag 0 and the expected id, the constructor throws
`CKR_DEVICE_ERROR` when the blob has fewer than 7 bytes or when the 16-bit
value in bytes 5 and 6, high byte first, is not the length of the blob
less 7. -/
theorem decode_format0_length (host : Host) (id handle : Nat) (data : CKYBuffer)
    (htag : CKYBuffer_GetChar data 0 = 0) (hid : CKYBuffer_GetLong data 1 = id)
    (hbad : CKYBuffer_Size data < 7 ∨ CKYBuffer_GetShort data 5 ≠ CKYBuffer_Size data - 7) :
    PKCS11Object_PKCS11Object_data host id data handle
      = some (Except.error CKR_DEVICE_ERROR) := by
  unfold PKCS11Object_PKCS11Object_data parseOldObject
  simp only [htag, hid, ne_eq, not_true_eq_false, if_false, if_true]
  by_cases h7 : CKYBuffer_Size data < 7
  · simp only [h7, if_true]
  · have hne : ¬ CKYBuffer_Size data = CKYBuffer_GetShort data 5 + 7 := by
      rcases hbad with h | h
      · exact absurd h h7
      · omega
    simp only [h7, if_false, hne, not_false_eq_true, if_true]

/-- C16, at a blob of 10 bytes whose bytes 5 and 6 announce 4 bytes of
records, not 3. -/
theorem decode_format0_length_witness :
    CKYBuffer_GetChar ⟨[0, 0, 0, 0, 7, 0, 4, 0, 0, 0], 10⟩ 0 = 0 ∧
    CKYBuffer_GetLong ⟨[0, 0, 0, 0, 7, 0, 4, 0, 0, 0], 10⟩ 1 = 7 ∧
    CKYBuffer_GetShort ⟨[0, 0, 0, 0, 7, 0, 4, 0, 0, 0], 10⟩ 5
      ≠ CKYBuffer_Size ⟨[0, 0, 0, 0, 7, 0, 4, 0, 0, 0], 10⟩ - 7 ∧
    PKCS11Object_PKCS11Object_data host32 7 ⟨[0, 0, 0, 0, 7, 0, 4, 0, 0, 0], 10⟩ 99
      = some (Except.error CKR_DEVICE_ERROR) :=
  ⟨by decide, by decide, by decide,
    decode_format0_length host32 7 99 ⟨[0, 0, 0, 0, 7, 0, 4, 0, 0, 0], 10⟩ (by decide)
      (by decide) (Or.inr (by decide))⟩

/-- C17: for records `(type, value)` of which no type is `CKA_CLASS`,
`CKA_CERTIFICATE_TYPE` or `CKA_KEY_TYPE`, with types of 32 bits, values of at
most 65535 bytes and at most 65535 bytes of records in all, the constructor
with the expected id `id` on the blob made of the tag 0, the id, the length
of the records and the records builds an object whose attributes are the
records, in their order. -/
theorem decode_format0_records (host : Host) (hW : 4 ≤ host.sizeofULong) (id handle : Nat)
    (data : CKYBuffer) (rs : List PKCS11Attribute) (hwf : data.WF) (hid : id < 2 ^ 32)
    (hrs : ∀ r ∈ rs, r.type < 2 ^ 32 ∧ ¬ isIntegerType r.type ∧ r.value.length ≤ 65535)
    (hL : (encodeRecords rs).length ≤ 65535)
    (hdata : CKYBuffer_Data data
      = [0] ++ BE32 id ++ BE16 (encodeRecords rs).length ++ encodeRecords rs) :
    PKCS11Object_PKCS11Object_data host id data handle
      = some (Except.ok { PKCS11Object_PKCS11Object id handle with attributes := rs }) := by
  obtain ⟨hlen, hc⟩ := decode_format0 host id handle data (encodeRecords rs) hwf hid hL hdata
  have hg : ∀ r ∈ rs, goodRecord r := fun r hr =>
    ⟨(hrs r hr).1, (hrs r hr).2.2, fun hi => absurd hi (hrs r hr).2.1⟩
  have hloop := parseOldObject_loop_good host data hW (by omega) _ (length_header0 id _) rs []
    hg (by rw [hdata, List.append_nil])
  have hmap : rs.map (storedAttribute host) = rs := by
    have e : rs.map (storedAttribute host) = rs.map (fun r => r) :=
      List.map_congr_left (fun r hr => by
        simp only [storedAttribute, (hrs r hr).2.1, if_false])
    rw [e, List.map_id']
  rw [hc, hloop, parseOldObject_loop_done host data _ _ _ (by omega), hmap]

/-- C17, at the blob of the records `(3, 41 42)` and `(3, 43)`, a type that
comes twice. -/
theorem decode_format0_records_witness :
    PKCS11Object_PKCS11Object_data host32 7
      ⟨[0] ++ BE32 7 ++ BE16 (encodeRecords [⟨3, [0x41, 0x42]⟩, ⟨3, [0x43]⟩]).length
        ++ encodeRecords [⟨3, [0x41, 0x42]⟩, ⟨3, [0x43]⟩], 22⟩ 99
      = some (Except.ok { PKCS11Object_PKCS11Object 7 99 with
          attributes := [⟨3, [0x41, 0x42]⟩, ⟨3, [0x43]⟩] }) :=
  decode_format0_records host32 (by decide) 7 99 _ [⟨3, [0x41, 0x42]⟩, ⟨3, [0x43]⟩] (by decide)
    (by decide) (by decide) (by decide) (by decide)
section InsideLemmas

theorem bytesAt_eq_Data (data : CKYBuffer) (i n : Nat) (h : i + n ≤ data.len) :
    bytesAt data i n = ((CKYBuffer_Data data).drop i).take n := by
  unfold bytesAt CKYBuffer_Data
  rw [List.drop_take, List.take_take, Nat.min_eq_left (by omega)]

theorem makeLEUInt_eq_Data (data : CKYBuffer) (i : Nat) (hwf : data.WF) (h : i + 4 ≤ data.len) :
    makeLEUInt data i = LE32value (((CKYBuffer_Data data).drop i).take 4) := by
  have hl := length_Data hwf
  have e : CKYBuffer_Data data = (CKYBuffer_Data data).take i
      ++ ((CKYBuffer_Data data).drop i).take 4 ++ ((CKYBuffer_Data data).drop i).drop 4 := by
    rw [List.append_assoc, List.take_append_drop, List.take_append_drop]
  have hv : (((CKYBuffer_Data data).drop i).take 4).length = 4 := by
    rw [List.length_take, List.length_drop]; omega
  have hp : ((CKYBuffer_Data data).take i).length = i := by
    rw [List.length_take]; omega
  have := @makeLEUInt_mid data _ _ _ hv e
  rw [hp] at this
  exact this

/-- Every attribute that the loop of `parseOldObject` adds comes from inside
the blob. -/
theorem parseOldObject_loop_inside (host : Host) (data : CKYBuffer) (hwf : data.WF) :
    ∀ (fuel idx : Nat) (acc attrs : List PKCS11Attribute),
      (∀ a ∈ acc, insideBlob host data a) →
      parseOldObject_loop host data fuel idx acc = some (Except.ok attrs) →
      ∀ a ∈ attrs, insideBlob host data a := by
  intro fuel
  induction fuel with
  | zero =>
    intro idx acc attrs hacc h
    rw [parseOldObject_loop] at h
    split at h
    · exact Option.noConfusion h
    · simp only [Option.some.injEq, Except.ok.injEq] at h
      rw [← h]; exact hacc
  | succ fuel ih =>
    intro idx acc attrs hacc h
    rw [parseOldObject_loop] at h
    simp only [CKYBuffer_Size] at h
    split at h
    · simp only [Option.some.injEq, Except.ok.injEq] at h
      rw [← h]; exact hacc
    · split at h
      · simp only [Option.some.injEq, reduceCtorEq] at h
      · split at h
        · simp only [Option.some.injEq, reduceCtorEq] at h
        · rename_i hb
          have hb' : idx + 4 + 2 + CKYBuffer_GetShort data (idx + 4) ≤ data.len := by omega
          split at h
          · split at h
            · simp only [Option.some.injEq, reduceCtorEq] at h
            · rename_i h4
              have h4' : CKYBuffer_GetShort data (idx + 4) = 4 := by omega
              refine ih _ _ attrs (fun a ha => ?_) h
              rcases List.mem_append.mp ha with ha | ha
              · exact hacc a ha
              · rw [List.mem_singleton] at ha
                refine ⟨idx + 4 + 2, 4, by omega, Or.inr ⟨rfl, ?_⟩⟩
                rw [ha]
                simp only [PKCS11Attribute.setValue]
                rw [makeLEUInt_eq_Data data _ hwf (by omega)]
          · refine ih _ _ attrs (fun a ha => ?_) h
            rcases List.mem_append.mp ha with ha | ha
            · exact hacc a ha
            · rw [List.mem_singleton] at ha
              refine ⟨idx + 4 + 2, CKYBuffer_GetShort data (idx + 4), hb', Or.inl ?_⟩
              rw [ha]
              simp only [PKCS11Attribute.setValue]
              rw [bytesAt_eq_Data data _ _ hb']

end InsideLemmas

/-- C18: take a format-0 blob with the expected id whose bytes 5 and 6 hold the
length of what follows, and that starts with good records. When 1 to 5 bytes
follow the records, or a record follows whose value is announced longer than
what is left of the blob, the constructor throws `CKR_DEVICE_ERROR`. And
whenever the constructor builds an object from a blob with tag 0, every
attribute of the object comes from inside the blob. -/
theorem decode_format0_truncated (host : Host) (hW : 4 ≤ host.sizeofULong) (id handle : Nat)
    (data : CKYBuffer) (hwf : data.WF) :
    (∀ (rs : List PKCS11Attribute) (tail : List Nat), id < 2 ^ 32 →
      (∀ r ∈ rs, goodRecord r) → (encodeRecords rs ++ tail).length ≤ 65535 →
      CKYBuffer_Data data = [0] ++ BE32 id ++ BE16 (encodeRecords rs ++ tail).length
        ++ (encodeRecords rs ++ tail) →
      ((1 ≤ tail.length ∧ tail.length ≤ 5) ∨
        (∃ t n rest, tail = BE32 t ++ BE16 n ++ rest ∧ n < 2 ^ 16 ∧ rest.length < n)) →
      PKCS11Object_PKCS11Object_data host id data handle
        = some (Except.error CKR_DEVICE_ERROR)) ∧
    (∀ o, CKYBuffer_GetChar data 0 = 0 →
      PKCS11Object_PKCS11Object_data host id data handle = some (Except.ok o) →
      ∀ a ∈ o.attributes, insideBlob host data a) := by
  constructor
  · intro rs tail hid hg hL hdata hbad
    obtain ⟨hlen, hc⟩ := decode_format0 host id handle data (encodeRecords rs ++ tail) hwf hid hL
      hdata
    have hloop := parseOldObject_loop_good host data hW (by omega)
      ([0] ++ BE32 id ++ BE16 (encodeRecords rs ++ tail).length)
      (length_header0 id _) rs tail hg (by rw [hdata]; simp only [List.append_assoc])
    have hlt : rs.length < data.len := by
      have := length_encodeRecords_ge rs
      rw [List.length_append] at hlen
      omega
    have hfuel : data.len - rs.length = (data.len - rs.length - 1) + 1 := by omega
    rw [List.length_append] at hlen hL
    rw [hc, hloop, hfuel]
    rcases hbad with ⟨h1, h5⟩ | ⟨t, n, rest, ht, hn, hrest⟩
    · rw [parseOldObject_loop_short host data hW (by omega) _ _ _ (by omega) (by omega)]
    · have hpre : ([0] ++ BE32 id ++ BE16 (encodeRecords rs ++ tail).length
          ++ encodeRecords rs).length = 7 + (encodeRecords rs).length := by
        simp only [List.length_append, length_BE32, length_BE16, List.length_singleton]
      have := parseOldObject_loop_long host data hW (by omega) hwf (data.len - rs.length - 1)
        (rs.map (storedAttribute host))
        ([0] ++ BE32 id ++ BE16 (encodeRecords rs ++ tail).length ++ encodeRecords rs) rest t n
        hn hrest (by rw [hdata, ht]; simp only [List.append_assoc])
      rw [hpre] at this
      rw [this]
  · intro o htag h a ha
    unfold PKCS11Object_PKCS11Object_data parseOldObject at h
    simp only [htag, if_true] at h
    split at h
    · simp only [Option.some.injEq, reduceCtorEq] at h
    · split at h
      · exact Option.noConfusion h
      · simp only [Option.some.injEq, reduceCtorEq] at h
      · rename_i attrs hp
        simp only [Option.some.injEq, Except.ok.injEq] at h
        rw [← h] at ha
        simp only at ha
        split at hp
        · simp only [Option.some.injEq, reduceCtorEq] at hp
        · split at hp
          · simp only [Option.some.injEq, reduceCtorEq] at hp
          · exact parseOldObject_loop_inside host data hwf _ _ _ attrs
              (fun x hx => absurd hx (List.not_mem_nil x)) hp a ha

/-- C18, at two blobs with the record `(3, 41 42)`: one with three more bytes,
one with a second record that announces 5 bytes and has 1. -/
theorem decode_format0_truncated_witness :
    PKCS11Object_PKCS11Object_data host32 7
      ⟨[0, 0, 0, 0, 7, 0, 11, 0, 0, 0, 3, 0, 2, 0x41, 0x42, 1, 2, 3], 18⟩ 99
      = some (Except.error CKR_DEVICE_ERROR) ∧
    PKCS11Object_PKCS11Object_data host32 7
      ⟨[0, 0, 0, 0, 7, 0, 15, 0, 0, 0, 3, 0, 2, 0x41, 0x42, 0, 0, 0, 3, 0, 5, 9], 22⟩ 99
      = some (Except.error CKR_DEVICE_ERROR) :=
  ⟨(decode_format0_truncated host32 (by decide) 7 99
      ⟨[0, 0, 0, 0, 7, 0, 11, 0, 0, 0, 3, 0, 2, 0x41, 0x42, 1, 2, 3], 18⟩ (by decide)).1
      [⟨3, [0x41, 0x42]⟩] [1, 2, 3] (by decide) (by decide) (by decide) (by decide)
      (Or.inl (by decide)),
    (decode_format0_truncated host32 (by decide) 7 99
      ⟨[0, 0, 0, 0, 7, 0, 15, 0, 0, 0, 3, 0, 2, 0x41, 0x42, 0, 0, 0, 3, 0, 5, 9], 22⟩
      (by decide)).1
      [⟨3, [0x41, 0x42]⟩] [0, 0, 0, 3, 0, 5, 9] (by decide) (by decide) (by decide) (by decide)
      (Or.inr ⟨3, 5, [9], by decide, by decide, by decide⟩)⟩
section IntegerLemmas

theorem encodeRecords_append (a b : List PKCS11Attribute) :
    encodeRecords (a ++ b) = encodeRecords a ++ encodeRecords b := by
  induction a with
  | nil => rfl
  | cons r a ih =>
    rw [List.cons_append, encodeRecords, encodeRecords, ih, List.append_assoc]

theorem isIntegerType_lt {type : Nat} (h : isIntegerType type) : type < 2 ^ 32 := by
  rcases h with h | h | h <;> rw [h] <;> decide

theorem LE32value_lt (b0 b1 b2 b3 : Nat) (h0 : b0 < 256) (h1 : b1 < 256) (h2 : b2 < 256)
    (h3 : b3 < 256) : LE32value [b0, b1, b2, b3] < 2 ^ 32 := by
  simp only [LE32value]
  omega

end IntegerLemmas

/-- C19: take a format-0 blob with the expected id and the right length, whose
records are good records `rs`, then a record `r` of type `CKA_CLASS`,
`CKA_CERTIFICATE_TYPE` or `CKA_KEY_TYPE`, then good records `rs2`. When the
value of `r` is not 4 bytes long, the constructor throws `CKR_DEVICE_ERROR`.
When it is the four bytes `b0 b1 b2 b3`, the constructor builds an object
whose attribute for `r` has a value `v` of `sizeof(CK_ULONG)` bytes that the
host reads as the `unsigned long` `b0 + 2^8*b1 + 2^16*b2 + 2^24*b3`. -/
theorem decode_format0_integer (host : Host) (hW : 4 ≤ host.sizeofULong) (id handle : Nat)
    (data : CKYBuffer) (rs rs2 : List PKCS11Attribute) (r : PKCS11Attribute) (hwf : data.WF)
    (hid : id < 2 ^ 32) (hint : isIntegerType r.type) (hn : r.value.length ≤ 65535)
    (hg : ∀ x ∈ rs, goodRecord x) (hg2 : ∀ x ∈ rs2, goodRecord x)
    (hL : (encodeRecords (rs ++ r :: rs2)).length ≤ 65535)
    (hdata : CKYBuffer_Data data = [0] ++ BE32 id ++ BE16 (encodeRecords (rs ++ r :: rs2)).length
      ++ encodeRecords (rs ++ r :: rs2)) :
    (r.value.length ≠ 4 →
      PKCS11Object_PKCS11Object_data host id data handle
        = some (Except.error CKR_DEVICE_ERROR)) ∧
    (∀ b0 b1 b2 b3, r.value = [b0, b1, b2, b3] → b0 < 256 → b1 < 256 → b2 < 256 → b3 < 256 →
      ∃ v, PKCS11Object_PKCS11Object_data host id data handle
          = some (Except.ok { PKCS11Object_PKCS11Object id handle with
              attributes := rs.map (storedAttribute host) ++ ⟨r.type, v⟩
                :: rs2.map (storedAttribute host) }) ∧
        v.length = host.sizeofULong ∧
        host.decodeULong v = b0 + 2 ^ 8 * b1 + 2 ^ 16 * b2 + 2 ^ 24 * b3) := by
  obtain ⟨hlen, hc⟩ := decode_format0 host id handle data _ hwf hid hL hdata
  constructor
  · intro hbad
    have henc : encodeRecords (rs ++ r :: rs2)
        = encodeRecords rs ++ (encodeRecord r ++ encodeRecords rs2) := by
      rw [encodeRecords_append, encodeRecords]
    have hloop := parseOldObject_loop_good host data hW (by omega)
      ([0] ++ BE32 id ++ BE16 (encodeRecords (rs ++ r :: rs2)).length)
      (length_header0 id _) rs (encodeRecord r ++ encodeRecords rs2) hg
      (by rw [hdata, henc]; simp only [List.append_assoc])
    have hlt : rs.length < data.len := by
      have := length_encodeRecords_ge rs
      rw [henc, List.length_append, List.length_append, length_encodeRecord] at hlen
      omega
    have hfuel : data.len - rs.length = (data.len - rs.length - 1) + 1 := by omega
    have hpre : ([0] ++ BE32 id ++ BE16 (encodeRecords (rs ++ r :: rs2)).length
        ++ encodeRecords rs).length = 7 + (encodeRecords rs).length := by
      simp only [List.length_append, length_BE32, length_BE16, List.length_singleton]
    have := parseOldObject_loop_bad_integer host data hW (by omega) (data.len - rs.length - 1)
      (rs.map (storedAttribute host))
      ([0] ++ BE32 id ++ BE16 (encodeRecords (rs ++ r :: rs2)).length ++ encodeRecords rs)
      (encodeRecords rs2) r (isIntegerType_lt hint) hint hn hbad
      (by rw [hdata, henc]; simp only [List.append_assoc])
    rw [hpre] at this
    rw [hc, hloop, hfuel, this]
  · intro b0 b1 b2 b3 hv h0 h1 h2 h3
    have hgr : goodRecord r :=
      ⟨isIntegerType_lt hint, hn, fun _ => by rw [hv]; rfl⟩
    have hall : ∀ x ∈ rs ++ r :: rs2, goodRecord x := by
      intro x hx
      rcases List.mem_append.mp hx with hx | hx
      · exact hg x hx
      · rcases List.mem_cons.mp hx with hx | hx
        · rw [hx]; exact hgr
        · exact hg2 x hx
    have hloop := parseOldObject_loop_good host data hW (by omega)
      ([0] ++ BE32 id ++ BE16 (encodeRecords (rs ++ r :: rs2)).length)
      (length_header0 id _) (rs ++ r :: rs2) [] hall (by rw [hdata, List.append_nil])
    refine ⟨host.encodeULong (LE32value r.value), ?_, length_encodeULong host _, ?_⟩
    · rw [hc, hloop, parseOldObject_loop_done host data _ _ _ (by omega)]
      simp only [List.map_append, List.map_cons, storedAttribute, hint, if_true]
    · rw [hv, decode_encodeULong host _
        (Nat.lt_of_lt_of_le (LE32value_lt b0 b1 b2 b3 h0 h1 h2 h3) (two_pow_host hW))]
      rfl

/-- C19, at a blob with the record `(3, 41 42)` and the class `03 01 00 00`, on
a little-endian host with an `unsigned long` of 8 bytes: the class is stored in
8 bytes and reads as `0x103`. -/
theorem decode_format0_integer_witness :
    ∃ v, PKCS11Object_PKCS11Object_data host64 7 blob0 99
        = some (Except.ok { PKCS11Object_PKCS11Object 7 99 with
            attributes := [⟨3, [0x41, 0x42]⟩].map (storedAttribute host64) ++ ⟨CKA_CLASS, v⟩
              :: [].map (storedAttribute host64) }) ∧
      v.length = 8 ∧ host64.decodeULong v = 3 + 2 ^ 8 * 1 + 2 ^ 16 * 0 + 2 ^ 24 * 0 :=
  (decode_format0_integer host64 (by decide) 7 99 blob0 [⟨3, [0x41, 0x42]⟩] []
    ⟨CKA_CLASS, [3, 1, 0, 0]⟩ (by decide) (by decide) (by decide) (by decide) (by decide)
    (by decide) (by decide) (by decide)).2 3 1 0 0 rfl (by decide) (by decide) (by decide)
    (by decide)
/-- C20, the claim as stated fails: in the format-1 blob
`01 00000007 00000395 0000` with id 7 and no explicit attribute, bytes 1 to 4
hold 7 and bytes 5 to 8 hold `0x395`. The constructor expands the defaults
from `0x395` (a `CKA_ID` of 5, class 1, and token, private and modifiable all
set), not from 7. -/
theorem flags_word_counterexample :
    CKYBuffer_GetLong ⟨[1, 0, 0, 0, 7, 0, 0, 3, 0x95, 0, 0], 11⟩ 1 = 7 ∧
    PKCS11Object_PKCS11Object_data host32 7 ⟨[1, 0, 0, 0, 7, 0, 0, 3, 0x95, 0, 0], 11⟩ 99
      = some (Except.ok { PKCS11Object_PKCS11Object 7 99 with
          attributes := [⟨CKA_ID, [5]⟩, ⟨CKA_CLASS, [1, 0, 0, 0]⟩, ⟨CKA_TOKEN, [1]⟩,
            ⟨CKA_PRIVATE, [1]⟩, ⟨CKA_MODIFIABLE, [1]⟩] }) ∧
    expandAttributes host32 [] 7
      = [⟨CKA_ID, [7]⟩, ⟨CKA_CLASS, [0, 0, 0, 0]⟩, ⟨CKA_TOKEN, [0]⟩,
          ⟨CKA_PRIVATE, [0]⟩, ⟨CKA_MODIFIABLE, [0]⟩] := by
  refine ⟨by decide, rfl, by decide⟩

/-- C20, amended: in a format-1 blob with the expected id, bytes 1 to 4 hold
the object id and the flags word is the big-endian 32-bit value `flags` held
in bytes 5 to 8. The constructor throws what the loop over the explicit
attributes throws, and else builds the object whose attributes are the
explicit ones expanded with `expandAttributes` from `flags`. -/
theorem decode_format1_flags (host : Host) (id handle : Nat) (data : CKYBuffer)
    (flags : Nat) (rest : List Nat) (hwf : data.WF) (hid : id < 2 ^ 32)
    (hflags : flags < 2 ^ 32) (hrest : 2 ≤ rest.length)
    (hdata : CKYBuffer_Data data = [1] ++ BE32 id ++ BE32 flags ++ rest) :
    PKCS11Object_PKCS11Object_data host id data handle
      = match parseNewObject_loop host data (CKYBuffer_GetShort data 9) 11 [] with
        | Except.error e => some (Except.error e)
        | Except.ok attributes =>
          some (Except.ok { PKCS11Object_PKCS11Object id handle with
            attributes := expandAttributes host attributes flags }) := by
  have hlen : data.len = 9 + rest.length := by
    rw [← length_Data hwf, hdata]
    simp only [List.length_append, length_BE32, List.length_singleton]
  have e0 : CKYBuffer_GetChar data 0 = 1 := GetChar_of (by rw [hdata]; rfl)
  have e1 : CKYBuffer_GetLong data 1 = id := by
    have := @GetLong_BE32 data [1] (BE32 flags ++ rest) id hid
      (by rw [hdata]; simp only [List.append_assoc])
    exact this
  have e5 : CKYBuffer_GetLong data 5 = flags := by
    have := @GetLong_BE32 data ([1] ++ BE32 id) rest flags hflags hdata
    exact this
  have c1 : ¬ data.len < 11 := by omega
  unfold PKCS11Object_PKCS11Object_data parseNewObject
  simp only [e0, e1, e5, ne_eq, not_true_eq_false, if_false, if_true, CKYBuffer_Size, c1]
  rw [if_neg (by decide : ¬ (1 : Nat) = 0)]
  have ha : (PKCS11Object_PKCS11Object id handle).attributes = [] := rfl
  rw [ha]
  cases parseNewObject_loop host data (CKYBuffer_GetShort data 9) 11 [] <;> rfl

/-- C20, amended, at the blob `01 00000007 00000395 0000`: the defaults come
from `0x395`. -/
theorem decode_format1_flags_witness :
    PKCS11Object_PKCS11Object_data host32 7 ⟨[1, 0, 0, 0, 7, 0, 0, 3, 0x95, 0, 0], 11⟩ 99
      = match parseNewObject_loop host32 ⟨[1, 0, 0, 0, 7, 0, 0, 3, 0x95, 0, 0], 11⟩
          (CKYBuffer_GetShort ⟨[1, 0, 0, 0, 7, 0, 0, 3, 0x95, 0, 0], 11⟩ 9) 11 [] with
        | Except.error e => some (Except.error e)
        | Except.ok attributes =>
          some (Except.ok { PKCS11Object_PKCS11Object 7 99 with
            attributes := expandAttributes host32 attributes 0x395 }) :=
  decode_format1_flags host32 7 99 ⟨[1, 0, 0, 0, 7, 0, 0, 3, 0x95, 0, 0], 11⟩ 0x395 [0, 0]
    (by decide) (by decide) (by decide) (by decide) (by decide)

/-- The loop of `parseOldObject` comes to an end within as many iterations as
there are bytes left. -/
theorem parseOldObject_loop_total (host : Host) (data : CKYBuffer) :
    ∀ (fuel idx : Nat) (acc : List PKCS11Attribute), data.len ≤ idx + fuel →
      ∃ res, parseOldObject_loop host data fuel idx acc = some res := by
  intro fuel
  induction fuel with
  | zero =>
    intro idx acc h
    exact ⟨_, parseOldObject_loop_done host data 0 idx acc (by omega)⟩
  | succ fuel ih =>
    intro idx acc h
    rw [parseOldObject_loop]
    split
    · exact ⟨_, rfl⟩
    · split
      · exact ⟨_, rfl⟩
      · simp only
        split
        · exact ⟨_, rfl⟩
        · split
          · split
            · exact ⟨_, rfl⟩
            · exact ih _ _ (by omega)
          · exact ih _ _ (by omega)

/-- The constructor returns on every blob: an exception or an object. -/
theorem PKCS11Object_data_total (host : Host) (id handle : Nat) (data : CKYBuffer) :
    ∃ res, PKCS11Object_PKCS11Object_data host id data handle = some res := by
  unfold PKCS11Object_PKCS11Object_data parseOldObject
  simp only
  split
  · exact ⟨_, rfl⟩
  · split
    · split
      · obtain ⟨res, hres⟩ := parseOldObject_loop_total host data (CKYBuffer_Size data) 7 []
          (by simp only [CKYBuffer_Size]; omega)
        rename_i heq
        split at heq
        · exact Option.noConfusion heq
        · split at heq
          · exact Option.noConfusion heq
          · have ha : (PKCS11Object_PKCS11Object id handle).attributes = [] := rfl
            rw [ha, hres] at heq
            exact Option.noConfusion heq
      · exact ⟨_, rfl⟩
      · exact ⟨_, rfl⟩
    · split
      · split
        · exact ⟨_, rfl⟩
        · exact ⟨_, rfl⟩
      · exact ⟨_, rfl⟩

section Format1Lemmas

theorem length_encode1_pos (r : Record1) : 0 < r.encode.length := by
  cases r <;> simp [Record1.encode, BE32]

theorem getElem?_kind (pre post : List Nat) (t K : Nat) :
    (pre ++ (BE32 t ++ [K]) ++ post)[pre.length + 4]? = some K := by
  rw [getElem?_mid pre (BE32 t ++ [K]) post 4 (by simp [BE32])]
  rfl

/-- One iteration of the loop of `parseNewObject` at a good record. -/
theorem parseNewObject_loop_step (host : Host) (data : CKYBuffer) (hwf : data.WF) (n : Nat)
    (acc : List PKCS11Attribute) (pre post : List Nat) (r : Record1) (hr : r.good)
    (h : CKYBuffer_Data data = pre ++ r.encode ++ post) :
    parseNewObject_loop host data (n + 1) pre.length acc
      = parseNewObject_loop host data n (pre.length + r.encode.length)
          (acc ++ [r.stored host]) := by
  have hlen : data.len = pre.length + r.encode.length + post.length := by
    rw [← length_Data hwf, h]; simp only [List.length_append]
  have hpos := length_encode1_pos r
  have c1 : pre.length < data.len := by omega
  cases r with
  | string t v =>
    obtain ⟨ht, hv⟩ := hr
    have hl : (Record1.string t v).encode.length = 7 + v.length := by
      simp [Record1.encode, BE32, BE16]; omega
    have e1 : CKYBuffer_GetLong data pre.length = t :=
      @GetLong_BE32 data pre ([DATATYPE_STRING] ++ BE16 v.length ++ v ++ post) t ht
        (by rw [h]; simp only [Record1.encode, List.append_assoc])
    have e2 : CKYBuffer_GetChar data (pre.length + 4) = DATATYPE_STRING := by
      have := @GetChar_of data (pre.length + 4) DATATYPE_STRING
        (by rw [h, ← getElem?_kind pre (BE16 v.length ++ v ++ post) t DATATYPE_STRING]; simp only [Record1.encode, List.append_assoc])
      exact this
    have e3 : CKYBuffer_GetShort data (pre.length + 5) = v.length := by
      have := @GetShort_BE16 data (pre ++ BE32 t ++ [DATATYPE_STRING]) (v ++ post) v.length
        (by omega) (by rw [h]; simp only [Record1.encode, List.append_assoc])
      simpa [BE32] using this
    have e4 : bytesAt data (pre.length + 5 + 2) v.length = v := by
      have := @bytesAt_mid data (pre ++ BE32 t ++ [DATATYPE_STRING] ++ BE16 v.length) v post
        (by rw [h]; simp only [Record1.encode, List.append_assoc])
      simpa [BE32, BE16, Nat.add_assoc] using this
    rw [hl] at hlen
    have c2 : ¬ (v.length > data.len ∨ pre.length + 5 + 2 + v.length > data.len) := by omega
    rw [parseNewObject_loop]
    simp only [CKYBuffer_Size, c1, not_true_eq_false, if_false, e1, e2, e3, if_true, c2, e4, hl,
      Record1.stored, PKCS11Attribute.setValue, PKCS11Attribute.setType, PKCS11Attribute.empty]
    congr 1
    omega
  | bool t b =>
    have ht : t < 2 ^ 32 := hr
    have hl : (Record1.bool t b).encode.length = 5 := by
      simp [Record1.encode, BE32]
    have e1 : CKYBuffer_GetLong data pre.length = t :=
      @GetLong_BE32 data pre
        ([if b then DATATYPE_BOOL_TRUE else DATATYPE_BOOL_FALSE] ++ post) t ht
        (by rw [h]; simp only [Record1.encode, List.append_assoc])
    have e2 : CKYBuffer_GetChar data (pre.length + 4)
        = if b then DATATYPE_BOOL_TRUE else DATATYPE_BOOL_FALSE := by
      have := @GetChar_of data (pre.length + 4)
        (if b then DATATYPE_BOOL_TRUE else DATATYPE_BOOL_FALSE)
        (by rw [h, ← getElem?_kind pre post t (if b then DATATYPE_BOOL_TRUE else DATATYPE_BOOL_FALSE)]; simp only [Record1.encode, List.append_assoc])
      exact this
    rw [parseNewObject_loop]
    cases b <;>
      simp [CKYBuffer_Size, c1, e1, e2, hl, Record1.stored, PKCS11Attribute.setValue,
        PKCS11Attribute.setType, PKCS11Attribute.empty, DATATYPE_BOOL_TRUE, DATATYPE_BOOL_FALSE,
        DATATYPE_STRING, DATATYPE_INTEGER]
  | integer t v =>
    obtain ⟨ht, hv⟩ := hr
    have hl : (Record1.integer t v).encode.length = 9 := by
      simp [Record1.encode, BE32]
    have e1 : CKYBuffer_GetLong data pre.length = t :=
      @GetLong_BE32 data pre ([DATATYPE_INTEGER] ++ BE32 v ++ post) t ht
        (by rw [h]; simp only [Record1.encode, List.append_assoc])
    have e2 : CKYBuffer_GetChar data (pre.length + 4) = DATATYPE_INTEGER := by
      have := @GetChar_of data (pre.length + 4) DATATYPE_INTEGER
        (by rw [h, ← getElem?_kind pre (BE32 v ++ post) t DATATYPE_INTEGER]; simp only [Record1.encode, List.append_assoc])
      exact this
    have e3 : CKYBuffer_GetLong data (pre.length + 5) = v := by
      have := @GetLong_BE32 data (pre ++ BE32 t ++ [DATATYPE_INTEGER]) post v hv
        (by rw [h]; simp only [Record1.encode, List.append_assoc])
      simpa [BE32] using this
    rw [parseNewObject_loop]
    simp [CKYBuffer_Size, c1, e1, e2, e3, hl, Record1.stored, PKCS11Attribute.setValue,
      PKCS11Attribute.setType, PKCS11Attribute.empty, DATATYPE_BOOL_TRUE, DATATYPE_BOOL_FALSE,
      DATATYPE_STRING, DATATYPE_INTEGER, Nat.add_assoc]

end Format1Lemmas
section Format1Records

theorem encodeRecords1_append (a b : List Record1) :
    encodeRecords1 (a ++ b) = encodeRecords1 a ++ encodeRecords1 b := by
  induction a with
  | nil => rfl
  | cons r a ih =>
    rw [List.cons_append, encodeRecords1, encodeRecords1, ih, List.append_assoc]

/-- The loop of `parseNewObject` over good records: their attributes are added
in order. -/
theorem parseNewObject_loop_records (host : Host) (data : CKYBuffer) (hwf : data.WF) :
    ∀ (rs : List Record1) (pre post : List Nat) (acc : List PKCS11Attribute) (n : Nat),
      (∀ r ∈ rs, r.good) → CKYBuffer_Data data = pre ++ encodeRecords1 rs ++ post →
      parseNewObject_loop host data (rs.length + n) pre.length acc
        = parseNewObject_loop host data n (pre.length + (encodeRecords1 rs).length)
            (acc ++ rs.map (Record1.stored host)) := by
  intro rs
  induction rs with
  | nil =>
    intro pre post acc n _ _
    simp only [List.length_nil, Nat.zero_add, encodeRecords1, Nat.add_zero, List.map_nil,
      List.append_nil]
  | cons r rs ih =>
    intro pre post acc n hg h
    have h1 : CKYBuffer_Data data = pre ++ r.encode ++ (encodeRecords1 rs ++ post) := by
      rw [h, encodeRecords1]; simp only [List.append_assoc]
    have h2 : CKYBuffer_Data data = (pre ++ r.encode) ++ encodeRecords1 rs ++ post := by
      rw [h, encodeRecords1]; simp only [List.append_assoc]
    have e : (r :: rs).length + n = (rs.length + n) + 1 := by
      simp only [List.length_cons]; omega
    rw [e, parseNewObject_loop_step host data hwf _ acc pre _ r (hg r (List.mem_cons_self _ _)) h1]
    have := ih (pre ++ r.encode) post (acc ++ [r.stored host]) n
      (fun x hx => hg x (List.mem_cons_of_mem _ hx)) h2
    rw [List.length_append] at this
    rw [this, encodeRecords1, List.length_append, List.map_cons, List.append_assoc,
      List.singleton_append, Nat.add_assoc]

/-- The loop of `parseNewObject` at a record whose kind tag is none of the four
known ones. -/
theorem parseNewObject_loop_bad_kind (host : Host) (data : CKYBuffer) (hwf : data.WF) (n : Nat)
    (acc : List PKCS11Attribute) (pre post : List Nat) (t K : Nat)
    (hK : K ≠ DATATYPE_STRING ∧ K ≠ DATATYPE_INTEGER ∧ K ≠ DATATYPE_BOOL_FALSE ∧
      K ≠ DATATYPE_BOOL_TRUE)
    (h : CKYBuffer_Data data = pre ++ (BE32 t ++ [K]) ++ post) :
    parseNewObject_loop host data (n + 1) pre.length acc = Except.error CKR_DEVICE_ERROR := by
  have hlen : data.len = pre.length + 5 + post.length := by
    rw [← length_Data hwf, h]
    simp only [List.length_append, length_BE32, List.length_singleton]
  have c1 : pre.length < data.len := by omega
  have e2 : CKYBuffer_GetChar data (pre.length + 4) = K :=
    GetChar_of (by rw [h]; exact getElem?_kind pre post t K)
  rw [parseNewObject_loop]
  simp only [CKYBuffer_Size, c1, not_true_eq_false, if_false, e2, hK.1, hK.2.1, hK.2.2.1, hK.2.2.2,
    or_self]

/-- The method `expandAttributes` only adds attributes at the end. -/
theorem expandAttributes_loop_append (host : Host) (mask fixedAttrs : Nat) :
    ∀ (n i : Nat) (attrs : List PKCS11Attribute),
      ∃ ext, expandAttributes_loop host mask fixedAttrs n i attrs = attrs ++ ext := by
  intro n
  induction n with
  | zero => intro i attrs; exact ⟨[], by rw [expandAttributes_loop, List.append_nil]⟩
  | succ n ih =>
    intro i attrs
    rw [expandAttributes_loop]
    simp only
    split
    · exact ih _ _
    · split
      · exact ih _ _
      · obtain ⟨ext, he⟩ := ih (i + 1) (attrs ++
          [(PKCS11Attribute.empty.setType (host.boolTypeAt i)).setValue
            [if fixedAttrs &&& host.intShl1 i ≠ 0 then 1 else 0]])
        exact ⟨_, by rw [he, List.append_assoc]⟩

theorem expandAttributes_append (host : Host) (attrs : List PKCS11Attribute) (fixedAttrs : Nat) :
    ∃ ext, expandAttributes host attrs fixedAttrs = attrs ++ ext := by
  unfold expandAttributes
  simp only
  generalize hA1 : (if ¬ attributeExists attrs CKA_ID then
      attrs ++ [(PKCS11Attribute.empty.setType CKA_ID).setValue [(fixedAttrs &&& 0xf) % 256]]
    else attrs) = A1
  have h1 : ∃ e1, A1 = attrs ++ e1 := by
    rw [← hA1]
    split
    · exact ⟨_, rfl⟩
    · exact ⟨[], (List.append_nil _).symm⟩
  generalize hA2 : (if ¬ attributeExists A1 CKA_CLASS then
      A1 ++ [(PKCS11Attribute.empty.setType CKA_CLASS).setValue
        (host.encodeULong ((fixedAttrs >>> 4) &&& 0x7))]
    else A1) = A2
  have h2 : ∃ e2, A2 = A1 ++ e2 := by
    rw [← hA2]
    split
    · exact ⟨_, rfl⟩
    · exact ⟨[], (List.append_nil _).symm⟩
  obtain ⟨e1, he1⟩ := h1
  obtain ⟨e2, he2⟩ := h2
  obtain ⟨ext, he⟩ := expandAttributes_loop_append host
    (boolMask.getD ((fixedAttrs >>> 4) &&& 0x7) 0) fixedAttrs (host.sizeofULong * 8 - 1) 1 A2
  exact ⟨e1 ++ (e2 ++ ext), by rw [he, he2, he1]; simp only [List.append_assoc]⟩

end Format1Records
/-- The constructor on a format-1 blob with the right id comes down to the loop
of `parseNewObject` from offset 11 and the expansion of the flags word. -/
theorem decode_format1 (host : Host) (id handle : Nat) (data : CKYBuffer) (flags k : Nat)
    (body : List Nat) (hwf : data.WF) (hid : id < 2 ^ 32) (hflags : flags < 2 ^ 32)
    (hk : k < 2 ^ 16)
    (hdata : CKYBuffer_Data data = [1] ++ BE32 id ++ BE32 flags ++ BE16 k ++ body) :
    data.len = 11 + body.length ∧
    PKCS11Object_PKCS11Object_data host id data handle
      = match parseNewObject_loop host data k 11 [] with
        | Except.error e => some (Except.error e)
        | Except.ok attributes =>
          some (Except.ok { PKCS11Object_PKCS11Object id handle with
            attributes := expandAttributes host attributes flags }) := by
  have hlen : data.len = 11 + body.length := by
    rw [← length_Data hwf, hdata]
    simp only [List.length_append, length_BE32, length_BE16, List.length_singleton]
  have e0 : CKYBuffer_GetChar data 0 = 1 := GetChar_of (by rw [hdata]; rfl)
  have e1 : CKYBuffer_GetLong data 1 = id :=
    @GetLong_BE32 data [1] (BE32 flags ++ BE16 k ++ body) id hid
      (by rw [hdata]; simp only [List.append_assoc])
  have e5 : CKYBuffer_GetLong data 5 = flags := by
    have := @GetLong_BE32 data ([1] ++ BE32 id) (BE16 k ++ body) flags hflags
      (by rw [hdata]; simp only [List.append_assoc])
    exact this
  have e9 : CKYBuffer_GetShort data 9 = k := by
    have := @GetShort_BE16 data ([1] ++ BE32 id ++ BE32 flags) body k hk hdata
    exact this
  have c1 : ¬ data.len < 11 := by omega
  refine ⟨hlen, ?_⟩
  unfold PKCS11Object_PKCS11Object_data parseNewObject
  simp only [e0, e1, e5, e9, ne_eq, not_true_eq_false, if_false, if_true, CKYBuffer_Size, c1]
  rw [if_neg (by decide : ¬ (1 : Nat) = 0)]
  have ha : (PKCS11Object_PKCS11Object id handle).attributes = [] := rfl
  rw [ha]
  cases parseNewObject_loop host data k 11 [] <;> rfl

theorem length_header1 (id flags k : Nat) :
    ([1] ++ BE32 id ++ BE32 flags ++ BE16 k).length = 11 := rfl

/-- C21: take a format-1 blob with the expected id whose bytes 9 and 10 hold
the count of good records `rs` that follow from offset 11, whatever comes
after them. The constructor builds an object whose first attributes are the
attributes of the records in order: the bytes of a string, the byte 1 or 0 of
a boolean, and for an integer the `sizeof(CK_ULONG)` bytes that the host reads
as the value of the four payload bytes, high byte first. When a record with a
kind tag other than the four follows fewer good records than the count, the
constructor throws `CKR_DEVICE_ERROR`. -/
theorem decode_format1_records (host : Host) (hW : 4 ≤ host.sizeofULong) (id handle : Nat)
    (data : CKYBuffer) (flags : Nat) (hwf : data.WF) (hid : id < 2 ^ 32)
    (hflags : flags < 2 ^ 32) (rs : List Record1) (hg : ∀ r ∈ rs, r.good) :
    (∀ rest, rs.length ≤ 65535 →
      CKYBuffer_Data data
        = [1] ++ BE32 id ++ BE32 flags ++ BE16 rs.length ++ (encodeRecords1 rs ++ rest) →
      (∃ o, PKCS11Object_PKCS11Object_data host id data handle = some (Except.ok o) ∧
        o.attributes.take rs.length = rs.map (Record1.stored host)) ∧
      (∀ t v, Record1.integer t v ∈ rs →
        ((Record1.integer t v).stored host).value.length = host.sizeofULong ∧
        host.decodeULong ((Record1.integer t v).stored host).value = v)) ∧
    (∀ k t K rest, rs.length < k → k ≤ 65535 →
      K ≠ DATATYPE_STRING ∧ K ≠ DATATYPE_INTEGER ∧ K ≠ DATATYPE_BOOL_FALSE ∧
        K ≠ DATATYPE_BOOL_TRUE →
      CKYBuffer_Data data
        = [1] ++ BE32 id ++ BE32 flags ++ BE16 k ++ (encodeRecords1 rs ++ (BE32 t ++ [K]) ++ rest) →
      PKCS11Object_PKCS11Object_data host id data handle
        = some (Except.error CKR_DEVICE_ERROR)) := by
  constructor
  · intro rest hk hdata
    obtain ⟨_, hc⟩ := decode_format1 host id handle data flags rs.length _ hwf hid hflags
      (by omega) hdata
    have hloop := parseNewObject_loop_records host data hwf rs
      ([1] ++ BE32 id ++ BE32 flags ++ BE16 rs.length) rest [] 0 hg
      (by rw [hdata]; simp only [List.append_assoc])
    rw [Nat.add_zero, length_header1, List.nil_append, parseNewObject_loop] at hloop
    constructor
    · obtain ⟨ext, he⟩ := expandAttributes_append host (rs.map (Record1.stored host)) flags
      refine ⟨_, by rw [hc, hloop], ?_⟩
      simp only
      rw [he, List.take_append_of_le_length (by rw [List.length_map]), List.take_of_length_le
        (by rw [List.length_map])]
    · intro t v hmem
      have hv : v < 2 ^ 32 := (hg _ hmem).2
      exact ⟨length_encodeULong host v,
        decode_encodeULong host v (Nat.lt_of_lt_of_le hv (two_pow_host hW))⟩
  · intro k t K rest hlt hk hK hdata
    obtain ⟨_, hc⟩ := decode_format1 host id handle data flags k _ hwf hid hflags
      (by omega) hdata
    have hloop := parseNewObject_loop_records host data hwf rs
      ([1] ++ BE32 id ++ BE32 flags ++ BE16 k) ((BE32 t ++ [K]) ++ rest) [] (k - rs.length) hg
      (by rw [hdata]; simp only [List.append_assoc])
    have hbad := parseNewObject_loop_bad_kind host data hwf (k - rs.length - 1)
      ([] ++ rs.map (Record1.stored host))
      ([1] ++ BE32 id ++ BE32 flags ++ BE16 k ++ encodeRecords1 rs) rest t K hK
      (by rw [hdata]; simp only [List.append_assoc])
    rw [Nat.add_sub_cancel' (Nat.le_of_lt hlt), length_header1] at hloop
    rw [List.length_append, length_header1, Nat.sub_add_cancel (by omega)] at hbad
    rw [hc, hloop, hbad]

/-- C21, at a blob of three records, a string `41 42`, a true boolean and the
integer `0x01020304`, on a little-endian host with an `unsigned long` of 8
bytes. -/
theorem decode_format1_records_witness :
    (∃ o, PKCS11Object_PKCS11Object_data host64 7
        ⟨[1, 0, 0, 0, 7, 0, 0, 0, 0x15, 0, 3,
          0, 0, 0, 3, 0, 0, 2, 0x41, 0x42,
          0, 0, 0, 1, 3,
          0, 0, 1, 0x61, 1, 1, 2, 3, 4], 34⟩ 99 = some (Except.ok o) ∧
      o.attributes.take 3
        = [⟨3, [0x41, 0x42]⟩, ⟨1, [1]⟩, ⟨0x161, [4, 3, 2, 1, 0, 0, 0, 0]⟩]) ∧
    (∀ t v, Record1.integer t v
        ∈ [Record1.string 3 [0x41, 0x42], Record1.bool 1 true, Record1.integer 0x161 0x01020304] →
      ((Record1.integer t v).stored host64).value.length = 8 ∧
      host64.decodeULong ((Record1.integer t v).stored host64).value = v) :=
  (decode_format1_records host64 (by decide) 7 99
    ⟨[1, 0, 0, 0, 7, 0, 0, 0, 0x15, 0, 3,
      0, 0, 0, 3, 0, 0, 2, 0x41, 0x42,
      0, 0, 0, 1, 3,
      0, 0, 1, 0x61, 1, 1, 2, 3, 4], 34⟩ 0x15 (by decide) (by decide) (by decide)
    [Record1.string 3 [0x41, 0x42], Record1.bool 1 true, Record1.integer 0x161 0x01020304]
    (by decide)).1 [] (by decide) (by decide)
section ExpandLemmas

theorem attributeExists_iff (attrs : List PKCS11Attribute) (t : Nat) :
    attributeExists attrs t = true ↔ ∃ a ∈ attrs, a.type = t := by
  unfold attributeExists
  cases h : find_if (AttributeTypeMatch t) attrs with
  | none =>
    have := (absent_iff attrs t).mp h
    simp only [Bool.false_eq_true, false_iff, not_exists, not_and]
    exact fun a ha => this a ha
  | some i =>
    obtain ⟨a, ha, hp⟩ := find_if_some_getElem _ _ _ h
    simp only [true_iff]
    refine ⟨a, List.getElem?_mem ha, ?_⟩
    simpa only [AttributeTypeMatch, beq_iff_eq] using hp

theorem AddsNew_nil (attrs : List PKCS11Attribute) : AddsNew attrs [] :=
  ⟨fun a ha => absurd ha (List.not_mem_nil a), List.nodup_nil⟩

theorem AddsNew_single (attrs : List PKCS11Attribute) (x : PKCS11Attribute)
    (h : ¬ attributeExists attrs x.type = true) : AddsNew attrs [x] := by
  refine ⟨fun a ha b hb hab => h ?_, List.nodup_singleton _⟩
  rw [List.mem_singleton] at ha
  rw [attributeExists_iff]
  exact ⟨b, hb, by rw [← hab, ha]⟩

theorem AddsNew_append (attrs e1 e2 : List PKCS11Attribute) (h1 : AddsNew attrs e1)
    (h2 : AddsNew (attrs ++ e1) e2) : AddsNew attrs (e1 ++ e2) := by
  refine ⟨fun a ha b hb => ?_, ?_⟩
  · rcases List.mem_append.mp ha with ha | ha
    · exact h1.1 a ha b hb
    · exact h2.1 a ha b (List.mem_append_left _ hb)
  · rw [List.map_append, List.nodup_append]
    refine ⟨h1.2, h2.2, ?_⟩
    intro t ht1 ht2
    obtain ⟨a, ha, hat⟩ := List.mem_map.mp ht1
    obtain ⟨b, hb, hbt⟩ := List.mem_map.mp ht2
    exact h2.1 b hb a (List.mem_append_right _ ha) (by rw [hbt, hat])

/-- The loop of `expandAttributes` adds attributes at the end, each of a type
that the store does not hold yet. -/
theorem expandAttributes_loop_new (host : Host) (mask fixedAttrs : Nat) :
    ∀ (n i : Nat) (attrs : List PKCS11Attribute),
      ∃ ext, expandAttributes_loop host mask fixedAttrs n i attrs = attrs ++ ext ∧
        AddsNew attrs ext := by
  intro n
  induction n with
  | zero =>
    intro i attrs
    exact ⟨[], by rw [expandAttributes_loop, List.append_nil], AddsNew_nil attrs⟩
  | succ n ih =>
    intro i attrs
    rw [expandAttributes_loop]
    simp only
    split
    · exact ih _ _
    · split
      · exact ih _ _
      · rename_i hex
        obtain ⟨ext, he, hnew⟩ := ih (i + 1) (attrs ++
          [(PKCS11Attribute.empty.setType (host.boolTypeAt i)).setValue
            [if fixedAttrs &&& host.intShl1 i ≠ 0 then 1 else 0]])
        exact ⟨_, by rw [he, List.append_assoc],
          AddsNew_append attrs _ ext (AddsNew_single attrs _ hex) hnew⟩

/-- The method `expandAttributes` adds attributes at the end, each of a type
that the store does not hold yet; the first is the `CKA_ID` of the low four
bits of the flags word when the store holds no `CKA_ID`. -/
theorem expandAttributes_new (host : Host) (attrs : List PKCS11Attribute) (fixedAttrs : Nat) :
    ∃ ext, expandAttributes host attrs fixedAttrs = attrs ++ ext ∧ AddsNew attrs ext ∧
      (¬ attributeExists attrs CKA_ID = true →
        ∃ ext2, ext = ⟨CKA_ID, [fixedAttrs &&& 0xf]⟩ :: ext2) := by
  have hbyte : (fixedAttrs &&& 0xf) % 256 = fixedAttrs &&& 0xf :=
    Nat.mod_eq_of_lt (Nat.lt_of_le_of_lt Nat.and_le_right (by decide))
  unfold expandAttributes
  simp only
  rw [hbyte]
  generalize hA1 : (if ¬ attributeExists attrs CKA_ID then
      attrs ++ [(PKCS11Attribute.empty.setType CKA_ID).setValue [fixedAttrs &&& 0xf]]
    else attrs) = A1
  have h1 : ∃ e1, A1 = attrs ++ e1 ∧ AddsNew attrs e1 ∧
      (¬ attributeExists attrs CKA_ID = true → e1 = [⟨CKA_ID, [fixedAttrs &&& 0xf]⟩]) := by
    rw [← hA1]
    split
    · rename_i h
      exact ⟨_, rfl, AddsNew_single attrs _ h, fun _ => rfl⟩
    · rename_i h
      exact ⟨[], (List.append_nil _).symm, AddsNew_nil attrs, fun h2 => absurd h2 h⟩
  generalize hA2 : (if ¬ attributeExists A1 CKA_CLASS then
      A1 ++ [(PKCS11Attribute.empty.setType CKA_CLASS).setValue
        (host.encodeULong ((fixedAttrs >>> 4) &&& 0x7))]
    else A1) = A2
  have h2 : ∃ e2, A2 = A1 ++ e2 ∧ AddsNew A1 e2 := by
    rw [← hA2]
    split
    · rename_i h
      exact ⟨_, rfl, AddsNew_single A1 _ h⟩
    · exact ⟨[], (List.append_nil _).symm, AddsNew_nil A1⟩
  obtain ⟨e1, he1, hn1, hid⟩ := h1
  obtain ⟨e2, he2, hn2⟩ := h2
  obtain ⟨ext, he, hn3⟩ := expandAttributes_loop_new host
    (boolMask.getD ((fixedAttrs >>> 4) &&& 0x7) 0) fixedAttrs (host.sizeofULong * 8 - 1) 1 A2
  rw [he2] at hn3
  rw [he1] at hn2 hn3
  refine ⟨e1 ++ (e2 ++ ext), by rw [he, he2, he1]; simp only [List.append_assoc],
    AddsNew_append attrs e1 _ hn1 (AddsNew_append _ e2 ext hn2 hn3), fun h => ?_⟩
  rw [hid h]
  exact ⟨e2 ++ ext, rfl⟩

/-- A successful decode of a blob with tag 1: the loop over the explicit
records has succeeded and the attributes are its result, expanded from the
word at offset 5. -/
theorem decode_format1_ok (host : Host) (id handle : Nat) (data : CKYBuffer) (o : PKCS11Object)
    (htag : CKYBuffer_GetChar data 0 = 1)
    (hok : PKCS11Object_PKCS11Object_data host id data handle = some (Except.ok o)) :
    ∃ explicit, parseNewObject_loop host data (CKYBuffer_GetShort data 9) 11 [] = Except.ok explicit ∧
      o.attributes = expandAttributes host explicit (CKYBuffer_GetLong data 5) := by
  unfold PKCS11Object_PKCS11Object_data parseNewObject at hok
  simp only [htag] at hok
  rw [if_neg (by decide : ¬ (1 : Nat) = 0)] at hok
  simp only [if_true] at hok
  split at hok
  · simp only [Option.some.injEq, reduceCtorEq] at hok
  · split at hok
    · simp only [Option.some.injEq, reduceCtorEq] at hok
    · rename_i attrs hp
      simp only [Option.some.injEq, Except.ok.injEq] at hok
      split at hp
      · simp only [reduceCtorEq] at hp
      · have ha : (PKCS11Object_PKCS11Object id handle).attributes = [] := rfl
        rw [ha] at hp
        split at hp
        · simp only [reduceCtorEq] at hp
        · rename_i explicit hl
          simp only [Except.ok.injEq] at hp
          exact ⟨explicit, hl, by rw [← hok, ← hp]⟩

end ExpandLemmas
theorem stored_type (host : Host) (r : Record1) : (r.stored host).type = r.type := by
  cases r <;> rfl

/-- The constructor on a format-1 blob of good records with the right count:
the attributes of the records, expanded from the flags word. -/
theorem decode_format1_good (host : Host) (id handle : Nat) (data : CKYBuffer) (flags : Nat)
    (hwf : data.WF) (hid : id < 2 ^ 32) (hflags : flags < 2 ^ 32) (rs : List Record1)
    (hg : ∀ r ∈ rs, r.good) (rest : List Nat) (hk : rs.length ≤ 65535)
    (hdata : CKYBuffer_Data data
      = [1] ++ BE32 id ++ BE32 flags ++ BE16 rs.length ++ (encodeRecords1 rs ++ rest)) :
    PKCS11Object_PKCS11Object_data host id data handle
      = some (Except.ok { PKCS11Object_PKCS11Object id handle with
          attributes := expandAttributes host (rs.map (Record1.stored host)) flags }) := by
  obtain ⟨_, hc⟩ := decode_format1 host id handle data flags rs.length _ hwf hid hflags
    (by omega) hdata
  have hloop := parseNewObject_loop_records host data hwf rs
    ([1] ++ BE32 id ++ BE32 flags ++ BE16 rs.length) rest [] 0 hg
    (by rw [hdata]; simp only [List.append_assoc])
  rw [Nat.add_zero, length_header1, List.nil_append, parseNewObject_loop] at hloop
  rw [hc, hloop]

/-- C22: whenever the constructor builds an object from a blob with tag 1, the
attributes of the object are the attributes `explicit` that the loop over the
explicit records has stored, followed by attributes that are new to them: no
explicit attribute is changed or removed, no added attribute has the type of
an explicit one, and `getAttribute` for the type of an explicit attribute
returns the value of the first explicit attribute of that type. On a blob of
good records this is the value of the first record of the type, whatever the
flags word is. -/
theorem explicit_values_win (host : Host) (id handle : Nat) (data : CKYBuffer) :
    (∀ o, CKYBuffer_GetChar data 0 = 1 →
      PKCS11Object_PKCS11Object_data host id data handle = some (Except.ok o) →
      ∃ explicit ext,
        parseNewObject_loop host data (CKYBuffer_GetShort data 9) 11 [] = Except.ok explicit ∧
        o.attributes = explicit ++ ext ∧ AddsNew explicit ext ∧
        ∀ pre a post, explicit = pre ++ a :: post → (∀ x ∈ pre, x.type ≠ a.type) →
          getAttribute o.attributes a.type = some a.value) ∧
    (∀ flags rs rest, data.WF → id < 2 ^ 32 → flags < 2 ^ 32 → (∀ r ∈ rs, Record1.good r) →
      rs.length ≤ 65535 →
      CKYBuffer_Data data
        = [1] ++ BE32 id ++ BE32 flags ++ BE16 rs.length ++ (encodeRecords1 rs ++ rest) →
      ∃ o, PKCS11Object_PKCS11Object_data host id data handle = some (Except.ok o) ∧
        ∀ pre r post, rs = pre ++ r :: post → (∀ x ∈ pre, Record1.type x ≠ r.type) →
          getAttribute o.attributes r.type = some (r.stored host).value) := by
  constructor
  · intro o htag hok
    obtain ⟨explicit, hl, ha⟩ := decode_format1_ok host id handle data o htag hok
    obtain ⟨ext, he, hnew, _⟩ := expandAttributes_new host explicit (CKYBuffer_GetLong data 5)
    refine ⟨explicit, ext, hl, by rw [ha, he], hnew, ?_⟩
    intro pre a post hsplit hpre
    rw [ha, he, hsplit, List.append_assoc, List.cons_append]
    exact getAttribute_first pre a (post ++ ext) a.type hpre rfl
  · intro flags rs rest hwf hid hflags hg hk hdata
    obtain ⟨ext, he, _, _⟩ := expandAttributes_new host (rs.map (Record1.stored host)) flags
    refine ⟨_, decode_format1_good host id handle data flags hwf hid hflags rs hg rest hk hdata,
      ?_⟩
    intro pre r post hsplit hpre
    simp only
    rw [he, hsplit, List.map_append, List.map_cons, List.append_assoc, List.cons_append,
      ← stored_type host r]
    refine getAttribute_first _ _ _ _ (fun x hx => ?_) rfl
    obtain ⟨y, hy, hyx⟩ := List.mem_map.mp hx
    rw [← hyx, stored_type, stored_type]
    exact hpre y hy

/-- C22, at a blob whose flags word `0x395` asks for a `CKA_ID` of 5 and a true
`CKA_TOKEN` and whose records give a `CKA_ID` of `41 42` and a false
`CKA_TOKEN`: the values of the records are returned. -/
theorem explicit_values_win_witness :
    ∃ o, PKCS11Object_PKCS11Object_data host32 7
        ⟨[1, 0, 0, 0, 7, 0, 0, 3, 0x95, 0, 2,
          0, 0, 1, 2, 0, 0, 2, 0x41, 0x42,
          0, 0, 0, 1, 2], 25⟩ 99 = some (Except.ok o) ∧
      ∀ pre r post,
        [Record1.string CKA_ID [0x41, 0x42], Record1.bool CKA_TOKEN false] = pre ++ r :: post →
        (∀ x ∈ pre, Record1.type x ≠ r.type) →
        getAttribute o.attributes r.type = some (r.stored host32).value :=
  (explicit_values_win host32 7 99
    ⟨[1, 0, 0, 0, 7, 0, 0, 3, 0x95, 0, 2,
      0, 0, 1, 2, 0, 0, 2, 0x41, 0x42,
      0, 0, 0, 1, 2], 25⟩).2 0x395
    [Record1.string CKA_ID [0x41, 0x42], Record1.bool CKA_TOKEN false] [] (by decide) (by decide)
    (by decide) (by decide) (by decide) (by decide)
/-- C24: take a format-1 blob whose bytes 5 to 8 hold the flags word `flags`
and from which the constructor builds an object, and let `explicit` be the
attributes that the loop over the explicit records has stored. When none of
them has type `CKA_ID`, the object has exactly one attribute of type `CKA_ID`,
the single byte `flags & 0x0F`, and `getAttribute` returns that byte. When one
of them has type `CKA_ID`, the attributes of type `CKA_ID` of the object are
those of `explicit`: none is added. -/
theorem default_id (host : Host) (id handle : Nat) (data : CKYBuffer) (o : PKCS11Object)
    (flags : Nat) (rest : List Nat) (hflags : flags < 2 ^ 32)
    (hdata : CKYBuffer_Data data = [1] ++ BE32 id ++ BE32 flags ++ rest)
    (hok : PKCS11Object_PKCS11Object_data host id data handle = some (Except.ok o)) :
    ∃ explicit,
      parseNewObject_loop host data (CKYBuffer_GetShort data 9) 11 [] = Except.ok explicit ∧
      ((∀ a ∈ explicit, a.type ≠ CKA_ID) →
        getAttribute o.attributes CKA_ID = some [flags &&& 0x0F] ∧
        o.attributes.filter (fun a => decide (a.type = CKA_ID))
          = [⟨CKA_ID, [flags &&& 0x0F]⟩]) ∧
      ((∃ a ∈ explicit, a.type = CKA_ID) →
        o.attributes.filter (fun a => decide (a.type = CKA_ID))
          = explicit.filter (fun a => decide (a.type = CKA_ID))) := by
  have htag : CKYBuffer_GetChar data 0 = 1 := GetChar_of (by rw [hdata]; rfl)
  have e5 : CKYBuffer_GetLong data 5 = flags := by
    have := @GetLong_BE32 data ([1] ++ BE32 id) rest flags hflags hdata
    exact this
  obtain ⟨explicit, hl, ha⟩ := decode_format1_ok host id handle data o htag hok
  obtain ⟨ext, he, hnew, hfirst⟩ := expandAttributes_new host explicit flags
  rw [e5, he] at ha
  refine ⟨explicit, hl, fun habs => ?_, fun hex => ?_⟩
  · have hne : ¬ attributeExists explicit CKA_ID = true := by
      rw [attributeExists_iff]
      rintro ⟨a, ha1, ha2⟩
      exact habs a ha1 ha2
    obtain ⟨ext2, he2⟩ := hfirst hne
    have hf1 : explicit.filter (fun a => decide (a.type = CKA_ID)) = [] := by
      rw [List.filter_eq_nil_iff]
      intro a ha1
      simp only [decide_eq_true_eq]
      exact habs a ha1
    have hf2 : ext2.filter (fun a => decide (a.type = CKA_ID)) = [] := by
      rw [List.filter_eq_nil_iff]
      intro a ha1
      simp only [decide_eq_true_eq]
      intro hat
      have hnd := hnew.2
      rw [he2, List.map_cons, List.nodup_cons] at hnd
      exact hnd.1 (List.mem_map.mpr ⟨a, ha1, hat⟩)
    rw [ha, he2]
    refine ⟨getAttribute_first explicit _ ext2 CKA_ID habs rfl, ?_⟩
    rw [List.filter_append, hf1, List.nil_append, List.filter_cons_of_pos (by simp only [decide_True]),
      hf2]
  · obtain ⟨b, hb, hbt⟩ := hex
    have hf : ext.filter (fun a => decide (a.type = CKA_ID)) = [] := by
      rw [List.filter_eq_nil_iff]
      intro a ha1
      simp only [decide_eq_true_eq]
      intro hat
      exact hnew.1 a ha1 b hb (by rw [hat, hbt])
    rw [ha, List.filter_append, hf, List.append_nil]

/-- C24, at the blob `01 00000007 00000395 0000` without explicit records: the
`CKA_ID` is the byte 5. -/
theorem default_id_witness :
    ∃ explicit,
      parseNewObject_loop host32 ⟨[1, 0, 0, 0, 7, 0, 0, 3, 0x95, 0, 0], 11⟩
        (CKYBuffer_GetShort ⟨[1, 0, 0, 0, 7, 0, 0, 3, 0x95, 0, 0], 11⟩ 9) 11 []
        = Except.ok explicit ∧
      ((∀ a ∈ explicit, a.type ≠ CKA_ID) →
        getAttribute (expandAttributes host32 [] 0x395) CKA_ID = some [0x395 &&& 0x0F] ∧
        (expandAttributes host32 [] 0x395).filter (fun a => decide (a.type = CKA_ID))
          = [⟨CKA_ID, [0x395 &&& 0x0F]⟩]) ∧
      ((∃ a ∈ explicit, a.type = CKA_ID) →
        (expandAttributes host32 [] 0x395).filter (fun a => decide (a.type = CKA_ID))
          = explicit.filter (fun a => decide (a.type = CKA_ID))) :=
  default_id host32 7 99 ⟨[1, 0, 0, 0, 7, 0, 0, 3, 0x95, 0, 0], 11⟩
    { PKCS11Object_PKCS11Object 7 99 with attributes := expandAttributes host32 [] 0x395 }
    0x395 [0, 0] (by decide) (by decide) rfl
section FlagLemmas

/-- The loop of `expandAttributes` when the types it meets are new to the
store and differ from each other: one attribute for each set bit of the mask,
in the order of the bits. -/
theorem expandAttributes_loop_eq (host : Host) (mask f : Nat) :
    ∀ (n i : Nat) (attrs : List PKCS11Attribute),
      (∀ j, i ≤ j → j < i + n → mask &&& host.intShl1 j ≠ 0 →
        ∀ a ∈ attrs, a.type ≠ host.boolTypeAt j) →
      (∀ j k, i ≤ j → j < k → k < i + n → mask &&& host.intShl1 j ≠ 0 →
        mask &&& host.intShl1 k ≠ 0 → host.boolTypeAt j ≠ host.boolTypeAt k) →
      expandAttributes_loop host mask f n i attrs
        = attrs ++ ((List.range' i n).filter (fun j => decide (mask &&& host.intShl1 j ≠ 0))).map
            (fun j => ⟨host.boolTypeAt j, [if f &&& host.intShl1 j ≠ 0 then 1 else 0]⟩) := by
  intro n
  induction n with
  | zero =>
    intro i attrs _ _
    simp only [expandAttributes_loop, List.range', List.filter_nil, List.map_nil, List.append_nil]
  | succ n ih =>
    intro i attrs h1 h2
    rw [expandAttributes_loop]
    simp only
    by_cases hm : mask &&& host.intShl1 i = 0
    · rw [if_pos hm, ih (i + 1) attrs (fun j hj1 hj2 => h1 j (by omega) (by omega))
        (fun j k hj hjk hk => h2 j k (by omega) hjk (by omega))]
      rw [List.range', List.filter_cons_of_neg (by simp only [hm, ne_eq, not_true_eq_false,
        decide_False, Bool.false_eq_true, not_false_eq_true])]
    · have hne : ¬ attributeExists attrs (host.boolTypeAt i) = true := by
        rw [attributeExists_iff]
        rintro ⟨a, ha, hat⟩
        exact h1 i (Nat.le_refl i) (by omega) hm a ha hat
      rw [if_neg hm, if_neg hne]
      rw [ih (i + 1) _ (fun j hj1 hj2 hmj a ha => ?_)
        (fun j k hj hjk hk => h2 j k (by omega) hjk (by omega))]
      · rw [List.range', List.filter_cons_of_pos (by simp only [hm, ne_eq, not_false_eq_true,
          decide_True]), List.map_cons, List.append_assoc, List.singleton_append]
        rfl
      · rcases List.mem_append.mp ha with ha | ha
        · exact h1 j (by omega) (by omega) hmj a ha
        · rw [List.mem_singleton] at ha
          rw [ha]
          exact h2 i j (Nat.le_refl i) (by omega) (by omega) hm hmj

theorem intShl1_ulong4 (host : Host) (hW : host.sizeofULong = 4) (j : Nat) (hj : j < 32) :
    host.intShl1 j = 2 ^ j := by
  unfold Host.intShl1
  by_cases h : j < 31
  · rw [if_pos h]
  · have e : j = 31 := by omega
    rw [if_neg h, if_pos e, hW, e]
    rfl

theorem boolTypeAt_lt (host : Host) (j : Nat) (hj : j < 32) :
    host.boolTypeAt j = boolType.getD j 0 := by
  unfold Host.boolTypeAt
  have hl : j < boolType.length := hj
  rw [List.getD_eq_getElem?_getD, List.getElem?_eq_getElem hl]
  rfl

end FlagLemmas
section DocumentedLemmas

theorem mask_bits (c : Nat) (hc : c < 8) (j : Nat) (hj : j < 32)
    (h : boolMask.getD c 0 &&& 2 ^ j ≠ 0) : 7 ≤ j ∧ j ≤ 23 := by
  revert c j
  decide

theorem boolType_injective (j : Nat) (hj : j < 32) (k : Nat) (hk : k < 32)
    (h : 7 ≤ j ∧ j < k ∧ k ≤ 23) : boolType.getD j 0 ≠ boolType.getD k 0 := by
  revert j k
  decide

theorem boolType_new (j : Nat) (hj : j < 32) (h7 : 7 ≤ j) (h23 : j ≤ 23) :
    boolType.getD j 0 ≠ CKA_ID ∧ boolType.getD j 0 ≠ CKA_CLASS := by
  revert j
  decide

theorem mask_documented (c : Nat) (hc : c < 8) :
    ((List.range' 1 31).filter (fun j => decide (boolMask.getD c 0 &&& 2 ^ j ≠ 0))).map
        (fun j => (boolType.getD j 0, j))
      = (documentedFlags c).map (fun t => (t, flagBit t)) := by
  revert c
  decide

end DocumentedLemmas
/-- On a host whose `unsigned long` has 4 bytes, `expandAttributes` on an empty
store gives the `CKA_ID` of the low four bits, the class of bits 4 to 6, and
then exactly the flag attributes that the specification documents for the
class, in the order of their bits, each one byte that is 1 when its bit is set
in the flags word. -/
theorem expandAttributes_documented (host : Host) (hW : host.sizeofULong = 4) (f : Nat) :
    expandAttributes host [] f
      = ⟨CKA_ID, [f &&& 0xf]⟩ :: ⟨CKA_CLASS, host.encodeULong ((f >>> 4) &&& 0x7)⟩
        :: (documentedFlags ((f >>> 4) &&& 0x7)).map (documentedFlag f) := by
  have hbyte : (f &&& 0xf) % 256 = f &&& 0xf :=
    Nat.mod_eq_of_lt (Nat.lt_of_le_of_lt Nat.and_le_right (by decide))
  have hc : (f >>> 4) &&& 0x7 < 8 := Nat.lt_of_le_of_lt Nat.and_le_right (by decide)
  have hsh : ∀ j, 1 ≤ j → j < 1 + 31 → host.intShl1 j = 2 ^ j :=
    fun j _ hj => intShl1_ulong4 host hW j (by omega)
  have hbt : ∀ j, 1 ≤ j → j < 1 + 31 → host.boolTypeAt j = boolType.getD j 0 :=
    fun j _ hj => boolTypeAt_lt host j (by omega)
  have e1 : attributeExists ([] : List PKCS11Attribute) CKA_ID = false := rfl
  have e2 : attributeExists [(PKCS11Attribute.empty.setType CKA_ID).setValue [f &&& 0xf]]
      CKA_CLASS = false := rfl
  unfold expandAttributes
  simp only [hbyte, e1, e2, Bool.false_eq_true, not_false_eq_true, if_true, List.nil_append, hW]
  rw [expandAttributes_loop_eq host _ f (4 * 8 - 1) 1]
  · have hfil : (List.range' 1 (4 * 8 - 1)).filter
          (fun j => decide (boolMask.getD ((f >>> 4) &&& 0x7) 0 &&& host.intShl1 j ≠ 0))
        = (List.range' 1 31).filter
          (fun j => decide (boolMask.getD ((f >>> 4) &&& 0x7) 0 &&& 2 ^ j ≠ 0)) := by
      refine List.filter_congr (fun j hj => ?_)
      rw [List.mem_range'_1] at hj
      rw [hsh j hj.1 hj.2]
    have hmap : ((List.range' 1 31).filter
          (fun j => decide (boolMask.getD ((f >>> 4) &&& 0x7) 0 &&& 2 ^ j ≠ 0))).map
          (fun j => (⟨host.boolTypeAt j, [if f &&& host.intShl1 j ≠ 0 then 1 else 0]⟩ :
            PKCS11Attribute))
        = (((List.range' 1 31).filter
          (fun j => decide (boolMask.getD ((f >>> 4) &&& 0x7) 0 &&& 2 ^ j ≠ 0))).map
          (fun j => (boolType.getD j 0, j))).map
            (fun p => (⟨p.1, [if f &&& 2 ^ p.2 ≠ 0 then 1 else 0]⟩ : PKCS11Attribute)) := by
      rw [List.map_map]
      refine List.map_congr_left (fun j hj => ?_)
      have hj2 := List.mem_range'_1.mp (List.mem_filter.mp hj).1
      simp only [Function.comp, hsh j hj2.1 hj2.2, hbt j hj2.1 hj2.2]
    rw [hfil, hmap, mask_documented _ hc, List.map_map]
    rfl
  · intro j hj1 hj2 hm a ha
    rw [hsh j hj1 (by omega)] at hm
    rw [hbt j hj1 (by omega)]
    have hb := mask_bits _ hc j (by omega) hm
    have hn := boolType_new j (by omega) hb.1 hb.2
    simp only [List.mem_append, List.mem_singleton] at ha
    rcases ha with ha | ha
    · rw [ha]; exact fun h => hn.1 h.symm
    · rw [ha]; exact fun h => hn.2 h.symm
  · intro j k hj hjk hk hmj hmk
    rw [hsh j hj (by omega)] at hmj
    rw [hsh k (by omega) (by omega)] at hmk
    rw [hbt j hj (by omega), hbt k (by omega) (by omega)]
    have hbj := mask_bits _ hc j (by omega) hmj
    have hbk := mask_bits _ hc k (by omega) hmk
    exact boolType_injective j (by omega) k (by omega) ⟨hbj.1, hjk, hbk.2⟩
/-- Every bit position that the loop of `expandAttributes` goes through and
whose shifted one meets the mask leaves an attribute of the type read from
`boolType` at that position in the store. -/
theorem expandAttributes_loop_hits (host : Host) (mask f : Nat) :
    ∀ (n i : Nat) (attrs : List PKCS11Attribute) (j : Nat), i ≤ j → j < i + n →
      mask &&& host.intShl1 j ≠ 0 →
      ∃ a ∈ expandAttributes_loop host mask f n i attrs, a.type = host.boolTypeAt j := by
  intro n
  induction n with
  | zero => intro i attrs j h1 h2; omega
  | succ n ih =>
    intro i attrs j h1 h2 hm
    by_cases hij : i = j
    · subst hij
      rw [expandAttributes_loop]
      simp only
      rw [if_neg hm]
      split
      · rename_i hex
        obtain ⟨a, ha, hat⟩ := (attributeExists_iff attrs _).mp hex
        obtain ⟨ext, he⟩ := expandAttributes_loop_append host mask f n (i + 1) attrs
        exact ⟨a, by rw [he]; exact List.mem_append_left _ ha, hat⟩
      · obtain ⟨ext, he⟩ := expandAttributes_loop_append host mask f n (i + 1) (attrs ++
          [(PKCS11Attribute.empty.setType (host.boolTypeAt i)).setValue
            [if f &&& host.intShl1 i ≠ 0 then 1 else 0]])
        refine ⟨(PKCS11Attribute.empty.setType (host.boolTypeAt i)).setValue
            [if f &&& host.intShl1 i ≠ 0 then 1 else 0], ?_, rfl⟩
        rw [he]
        exact List.mem_append_left _ (List.mem_append_right _ (List.mem_singleton.mpr rfl))
    · rw [expandAttributes_loop]
      simp only
      split
      · exact ih _ _ j (by omega) (by omega) hm
      · split
        · exact ih _ _ j (by omega) (by omega) hm
        · exact ih _ _ j (by omega) (by omega) hm

/-- C23, where the code leaves the documented set: on a host whose
`unsigned long` has 8 bytes the loop of `expandAttributes` goes on to bit
position 63. At a position `j` from 32 on, `1 << j` shifts an `int` by more
than its width and `boolType[j]` is read beyond the 32 entries of the table;
when what the host makes of the shift meets the mask of the class, the store
gets an attribute of the type that the host finds beyond the table. -/
theorem expandAttributes_beyond_table (host : Host) (hW : host.sizeofULong = 8) (f j : Nat)
    (h32 : 32 ≤ j) (h64 : j < 64)
    (hm : boolMask.getD ((f >>> 4) &&& 0x7) 0 &&& (host.shiftBeyondInt j % 2 ^ 64) ≠ 0) :
    ∃ a ∈ expandAttributes host [] f, a.type = host.readBeyondTable j := by
  have e1 : host.intShl1 j = host.shiftBeyondInt j % 2 ^ 64 := by
    unfold Host.intShl1
    rw [if_neg (by omega), if_neg (by omega), hW]
  have e2 : host.boolTypeAt j = host.readBeyondTable j := by
    unfold Host.boolTypeAt
    have hl : boolType.length ≤ j := h32
    rw [List.getElem?_eq_none hl]
  rw [← e1] at hm
  rw [← e2]
  unfold expandAttributes
  simp only [hW]
  exact expandAttributes_loop_hits host _ f _ 1 _ j (by omega) (by omega) hm

/-- C23, at the flags word 0 on a host whose `unsigned long` has 8 bytes and
whose shift takes the count modulo 32: `1 << 39` is `0x80`, the bit of
`CKA_TOKEN`, and the store gets the three documented flag attributes of the
class 0 and three more, of the types found at the positions 39, 40 and 41
beyond the table. -/
theorem expandAttributes_beyond_table_witness :
    (∃ a ∈ expandAttributes hostLP64 [] 0, a.type = hostLP64.readBeyondTable 39) ∧
    expandAttributes hostLP64 [] 0
      = [⟨CKA_ID, [0]⟩, ⟨CKA_CLASS, [0, 0, 0, 0, 0, 0, 0, 0]⟩, ⟨CKA_TOKEN, [0]⟩,
          ⟨CKA_PRIVATE, [0]⟩, ⟨CKA_MODIFIABLE, [0]⟩, ⟨0xFFFF0027, [0]⟩, ⟨0xFFFF0028, [0]⟩,
          ⟨0xFFFF0029, [0]⟩] ∧
    documentedFlags 0 = [CKA_TOKEN, CKA_PRIVATE, CKA_MODIFIABLE] :=
  ⟨expandAttributes_beyond_table hostLP64 rfl 0 39 (by decide) (by decide) (by decide),
    by decide, by decide⟩
section PointerLemmas

theorem foldl_be (bytes : List Nat) (x : Nat) :
    bytes.foldl (fun acc b => acc * 256 + b) x = x * 256 ^ bytes.length + BEvalue bytes := by
  unfold BEvalue
  induction bytes generalizing x with
  | nil => simp
  | cons b bytes ih =>
    rw [List.foldl_cons, ih, List.foldl_cons, ih (0 * 256 + b), List.length_cons, Nat.pow_succ]
    ring

theorem foldl_be_mod (bytes : List Nat) (x : Nat) :
    bytes.foldl (fun acc b => (acc * 256 + b) % 2 ^ 32) (x % 2 ^ 32)
      = (bytes.foldl (fun acc b => acc * 256 + b) x) % 2 ^ 32 := by
  induction bytes generalizing x with
  | nil => rfl
  | cons b bytes ih =>
    have e : ((x % 2 ^ 32) * 256 + b) % 2 ^ 32 = (x * 256 + b) % 2 ^ 32 := by omega
    rw [List.foldl_cons, List.foldl_cons, ← ih, e]

theorem shift_or_byte (acc b : Nat) (hb : b < 256) :
    ((acc <<< 8) % 2 ^ 32) ||| b = (acc * 256 + b) % 2 ^ 32 := by
  have e1 : (acc <<< 8) % 2 ^ 32 = 2 ^ 8 * (acc % 2 ^ 24) := by
    rw [Nat.shiftLeft_eq]
    omega
  rw [e1, ← Nat.mul_add_lt_is_or (by omega : b < 2 ^ 8)]
  omega

/-- The loop of `dataStart` over the bytes of a length field: their big-endian
value as an `unsigned int`. -/
theorem dataStart_loop_eq (buf : Ptr) :
    ∀ (bytes : List Nat) (acc used : Nat), (∀ b ∈ bytes, b < 256) →
      (∀ k, k < bytes.length → buf.read (used + k) = bytes[k]?) →
      dataStart_loop buf bytes.length acc used
        = some (bytes.foldl (fun a b => (a * 256 + b) % 2 ^ 32) acc, used + bytes.length) := by
  intro bytes
  induction bytes with
  | nil => intro acc used _ _; rfl
  | cons b bytes ih =>
    intro acc used hb hr
    have h0 : buf.read used = some b := by
      have := hr 0 (by simp)
      simpa using this
    rw [List.length_cons, dataStart_loop, h0]
    simp only
    rw [shift_or_byte acc b (hb b (List.mem_cons_self _ _)),
      ih _ (used + 1) (fun x hx => hb x (List.mem_cons_of_mem _ hx)) (fun k hk => by
        have := hr (k + 1) (by simp; omega)
        rw [List.getElem?_cons_succ] at this
        rw [← this]
        congr 1
        omega)]
    rw [List.foldl_cons, Nat.add_assoc, Nat.add_comm 1]

theorem read_mid (pre l post : List Nat) (k : Nat) (hk : k < l.length) :
    Ptr.read { mem := pre ++ l ++ post, off := pre.length } k = l[k]? := by
  unfold Ptr.read
  exact getElem?_mid pre l post k hk

end PointerLemmas
section DataStartLemmas

theorem and_0x80_short (L : Nat) (h : L < 128) : L &&& 0x80 = 0 := by
  revert L
  decide

theorem and_long (k : Nat) (h : k ≤ 4) : (0x80 + k) &&& 0x80 ≠ 0 ∧ (0x80 + k) &&& 0x7f = k := by
  revert k
  decide

theorem BEvalue_foldl_mod (bytes : List Nat) :
    bytes.foldl (fun a b => (a * 256 + b) % 2 ^ 32) 0 = BEvalue bytes % 2 ^ 32 := by
  have := foldl_be_mod bytes 0
  rw [Nat.zero_mod] at this
  rw [this]
  rfl

/-- The function `dataStart` at an element: the pointer to the content, or to
the element when the tag is included, and the length of what it points at. -/
theorem dataStart_at (pre lf content post : List Nat) (tag length : Nat) (includeTag : Bool)
    (htag : tag ≠ 0) (hlf : lengthField lf content.length)
    (h1 : 1 + lf.length + content.length ≤ length) (h2 : length < 2 ^ 32) :
    dataStart (some { mem := pre ++ (tag :: lf ++ content) ++ post, off := pre.length }) length
        includeTag
      = some (some { mem := pre ++ (tag :: lf ++ content) ++ post,
                     off := pre.length + (if includeTag then 0 else 1 + lf.length) },
              if includeTag then 1 + lf.length + content.length else content.length) := by
  have c0 : ¬ length < 2 := by
    rcases hlf with ⟨_, h⟩ | ⟨bytes, _, _, h, _⟩ <;> rw [h] at h1 <;>
      simp only [List.length_cons, List.length_nil] at h1 <;> omega
  rcases hlf with ⟨hL, hlf⟩ | ⟨bytes, hk, hb, hlf, hv⟩
  · subst hlf
    have r0 : Ptr.read (Ptr.mk (pre ++ (tag :: [content.length] ++ content) ++ post)
        pre.length) 0 = some tag := by
      rw [read_mid pre _ post 0 (by simp)]
      simp
    have r1 : Ptr.read (Ptr.mk (pre ++ (tag :: [content.length] ++ content) ++ post)
        pre.length) 1 = some content.length := by
      rw [read_mid pre _ post 1 (by simp)]
      simp
    simp only [List.length_singleton] at h1 ⊢
    unfold dataStart
    have c1 : ¬ content.length > length - 2 := by omega
    simp only [c0, if_false, r0, htag, r1, and_0x80_short _ hL, ne_eq, not_true_eq_false,
      dataStart_tail, c1]
    have e2 : (content.length + 2) % 2 ^ 32 = 1 + 1 + content.length := by
      rw [Nat.mod_eq_of_lt (by omega)]
      omega
    cases includeTag
    · simp only [Bool.false_eq_true, if_false, Ptr.add]
    · simp only [if_true, Ptr.add, e2]
  · subst hlf
    have r0 : Ptr.read (Ptr.mk (pre ++ (tag :: ((0x80 + bytes.length) :: bytes) ++ content) ++ post)
        pre.length) 0 = some tag := by
      rw [read_mid pre _ post 0 (by simp)]
      simp
    have r1 : Ptr.read (Ptr.mk (pre ++ (tag :: ((0x80 + bytes.length) :: bytes) ++ content) ++ post)
        pre.length) 1 = some (0x80 + bytes.length) := by
      rw [read_mid pre _ post 1 (by simp)]
      simp
    have hloop := dataStart_loop_eq
      (Ptr.mk (pre ++ (tag :: ((0x80 + bytes.length) :: bytes) ++ content) ++ post) pre.length)
      bytes 0 2 hb
      (fun k hk => by
        rw [read_mid pre _ post (2 + k) (by simp; omega), Nat.add_comm 2 k]
        simp only [List.cons_append, List.getElem?_cons_succ]
        exact List.getElem?_append_left hk)
    have ha := and_long bytes.length hk
    have hval : BEvalue bytes % 2 ^ 32 = content.length := by
      rw [hv]; exact Nat.mod_eq_of_lt (by omega)
    simp only [List.length_cons] at h1 ⊢
    unfold dataStart
    have c1 : ¬ bytes.length + 2 > length := by omega
    have c2 : ¬ length < 2 + bytes.length := by omega
    have c3 : ¬ content.length > length - (2 + bytes.length) := by omega
    simp only [c0, if_false, r0, htag, r1, ha.1, ha.2, ne_eq, not_false_eq_true, if_true, hloop,
      BEvalue_foldl_mod, hval, dataStart_tail, c1, c2, c3]
    have e1 : 2 + bytes.length = 1 + (bytes.length + 1) := by omega
    have e2 : (content.length + (1 + (bytes.length + 1))) % 2 ^ 32
        = 1 + (bytes.length + 1) + content.length := by
      rw [Nat.mod_eq_of_lt (by omega)]
      omega
    cases includeTag
    · simp only [Bool.false_eq_true, if_false, Ptr.add, e1]
    · simp only [if_true, Ptr.add, e1, e2]

end DataStartLemmas

section DataStartCases

theorem BEvalue_lt (bytes : List Nat) (hb : ∀ b ∈ bytes, b < 256) :
    BEvalue bytes < 256 ^ bytes.length := by
  induction bytes using List.reverseRecOn with
  | nil => simp [BEvalue]
  | append_singleton bytes b ih =>
    have h1 := ih (fun x hx => hb x (List.mem_append_left _ hx))
    have h2 := hb b (List.mem_append_right _ (List.mem_singleton.mpr rfl))
    unfold BEvalue at h1 ⊢
    rw [List.foldl_append, List.foldl_cons, List.foldl_nil, List.length_append,
      List.length_singleton, Nat.pow_succ]
    omega

/-- The function `dataStart` on the bytes `buf` of a block, case by case. -/
theorem dataStart_cases (pre buf post : List Nat) (includeTag : Bool)
    (hbytes : ∀ b ∈ buf, b < 256) (hlen : buf.length < 2 ^ 32) :
    (dataStartFails buf ∧
      ∃ n, dataStart (some (Ptr.mk (pre ++ buf ++ post) pre.length)) buf.length includeTag
        = some (none, n)) ∨
    (¬ dataStartFails buf ∧ headerLength buf + declaredLength buf ≤ buf.length ∧
      dataStart (some (Ptr.mk (pre ++ buf ++ post) pre.length)) buf.length includeTag
        = some (some (Ptr.mk (pre ++ buf ++ post)
              (pre.length + (if includeTag then 0 else headerLength buf))),
            if includeTag then headerLength buf + declaredLength buf else declaredLength buf)) := by
  match buf, hbytes, hlen with
  | [], _, _ =>
    exact Or.inl ⟨Or.inl (by simp), 0, by simp [dataStart]⟩
  | [t], _, _ =>
    exact Or.inl ⟨Or.inl (by simp), 0, by simp [dataStart]⟩
  | t :: l :: rest, hbytes, hlen =>
    have r0 : Ptr.read (Ptr.mk (pre ++ (t :: l :: rest) ++ post) pre.length) 0 = some t := by
      rw [read_mid pre _ post 0 (by simp)]; simp
    have r1 : Ptr.read (Ptr.mk (pre ++ (t :: l :: rest) ++ post) pre.length) 1 = some l := by
      rw [read_mid pre _ post 1 (by simp)]; simp
    have c0 : ¬ (t :: l :: rest).length < 2 := by simp
    have g0 : (t :: l :: rest).getD 0 0 = t := rfl
    have g1 : (t :: l :: rest).getD 1 0 = l := rfl
    have hL : (t :: l :: rest).length = rest.length + 2 := by simp
    by_cases ht : t = 0
    · subst ht
      exact Or.inl ⟨Or.inr (Or.inl g0), 0, by
        unfold dataStart; simp only [c0, if_false, r0, if_true]⟩
    by_cases hl : l &&& 0x80 ≠ 0
    · by_cases hn : (l &&& 0x7f) + 2 > (t :: l :: rest).length
      · exact Or.inl ⟨Or.inr (Or.inr (Or.inl ⟨by rw [g1]; exact hl, by rw [g1]; omega⟩)), l, by
          unfold dataStart; simp only [c0, if_false, r0, ht, r1, hl, ne_eq, not_false_eq_true,
            if_true, hn]⟩
      · have hn2 : (l &&& 0x7f) ≤ rest.length := by rw [hL] at hn; omega
        have hlen_take : (rest.take (l &&& 0x7f)).length = l &&& 0x7f := by
          rw [List.length_take]; omega
        have hloop := dataStart_loop_eq (Ptr.mk (pre ++ (t :: l :: rest) ++ post) pre.length)
          (rest.take (l &&& 0x7f)) 0 2
          (fun b hb => hbytes b (List.mem_cons_of_mem _ (List.mem_cons_of_mem _
            (List.mem_of_mem_take hb))))
          (fun k hk => by
            rw [hlen_take] at hk
            rw [read_mid pre _ post (2 + k) (by simp; omega), Nat.add_comm 2 k]
            simp only [List.getElem?_cons_succ]
            rw [List.getElem?_take_of_lt hk])
        rw [hlen_take, BEvalue_foldl_mod] at hloop
        have hh : headerLength (t :: l :: rest) = 2 + (l &&& 0x7f) := by
          unfold headerLength; rw [g1, if_pos hl]
        have hd : declaredLength (t :: l :: rest)
            = BEvalue (rest.take (l &&& 0x7f)) % 2 ^ 32 := by
          unfold declaredLength; rw [g1, if_pos hl]; rfl
        have c2 : ¬ (t :: l :: rest).length < 2 + (l &&& 0x7f) := by omega
        by_cases hover : BEvalue (rest.take (l &&& 0x7f)) % 2 ^ 32
            > (t :: l :: rest).length - (2 + (l &&& 0x7f))
        · exact Or.inl ⟨Or.inr (Or.inr (Or.inr (by rw [hh, hd]; exact hover))),
            BEvalue (rest.take (l &&& 0x7f)) % 2 ^ 32, by
            unfold dataStart; simp only [c0, if_false, r0, ht, r1, hl, ne_eq, not_false_eq_true,
              if_true, hn, hloop, dataStart_tail, c2, hover]⟩
        · refine Or.inr ⟨?_, by rw [hh, hd]; omega, ?_⟩
          · rintro (h | h | h | h)
            · exact c0 h
            · exact ht (by rw [← g0]; exact h)
            · rw [g1] at h; omega
            · rw [hh, hd] at h; exact hover h
          · have e2 : (BEvalue (rest.take (l &&& 0x7f)) % 2 ^ 32 + (2 + (l &&& 0x7f))) % 2 ^ 32
                = 2 + (l &&& 0x7f) + BEvalue (rest.take (l &&& 0x7f)) % 2 ^ 32 := by
              rw [Nat.mod_eq_of_lt (a := _ + _) (by omega)]
              omega
            unfold dataStart
            simp only [c0, if_false, r0, ht, r1, hl, ne_eq, not_false_eq_true, if_true, hn, hloop,
              dataStart_tail, c2, hover, hh, hd]
            cases includeTag
            · simp only [Bool.false_eq_true, if_false, Ptr.add]
            · simp only [if_true, Ptr.add, e2]
    · have hl0 : l &&& 0x80 = 0 := by
        by_contra h; exact hl h
      have hh : headerLength (t :: l :: rest) = 2 := by
        unfold headerLength; rw [g1, if_neg hl]
      have hd : declaredLength (t :: l :: rest) = l := by
        unfold declaredLength; rw [g1, if_neg hl]
      by_cases hover : l > (t :: l :: rest).length - 2
      · exact Or.inl ⟨Or.inr (Or.inr (Or.inr (by rw [hh, hd]; exact hover))), l, by
          unfold dataStart; simp only [c0, if_false, r0, ht, r1, hl0, ne_eq, not_true_eq_false,
            dataStart_tail, hover, if_true]⟩
      · refine Or.inr ⟨?_, by rw [hh, hd]; omega, ?_⟩
        · rintro (h | h | h | h)
          · exact c0 h
          · exact ht (by rw [← g0]; exact h)
          · rw [g1] at h; exact hl h.1
          · rw [hh, hd] at h; exact hover h
        · have e2 : (l + 2) % 2 ^ 32 = 2 + l := by
            rw [Nat.mod_eq_of_lt (by omega)]
            omega
          unfold dataStart
          simp only [c0, if_false, r0, ht, r1, hl0, ne_eq, not_true_eq_false, dataStart_tail,
            hover, hh, hd]
          cases includeTag
          · simp only [Bool.false_eq_true, if_false, Ptr.add]
          · simp only [if_true, Ptr.add, e2]

end DataStartCases
theorem bytes_mid (pre buf post : List Nat) (o n : Nat) (h : o + n ≤ buf.length) :
    (Ptr.mk (pre ++ buf ++ post) (pre.length + o)).bytes n = some ((buf.drop o).take n) := by
  unfold Ptr.bytes
  have hl : pre.length + o + n ≤ (pre ++ buf ++ post).length := by
    simp only [List.length_append]; omega
  simp only [hl, if_true]
  rw [List.append_assoc, List.drop_append_eq_append_drop, List.drop_of_length_le (by omega),
    List.nil_append, Nat.add_sub_cancel_left, List.drop_append_of_le_length (by omega),
    List.take_append_of_le_length (by rw [List.length_drop]; omega)]

/-- C25: for bytes `buf` below 256, fewer than `2^32` of them, that lie anywhere
in a block, `dataStart` with the length of `buf` reads nothing outside the
block and returns `NULL` exactly in the cases that the specification lists:
fewer than 2 bytes, a tag byte 0, a length byte with the top bit set whose low
7 bits `n` give `2 + n > |buf|`, or a declared length `L` above `|buf| - h`.
In the other cases `h + L ≤ |buf|`, and the result is the pointer to
`buf[h, h+L)` with the length `L`, or with the tag included the pointer to
`buf[0, h+L)` with the length `h + L`. Here `h` is 2 and `L` the length byte
in the short form, and in the long form `h` is `2 + n` and `L` the big-endian
value of the `n` length bytes, which for `n ≤ 4` fits the `unsigned int`. -/
theorem dataStart_result (pre buf post : List Nat) (includeTag : Bool)
    (hbytes : ∀ b ∈ buf, b < 256) (hlen : buf.length < 2 ^ 32) :
    ∃ p n, dataStart (some (Ptr.mk (pre ++ buf ++ post) pre.length)) buf.length includeTag
        = some (p, n) ∧
      (p = none ↔ dataStartFails buf) ∧
      (¬ dataStartFails buf →
        headerLength buf + declaredLength buf ≤ buf.length ∧
        p = some (Ptr.mk (pre ++ buf ++ post)
          (pre.length + (if includeTag then 0 else headerLength buf))) ∧
        n = (if includeTag then headerLength buf + declaredLength buf else declaredLength buf) ∧
        (Ptr.mk (pre ++ buf ++ post)
            (pre.length + (if includeTag then 0 else headerLength buf))).bytes n
          = some (if includeTag then buf.take (headerLength buf + declaredLength buf)
              else (buf.drop (headerLength buf)).take (declaredLength buf))) ∧
      (buf.getD 1 0 &&& 0x80 ≠ 0 → buf.getD 1 0 &&& 0x7f ≤ 4 →
        declaredLength buf = BEvalue ((buf.drop 2).take (buf.getD 1 0 &&& 0x7f))) := by
  have hwrap : buf.getD 1 0 &&& 0x80 ≠ 0 → buf.getD 1 0 &&& 0x7f ≤ 4 →
      declaredLength buf = BEvalue ((buf.drop 2).take (buf.getD 1 0 &&& 0x7f)) := by
    intro h1 h4
    unfold declaredLength
    rw [if_pos h1]
    refine Nat.mod_eq_of_lt ?_
    have hb := BEvalue_lt ((buf.drop 2).take (buf.getD 1 0 &&& 0x7f))
      (fun b hb => hbytes b (List.mem_of_mem_drop (List.mem_of_mem_take hb)))
    have hl : ((buf.drop 2).take (buf.getD 1 0 &&& 0x7f)).length ≤ 4 := by
      rw [List.length_take]; omega
    exact Nat.lt_of_lt_of_le hb (Nat.le_trans (Nat.pow_le_pow_right (by decide) hl) (by decide))
  rcases dataStart_cases pre buf post includeTag hbytes hlen with ⟨hf, n, hr⟩ | ⟨hf, hin, hr⟩
  · exact ⟨none, n, hr, ⟨fun _ => hf, fun _ => rfl⟩, fun h => absurd hf h, hwrap⟩
  · refine ⟨_, _, hr, ⟨fun h => ?_, fun h => absurd h hf⟩, fun _ => ⟨hin, rfl, rfl, ?_⟩, hwrap⟩
    · exact absurd h (by simp)
    · cases includeTag
      · simp only [Bool.false_eq_true, if_false]
        exact bytes_mid pre buf post _ _ hin
      · simp only [if_true]
        have := bytes_mid pre buf post 0 (headerLength buf + declaredLength buf) (by omega)
        rw [List.drop_zero] at this
        exact this

/-- C25, at the long-form element `30 82 00 03 0A 0B 0C` followed by `FF`: the
content is at offset 4 and has 3 bytes; and at `30 05 0A`, which declares more
than it has. -/
theorem dataStart_result_witness :
    (∃ p n, dataStart (some (Ptr.mk ([] ++ [0x30, 0x82, 0, 3, 0x0A, 0x0B, 0x0C, 0xFF] ++ []) 0)) 8
        false = some (p, n) ∧
      (p = none ↔ dataStartFails [0x30, 0x82, 0, 3, 0x0A, 0x0B, 0x0C, 0xFF]) ∧
      (¬ dataStartFails [0x30, 0x82, 0, 3, 0x0A, 0x0B, 0x0C, 0xFF] →
        4 + 3 ≤ 8 ∧
        p = some (Ptr.mk ([] ++ [0x30, 0x82, 0, 3, 0x0A, 0x0B, 0x0C, 0xFF] ++ []) (0 + 4)) ∧
        n = 3 ∧
        (Ptr.mk ([] ++ [0x30, 0x82, 0, 3, 0x0A, 0x0B, 0x0C, 0xFF] ++ []) (0 + 4)).bytes n
          = some [0x0A, 0x0B, 0x0C]) ∧
      (0x82 &&& 0x80 ≠ 0 → 0x82 &&& 0x7f ≤ 4 →
        declaredLength [0x30, 0x82, 0, 3, 0x0A, 0x0B, 0x0C, 0xFF] = BEvalue [0, 3])) ∧
    ¬ dataStartFails [0x30, 0x82, 0, 3, 0x0A, 0x0B, 0x0C, 0xFF] ∧
    dataStartFails [0x30, 5, 0x0A] :=
  ⟨dataStart_result [] [0x30, 0x82, 0, 3, 0x0A, 0x0B, 0x0C, 0xFF] [] false (by decide) (by decide),
    by decide, by decide⟩
section AtLemmas

theorem At_left {p : Ptr} {a b : List Nat} (h : At p (a ++ b)) : At p a := by
  obtain ⟨pre, post, hm, ho⟩ := h
  exact ⟨pre, b ++ post, by rw [hm]; simp only [List.append_assoc], ho⟩

theorem At_right {p : Ptr} {a b : List Nat} (h : At p (a ++ b)) : At (p.add a.length) b := by
  obtain ⟨pre, post, hm, ho⟩ := h
  exact ⟨pre ++ a, post, by simp only [Ptr.add]; rw [hm]; simp only [List.append_assoc],
    by simp only [Ptr.add, List.length_append, ho]⟩

theorem At_bytes {p : Ptr} {bytes : List Nat} (h : At p bytes) :
    p.bytes bytes.length = some bytes := by
  obtain ⟨pre, post, hm, ho⟩ := h
  have := bytes_mid pre bytes post 0 bytes.length (by omega)
  rw [List.drop_zero, List.take_length, Nat.add_zero, ← hm, ← ho] at this
  exact this

theorem At_read {p : Ptr} {b : Nat} {bytes : List Nat} (h : At p (b :: bytes)) :
    p.read 0 = some b := by
  obtain ⟨pre, post, hm, ho⟩ := h
  unfold Ptr.read
  rw [hm, ho, getElem?_mid pre (b :: bytes) post 0 (by simp)]
  exact List.getElem?_cons_zero

theorem At_of_buffer (buf : CKYBuffer) :
    At (Ptr.mk buf.data 0) (CKYBuffer_Data buf) :=
  ⟨[], buf.data.drop buf.len, by
    unfold CKYBuffer_Data
    rw [List.nil_append, List.take_append_drop], rfl⟩

theorem add_add (p : Ptr) (a b : Nat) : (p.add a).add b = p.add (a + b) := by
  simp only [Ptr.add, Nat.add_assoc]

theorem add_zero (p : Ptr) : p.add 0 = p := rfl

theorem diff_add (p : Ptr) (a : Nat) : (p.add a).diff p = a := by
  simp only [Ptr.add, Ptr.diff, Nat.add_sub_cancel_left]

/-- The function `dataStart` at a pointer to an element that other bytes of the
parent follow, called with the number of bytes of both. -/
theorem dataStart_At (p : Ptr) (tag : Nat) (lf content rest : List Nat) (length : Nat)
    (includeTag : Bool) (htag : tag ≠ 0) (hlf : lengthField lf content.length)
    (hat : At p (tag :: lf ++ content ++ rest))
    (hlength : length = (tag :: lf ++ content ++ rest).length) (hlt : length < 2 ^ 32) :
    dataStart (some p) length includeTag
      = some (some (p.add (if includeTag then 0 else 1 + lf.length)),
          if includeTag then 1 + lf.length + content.length else content.length) := by
  obtain ⟨pre, post, hm, ho⟩ := hat
  have := dataStart_at pre lf content (rest ++ post) tag length includeTag htag hlf
    (by rw [hlength]; simp only [List.length_append, List.length_cons]; omega) hlt
  have hp : p = Ptr.mk (pre ++ (tag :: lf ++ content) ++ (rest ++ post)) pre.length := by
    cases p
    simp only at hm ho
    simp only [Ptr.mk.injEq]
    exact ⟨by rw [hm]; simp only [List.append_assoc, List.cons_append], ho⟩
  rw [hp, this]
  rfl

/-- The function `dataStart` when fewer than two bytes are left. -/
theorem dataStart_short (p : Option Ptr) (length : Nat) (includeTag : Bool) (h : length < 2) :
    dataStart p length includeTag = some (none, 0) := by
  unfold dataStart
  cases p with
  | none => rfl
  | some p => simp only [h, if_true]

/-- The function `unwrapBitString` at the content of a bit string that is not
empty. -/
theorem unwrapBitString_At (p : Ptr) (b : Nat) (c : List Nat) (len : Nat)
    (hat : At p (b :: c)) (hlen : len = (b :: c).length) :
    unwrapBitString p len
      = if b ≠ 0 then some none else some (some (p.add 1, c.length)) := by
  unfold unwrapBitString
  rw [At_read hat]
  simp only [hlen, List.length_cons]
  by_cases hb : b = 0
  · simp [hb]
  · simp [hb]

end AtLemmas
/-- C26, where the code leaves the claim: `unwrapBitString` reads `buf[0]`
before it tests `len < 1`. With an empty content at the end of a block the
byte read lies outside the content and outside the block, for every block; the
key blob `30 00 03 00`, an algorithm identifier and a bit string without
content, brings `GetKeyFieldItems` there. On a content that is not empty the
function does what the claim says: `NULL` for a first byte that is not 0, and
else the pointer to the second byte with the length less one. -/
theorem unwrapBitString_empty_content (mem : List Nat) (stack : CCItem) :
    unwrapBitString (Ptr.mk mem mem.length) 0 = none ∧
    GetKeyFieldItems (some (Ptr.mk [0x30, 0, 3, 0] 0)) 4 stack stack = none ∧
    (∀ (p : Ptr) (b : Nat) (c : List Nat), At p (b :: c) →
      unwrapBitString p (c.length + 1)
        = if b ≠ 0 then some none else some (some (p.add 1, c.length))) := by
  refine ⟨?_, rfl, fun p b c hat => unwrapBitString_At p b c _ hat rfl⟩
  unfold unwrapBitString Ptr.read
  simp only [Nat.add_zero]
  rw [List.getElem?_eq_none (Nat.le_refl _)]

/-- C27, where the code leaves the claim: `GetKeyOIDMatches` compares as many
bytes as the object identifier of the key has, not as many as the known one.
The key blob whose identifier is `2A 86 48 86 F7 0D`, the first six bytes of
the RSA identifier, gives `rsa`; the blob whose identifier is
`2A 86 48 CE 3D`, the first five bytes of the EC identifier, gives `ecc`; and
for the blob whose identifier is the RSA identifier followed by `01` the
comparison reads beyond the nine bytes of `rsaOID`. -/
theorem GetKeyTypeFromSPKI_prefix :
    GetKeyTypeFromSPKI
        ⟨[0x30, 0x0A, 0x06, 0x06, 0x2A, 0x86, 0x48, 0x86, 0xF7, 0x0D, 0x05, 0x00], 12⟩
      = some (Except.ok KeyType.rsa) ∧
    GetKeyTypeFromSPKI ⟨[0x30, 0x09, 0x06, 0x05, 0x2A, 0x86, 0x48, 0xCE, 0x3D, 0x05, 0x00], 11⟩
      = some (Except.ok KeyType.ecc) ∧
    GetKeyTypeFromSPKI
        ⟨[0x30, 0x0E, 0x06, 0x0A, 0x2A, 0x86, 0x48, 0x86, 0xF7, 0x0D, 0x01, 0x01, 0x01, 0x01,
          0x05, 0x00], 16⟩
      = none := by
  exact ⟨rfl, rfl, rfl⟩
section StepLemmas

/-- One step through a parent: `dataStart` at an element `t` that the bytes
`rest` of the parent follow, the length left after it and the pointer behind
it. -/
theorem dataStart_step (p : Ptr) (L : Nat) (t : List Nat) (tag : Nat) (lf c rest : List Nat)
    (includeTag : Bool) (ht : t = tag :: lf ++ c) (htag : tag ≠ 0)
    (hlf : lengthField lf c.length) (hat : At p (t ++ rest)) (hL : L = (t ++ rest).length)
    (hlt : L < 2 ^ 32) :
    dataStart (some p) L includeTag
      = some (some (p.add (if includeTag then 0 else 1 + lf.length)),
          if includeTag then t.length else c.length) ∧
    L - ((p.add (if includeTag then 0 else 1 + lf.length)).diff p
      + (if includeTag then t.length else c.length)) = rest.length ∧
    (p.add (if includeTag then 0 else 1 + lf.length)).add
      (if includeTag then t.length else c.length) = p.add t.length ∧
    At (p.add t.length) rest ∧ At (p.add (1 + lf.length)) c ∧ At p t := by
  have hlen : t.length = 1 + lf.length + c.length := by
    rw [ht]; simp only [List.length_cons, List.length_append]; omega
  have h1 := dataStart_At p tag lf c rest L includeTag htag hlf (by rw [← ht]; exact hat)
    (by rw [← ht]; exact hL) hlt
  have hc : At (p.add (1 + lf.length)) c := by
    have h2 : At p ((tag :: lf) ++ (c ++ rest)) := by
      rw [ht] at hat
      simpa only [List.append_assoc, List.cons_append] using hat
    have h3 := At_left (At_right h2)
    simpa only [List.length_cons, Nat.add_comm] using h3
  refine ⟨?_, ?_, ?_, At_right hat, hc, At_left hat⟩
  · rw [h1, hlen]
  · rw [diff_add, hL, List.length_append]
    cases includeTag
    · simp only [Bool.false_eq_true, if_false]; omega
    · simp only [if_true]; omega
  · rw [add_add]
    cases includeTag
    · simp only [Bool.false_eq_true, if_false]; rw [hlen]
    · simp only [if_true, Nat.zero_add]

theorem DataPtr_of_ne (buf : CKYBuffer) (h : CKYBuffer_Data buf ≠ []) :
    CKYBuffer_DataPtr buf = some (Ptr.mk buf.data 0) := by
  unfold CKYBuffer_DataPtr
  rw [if_neg]
  intro he
  apply h
  unfold CKYBuffer_Data
  rw [he, List.take_nil]

theorem GetKeyOIDMatches_loop_At (p q : Ptr) (oid : List Nat) (hat : At p oid) :
    ∀ n i, i + n ≤ oid.length →
      GetKeyOIDMatches_loop p q n i = GetKeyOIDMatches_loop (Ptr.mk oid 0) q n i := by
  obtain ⟨pre, post, hm, ho⟩ := hat
  intro n
  induction n with
  | zero => intro i _; rfl
  | succ n ih =>
    intro i hi
    have hr : p.read i = (Ptr.mk oid 0).read i := by
      unfold Ptr.read
      rw [hm, ho, getElem?_mid pre oid post i (by omega), Nat.zero_add]
    rw [GetKeyOIDMatches_loop, GetKeyOIDMatches_loop, hr, ih (i + 1) (by omega)]

end StepLemmas
section KeyLemmas

theorem replaceWithItem_At (junk : Nat → Nat) (buf : CKYBuffer) (hwf : buf.WF) (p : Ptr)
    (bytes : List Nat) (hat : At p bytes) :
    ∃ r, replaceWithItem junk buf { data := some p, len := bytes.length } = some r ∧
      CKYBuffer_Data r = bytes ++ (CKYBuffer_Data buf).drop bytes.length := by
  refine ⟨(CKYBuffer_Replace junk buf 0 bytes).2, ?_, ?_⟩
  · unfold replaceWithItem
    simp only [At_bytes hat]
  · have := (Replace_spec junk buf 0 bytes hwf (Nat.zero_le _)).2.2.2
    rw [this, List.take_zero, List.nil_append, Nat.zero_add]

/-- The key type of a key blob that starts with an algorithm identifier whose
first element holds the bytes `oid`, more than 3 of them: what the comparison
of `oid` with the two known identifiers gives. -/
theorem GetKeyTypeFromSPKI_of_oid (key : CKYBuffer) (hwf : key.WF) (hlt : key.len < 2 ^ 32)
    (A O oid params rest : List Nat) (tA tO : Nat) (hA : IsTLV A tA (O ++ params))
    (hO : IsTLV O tO oid) (hoid : 3 < oid.length) (hdata : CKYBuffer_Data key = A ++ rest) :
    GetKeyTypeFromSPKI key
      = match GetKeyOIDMatches_loop (Ptr.mk oid 0) (Ptr.mk rsaOID 0) oid.length 0 with
        | none => none
        | some true => some (Except.ok KeyType.rsa)
        | some false =>
          match GetKeyOIDMatches_loop (Ptr.mk oid 0) (Ptr.mk eccOID 0) oid.length 0 with
          | none => none
          | some true => some (Except.ok KeyType.ecc)
          | some false => some (Except.error CKR_FUNCTION_FAILED) := by
  obtain ⟨htA, lfA, hlfA, hAeq⟩ := hA
  obtain ⟨htO, lfO, hlfO, hOeq⟩ := hO
  have hne : CKYBuffer_Data key ≠ [] := by rw [hdata, hAeq]; simp
  have hat0 : At (Ptr.mk key.data 0) (A ++ rest) := by
    rw [← hdata]; exact At_of_buffer key
  have hL : key.len = (A ++ rest).length := by rw [← hdata, length_Data hwf]
  have s1 := dataStart_step (Ptr.mk key.data 0) key.len A tA lfA (O ++ params) rest false hAeq
    htA hlfA hat0 hL hlt
  simp only [Bool.false_eq_true, if_false] at s1
  have hlt2 : (O ++ params).length < 2 ^ 32 := by
    rw [hL, hAeq] at hlt
    simp only [List.length_append, List.length_cons] at hlt ⊢
    omega
  have s2 := dataStart_step ((Ptr.mk key.data 0).add (1 + lfA.length)) (O ++ params).length O tO
    lfO oid params false hOeq htO hlfO s1.2.2.2.2.1 rfl hlt2
  simp only [Bool.false_eq_true, if_false] at s2
  have c1 : ¬ (oid.length ≤ 3 ∨ oid.length ≥ (O ++ params).length) := by
    rw [hOeq]
    simp only [List.length_append, List.length_cons]
    omega
  have hloop : ∀ q, GetKeyOIDMatches_loop
      (((Ptr.mk key.data 0).add (1 + lfA.length)).add (1 + lfO.length)) q oid.length 0
      = GetKeyOIDMatches_loop (Ptr.mk oid 0) q oid.length 0 :=
    fun q => GetKeyOIDMatches_loop_At _ q oid s2.2.2.2.2.1 oid.length 0 (by omega)
  unfold GetKeyTypeFromSPKI GetKeyAlgorithmId
  simp only [DataPtr_of_ne key hne, CKYBuffer_Size, s1.1, s2.1, reduceCtorEq, if_false, ne_eq,
    not_true_eq_false, c1, GetKeyOIDMatches, hloop]

end KeyLemmas
section KeyFieldLemmas

/-- The function `GetKeyFieldItems` on a key blob made of an algorithm
identifier and a bit string: up to the content of the bit string. -/
theorem GetKeyFieldItems_bitstring (key : CKYBuffer) (hwf : key.WF) (hlt : key.len < 2 ^ 32)
    (stack : CCItem) (A B cA cB : List Nat) (tA tB : Nat) (hA : IsTLV A tA cA)
    (hB : IsTLV B tB cB) (hdata : CKYBuffer_Data key = A ++ B) :
    ∃ p, At p cB ∧ cB.length < 2 ^ 32 ∧
      GetKeyFieldItems (CKYBuffer_DataPtr key) (CKYBuffer_Size key) stack stack
        = match unwrapBitString p cB.length with
          | none => none
          | some none => some (SECFailure, stack, stack)
          | some (some (buf, buf_length)) =>
            match dataStart (some buf) buf_length false with
            | none => none
            | some (none, _) => some (SECFailure, stack, stack)
            | some (some buf, buf_length) =>
              match dataStart (some buf) buf_length false with
              | none => none
              | some (none, len) => some (SECFailure, { data := none, len := len }, stack)
              | some (some data, len) =>
                match dataStart (some (data.add len)) (buf_length - (data.diff buf + len)) false with
                | none => none
                | some (none, len2) =>
                  some (SECFailure, { data := some data, len := len }, { data := none, len := len2 })
                | some (some data2, len2) =>
                  some (SECSuccess, { data := some data, len := len },
                    { data := some data2, len := len2 }) := by
  obtain ⟨htA, lfA, hlfA, hAeq⟩ := hA
  obtain ⟨htB, lfB, hlfB, hBeq⟩ := hB
  have hne : CKYBuffer_Data key ≠ [] := by rw [hdata, hAeq]; simp
  have hat0 : At (Ptr.mk key.data 0) (A ++ (B ++ [])) := by
    rw [List.append_nil, ← hdata]; exact At_of_buffer key
  have hL : key.len = (A ++ (B ++ [])).length := by
    rw [List.append_nil, ← hdata, length_Data hwf]
  have s1 := dataStart_step (Ptr.mk key.data 0) key.len A tA lfA cA (B ++ []) false hAeq
    htA hlfA hat0 hL hlt
  simp only [Bool.false_eq_true, if_false] at s1
  have hlt2 : (B ++ []).length < 2 ^ 32 := by
    rw [hL] at hlt
    simp only [List.length_append] at hlt ⊢
    omega
  have s2 := dataStart_step ((Ptr.mk key.data 0).add A.length) (B ++ []).length B tB
    lfB cB [] false hBeq htB hlfB s1.2.2.2.1 rfl hlt2
  simp only [Bool.false_eq_true, if_false] at s2
  refine ⟨_, s2.2.2.2.2.1, ?_, ?_⟩
  · rw [hBeq] at hlt2
    simp only [List.length_append, List.length_cons] at hlt2
    omega
  · unfold GetKeyFieldItems
    simp only [DataPtr_of_ne key hne, CKYBuffer_Size, s1.1, s1.2.1, s1.2.2.1, s2.1]

end KeyFieldLemmas
/-- C28: take a key blob made of an algorithm identifier `A`, whose first
element holds the RSA identifier, and a bit string `B`. When the content of `B`
is the byte 0 and a sequence of two elements with the contents `m` and `e`,
`GetKeyTypeFromSPKI` returns `rsa`, `GetKeyFieldItems` succeeds with the items
of the bytes `m` and `e`, leading zero bytes kept, and `GetKeyFields` writes
`m` and `e` at the start of the two buffers. When the content of `B` starts
with a byte that is not 0, `GetKeyFieldItems` fails and `GetKeyFields` throws
`CKR_FUNCTION_FAILED`. -/
theorem rsa_key_fields (junk : Nat → Nat) (stack : CCItem) (key modulus exponent : CKYBuffer)
    (hwf : key.WF) (hlt : key.len < 2 ^ 32) (hmod : modulus.WF) (hexp : exponent.WF)
    (A O params B : List Nat) (tA tO tB : Nat) (hA : IsTLV A tA (O ++ params))
    (hO : IsTLV O tO rsaOID) (hdata : CKYBuffer_Data key = A ++ B) :
    GetKeyTypeFromSPKI key = some (Except.ok KeyType.rsa) ∧
    (∀ SEQ M E m e tS tM tE, IsTLV B tB (0 :: SEQ) → IsTLV SEQ tS (M ++ E) → IsTLV M tM m →
      IsTLV E tE e →
      ∃ pm pe, GetKeyFieldItems (CKYBuffer_DataPtr key) (CKYBuffer_Size key) stack stack
          = some (SECSuccess, { data := some pm, len := m.length },
              { data := some pe, len := e.length }) ∧
        pm.bytes m.length = some m ∧ pe.bytes e.length = some e ∧
        ∃ modulus2 exponent2,
          GetKeyFields junk stack key modulus exponent = some (Except.ok (modulus2, exponent2)) ∧
          CKYBuffer_Data modulus2 = m ++ (CKYBuffer_Data modulus).drop m.length ∧
          CKYBuffer_Data exponent2 = e ++ (CKYBuffer_Data exponent).drop e.length) ∧
    (∀ b0 c, b0 ≠ 0 → IsTLV B tB (b0 :: c) →
      GetKeyFieldItems (CKYBuffer_DataPtr key) (CKYBuffer_Size key) stack stack
        = some (SECFailure, stack, stack) ∧
      GetKeyFields junk stack key modulus exponent = some (Except.error CKR_FUNCTION_FAILED)) := by
  refine ⟨?_, ?_, ?_⟩
  · rw [GetKeyTypeFromSPKI_of_oid key hwf hlt A O rsaOID params B tA tO hA hO (by decide) hdata]
    rfl
  · intro SEQ M E m e tS tM tE hB hS hM hE
    obtain ⟨p, hat, hltB, hitems⟩ := GetKeyFieldItems_bitstring key hwf hlt stack A B
      (O ++ params) (0 :: SEQ) tA tB hA hB hdata
    obtain ⟨htS, lfS, hlfS, hSeq⟩ := hS
    obtain ⟨htM, lfM, hlfM, hMeq⟩ := hM
    obtain ⟨htE, lfE, hlfE, hEeq⟩ := hE
    have u := unwrapBitString_At p 0 SEQ (0 :: SEQ).length hat rfl
    simp only [ne_eq, not_true_eq_false, if_false] at u
    have hatS : At (p.add 1) (SEQ ++ []) := by
      rw [List.append_nil]
      exact At_right (a := [0]) hat
    have hltS : (SEQ ++ []).length < 2 ^ 32 := by
      simp only [List.length_append, List.length_cons, List.length_nil] at hltB ⊢
      omega
    have s3 := dataStart_step (p.add 1) SEQ.length SEQ tS lfS (M ++ E) [] false hSeq htS hlfS
      hatS (by rw [List.append_nil]) (by rw [List.append_nil] at hltS; exact hltS)
    simp only [Bool.false_eq_true, if_false] at s3
    have hltME : (M ++ E).length < 2 ^ 32 := by
      rw [List.append_nil, hSeq] at hltS
      simp only [List.length_append, List.length_cons] at hltS ⊢
      omega
    have s4 := dataStart_step ((p.add 1).add (1 + lfS.length)) (M ++ E).length M tM lfM m
      (E ++ []) false hMeq htM hlfM (by rw [List.append_nil]; exact s3.2.2.2.2.1)
      (by rw [List.append_nil]) hltME
    simp only [Bool.false_eq_true, if_false] at s4
    have hltE : (E ++ []).length < 2 ^ 32 := by
      simp only [List.length_append, List.length_nil] at hltME ⊢
      omega
    have s5 := dataStart_step (((p.add 1).add (1 + lfS.length)).add M.length) (E ++ []).length E
      tE lfE e [] false hEeq htE hlfE s4.2.2.2.1 rfl hltE
    simp only [Bool.false_eq_true, if_false] at s5
    have hfinal : GetKeyFieldItems (CKYBuffer_DataPtr key) (CKYBuffer_Size key) stack stack
        = some (SECSuccess,
            { data := some (((p.add 1).add (1 + lfS.length)).add (1 + lfM.length)),
              len := m.length },
            { data := some ((((p.add 1).add (1 + lfS.length)).add M.length).add (1 + lfE.length)),
              len := e.length }) := by
      rw [hitems, u]
      simp only [s3.1, s4.1, s4.2.1, s4.2.2.1, s5.1]
    obtain ⟨modulus2, hm1, hm2⟩ := replaceWithItem_At junk modulus hmod _ m s4.2.2.2.2.1
    obtain ⟨exponent2, he1, he2⟩ := replaceWithItem_At junk exponent hexp _ e s5.2.2.2.2.1
    refine ⟨_, _, hfinal, At_bytes s4.2.2.2.2.1, At_bytes s5.2.2.2.2.1, modulus2, exponent2, ?_,
      hm2, he2⟩
    unfold GetKeyFields
    simp only [hfinal, ne_eq, not_true_eq_false, if_false, hm1, he1]
  · intro b0 c hb0 hB
    obtain ⟨p, hat, _, hitems⟩ := GetKeyFieldItems_bitstring key hwf hlt stack A B
      (O ++ params) (b0 :: c) tA tB hA hB hdata
    have u := unwrapBitString_At p b0 c (b0 :: c).length hat rfl
    simp only [ne_eq, hb0, not_false_eq_true, if_true] at u
    have hfinal : GetKeyFieldItems (CKYBuffer_DataPtr key) (CKYBuffer_Size key) stack stack
        = some (SECFailure, stack, stack) := by
      rw [hitems, u]
    refine ⟨hfinal, ?_⟩
    unfold GetKeyFields
    simp only [hfinal, ne_eq, reduceCtorEq, not_false_eq_true, if_true]
section DerLemmas

theorem lengthField_derLength (n : Nat) (h : n < 2 ^ 32) : lengthField (derLength n) n := by
  unfold derLength
  by_cases h1 : n < 128
  · rw [if_pos h1]; exact Or.inl ⟨h1, rfl⟩
  rw [if_neg h1]
  by_cases h2 : n < 2 ^ 8
  · rw [if_pos h2]
    refine Or.inr ⟨[n], by simp, fun b hb => ?_, rfl, ?_⟩
    · rw [List.mem_singleton] at hb; rw [hb]; exact h2
    · simp [BEvalue]
  rw [if_neg h2]
  by_cases h3 : n < 2 ^ 16
  · rw [if_pos h3]
    refine Or.inr ⟨BE16 n, by simp [BE16], fun b hb => ?_, rfl, ?_⟩
    · simp only [BE16, byte_and, List.mem_cons, List.mem_singleton, List.not_mem_nil,
        or_false] at hb
      rcases hb with hb | hb <;> rw [hb] <;> omega
    · simp only [BEvalue, BE16, byte_and, Nat.shiftRight_eq_div_pow, List.foldl_cons,
        List.foldl_nil, pow_zero, Nat.div_one]
      omega
  rw [if_neg h3]
  by_cases h4 : n < 2 ^ 24
  · rw [if_pos h4]
    refine Or.inr ⟨[(n >>> 16) &&& 0xff, (n >>> 8) &&& 0xff, (n >>> 0) &&& 0xff], by simp,
      fun b hb => ?_, rfl, ?_⟩
    · simp only [byte_and, List.mem_cons, List.mem_singleton, List.not_mem_nil, or_false] at hb
      rcases hb with hb | hb | hb <;> rw [hb] <;> omega
    · simp only [BEvalue, byte_and, Nat.shiftRight_eq_div_pow, List.foldl_cons,
        List.foldl_nil, pow_zero, Nat.div_one]
      omega
  rw [if_neg h4]
  refine Or.inr ⟨BE32 n, by simp [BE32], fun b hb => ?_, rfl, ?_⟩
  · simp only [BE32, byte_and, List.mem_cons, List.mem_singleton, List.not_mem_nil,
      or_false] at hb
    rcases hb with hb | hb | hb | hb <;> rw [hb] <;> omega
  · simp only [BEvalue, BE32, byte_and, Nat.shiftRight_eq_div_pow, List.foldl_cons,
      List.foldl_nil, pow_zero, Nat.div_one]
    omega

/-- The DER element of a content below `2^32` bytes is an element that
`dataStart` reads. -/
theorem IsTLV_TLV (tag : Nat) (content : List Nat) (htag : tag ≠ 0)
    (h : content.length < 2 ^ 32) : IsTLV (TLV tag content) tag content :=
  ⟨htag, derLength content.length, lengthField_derLength _ h, rfl⟩

end DerLemmas
/-- C28, at the key blob `keyRSA` and two empty buffers: the key type is `rsa`,
the modulus is `00 C3` with its leading zero byte, and the exponent is
`01 00 01`. -/
theorem rsa_key_fields_witness :
    GetKeyTypeFromSPKI keyRSA = some (Except.ok KeyType.rsa) ∧
    ∃ pm pe, GetKeyFieldItems (CKYBuffer_DataPtr keyRSA) (CKYBuffer_Size keyRSA) ⟨none, 0⟩ ⟨none, 0⟩
        = some (SECSuccess, { data := some pm, len := 2 }, { data := some pe, len := 3 }) ∧
      pm.bytes 2 = some [0, 0xC3] ∧ pe.bytes 3 = some [1, 0, 1] ∧
      ∃ modulus2 exponent2,
        GetKeyFields junkAA ⟨none, 0⟩ keyRSA ckyBuffer_initBuffer ckyBuffer_initBuffer
          = some (Except.ok (modulus2, exponent2)) ∧
        CKYBuffer_Data modulus2 = [0, 0xC3] ++ (CKYBuffer_Data ckyBuffer_initBuffer).drop 2 ∧
        CKYBuffer_Data exponent2 = [1, 0, 1] ++ (CKYBuffer_Data ckyBuffer_initBuffer).drop 3 :=
  ⟨(rsa_key_fields junkAA ⟨none, 0⟩ keyRSA ckyBuffer_initBuffer ckyBuffer_initBuffer (by decide)
      (by decide) (by decide) (by decide) (TLV 0x30 (TLV 0x06 rsaOID ++ [5, 0])) (TLV 0x06 rsaOID)
      [5, 0] (TLV 0x03 (0 :: TLV 0x30 (TLV 0x02 [0, 0xC3] ++ TLV 0x02 [1, 0, 1]))) 0x30 0x06 0x03
      (IsTLV_TLV _ _ (by decide) (by decide)) (IsTLV_TLV _ _ (by decide) (by decide))
      (by decide)).1,
    (rsa_key_fields junkAA ⟨none, 0⟩ keyRSA ckyBuffer_initBuffer ckyBuffer_initBuffer (by decide)
      (by decide) (by decide) (by decide) (TLV 0x30 (TLV 0x06 rsaOID ++ [5, 0])) (TLV 0x06 rsaOID)
      [5, 0] (TLV 0x03 (0 :: TLV 0x30 (TLV 0x02 [0, 0xC3] ++ TLV 0x02 [1, 0, 1]))) 0x30 0x06 0x03
      (IsTLV_TLV _ _ (by decide) (by decide)) (IsTLV_TLV _ _ (by decide) (by decide))
      (by decide)).2.1 (TLV 0x30 (TLV 0x02 [0, 0xC3] ++ TLV 0x02 [1, 0, 1])) (TLV 0x02 [0, 0xC3])
      (TLV 0x02 [1, 0, 1]) [0, 0xC3] [1, 0, 1] 0x30 0x02 0x02
      (IsTLV_TLV _ _ (by decide) (by decide)) (IsTLV_TLV _ _ (by decide) (by decide))
      (IsTLV_TLV _ _ (by decide) (by decide)) (IsTLV_TLV _ _ (by decide) (by decide))⟩

section CertSteps

/-- The function `dataStart` at bytes for which the specification has it return
no value. -/
theorem dataStart_fails_At (p : Ptr) (tail : List Nat) (includeTag : Bool) (hat : At p tail)
    (hf : dataStartFails tail) (hb : ∀ b ∈ tail, b < 256) (hlt : tail.length < 2 ^ 32) :
    ∃ n, dataStart (some p) tail.length includeTag = some (none, n) := by
  obtain ⟨pre, post, hm, ho⟩ := hat
  have hp : p = Ptr.mk (pre ++ tail ++ post) pre.length := by
    cases p
    simp only at hm ho
    simp only [Ptr.mk.injEq]
    exact ⟨hm, ho⟩
  rcases dataStart_cases pre tail post includeTag hb hlt with ⟨_, n, hr⟩ | ⟨hnf, _⟩
  · exact ⟨n, by rw [hp, hr]⟩
  · exact absurd hf hnf

theorem subjkey_ok (p : Ptr) (L : Nat) (items : CertItems) (K : List Nat) (tK : Nat)
    (lf k rest : List Nat) (hK : K = tK :: lf ++ k) (htag : tK ≠ 0)
    (hlf : lengthField lf k.length) (hat : At p (K ++ rest)) (hL : L = (K ++ rest).length)
    (hlt : L < 2 ^ 32) :
    GetCertFieldItems_subjkey p L items
      = some (SECSuccess,
          { items with subjkey := { data := some (p.add (1 + lf.length)), len := k.length } }) := by
  have s := dataStart_step p L K tK lf k rest false hK htag hlf hat hL hlt
  simp only [Bool.false_eq_true, if_false] at s
  unfold GetCertFieldItems_subjkey
  simp only [s.1]

theorem subject_ok (p : Ptr) (L : Nat) (items : CertItems) (U : List Nat) (tU : Nat)
    (lf u rest : List Nat) (hU : U = tU :: lf ++ u) (htag : tU ≠ 0)
    (hlf : lengthField lf u.length) (hat : At p (U ++ rest)) (hL : L = (U ++ rest).length)
    (hlt : L < 2 ^ 32) :
    GetCertFieldItems_subject p L items
      = GetCertFieldItems_subjkey (p.add U.length) rest.length
          { items with subject := { data := some p, len := U.length } } := by
  have s := dataStart_step p L U tU lf u rest true hU htag hlf hat hL hlt
  simp only [if_true, add_zero] at s
  unfold GetCertFieldItems_subject
  simp only [s.1, s.2.1]

theorem validity_ok (p : Ptr) (L : Nat) (items : CertItems) (V : List Nat) (tV : Nat)
    (lf v rest : List Nat) (hV : V = tV :: lf ++ v) (htag : tV ≠ 0)
    (hlf : lengthField lf v.length) (hat : At p (V ++ rest)) (hL : L = (V ++ rest).length)
    (hlt : L < 2 ^ 32) :
    GetCertFieldItems_validity p L items
      = GetCertFieldItems_subject (p.add V.length) rest.length
          { items with valid := { data := some (p.add (1 + lf.length)), len := v.length } } := by
  have s := dataStart_step p L V tV lf v rest false hV htag hlf hat hL hlt
  simp only [Bool.false_eq_true, if_false] at s
  unfold GetCertFieldItems_validity
  simp only [s.1, s.2.1, s.2.2.1]

theorem issuer_ok (p : Ptr) (L : Nat) (items : CertItems) (I : List Nat) (tI : Nat)
    (lf i rest : List Nat) (hI : I = tI :: lf ++ i) (htag : tI ≠ 0)
    (hlf : lengthField lf i.length) (hat : At p (I ++ rest)) (hL : L = (I ++ rest).length)
    (hlt : L < 2 ^ 32) :
    GetCertFieldItems_issuer p L items
      = GetCertFieldItems_validity (p.add I.length) rest.length
          { items with issuer := { data := some p, len := I.length } } := by
  have s := dataStart_step p L I tI lf i rest true hI htag hlf hat hL hlt
  simp only [if_true, add_zero] at s
  unfold GetCertFieldItems_issuer
  simp only [s.1, s.2.1]

theorem oid_ok (p : Ptr) (L : Nat) (items : CertItems) (G : List Nat) (tG : Nat)
    (lf g rest : List Nat) (hG : G = tG :: lf ++ g) (htag : tG ≠ 0)
    (hlf : lengthField lf g.length) (hat : At p (G ++ rest)) (hL : L = (G ++ rest).length)
    (hlt : L < 2 ^ 32) :
    GetCertFieldItems_oid p L items = GetCertFieldItems_issuer (p.add G.length) rest.length items := by
  have s := dataStart_step p L G tG lf g rest false hG htag hlf hat hL hlt
  simp only [Bool.false_eq_true, if_false] at s
  unfold GetCertFieldItems_oid
  simp only [s.1, s.2.1, s.2.2.1]

theorem serial_ok (p : Ptr) (L : Nat) (items : CertItems) (old : CCItem) (S : List Nat)
    (tS : Nat) (lf s rest : List Nat) (hder : items.derSN = some old) (hS : S = tS :: lf ++ s)
    (htag : tS ≠ 0) (hlf : lengthField lf s.length) (hat : At p (S ++ rest))
    (hL : L = (S ++ rest).length) (hlt : L < 2 ^ 32) :
    GetCertFieldItems_serial p L items
      = GetCertFieldItems_oid (p.add S.length) rest.length
          { items with
            derSN := some { data := some p, len := S.length },
            serial := { data := some (p.add (1 + lf.length)), len := s.length } } := by
  have s1 := dataStart_step p L S tS lf s rest true hS htag hlf hat hL hlt
  simp only [if_true, add_zero] at s1
  have s2 := dataStart_step p L S tS lf s rest false hS htag hlf hat hL hlt
  simp only [Bool.false_eq_true, if_false] at s2
  unfold GetCertFieldItems_serial
  simp only [hder, s1.1, s2.1, s2.2.1, s2.2.2.1]

end CertSteps
section CertFailSteps

end CertFailSteps
section CertWalk

theorem length_lt_of_append {a b : List Nat} {n : Nat} (h : (a ++ b).length < n) :
    b.length < n := by
  rw [List.length_append] at h
  omega

/-- The function `GetCertFieldItems` from the serial number on, at six
elements one after the other: the items of the first, third and fifth element
with their tags, and of the content of the sixth. -/
theorem serial_walk (p : Ptr) (items : CertItems) (old : CCItem) (hder : items.derSN = some old)
    (S G I V U K rest s g i v u k : List Nat) (tS tG tI tV tU tK : Nat) (hS : IsTLV S tS s)
    (hG : IsTLV G tG g) (hI : IsTLV I tI i) (hV : IsTLV V tV v) (hU : IsTLV U tU u)
    (hK : IsTLV K tK k)
    (hat : At p (S ++ (G ++ (I ++ (V ++ (U ++ (K ++ rest)))))))
    (hlt : (S ++ (G ++ (I ++ (V ++ (U ++ (K ++ rest)))))).length < 2 ^ 32) :
    ∃ items2 ps pi pu pk,
      GetCertFieldItems_serial p (S ++ (G ++ (I ++ (V ++ (U ++ (K ++ rest)))))).length items
        = some (SECSuccess, items2) ∧
      items2.derSN = some { data := some ps, len := S.length } ∧ At ps S ∧
      items2.issuer = { data := some pi, len := I.length } ∧ At pi I ∧
      items2.subject = { data := some pu, len := U.length } ∧ At pu U ∧
      items2.subjkey = { data := some pk, len := k.length } ∧ At pk k := by
  obtain ⟨htS, lfS, hlfS, hSeq⟩ := hS
  obtain ⟨htG, lfG, hlfG, hGeq⟩ := hG
  obtain ⟨htI, lfI, hlfI, hIeq⟩ := hI
  obtain ⟨htV, lfV, hlfV, hVeq⟩ := hV
  obtain ⟨htU, lfU, hlfU, hUeq⟩ := hU
  obtain ⟨htK, lfK, hlfK, hKeq⟩ := hK
  have a1 := At_right hat
  have l1 := length_lt_of_append hlt
  have a2 := At_right a1
  have l2 := length_lt_of_append l1
  have a3 := At_right a2
  have l3 := length_lt_of_append l2
  have a4 := At_right a3
  have l4 := length_lt_of_append l3
  have a5 := At_right a4
  have l5 := length_lt_of_append l4
  have sK := dataStart_step _ _ K tK lfK k rest false hKeq htK hlfK a5 rfl l5
  refine ⟨{
      issuer := { data := some ((p.add S.length).add G.length), len := I.length },
      serial := { data := some (p.add (1 + lfS.length)), len := s.length },
      derSN := some { data := some p, len := S.length },
      subject := ⟨some ((((p.add S.length).add G.length).add I.length).add V.length), U.length⟩,
      valid := ⟨some ((((p.add S.length).add G.length).add I.length).add (1 + lfV.length)),
        v.length⟩,
      subjkey := ⟨some ((((((p.add S.length).add G.length).add I.length).add V.length).add
        U.length).add (1 + lfK.length)), k.length⟩ },
    p, (p.add S.length).add G.length,
    (((p.add S.length).add G.length).add I.length).add V.length,
    (((((p.add S.length).add G.length).add I.length).add V.length).add U.length).add
      (1 + lfK.length), ?_, rfl, At_left hat, rfl, At_left a2, rfl, At_left a4, rfl,
    sK.2.2.2.2.1⟩
  rw [serial_ok p _ items old S tS lfS s _ hder hSeq htS hlfS hat rfl hlt,
    oid_ok _ _ _ G tG lfG g _ hGeq htG hlfG a1 rfl l1,
    issuer_ok _ _ _ I tI lfI i _ hIeq htI hlfI a2 rfl l2,
    validity_ok _ _ _ V tV lfV v _ hVeq htV hlfV a3 rfl l3,
    subject_ok _ _ _ U tU lfU u _ hUeq htU hlfU a4 rfl l4,
    subjkey_ok _ _ _ K tK lfK k _ hKeq htK hlfK a5 rfl l5]

end CertWalk
section CertFront

/-- The function `GetCertFieldItems` on a certificate whose outer element
starts with the element `TBS`: the rest of the function at the content of
`TBS`. -/
theorem GetCertFieldItems_front (derCert : CKYBuffer) (hwf : derCert.WF)
    (hlt : derCert.len < 2 ^ 32) (T0 TBS rest2 cTBS : List Nat) (t0 t1 : Nat)
    (h0 : IsTLV T0 t0 (TBS ++ rest2)) (h1 : IsTLV TBS t1 cTBS)
    (hdata : CKYBuffer_Data derCert = T0) :
    ∃ p, At p cTBS ∧ cTBS.length < 2 ^ 32 ∧
      ∀ items, GetCertFieldItems (CKYBuffer_DataPtr derCert) (CKYBuffer_Size derCert) items
        = GetCertFieldItems_version p cTBS.length items := by
  obtain ⟨ht0, lf0, hlf0, h0eq⟩ := h0
  obtain ⟨ht1, lf1, hlf1, h1eq⟩ := h1
  have hne : CKYBuffer_Data derCert ≠ [] := by rw [hdata, h0eq]; simp
  have hat0 : At (Ptr.mk derCert.data 0) (T0 ++ []) := by
    rw [List.append_nil, ← hdata]; exact At_of_buffer derCert
  have hL : derCert.len = (T0 ++ []).length := by
    rw [List.append_nil, ← hdata, length_Data hwf]
  have s0 := dataStart_step (Ptr.mk derCert.data 0) derCert.len T0 t0 lf0 (TBS ++ rest2) []
    false h0eq ht0 hlf0 hat0 hL hlt
  simp only [Bool.false_eq_true, if_false] at s0
  have hlt1 : (TBS ++ rest2).length < 2 ^ 32 := by
    rw [hL, h0eq] at hlt
    simp only [List.length_append, List.length_cons] at hlt ⊢
    omega
  have s1 := dataStart_step ((Ptr.mk derCert.data 0).add (1 + lf0.length)) (TBS ++ rest2).length
    TBS t1 lf1 cTBS rest2 false h1eq ht1 hlf1 s0.2.2.2.2.1 rfl hlt1
  simp only [Bool.false_eq_true, if_false] at s1
  refine ⟨_, s1.2.2.2.2.1, ?_, fun items => ?_⟩
  · rw [h1eq] at hlt1
    simp only [List.length_append, List.length_cons] at hlt1
    omega
  · unfold GetCertFieldItems
    simp only [DataPtr_of_ne derCert hne, CKYBuffer_Size, s0.1, s1.1]

/-- The part of `GetCertFieldItems` that skips the version, at an element whose
tag has the bits of `0xa0` set. -/
theorem version_skipped (p : Ptr) (L : Nat) (items : CertItems) (VER : List Nat) (tv : Nat)
    (cv rest : List Nat) (hV : IsTLV VER tv cv) (htv : tv &&& 0xa0 = 0xa0)
    (hat : At p (VER ++ rest)) (hL : L = (VER ++ rest).length) (hlt : L < 2 ^ 32) :
    GetCertFieldItems_version p L items
      = GetCertFieldItems_serial (p.add VER.length) rest.length items := by
  obtain ⟨htag, lf, hlf, hVeq⟩ := hV
  have s := dataStart_step p L VER tv lf cv rest false hVeq htag hlf hat hL hlt
  simp only [Bool.false_eq_true, if_false] at s
  have hr : p.read 0 = some tv := by
    apply @At_read p tv (lf ++ cv ++ rest)
    rw [hVeq] at hat
    simpa only [List.cons_append, List.append_assoc] using hat
  unfold GetCertFieldItems_version
  simp only [hr, htv, if_true, s.1, s.2.1, s.2.2.1]

/-- The part of `GetCertFieldItems` that skips the version, at a first byte
that has not both bits of `0xa0` set. -/
theorem version_absent (p : Ptr) (L : Nat) (items : CertItems) (b : Nat) (more : List Nat)
    (hb : b &&& 0xa0 ≠ 0xa0) (hat : At p (b :: more)) :
    GetCertFieldItems_version p L items = GetCertFieldItems_serial p L items := by
  unfold GetCertFieldItems_version
  simp only [At_read hat, hb, if_false]

end CertFront
section CertFields

/-- The function `GetCertFieldItems` on a certificate of the usual layout: the
items of the serial number, the issuer and the subject with their tags, and of
the content of the subject public key info. -/
theorem GetCertFieldItems_wellformed (derCert : CKYBuffer) (hwf : derCert.WF)
    (hlt : derCert.len < 2 ^ 32) (items : CertItems) (old : CCItem)
    (hder : items.derSN = some old)
    (T0 TBS rest2 ver S G I V U K rest s g i v u k : List Nat)
    (t0 t1 tS tG tI tV tU tK : Nat) (h0 : IsTLV T0 t0 (TBS ++ rest2))
    (h1 : IsTLV TBS t1 (ver ++ (S ++ (G ++ (I ++ (V ++ (U ++ (K ++ rest))))))))
    (hver : (ver = [] ∧ tS &&& 0xa0 ≠ 0xa0) ∨ (∃ tv cv, IsTLV ver tv cv ∧ tv &&& 0xa0 = 0xa0))
    (hS : IsTLV S tS s) (hG : IsTLV G tG g) (hI : IsTLV I tI i) (hV : IsTLV V tV v)
    (hU : IsTLV U tU u) (hK : IsTLV K tK k) (hdata : CKYBuffer_Data derCert = T0) :
    ∃ items2 ps pi pu pk,
      GetCertFieldItems (CKYBuffer_DataPtr derCert) (CKYBuffer_Size derCert) items
        = some (SECSuccess, items2) ∧
      items2.derSN = some { data := some ps, len := S.length } ∧ At ps S ∧
      items2.issuer = { data := some pi, len := I.length } ∧ At pi I ∧
      items2.subject = { data := some pu, len := U.length } ∧ At pu U ∧
      items2.subjkey = { data := some pk, len := k.length } ∧ At pk k := by
  obtain ⟨p, hat, hltc, hfront⟩ := GetCertFieldItems_front derCert hwf hlt T0 TBS rest2 _ t0 t1
    h0 h1 hdata
  rw [hfront items]
  rcases hver with ⟨hnil, htS⟩ | ⟨tv, cv, hVER, htv⟩
  · subst hnil
    rw [List.nil_append] at hat hltc ⊢
    have hatb : At p (tS :: (hS.2.choose ++ s ++ (G ++ (I ++ (V ++ (U ++ (K ++ rest))))))) := by
      have h := hat
      rw [hS.2.choose_spec.2] at h
      simpa only [List.cons_append, List.append_assoc] using h
    rw [version_absent p _ items tS _ htS hatb]
    exact serial_walk p items old hder S G I V U K rest s g i v u k tS tG tI tV tU tK hS hG hI hV
      hU hK hat hltc
  · rw [version_skipped p _ items ver tv cv _ hVER htv hat rfl hltc]
    exact serial_walk _ items old hder S G I V U K rest s g i v u k tS tG tI tV tU tK hS hG hI hV
      hU hK (At_right hat) (length_lt_of_append hltc)

/-- The function `GetCertFields` on a certificate of the usual layout: the four
buffers start with the serial number, the subject and the issuer, each with its
tag and length, and with the content of the subject public key info. -/
theorem GetCertFields_wellformed (junk : Nat → Nat) (stack : CCItem)
    (derCert derSerial derSubject derIssuer subjectKey : CKYBuffer) (hwf : derCert.WF)
    (hlt : derCert.len < 2 ^ 32) (hw1 : derSerial.WF) (hw2 : derSubject.WF)
    (hw3 : derIssuer.WF) (hw4 : subjectKey.WF)
    (T0 TBS rest2 ver S G I V U K rest s g i v u k : List Nat)
    (t0 t1 tS tG tI tV tU tK : Nat) (h0 : IsTLV T0 t0 (TBS ++ rest2))
    (h1 : IsTLV TBS t1 (ver ++ (S ++ (G ++ (I ++ (V ++ (U ++ (K ++ rest))))))))
    (hver : (ver = [] ∧ tS &&& 0xa0 ≠ 0xa0) ∨ (∃ tv cv, IsTLV ver tv cv ∧ tv &&& 0xa0 = 0xa0))
    (hS : IsTLV S tS s) (hG : IsTLV G tG g) (hI : IsTLV I tI i) (hV : IsTLV V tV v)
    (hU : IsTLV U tU u) (hK : IsTLV K tK k) (hdata : CKYBuffer_Data derCert = T0) :
    ∃ r1 r2 r3 r4,
      GetCertFields junk stack derCert derSerial derSubject derIssuer subjectKey
        = some (Except.ok (r1, r2, r3, r4)) ∧
      CKYBuffer_Data r1 = S ++ (CKYBuffer_Data derSerial).drop S.length ∧
      CKYBuffer_Data r2 = U ++ (CKYBuffer_Data derSubject).drop U.length ∧
      CKYBuffer_Data r3 = I ++ (CKYBuffer_Data derIssuer).drop I.length ∧
      CKYBuffer_Data r4 = k ++ (CKYBuffer_Data subjectKey).drop k.length := by
  obtain ⟨items2, ps, pi, pu, pk, hres, e1, a1, e2, a2, e3, a3, e4, a4⟩ :=
    GetCertFieldItems_wellformed derCert hwf hlt
      { issuer := stack, serial := stack, derSN := some stack, subject := stack, valid := stack,
        subjkey := stack } stack rfl
      T0 TBS rest2 ver S G I V U K rest s g i v u k t0 t1 tS tG tI tV tU tK h0 h1 hver hS hG hI hV
      hU hK hdata
  obtain ⟨r1, hr1, hd1⟩ := replaceWithItem_At junk derSerial hw1 ps S a1
  obtain ⟨r3, hr3, hd3⟩ := replaceWithItem_At junk derIssuer hw3 pi I a2
  obtain ⟨r2, hr2, hd2⟩ := replaceWithItem_At junk derSubject hw2 pu U a3
  obtain ⟨r4, hr4, hd4⟩ := replaceWithItem_At junk subjectKey hw4 pk k a4
  refine ⟨r1, r2, r3, r4, ?_, hd1, hd2, hd3, hd4⟩
  unfold GetCertFields
  simp only [hres, ne_eq, not_true_eq_false, if_false, e1, e2, e3, e4, hr1, hr2, hr3, hr4]

end CertFields
section CertWalkFails

end CertWalkFails
section CertFieldsFail

end CertFieldsFail
section CertEmpty

end CertEmpty
/-- C30, the claim as stated fails: for the certificate `certExample`, whose
subject public key info is the sequence `spkiExample` around the key blob
`keyRSA`, the buffer `subjectKey` that `GetCertFields` fills holds the key
blob, the content of the sequence, and not the sequence with its tag and
length bytes. -/
theorem public_key_blob_counterexample :
    ∃ r1 r2 r3 r4,
      GetCertFields junkAA ⟨none, 0⟩ certExample ckyBuffer_initBuffer ckyBuffer_initBuffer
        ckyBuffer_initBuffer ckyBuffer_initBuffer = some (Except.ok (r1, r2, r3, r4)) ∧
      spkiExample = [0x30, 29] ++ keyRSA.data ∧
      CKYBuffer_Data r4 = keyRSA.data ∧ CKYBuffer_Data r4 ≠ spkiExample := by
  obtain ⟨r1, r2, r3, r4, hres, _, _, _, hd4⟩ := GetCertFields_wellformed junkAA ⟨none, 0⟩
    certExample ckyBuffer_initBuffer ckyBuffer_initBuffer ckyBuffer_initBuffer
    ckyBuffer_initBuffer (by decide) (by decide) (by decide) (by decide) (by decide) (by decide)
    certBytes
    (TLV 0x30 (TLV 0xA0 (TLV 0x02 [2]) ++ (TLV 0x02 [1] ++ (TLV 0x30 (TLV 0x06 [0x2A, 3])
      ++ (TLV 0x30 (TLV 0x31 [0x0C]) ++ (TLV 0x30 [] ++ (TLV 0x30 (TLV 0x31 [0x0D])
      ++ (spkiExample ++ []))))))))
    (TLV 0x30 [] ++ TLV 0x03 [0]) (TLV 0xA0 (TLV 0x02 [2])) (TLV 0x02 [1])
    (TLV 0x30 (TLV 0x06 [0x2A, 3])) (TLV 0x30 (TLV 0x31 [0x0C])) (TLV 0x30 [])
    (TLV 0x30 (TLV 0x31 [0x0D])) spkiExample [] [1] (TLV 0x06 [0x2A, 3]) (TLV 0x31 [0x0C]) []
    (TLV 0x31 [0x0D]) keyRSA.data 0x30 0x30 0x02 0x30 0x30 0x30 0x30 0x30
    (IsTLV_TLV _ _ (by decide) (by decide)) (IsTLV_TLV _ _ (by decide) (by decide))
    (Or.inr ⟨0xA0, TLV 0x02 [2], IsTLV_TLV _ _ (by decide) (by decide), by decide⟩)
    (IsTLV_TLV _ _ (by decide) (by decide)) (IsTLV_TLV _ _ (by decide) (by decide))
    (IsTLV_TLV _ _ (by decide) (by decide)) (IsTLV_TLV _ _ (by decide) (by decide))
    (IsTLV_TLV _ _ (by decide) (by decide)) (IsTLV_TLV _ _ (by decide) (by decide)) (by decide)
  have hk : CKYBuffer_Data r4 = keyRSA.data := by
    rw [hd4]
    exact List.append_nil _
  refine ⟨r1, r2, r3, r4, hres, by decide, hk, ?_⟩
  rw [hk]
  decide

/-- C30, amended: for a certificate of the usual layout, the buffer
`subjectKey` that `GetCertFields` fills, empty before the call as the
constructor of a certificate object leaves `pubKey`, holds the content `k` of
the subject public key info `K`: the bytes after the tag and length bytes of
the sequence. -/
theorem cert_public_key (junk : Nat → Nat) (stack : CCItem)
    (derCert derSerial derSubject derIssuer subjectKey : CKYBuffer) (hwf : derCert.WF)
    (hlt : derCert.len < 2 ^ 32) (hw1 : derSerial.WF) (hw2 : derSubject.WF)
    (hw3 : derIssuer.WF) (hempty : subjectKey.len = 0)
    (T0 TBS rest2 ver S G I V U K rest s g i v u k : List Nat)
    (t0 t1 tS tG tI tV tU tK : Nat) (h0 : IsTLV T0 t0 (TBS ++ rest2))
    (h1 : IsTLV TBS t1 (ver ++ (S ++ (G ++ (I ++ (V ++ (U ++ (K ++ rest))))))))
    (hver : (ver = [] ∧ tS &&& 0xa0 ≠ 0xa0) ∨ (∃ tv cv, IsTLV ver tv cv ∧ tv &&& 0xa0 = 0xa0))
    (hS : IsTLV S tS s) (hG : IsTLV G tG g) (hI : IsTLV I tI i) (hV : IsTLV V tV v)
    (hU : IsTLV U tU u) (hK : IsTLV K tK k) (hdata : CKYBuffer_Data derCert = T0) :
    ∃ r1 r2 r3 r4,
      GetCertFields junk stack derCert derSerial derSubject derIssuer subjectKey
        = some (Except.ok (r1, r2, r3, r4)) ∧
      CKYBuffer_Data r4 = k := by
  have hw4 : subjectKey.WF := by
    unfold CKYBuffer.WF
    rw [hempty]
    exact Nat.zero_le _
  obtain ⟨r1, r2, r3, r4, hres, _, _, _, hd4⟩ := GetCertFields_wellformed junk stack derCert
    derSerial derSubject derIssuer subjectKey hwf hlt hw1 hw2 hw3 hw4 T0 TBS rest2 ver S G I V U
    K rest s g i v u k t0 t1 tS tG tI tV tU tK h0 h1 hver hS hG hI hV hU hK hdata
  refine ⟨r1, r2, r3, r4, hres, ?_⟩
  have he : CKYBuffer_Data subjectKey = [] := by
    unfold CKYBuffer_Data
    rw [hempty, List.take_zero]
  rw [hd4, he, List.drop_nil, List.append_nil]

/-- C30, amended, at the certificate `certExample`: the public key blob is the
key blob `keyRSA`. -/
theorem cert_public_key_witness :
    ∃ r1 r2 r3 r4,
      GetCertFields junkAA ⟨none, 0⟩ certExample ckyBuffer_initBuffer ckyBuffer_initBuffer
        ckyBuffer_initBuffer ckyBuffer_initBuffer = some (Except.ok (r1, r2, r3, r4)) ∧
      CKYBuffer_Data r4 = keyRSA.data :=
  cert_public_key junkAA ⟨none, 0⟩ certExample ckyBuffer_initBuffer ckyBuffer_initBuffer
    ckyBuffer_initBuffer ckyBuffer_initBuffer (by decide) (by decide) (by decide) (by decide)
    (by decide) rfl certBytes
    (TLV 0x30 (TLV 0xA0 (TLV 0x02 [2]) ++ (TLV 0x02 [1] ++ (TLV 0x30 (TLV 0x06 [0x2A, 3])
      ++ (TLV 0x30 (TLV 0x31 [0x0C]) ++ (TLV 0x30 [] ++ (TLV 0x30 (TLV 0x31 [0x0D])
      ++ (spkiExample ++ []))))))))
    (TLV 0x30 [] ++ TLV 0x03 [0]) (TLV 0xA0 (TLV 0x02 [2])) (TLV 0x02 [1])
    (TLV 0x30 (TLV 0x06 [0x2A, 3])) (TLV 0x30 (TLV 0x31 [0x0C])) (TLV 0x30 [])
    (TLV 0x30 (TLV 0x31 [0x0D])) spkiExample [] [1] (TLV 0x06 [0x2A, 3]) (TLV 0x31 [0x0C]) []
    (TLV 0x31 [0x0D]) keyRSA.data 0x30 0x30 0x02 0x30 0x30 0x30 0x30 0x30
    (IsTLV_TLV _ _ (by decide) (by decide)) (IsTLV_TLV _ _ (by decide) (by decide))
    (Or.inr ⟨0xA0, TLV 0x02 [2], IsTLV_TLV _ _ (by decide) (by decide), by decide⟩)
    (IsTLV_TLV _ _ (by decide) (by decide)) (IsTLV_TLV _ _ (by decide) (by decide))
    (IsTLV_TLV _ _ (by decide) (by decide)) (IsTLV_TLV _ _ (by decide) (by decide))
    (IsTLV_TLV _ _ (by decide) (by decide)) (IsTLV_TLV _ _ (by decide) (by decide)) (by decide)

/-- C38: for a blob whose bytes 1 to 4 hold the expected object id and whose
byte 0 is neither 0 nor 1, the constructor throws nothing and builds the
object that the constructor without a blob builds: its attribute store is
empty. -/
theorem decode_unknown_format (host : Host) (id handle tag : Nat) (data : CKYBuffer)
    (rest : List Nat) (hid : id < 2 ^ 32) (h0 : tag ≠ 0) (h1 : tag ≠ 1)
    (hdata : CKYBuffer_Data data = [tag] ++ BE32 id ++ rest) :
    ∃ o, PKCS11Object_PKCS11Object_data host id data handle = some (Except.ok o) ∧
      o.attributes = [] ∧ o = PKCS11Object_PKCS11Object id handle := by
  have e0 : CKYBuffer_GetChar data 0 = tag := GetChar_of (by rw [hdata]; rfl)
  have e1 : CKYBuffer_GetLong data 1 = id :=
    @GetLong_BE32 data [tag] rest id hid hdata
  refine ⟨_, ?_, rfl, rfl⟩
  unfold PKCS11Object_PKCS11Object_data
  simp only [e0, e1, ne_eq, not_true_eq_false, if_false, h0, h1]

/-- C38, at the blob `02 00000007 FF` with the expected id 7. -/
theorem decode_unknown_format_witness :
    ∃ o, PKCS11Object_PKCS11Object_data host32 7 ⟨[2, 0, 0, 0, 7, 0xFF], 6⟩ 99
        = some (Except.ok o) ∧
      o.attributes = [] ∧ o = PKCS11Object_PKCS11Object 7 99 :=
  decode_unknown_format host32 7 99 2 ⟨[2, 0, 0, 0, 7, 0xFF], 6⟩ [0xFF] (by decide) (by decide)
    (by decide) (by decide)

/-- C31, the claim as stated fails: in the certificate `certExample80` the
first element of the inner sequence has the tag `80`, whose top two bits are
binary 10, and `GetCertFields` does not skip it: the serial number it returns
is this element, `80 01 02`, and not the element `02 01 01` that follows. -/
theorem version_tag_counterexample :
    ∃ r1 r2 r3 r4,
      GetCertFields junkAA ⟨none, 0⟩ certExample80 ckyBuffer_initBuffer ckyBuffer_initBuffer
        ckyBuffer_initBuffer ckyBuffer_initBuffer = some (Except.ok (r1, r2, r3, r4)) ∧
      (0x80 >>> 6 = 2 ∧ 0x80 &&& 0xa0 ≠ 0xa0) ∧
      CKYBuffer_Data r1 = [0x80, 1, 2] ∧ CKYBuffer_Data r1 ≠ [0x02, 1, 1] := by
  obtain ⟨r1, r2, r3, r4, hres, hd1, _, _, _⟩ := GetCertFields_wellformed junkAA ⟨none, 0⟩
    certExample80 ckyBuffer_initBuffer ckyBuffer_initBuffer ckyBuffer_initBuffer
    ckyBuffer_initBuffer (by decide) (by decide) (by decide) (by decide) (by decide) (by decide)
    certBytes80
    (TLV 0x30 (TLV 0x80 [2] ++ (TLV 0x02 [1] ++ (TLV 0x30 (TLV 0x06 [0x2A, 3])
      ++ (TLV 0x30 (TLV 0x31 [0x0C]) ++ (TLV 0x30 [] ++ (TLV 0x30 (TLV 0x31 [0x0D])
      ++ spkiExample)))))))
    (TLV 0x30 [] ++ TLV 0x03 [0]) [] (TLV 0x80 [2]) (TLV 0x02 [1])
    (TLV 0x30 (TLV 0x06 [0x2A, 3])) (TLV 0x30 (TLV 0x31 [0x0C])) (TLV 0x30 [])
    (TLV 0x30 (TLV 0x31 [0x0D])) spkiExample [2] [1] (TLV 0x06 [0x2A, 3]) (TLV 0x31 [0x0C]) []
    (TLV 0x31 [0x0D]) 0x30 0x30 0x80 0x02 0x30 0x30 0x30 0x30
    (IsTLV_TLV _ _ (by decide) (by decide)) (IsTLV_TLV _ _ (by decide) (by decide))
    (Or.inl ⟨rfl, by decide⟩)
    (IsTLV_TLV _ _ (by decide) (by decide)) (IsTLV_TLV _ _ (by decide) (by decide))
    (IsTLV_TLV _ _ (by decide) (by decide)) (IsTLV_TLV _ _ (by decide) (by decide))
    (IsTLV_TLV _ _ (by decide) (by decide)) (IsTLV_TLV _ _ (by decide) (by decide)) (by decide)
  have hk : CKYBuffer_Data r1 = [0x80, 1, 2] := by
    rw [hd1]
    rfl
  refine ⟨r1, r2, r3, r4, hres, by decide, hk, ?_⟩
  rw [hk]
  decide
/-- C31, amended: take a certificate whose inner sequence starts with an
element `F` of tag `tF`. When bits 7 and 5 of `tF` are both set
(`tF & 0xa0 = 0xa0`), `GetCertFields` skips `F` as the version and returns the
element `S` that follows as the serial number; for every other tag byte it
reads `F` itself as the serial number. -/
theorem cert_version_test (junk : Nat → Nat) (stack : CCItem)
    (derCert derSerial derSubject derIssuer subjectKey : CKYBuffer) (hwf : derCert.WF)
    (hlt : derCert.len < 2 ^ 32) (hw1 : derSerial.WF) (hw2 : derSubject.WF)
    (hw3 : derIssuer.WF) (hw4 : subjectKey.WF)
    (T0 TBS rest2 F S G I V U K rest f s g i v u k : List Nat)
    (t0 t1 tF tS tG tI tV tU tK : Nat) (h0 : IsTLV T0 t0 (TBS ++ rest2))
    (hF : IsTLV F tF f) (hS : IsTLV S tS s) (hG : IsTLV G tG g) (hI : IsTLV I tI i)
    (hV : IsTLV V tV v) (hU : IsTLV U tU u) (hK : IsTLV K tK k)
    (hdata : CKYBuffer_Data derCert = T0) :
    (tF &&& 0xa0 = 0xa0 →
      IsTLV TBS t1 (F ++ (S ++ (G ++ (I ++ (V ++ (U ++ (K ++ rest))))))) →
      ∃ r1 r2 r3 r4,
        GetCertFields junk stack derCert derSerial derSubject derIssuer subjectKey
          = some (Except.ok (r1, r2, r3, r4)) ∧
        CKYBuffer_Data r1 = S ++ (CKYBuffer_Data derSerial).drop S.length) ∧
    (tF &&& 0xa0 ≠ 0xa0 →
      IsTLV TBS t1 (F ++ (G ++ (I ++ (V ++ (U ++ (K ++ rest)))))) →
      ∃ r1 r2 r3 r4,
        GetCertFields junk stack derCert derSerial derSubject derIssuer subjectKey
          = some (Except.ok (r1, r2, r3, r4)) ∧
        CKYBuffer_Data r1 = F ++ (CKYBuffer_Data derSerial).drop F.length) := by
  constructor
  · intro htF h1
    obtain ⟨r1, r2, r3, r4, hres, hd1, _⟩ := GetCertFields_wellformed junk stack derCert
      derSerial derSubject derIssuer subjectKey hwf hlt hw1 hw2 hw3 hw4 T0 TBS rest2 F S G I V U
      K rest s g i v u k t0 t1 tS tG tI tV tU tK h0 h1 (Or.inr ⟨tF, f, hF, htF⟩) hS hG hI hV hU
      hK hdata
    exact ⟨r1, r2, r3, r4, hres, hd1⟩
  · intro htF h1
    obtain ⟨r1, r2, r3, r4, hres, hd1, _⟩ := GetCertFields_wellformed junk stack derCert
      derSerial derSubject derIssuer subjectKey hwf hlt hw1 hw2 hw3 hw4 T0 TBS rest2 [] F G I V U
      K rest f g i v u k t0 t1 tF tG tI tV tU tK h0 h1 (Or.inl ⟨rfl, htF⟩) hF hG hI hV hU
      hK hdata
    exact ⟨r1, r2, r3, r4, hres, hd1⟩

/-- C31, amended, at the certificate `certExample`, whose first element has the
tag `A0`: the serial number returned is the second element, `02 01 01`. -/
theorem cert_version_test_witness :
    ∃ r1 r2 r3 r4,
      GetCertFields junkAA ⟨none, 0⟩ certExample ckyBuffer_initBuffer ckyBuffer_initBuffer
        ckyBuffer_initBuffer ckyBuffer_initBuffer = some (Except.ok (r1, r2, r3, r4)) ∧
      CKYBuffer_Data r1 = TLV 0x02 [1] ++ (CKYBuffer_Data ckyBuffer_initBuffer).drop
        (TLV 0x02 [1]).length :=
  (cert_version_test junkAA ⟨none, 0⟩ certExample ckyBuffer_initBuffer ckyBuffer_initBuffer
    ckyBuffer_initBuffer ckyBuffer_initBuffer (by decide) (by decide) (by decide) (by decide)
    (by decide) (by decide) certBytes
    (TLV 0x30 (TLV 0xA0 (TLV 0x02 [2]) ++ (TLV 0x02 [1] ++ (TLV 0x30 (TLV 0x06 [0x2A, 3])
      ++ (TLV 0x30 (TLV 0x31 [0x0C]) ++ (TLV 0x30 [] ++ (TLV 0x30 (TLV 0x31 [0x0D])
      ++ (spkiExample ++ []))))))))
    (TLV 0x30 [] ++ TLV 0x03 [0]) (TLV 0xA0 (TLV 0x02 [2])) (TLV 0x02 [1])
    (TLV 0x30 (TLV 0x06 [0x2A, 3])) (TLV 0x30 (TLV 0x31 [0x0C])) (TLV 0x30 [])
    (TLV 0x30 (TLV 0x31 [0x0D])) spkiExample [] (TLV 0x02 [2]) [1] (TLV 0x06 [0x2A, 3])
    (TLV 0x31 [0x0C]) [] (TLV 0x31 [0x0D]) keyRSA.data 0x30 0x30 0xA0 0x02 0x30 0x30 0x30 0x30
    0x30
    (IsTLV_TLV _ _ (by decide) (by decide)) (IsTLV_TLV _ _ (by decide) (by decide))
    (IsTLV_TLV _ _ (by decide) (by decide)) (IsTLV_TLV _ _ (by decide) (by decide))
    (IsTLV_TLV _ _ (by decide) (by decide)) (IsTLV_TLV _ _ (by decide) (by decide))
    (IsTLV_TLV _ _ (by decide) (by decide)) (IsTLV_TLV _ _ (by decide) (by decide))
    (by decide)).1 (by decide) (IsTLV_TLV _ _ (by decide) (by decide))
section ReceiveLengthLemmas

theorem set_last (l : List Nat) (n b : Nat) (h : l.length = n + 1) :
    l.set n b = l.take n ++ [b] := by
  rw [List.set_eq_take_cons_drop b (by omega : n < l.length),
    List.drop_eq_nil_of_le (by omega : l.length ≤ n + 1)]

theorem decodeLe_short (hdr : List Nat) (b : Nat) (h : hdr.length = 4) :
    decodeLe (hdr ++ [b]) = some (if b = 0 then 256 else b) := by
  unfold decodeLe
  have e : (hdr ++ [b]).getD 4 0 = b := by
    rw [List.getD_eq_getElem?_getD, ← h, List.getElem?_append_right (Nat.le_refl _),
      Nat.sub_self]
    rfl
  rw [if_pos (by rw [List.length_append, h]; rfl), e]

theorem decodeLe_extended (hdr : List Nat) (hi lo : Nat) (h : hdr.length = 4) :
    decodeLe (hdr ++ [0, hi, lo]) = some (if hi * 256 + lo = 0 then 65536 else hi * 256 + lo) := by
  unfold decodeLe
  have g : ∀ k, (hdr ++ [0, hi, lo]).getD (4 + k) 0 = [0, hi, lo].getD k 0 := fun k => by
    rw [List.getD_eq_getElem?_getD, List.getD_eq_getElem?_getD, ← h,
      List.getElem?_append_right (Nat.le_add_right _ _), Nat.add_sub_cancel_left]
  have e4 : (hdr ++ [0, hi, lo]).getD 4 0 = 0 := g 0
  have e5 : (hdr ++ [0, hi, lo]).getD 5 0 = hi := g 1
  have e6 : (hdr ++ [0, hi, lo]).getD 6 0 = lo := g 2
  have hl : (hdr ++ [0, hi, lo]).length = 7 := by rw [List.length_append, h]; rfl
  rw [if_neg (by rw [hl]; decide), if_pos ⟨hl, e4⟩, e5, e6]

theorem short_bytes_value (v : Nat) (h : v < 65536) :
    ((v >>> 8) &&& 0xff) * 256 + ((v >>> 0) &&& 0xff) = v := by
  have e : (0xff : Nat) = 2 ^ 8 - 1 := rfl
  rw [e, Nat.and_pow_two_sub_one_eq_mod, Nat.and_pow_two_sub_one_eq_mod,
    Nat.shiftRight_eq_div_pow, Nat.shiftRight_eq_div_pow]
  omega

theorem low_byte (v : Nat) : (v % 256) &&& 0xff = v % 256 := by
  have e : (0xff : Nat) = 2 ^ 8 - 1 := rfl
  rw [e, Nat.and_pow_two_sub_one_eq_mod]
  omega

theorem low_short (v : Nat) : (v &&& 0xffff) % 65536 = v % 65536 := by
  have e : (0xffff : Nat) = 2 ^ 16 - 1 := rfl
  rw [e, Nat.and_pow_two_sub_one_eq_mod]
  omega

/-- The frame that `CKYAPDU_SetReceiveLen` leaves: four header bytes and the
byte given. -/
theorem SetReceiveLen_frame (junk : Nat → Nat) (apdu : CKYAPDU) (b : Nat)
    (hwf : apdu.apduBuf.WF) :
    (CKYAPDU_SetReceiveLen junk apdu b).1 = CKYSUCCESS ∧
    (CKYAPDU_SetReceiveLen junk apdu b).2.frame
      = ((zeroExtend apdu.frame 5).take 5).take 4 ++ [b] := by
  obtain ⟨r1, r2, r3, r4⟩ := Resize_spec junk apdu.apduBuf 5 hwf
  obtain ⟨s1, s2, s3, s4⟩ := SetChar_spec junk (CKYBuffer_Resize junk apdu.apduBuf 5).2 4 b r3
  have hl : ((zeroExtend (CKYBuffer_Data apdu.apduBuf) 5).take 5).length = 5 := by
    rw [List.length_take, length_zeroExtend]
    omega
  unfold CKYAPDU_SetReceiveLen CKYAPDU.frame
  simp only [CKYAPDU_HEADER_LEN, CKY_LE_OFFSET, r1, ne_eq, not_true_eq_false, if_false, s1, s4,
    r4]
  rw [zeroExtend_of_le (by rw [hl]), set_last _ 4 b hl]
  exact ⟨trivial, rfl⟩

/-- The frame that `CKYAPDU_SetShortReceiveLen` leaves for a length above 256:
four header bytes, a zero and the two bytes of the length. -/
theorem SetShortReceiveLen_frame (junk : Nat → Nat) (apdu : CKYAPDU) (v : Nat)
    (hwf : apdu.apduBuf.WF) (hv : 256 < v) :
    (CKYAPDU_SetShortReceiveLen junk apdu v).1 = CKYSUCCESS ∧
    (CKYAPDU_SetShortReceiveLen junk apdu v).2.frame
      = ((zeroExtend apdu.frame 7).take 7).take 4 ++ [0, (v >>> 8) &&& 0xff, (v >>> 0) &&& 0xff]
      := by
  obtain ⟨r1, r2, r3, r4⟩ := Resize_spec junk apdu.apduBuf 7 hwf
  obtain ⟨s1, s2, s3, s4⟩ := SetChar_spec junk (CKYBuffer_Resize junk apdu.apduBuf 7).2 4 0 r3
  obtain ⟨t1, t2, t3, t4⟩ := SetShort_spec junk
    (CKYBuffer_SetChar junk (CKYBuffer_Resize junk apdu.apduBuf 7).2 4 0).2 5 v s3
  have hl : ((zeroExtend (CKYBuffer_Data apdu.apduBuf) 7).take 7).length = 7 := by
    rw [List.length_take, length_zeroExtend]
    omega
  have c : ¬ v ≤ 256 := by omega
  unfold CKYAPDU_SetShortReceiveLen CKYAPDU.frame
  simp only [CKYAPDU_HEADER_LEN, CKY_LE_OFFSET, CKYAPDU_MAX_DATA_LEN, c, r1, ne_eq,
    not_true_eq_false, if_false, s1, t1, t4, s4, r4]
  refine ⟨trivial, ?_⟩
  generalize (zeroExtend (CKYBuffer_Data apdu.apduBuf) 7).take 7 = l at hl
  match l, hl with
  | [a0, a1, a2, a3, a4, a5, a6], _ => rfl

end ReceiveLengthLemmas
section ReceiveLengthSteps

theorem length_hdr (l : List Nat) (n : Nat) (h : 4 ≤ n) :
    (((zeroExtend l n).take n).take 4).length = 4 := by
  rw [List.length_take, List.length_take, length_zeroExtend]
  omega

/-- The function `CKYAPDU_SetReceiveLength` for a length it passes on: the
call of `CKYAPDU_SetShortReceiveLen` with the low 16 bits. -/
theorem SetReceiveLength_eq (junk : Nat → Nat) (apdu : CKYAPDU) (recvlen : Nat)
    (h : recvlen ≤ 65536) :
    CKYAPDU_SetReceiveLength junk apdu recvlen
      = CKYAPDU_SetShortReceiveLen junk apdu (recvlen % 65536) := by
  unfold CKYAPDU_SetReceiveLength
  have c : recvlen ≤ CKYAPDU_MAX_T1_DATA_LEN := h
  rw [if_pos c, low_short]

/-- The function `CKYAPDU_SetShortReceiveLen` for a length up to 256: the call
of `CKYAPDU_SetReceiveLen` with the low byte. -/
theorem SetShortReceiveLen_low (junk : Nat → Nat) (apdu : CKYAPDU) (v : Nat) (h : v ≤ 256) :
    CKYAPDU_SetShortReceiveLen junk apdu v = CKYAPDU_SetReceiveLen junk apdu (v % 256) := by
  unfold CKYAPDU_SetShortReceiveLen
  have c : v ≤ CKYAPDU_MAX_DATA_LEN := h
  have e : (0xff : Nat) = 2 ^ 8 - 1 := rfl
  rw [if_pos c, e, Nat.and_pow_two_sub_one_eq_mod]
  congr 1
  omega

/-- The round trip through `CKYAPDU_SetShortReceiveLen` for a length that is
not 0. -/
theorem SetShortReceiveLen_decode (junk : Nat → Nat) (apdu : CKYAPDU) (v : Nat)
    (hwf : apdu.apduBuf.WF) (h1 : 1 ≤ v) (h2 : v ≤ 65535) :
    (CKYAPDU_SetShortReceiveLen junk apdu v).1 = CKYSUCCESS ∧
    decodeLe (CKYAPDU_SetShortReceiveLen junk apdu v).2.frame = some v := by
  by_cases hv : v ≤ 256
  · rw [SetShortReceiveLen_low junk apdu v hv]
    obtain ⟨s1, s2⟩ := SetReceiveLen_frame junk apdu (v % 256) hwf
    refine ⟨s1, ?_⟩
    rw [s2, decodeLe_short _ _ (length_hdr _ 5 (by omega))]
    by_cases h0 : v % 256 = 0
    · rw [if_pos h0]
      congr 1
      omega
    · rw [if_neg h0]
      congr 1
      omega
  · obtain ⟨s1, s2⟩ := SetShortReceiveLen_frame junk apdu v hwf (by omega)
    refine ⟨s1, ?_⟩
    rw [s2, decodeLe_extended _ _ _ (length_hdr _ 7 (by omega)),
      short_bytes_value v (by omega), if_neg (by omega)]

/-- The function `CKYAPDU_AppendReceiveLength` on a frame of 4 bytes. -/
theorem AppendReceiveLength_frame (junk : Nat → Nat) (apdu : CKYAPDU) (recvlen : Nat)
    (hwf : apdu.apduBuf.WF) (h1 : 1 ≤ recvlen) (h2 : recvlen ≤ 65536)
    (h4 : CKYBuffer_Size apdu.apduBuf = 4) :
    (CKYAPDU_AppendReceiveLength junk apdu recvlen).1 = CKYSUCCESS ∧
    (CKYAPDU_AppendReceiveLength junk apdu recvlen).2.frame
      = if recvlen ≤ 256 then apdu.frame ++ [recvlen % 256]
        else apdu.frame ++ [0, ((recvlen % 65536) >>> 8) &&& 0xff,
          ((recvlen % 65536) >>> 0) &&& 0xff] := by
  have c1 : ¬ recvlen > CKYAPDU_MAX_T1_DATA_LEN := Nat.not_lt.mpr h2
  have c2 : ¬ CKYBuffer_Size apdu.apduBuf > CKYAPDU_MIN_LEN := by
    rw [h4]
    decide
  unfold CKYAPDU_AppendReceiveLength CKYAPDU_AppendShortReceiveLen
  rw [if_neg c1, if_neg c2, low_short]
  by_cases hv : recvlen ≤ 256
  · have c3 : recvlen % 65536 ≠ 0 ∧ recvlen % 65536 ≤ CKYAPDU_MAX_DATA_LEN := by
      show recvlen % 65536 ≠ 0 ∧ recvlen % 65536 ≤ 256
      omega
    obtain ⟨a1, _, _, a4⟩ := AppendChar_spec junk apdu.apduBuf
      (((recvlen % 65536) % 256) &&& 0xff) hwf
    rw [if_pos c3, if_pos hv]
    refine ⟨a1, ?_⟩
    unfold CKYAPDU.frame
    have e : recvlen % 65536 % 256 = recvlen % 256 := by omega
    simp only [low_byte, e] at a4 ⊢
    exact a4
  · have c3 : ¬ (recvlen % 65536 ≠ 0 ∧ recvlen % 65536 ≤ CKYAPDU_MAX_DATA_LEN) := by
      show ¬ (recvlen % 65536 ≠ 0 ∧ recvlen % 65536 ≤ 256)
      omega
    obtain ⟨a1, _, a3, a4⟩ := AppendChar_spec junk apdu.apduBuf 0 hwf
    obtain ⟨b1, _, _, b4⟩ := AppendShort_spec junk (CKYBuffer_AppendChar junk apdu.apduBuf 0).2
      (recvlen % 65536) a3
    rw [if_neg c3, if_neg hv]
    unfold CKYAPDU.frame
    simp only [a1, ne_eq, not_true_eq_false, if_false, b1, b4, a4, List.append_assoc,
      List.singleton_append, and_self]

end ReceiveLengthSteps

/-- C37, where the code leaves the claim: `CKYAPDU_SetReceiveLength` passes the
low 16 bits of the length to `CKYAPDU_SetShortReceiveLen`, which takes a value
up to 256 for a short length and does not set 0 apart. For every length from 1
to 65535 the frame decodes back to the length, but for 65536 the low 16 bits
are 0 and the frame is the frame of 5 bytes with a zero byte 4 that the length
256 gives: it decodes to 256. `CKYAPDU_AppendReceiveLength` on a frame that
holds the 4 header bytes sets 0 apart, and its frame decodes back to the
length for every length from 1 to 65536. -/
theorem receive_length_roundtrip (junk : Nat → Nat) (apdu : CKYAPDU) (hwf : apdu.apduBuf.WF) :
    (∀ recvlen, 1 ≤ recvlen → recvlen ≤ 65535 →
      (CKYAPDU_SetReceiveLength junk apdu recvlen).1 = CKYSUCCESS ∧
      decodeLe (CKYAPDU_SetReceiveLength junk apdu recvlen).2.frame = some recvlen) ∧
    ((CKYAPDU_SetReceiveLength junk apdu 65536).1 = CKYSUCCESS ∧
      decodeLe (CKYAPDU_SetReceiveLength junk apdu 65536).2.frame = some 256 ∧
      CKYAPDU_SetReceiveLength junk apdu 65536 = CKYAPDU_SetReceiveLength junk apdu 256) ∧
    (∀ recvlen, 1 ≤ recvlen → recvlen ≤ 65536 → CKYBuffer_Size apdu.apduBuf = 4 →
      (CKYAPDU_AppendReceiveLength junk apdu recvlen).1 = CKYSUCCESS ∧
      decodeLe (CKYAPDU_AppendReceiveLength junk apdu recvlen).2.frame = some recvlen) := by
  refine ⟨?_, ?_, ?_⟩
  · intro recvlen h1 h2
    rw [SetReceiveLength_eq junk apdu recvlen (by omega), Nat.mod_eq_of_lt (by omega)]
    exact SetShortReceiveLen_decode junk apdu recvlen hwf h1 h2
  · have e1 : CKYAPDU_SetReceiveLength junk apdu 65536 = CKYAPDU_SetReceiveLen junk apdu 0 := by
      rw [SetReceiveLength_eq junk apdu 65536 (by decide),
        SetShortReceiveLen_low junk apdu _ (by decide)]
    have e2 : CKYAPDU_SetReceiveLength junk apdu 256 = CKYAPDU_SetReceiveLen junk apdu 0 := by
      rw [SetReceiveLength_eq junk apdu 256 (by decide),
        SetShortReceiveLen_low junk apdu _ (by decide)]
    obtain ⟨s1, s2⟩ := SetReceiveLen_frame junk apdu 0 hwf
    rw [e1, e2]
    refine ⟨s1, ?_, rfl⟩
    rw [s2, decodeLe_short _ _ (length_hdr _ 5 (by omega))]
    rfl
  · intro recvlen h1 h2 h4
    obtain ⟨s1, s2⟩ := AppendReceiveLength_frame junk apdu recvlen hwf h1 h2 h4
    have hl : apdu.frame.length = 4 := by
      unfold CKYAPDU.frame
      rw [length_Data hwf]
      exact h4
    refine ⟨s1, ?_⟩
    rw [s2]
    by_cases hv : recvlen ≤ 256
    · rw [if_pos hv, decodeLe_short _ _ hl]
      by_cases h0 : recvlen % 256 = 0
      · rw [if_pos h0]
        congr 1
        omega
      · rw [if_neg h0]
        congr 1
        omega
    · rw [if_neg hv, decodeLe_extended _ _ _ hl, short_bytes_value _ (by omega)]
      by_cases h0 : recvlen % 65536 = 0
      · rw [if_pos h0]
        congr 1
        omega
      · rw [if_neg h0]
        congr 1
        omega

/-- C37, at the frame `apdu0` of the header `80 10 01 02`: the lengths 65536
and 256 give the same frame `80 10 01 02 00` through
`CKYAPDU_SetReceiveLength`. -/
theorem receive_length_roundtrip_witness :
    ((CKYAPDU_SetReceiveLength junkAA apdu0 65536).1 = CKYSUCCESS ∧
      decodeLe (CKYAPDU_SetReceiveLength junkAA apdu0 65536).2.frame = some 256 ∧
      CKYAPDU_SetReceiveLength junkAA apdu0 65536 = CKYAPDU_SetReceiveLength junkAA apdu0 256) ∧
    (CKYAPDU_SetReceiveLength junkAA apdu0 65536).2.frame = [0x80, 0x10, 0x01, 0x02, 0] ∧
    (CKYAPDU_AppendReceiveLength junkAA apdu0 65536).2.frame
      = [0x80, 0x10, 0x01, 0x02, 0, 0, 0] :=
  ⟨(receive_length_roundtrip junkAA apdu0 (by decide)).2.1, by decide, by decide⟩

section CopyLemmas

theorem InitFromData_spec (junk : Nat → Nat) (d : List Nat) :
    (CKYBuffer_InitFromData junk d).2.len = d.length ∧ (CKYBuffer_InitFromData junk d).2.WF := by
  obtain ⟨ext, he, hle⟩ := Reserve_eq junk ckyBuffer_initBuffer d.length
  unfold CKYBuffer_InitFromData
  simp only [he, ne_eq, not_true_eq_false, if_false, CKYBuffer.WF, memcpy, List.take_zero,
    List.nil_append, Nat.zero_add, List.length_append, true_and]
  omega

theorem InitFromLen_spec (junk : Nat → Nat) (n : Nat) :
    (CKYBuffer_InitFromLen junk n).2.len = n ∧ (CKYBuffer_InitFromLen junk n).2.WF ∧
    CKYBuffer_Data (CKYBuffer_InitFromLen junk n).2 = List.replicate n 0 := by
  obtain ⟨ext, he, hle⟩ := Reserve_eq junk ckyBuffer_initBuffer n
  unfold CKYBuffer_InitFromLen
  simp only [he, ne_eq, not_true_eq_false, if_false, CKYBuffer.WF, CKYBuffer_Data, memset,
    List.take_zero, List.nil_append, Nat.zero_add, List.length_append, List.length_replicate,
    true_and]
  refine ⟨by omega, ?_⟩
  rw [List.take_append_of_le_length (by rw [List.length_replicate]),
    List.take_of_length_le (by rw [List.length_replicate])]

theorem InitFromCopy_spec (junk : Nat → Nat) (src : CKYBuffer) (hwf : src.WF) :
    (CKYBuffer_InitFromCopy junk src).2.len = src.len ∧ (CKYBuffer_InitFromCopy junk src).2.WF ∧
    CKYBuffer_Data (CKYBuffer_InitFromCopy junk src).2 = CKYBuffer_Data src := by
  unfold CKYBuffer_InitFromCopy
  by_cases h0 : src.len = 0
  · rw [if_pos h0]
    refine ⟨h0.symm, Nat.le_refl _, ?_⟩
    unfold CKYBuffer_Data
    rw [h0, List.take_zero]
    rfl
  · obtain ⟨ext, he, hle⟩ := Reserve_eq junk ckyBuffer_initBuffer src.len
    have hl := length_Data hwf
    rw [if_neg h0]
    simp only [he, ne_eq, not_true_eq_false, if_false, CKYBuffer.WF, memcpy, List.take_zero,
      List.nil_append, Nat.zero_add, List.length_append, true_and]
    refine ⟨by omega, ?_⟩
    unfold CKYBuffer_Data at hl ⊢
    simp only
    rw [List.take_append_of_le_length (by omega), List.take_of_length_le (by omega)]

theorem BEvalue_zeros (k : Nat) (l : List Nat) :
    BEvalue (List.replicate k 0 ++ l) = BEvalue l := by
  unfold BEvalue
  induction k with
  | zero => rfl
  | succ k ih =>
    rw [List.replicate_succ, List.cons_append, List.foldl_cons]
    exact ih

end CopyLemmas
section AdjustLemmas

/-- The difference that `adjustToKeyValueLength` computes, for a length of the
buffer below half the range of `unsigned long` and a requested length less
than half the range above it: the difference of the integers. -/
theorem toLong_usub (host : Host) (v n : Nat) (hn : n < 2 ^ (8 * host.sizeofULong - 1))
    (hv : v < n + 2 ^ (8 * host.sizeofULong - 1)) :
    host.toLong (host.usub v n) = (v : Int) - (n : Int) := by
  unfold Host.toLong Host.usub
  generalize 8 * host.sizeofULong = W at hv hn
  cases W with
  | zero =>
    simp only [Nat.zero_sub, Nat.pow_zero, Nat.lt_one_iff] at hv hn
    subst hn
    have hv0 : v = 0 := by omega
    subst hv0
    rfl
  | succ k =>
    simp only [Nat.add_sub_cancel] at hv hn
    have hM : 2 ^ (k + 1) = 2 * 2 ^ k := by rw [Nat.pow_succ, Nat.mul_comm]
    simp only [Nat.add_sub_cancel, Nat.mod_mod]
    rw [hM, Nat.mod_eq_of_lt (by omega : v < 2 * 2 ^ k),
      Nat.mod_eq_of_lt (by omega : n < 2 * 2 ^ k)]
    by_cases hle : n ≤ v
    · have e : (v + 2 * 2 ^ k - n) % (2 * 2 ^ k) = v - n := by
        have e1 : v + 2 * 2 ^ k - n = (v - n) + 2 * 2 ^ k := by omega
        rw [e1, Nat.add_mod_right, Nat.mod_eq_of_lt (by omega)]
      rw [e, if_pos (by omega)]
      simp only [Int.ofNat_eq_coe]
      omega
    · have e : (v + 2 * 2 ^ k - n) % (2 * 2 ^ k) = v + 2 * 2 ^ k - n :=
        Nat.mod_eq_of_lt (by omega)
      rw [e, if_neg (by omega)]
      simp only [Int.ofNat_eq_coe]
      omega

/-- The difference that `adjustToKeyValueLength` computes for a requested
length that lies half the range of `unsigned long` or more above the length of
the buffer: the difference of the integers less `2^w`, a negative number. -/
theorem toLong_usub_wrap (host : Host) (v n : Nat) (hn : n < 2 ^ (8 * host.sizeofULong - 1))
    (hv : n + 2 ^ (8 * host.sizeofULong - 1) ≤ v) (hv2 : v < 2 ^ (8 * host.sizeofULong)) :
    host.toLong (host.usub v n)
      = (v : Int) - (n : Int) - ((2 ^ (8 * host.sizeofULong) : Nat) : Int) := by
  unfold Host.toLong Host.usub
  generalize 8 * host.sizeofULong = W at hv hn hv2
  cases W with
  | zero =>
    simp only [Nat.zero_sub, Nat.pow_zero, Nat.lt_one_iff] at hv hn hv2
    omega
  | succ k =>
    simp only [Nat.add_sub_cancel] at hv hn
    have hM : 2 ^ (k + 1) = 2 * 2 ^ k := by rw [Nat.pow_succ, Nat.mul_comm]
    simp only [Nat.add_sub_cancel, Nat.mod_mod]
    rw [hM] at hv2 ⊢
    rw [Nat.mod_eq_of_lt hv2, Nat.mod_eq_of_lt (by omega : n < 2 * 2 ^ k)]
    have e : (v + 2 * 2 ^ k - n) % (2 * 2 ^ k) = v - n := by
      have e1 : v + 2 * 2 ^ k - n = (v - n) + 2 * 2 ^ k := by omega
      rw [e1, Nat.add_mod_right, Nat.mod_eq_of_lt (by omega)]
    rw [e, if_neg (by omega)]
    simp only [Int.ofNat_eq_coe]
    omega

theorem DataPtr_of_len (buf : CKYBuffer) (hwf : buf.WF) (h : 0 < buf.len) :
    CKYBuffer_DataPtr buf = some (Ptr.mk buf.data 0) := by
  unfold CKYBuffer_DataPtr
  rw [if_neg]
  intro he
  unfold CKYBuffer.WF at hwf
  rw [he] at hwf
  simp only [List.length_nil] at hwf
  omega

/-- What `adjustToKeyValueLength` leaves in a buffer of `n` bytes, `n` below
half the range of `unsigned long`, for a requested length `v` less than half
the range above `n`. -/
theorem adjustToKeyValueLength_spec (junk : Nat → Nat) (host : Host) (b : CKYBuffer) (v : Nat)
    (hwf : b.WF) (hv : v < b.len + 2 ^ (8 * host.sizeofULong - 1))
    (hn : b.len < 2 ^ (8 * host.sizeofULong - 1)) :
    ∃ r, SecretKey_adjustToKeyValueLength junk host (some b) v = some (some r) ∧ r.WF ∧
      ((v = b.len ∨ b.len + 200 ≤ v) → r = b) ∧
      (b.len < v → v < b.len + 200 →
        CKYBuffer_Data r = List.replicate (v - b.len) 0 ++ CKYBuffer_Data b) ∧
      (v < b.len → CKYBuffer_Data r = (CKYBuffer_Data b).drop (b.len - v)) := by
  have hd := toLong_usub host v b.len hn hv
  unfold SecretKey_adjustToKeyValueLength
  simp only [CKYBuffer_Size, hd]
  by_cases h0 : v = b.len
  · have c : (v : Int) - (b.len : Int) = 0 := by omega
    rw [if_pos c]
    exact ⟨b, rfl, hwf, fun _ => rfl, fun h => by omega, fun h => by omega⟩
  · have c : ¬ (v : Int) - (b.len : Int) = 0 := by omega
    rw [if_neg c]
    by_cases h1 : b.len < v ∧ v < b.len + 200
    · have c1 : (v : Int) - (b.len : Int) > 0 ∧ (v : Int) - (b.len : Int) < 200 := by omega
      have e : ((v : Int) - (b.len : Int)).toNat = v - b.len := by omega
      rw [if_pos c1, e]
      obtain ⟨i1, i2, i3⟩ := InitFromLen_spec junk (v - b.len)
      obtain ⟨_, _, a3, a4⟩ := AppendData_spec junk (CKYBuffer_InitFromLen junk (v - b.len)).2
        (CKYBuffer_Data b) i2
      obtain ⟨_, c2, c3⟩ := InitFromCopy_spec junk
        (CKYBuffer_AppendCopy junk (CKYBuffer_InitFromLen junk (v - b.len)).2 b).2 a3
      refine ⟨_, rfl, c2, fun h => by omega, fun _ _ => ?_, fun h => by omega⟩
      rw [c3]
      unfold CKYBuffer_AppendCopy
      rw [a4, i3]
    · have c1 : ¬ ((v : Int) - (b.len : Int) > 0 ∧ (v : Int) - (b.len : Int) < 200) := by omega
      rw [if_neg c1]
      by_cases h2 : v < b.len
      · have c2 : (v : Int) - (b.len : Int) < 0 := by omega
        have e : (-((v : Int) - (b.len : Int))).toNat = b.len - v := by omega
        have hb : (Ptr.mk b.data (0 + (b.len - v))).bytes v
            = some ((b.data.drop (0 + (b.len - v))).take v) := by
          unfold Ptr.bytes
          unfold CKYBuffer.WF at hwf
          rw [if_pos (by simp only; omega)]
        rw [if_pos c2, DataPtr_of_len b hwf (by omega), e]
        unfold Ptr.add
        simp only [hb]
        obtain ⟨d1, d2⟩ := InitFromData_spec junk ((b.data.drop (0 + (b.len - v))).take v)
        obtain ⟨_, c3, c4⟩ := InitFromCopy_spec junk
          (CKYBuffer_InitFromData junk ((b.data.drop (0 + (b.len - v))).take v)).2 d2
        refine ⟨_, rfl, c3, fun h => by omega, fun h => by omega, fun _ => ?_⟩
        rw [c4, InitFromData_Data]
        unfold CKYBuffer_Data
        rw [List.drop_take, Nat.zero_add]
        congr 1
        omega
      · have c2 : ¬ (v : Int) - (b.len : Int) < 0 := by omega
        rw [if_neg c2]
        exact ⟨b, rfl, hwf, fun _ => rfl, fun h => by omega, fun h => by omega⟩

/-- The method `adjustToKeyValueLength` for a requested length that lies half
the range of `unsigned long` or more above the length of the buffer: the
difference is negative, and the branch that cuts the buffer reads the
requested number of bytes, which do not lie inside the block. -/
theorem adjustToKeyValueLength_wrap (junk : Nat → Nat) (host : Host) (b : CKYBuffer) (v : Nat)
    (hn : b.len < 2 ^ (8 * host.sizeofULong - 1))
    (hv : b.len + 2 ^ (8 * host.sizeofULong - 1) ≤ v) (hv2 : v < 2 ^ (8 * host.sizeofULong))
    (hsize : b.data.length < 2 ^ (8 * host.sizeofULong)) :
    SecretKey_adjustToKeyValueLength junk host (some b) v = none := by
  have hd := toLong_usub_wrap host v b.len hn hv hv2
  have hpos : 0 < 2 ^ (8 * host.sizeofULong - 1) := Nat.pow_pos (by decide)
  have c0 : ¬ (v : Int) - (b.len : Int) - ((2 ^ (8 * host.sizeofULong) : Nat) : Int) = 0 := by
    omega
  have c1 : ¬ ((v : Int) - (b.len : Int) - ((2 ^ (8 * host.sizeofULong) : Nat) : Int) > 0 ∧
      (v : Int) - (b.len : Int) - ((2 ^ (8 * host.sizeofULong) : Nat) : Int) < 200) := by
    omega
  have c2 : (v : Int) - (b.len : Int) - ((2 ^ (8 * host.sizeofULong) : Nat) : Int) < 0 := by
    omega
  have e : (-((v : Int) - (b.len : Int) - ((2 ^ (8 * host.sizeofULong) : Nat) : Int))).toNat
      = 2 ^ (8 * host.sizeofULong) + b.len - v := by omega
  unfold SecretKey_adjustToKeyValueLength
  simp only [CKYBuffer_Size, hd, c0, c1, c2, if_false, if_true, e]
  unfold CKYBuffer_DataPtr
  by_cases hnil : b.data = []
  · rw [if_pos hnil]
  · rw [if_neg hnil]
    have hb : (Ptr.add (Ptr.mk b.data 0) (2 ^ (8 * host.sizeofULong) + b.len - v)).bytes v
        = none := by
      unfold Ptr.bytes Ptr.add
      rw [if_neg (by simp only; omega)]
    simp only [hb]

end AdjustLemmas
/-- C35, where the code leaves the claim: `adjustToKeyValueLength` computes the
difference `v - n` in `unsigned long` and reads it as a `CK_LONG`. For a key
buffer `b` of `n` bytes, `n` below half the range of `unsigned long`, and a
requested length `v` below `n + 2^(w-1)` the difference is that of the
integers and the method does what the claim says: it leaves `b` as it is when
`v = n`, leaves `v - n` zero bytes followed by the bytes of `b` when
`0 < v - n < 200`, leaves the last `v` bytes of `b` when `v < n`, and leaves
`b` as it is when `v - n ≥ 200`; whenever `v ≥ n` the bytes left have the
big-endian value of the bytes of `b`. For a requested length from
`n + 2^(w-1)` on, such as `(CK_ULONG)-1`, the difference is negative: the test
for silly values does not see it, and the branch that cuts the buffer reads
`v` bytes, which do not lie inside the block of the buffer. -/
theorem adjust_key_value_length (junk : Nat → Nat) (host : Host) (b : CKYBuffer) (v : Nat)
    (hwf : b.WF) (hn : b.len < 2 ^ (8 * host.sizeofULong - 1)) :
    (v < b.len + 2 ^ (8 * host.sizeofULong - 1) →
      ∃ r, SecretKey_adjustToKeyValueLength junk host (some b) v = some (some r) ∧
        (v = b.len → r = b) ∧
        (b.len < v → v - b.len < 200 →
          CKYBuffer_Data r = List.replicate (v - b.len) 0 ++ CKYBuffer_Data b) ∧
        (v < b.len →
          CKYBuffer_Data r = (CKYBuffer_Data b).drop (b.len - v) ∧
          (CKYBuffer_Data r).length = v) ∧
        (200 ≤ v - b.len → r = b) ∧
        (b.len ≤ v → BEvalue (CKYBuffer_Data r) = BEvalue (CKYBuffer_Data b))) ∧
    (b.len + 2 ^ (8 * host.sizeofULong - 1) ≤ v → v < 2 ^ (8 * host.sizeofULong) →
      b.data.length < 2 ^ (8 * host.sizeofULong) →
      SecretKey_adjustToKeyValueLength junk host (some b) v = none) := by
  refine ⟨fun hv => ?_, fun hv hv2 hsize => adjustToKeyValueLength_wrap junk host b v hn hv hv2
    hsize⟩
  obtain ⟨r, hr, hrwf, h1, h2, h3⟩ := adjustToKeyValueLength_spec junk host b v hwf hv hn
  refine ⟨r, hr, fun h => h1 (Or.inl h), fun ha hb => h2 ha (by omega), fun h => ?_,
    fun h => h1 (Or.inr (by omega)), fun h => ?_⟩
  · refine ⟨h3 h, ?_⟩
    rw [h3 h, List.length_drop, length_Data hwf]
    omega
  · by_cases hc : v = b.len ∨ b.len + 200 ≤ v
    · rw [h1 hc]
    · rw [h2 (by omega) (by omega), BEvalue_zeros]

/-- C35, at the key `01 02 03`: for the requested length 5 on a host with an
`unsigned long` of 4 bytes two zero bytes are put in front, and for the
requested length `2^64 - 1` on a host with an `unsigned long` of 8 bytes the
method reads outside the block of the key, where the claim leaves the key as
it is. -/
theorem adjust_key_value_length_witness :
    (∃ r, SecretKey_adjustToKeyValueLength junkAA host32 (some ⟨[1, 2, 3], 3⟩) 5
        = some (some r) ∧
      CKYBuffer_Data r = [0, 0, 1, 2, 3]) ∧
    SecretKey_adjustToKeyValueLength junkAA host64 (some ⟨[1, 2, 3], 3⟩) (2 ^ 64 - 1) = none := by
  obtain ⟨r, h, _, h2, _⟩ := (adjust_key_value_length junkAA host32 ⟨[1, 2, 3], 3⟩ 5
    (by decide) (by decide)).1 (by decide)
  exact ⟨⟨r, h, h2 (by decide) (by decide)⟩,
    (adjust_key_value_length junkAA host64 ⟨[1, 2, 3], 3⟩ (2 ^ 64 - 1) (by decide)
      (by decide)).2 (by decide) (by decide) (by decide)⟩
section StoreLemmas

theorem getAttribute_cons (x : PKCS11Attribute) (l : List PKCS11Attribute) (t : Nat) :
    getAttribute (x :: l) t = if x.type = t then some x.value else getAttribute l t := by
  rcases store_cases (x :: l) t with ⟨pre, a, post, hsplit, hpre, ha⟩ | hall
  · rw [hsplit, getAttribute_first pre a post t hpre ha]
    cases pre with
    | nil =>
      rw [List.nil_append, List.cons.injEq] at hsplit
      rw [hsplit.1, if_pos ha]
    | cons y pre =>
      rw [List.cons_append, List.cons.injEq] at hsplit
      have hx : x.type ≠ t := by
        rw [hsplit.1]
        exact hpre y (List.mem_cons_self _ _)
      rw [if_neg hx, hsplit.2,
        getAttribute_first pre a post t (fun z hz => hpre z (List.mem_cons_of_mem _ hz)) ha]
  · rw [(getAttribute_eq_none_iff _ _).mpr hall, if_neg (hall x (List.mem_cons_self _ _)),
      (getAttribute_eq_none_iff _ _).mpr (fun a ha => hall a (List.mem_cons_of_mem _ ha))]

theorem setAttribute_cons (x : PKCS11Attribute) (l : List PKCS11Attribute) (t : Nat)
    (v : CKYBuffer) :
    setAttribute (x :: l) t v
      = if x.type = t then ⟨t, CKYBuffer_Data v⟩ :: l else x :: setAttribute l t v := by
  by_cases hx : x.type = t
  · rw [if_pos hx]
    exact setAttribute_first [] x l t v (fun _ h => absurd h (List.not_mem_nil _)) hx
  · rw [if_neg hx]
    rcases store_cases l t with ⟨pre, a, post, hsplit, hpre, ha⟩ | hall
    · rw [hsplit, setAttribute_first pre a post t v hpre ha]
      have := setAttribute_first (x :: pre) a post t v (fun z hz => by
        rcases List.mem_cons.mp hz with h | h
        · rw [h]; exact hx
        · exact hpre z h) ha
      exact this
    · rw [setAttribute_absent l t v hall]
      exact setAttribute_absent (x :: l) t v (fun z hz => by
        rcases List.mem_cons.mp hz with h | h
        · rw [h]; exact hx
        · exact hall z h)

/-- Reading after writing: `setAttribute` changes the value that `getAttribute`
returns for its own type and for no other. -/
theorem getAttribute_setAttribute (attrs : List PKCS11Attribute) (t : Nat) (v : CKYBuffer)
    (u : Nat) :
    getAttribute (setAttribute attrs t v) u
      = if u = t then some (CKYBuffer_Data v) else getAttribute attrs u := by
  induction attrs with
  | nil =>
    rw [setAttribute_absent [] t v (fun _ h => absurd h (List.not_mem_nil _)), List.nil_append,
      getAttribute_cons]
    by_cases h : u = t
    · rw [if_pos h, if_pos h.symm]
    · rw [if_neg h, if_neg (fun e => h e.symm)]
  | cons x l ih =>
    rw [setAttribute_cons]
    by_cases hx : x.type = t
    · rw [if_pos hx, getAttribute_cons, getAttribute_cons]
      by_cases h : u = t
      · rw [if_pos h, if_pos h.symm]
      · rw [if_neg h, if_neg (fun e => h e.symm), if_neg (fun e => h (by rw [← e, hx]))]
    · rw [if_neg hx, getAttribute_cons, getAttribute_cons, ih]
      by_cases h : u = t
      · rw [if_pos h, if_pos h, if_neg (fun e => hx (by rw [e, h]))]
      · rw [if_neg h, if_neg h]

theorem attributeExists_eq (attrs : List PKCS11Attribute) (t : Nat) :
    attributeExists attrs t = (getAttribute attrs t).isSome := by
  cases h : getAttribute attrs t with
  | none =>
    have := (getAttribute_eq_none_iff attrs t).mp h
    cases he : attributeExists attrs t with
    | false => rfl
    | true =>
      obtain ⟨a, ha, hat⟩ := (attributeExists_iff attrs t).mp he
      exact absurd hat (this a ha)
  | some v =>
    cases he : attributeExists attrs t with
    | true => rfl
    | false =>
      have hn : ∀ a ∈ attrs, a.type ≠ t := fun a ha hat => by
        have := (attributeExists_iff attrs t).mpr ⟨a, ha, hat⟩
        rw [he] at this
        exact Bool.noConfusion this
      rw [(getAttribute_eq_none_iff attrs t).mpr hn] at h
      exact Option.noConfusion h

/-- A fall back of `SecretKey::SecretKey`: the attribute of type `t` keeps its
value when there is one and gets the bytes `d` when there is none. -/
theorem getAttribute_fallback (junk : Nat → Nat) (attrs : List PKCS11Attribute) (t : Nat)
    (d : List Nat) (u : Nat) :
    getAttribute (if ¬ attributeExists attrs t = true then
        setAttribute attrs t (CKYBuffer_InitFromData junk d).2 else attrs) u
      = if u = t then some ((getAttribute attrs t).getD d) else getAttribute attrs u := by
  rw [attributeExists_eq]
  cases h : getAttribute attrs t with
  | none =>
    simp only [Option.isSome_none, Bool.false_eq_true, not_false_eq_true, if_true,
      getAttribute_setAttribute, InitFromData_Data, Option.getD_none]
  | some v =>
    simp only [Option.isSome_some, not_true_eq_false, if_false, Option.getD_some]
    by_cases hu : u = t
    · rw [if_pos hu, hu, h]
    · rw [if_neg hu]

end StoreLemmas
section SecretKeyLemmas

theorem lastEntry_cons (e : CK_ATTRIBUTE) (rest : List CK_ATTRIBUTE) (t : Nat) :
    lastEntry (e :: rest) t
      = (lastEntry rest t).or (if e.type = t then some e else none) := by
  rw [lastEntry]
  cases lastEntry rest t <;> rfl

/-- The loop of `SecretKey::SecretKey` over a template whose entries can be
read: the requested length is that of the last `CKA_VALUE_LEN` entry, no
attribute of type `CKA_VALUE_LEN` is stored, and every other type the template
specifies has the value of its last entry. -/
theorem SecretKey_loop_spec (junk : Nat → Nat) (host : Host) :
    ∀ (tpl : List CK_ATTRIBUTE) (attrs : List PKCS11Attribute) (vl : Nat),
      (∀ e ∈ tpl, entryReadable host e) →
      ∃ a vl2, SecretKey_loop junk host tpl attrs vl = some (a, vl2) ∧
        vl2 = ((lastEntry tpl CKA_VALUE_LEN).map
          (fun e => host.decodeULong ((e.pValue.getD []).take host.sizeofULong))).getD vl ∧
        getAttribute a CKA_VALUE_LEN = getAttribute attrs CKA_VALUE_LEN ∧
        ∀ t, t ≠ CKA_VALUE_LEN →
          getAttribute a t = (templateValue tpl t).or (getAttribute attrs t) := by
  intro tpl
  induction tpl with
  | nil =>
    intro attrs vl _
    exact ⟨attrs, vl, rfl, rfl, rfl, fun t _ => rfl⟩
  | cons e rest ih =>
    intro attrs vl hread
    have he := hread e (List.mem_cons_self _ _)
    have hrest : ∀ x ∈ rest, entryReadable host x := fun x hx =>
      hread x (List.mem_cons_of_mem _ hx)
    unfold entryReadable at he
    by_cases hty : e.type = CKA_VALUE_LEN
    · rw [if_pos hty] at he
      obtain ⟨a, vl2, h1, h2, h3, h4⟩ := ih attrs
        (host.decodeULong ((e.pValue.getD []).take host.sizeofULong)) hrest
      refine ⟨a, vl2, ?_, ?_, h3, fun t ht => ?_⟩
      · rw [SecretKey_loop, if_pos hty, if_neg (by omega), h1]
      · rw [h2, lastEntry_cons, if_pos hty]
        cases lastEntry rest CKA_VALUE_LEN <;> rfl
      · have hne : ¬ e.type = t := fun h => ht (by rw [← h, hty])
        rw [h4 t ht]
        unfold templateValue
        rw [lastEntry_cons, if_neg hne]
        cases lastEntry rest t <;> rfl
    · rw [if_neg hty] at he
      obtain ⟨a, vl2, h1, h2, h3, h4⟩ := ih
        (setAttribute attrs e.type
          (CKYBuffer_InitFromData junk ((e.pValue.getD []).take e.ulValueLen)).2) vl hrest
      refine ⟨a, vl2, ?_, ?_, ?_, fun t ht => ?_⟩
      · rw [SecretKey_loop, if_neg hty, if_neg (by omega)]
        exact h1
      · rw [h2, lastEntry_cons, if_neg hty]
        cases lastEntry rest CKA_VALUE_LEN <;> rfl
      · rw [h3, getAttribute_setAttribute, if_neg (fun h => hty h.symm)]
      · rw [h4 t ht, getAttribute_setAttribute, InitFromData_Data]
        unfold templateValue
        rw [lastEntry_cons]
        by_cases hne : e.type = t
        · rw [if_pos hne, if_pos hne.symm]
          cases lastEntry rest t <;> rfl
        · rw [if_neg hne, if_neg (fun h => hne h.symm)]
          cases lastEntry rest t <;> rfl

theorem toInt_small (n : Nat) (h : n < 2 ^ 31) : (toInt n).toNat = n := by
  unfold toInt
  rw [Nat.mod_eq_of_lt (by omega), if_pos h]
  rfl

end SecretKeyLemmas
/-- C36, where the code leaves the claim: take a template of fewer than `2^31`
entries whose memory can be read and a key buffer of `n` bytes that is not
null, `n` below half the range of `unsigned long`. When the length `v` that
the template requests is below `n + 2^(w-1)`, the constructor
`SecretKey::SecretKey` builds an object in which `CKA_CLASS`, `CKA_KEY_TYPE`,
`CKA_TOKEN` and `CKA_DERIVE` have the value of the last template entry of
their type, or without such an entry the defaults `CKO_SECRET_KEY`,
`CKK_GENERIC_SECRET`, true and true; no attribute has the type
`CKA_VALUE_LEN`; and `CKA_VALUE` holds the bytes of the key buffer as
`adjustToKeyValueLength` leaves it for the requested length, whatever the
template gives for `CKA_VALUE`. When the template requests a length from
`n + 2^(w-1)` on, such as `(CK_ULONG)-1`, `adjustToKeyValueLength` reads
outside the block of the key and the constructor builds no object. -/
theorem secret_key_attributes (junk : Nat → Nat) (host : Host) (id handle : Nat)
    (key : CKYBuffer) (tpl : List CK_ATTRIBUTE) (hwf : key.WF) (hcount : tpl.length < 2 ^ 31)
    (hread : ∀ e ∈ tpl, entryReadable host e)
    (hn : key.len < 2 ^ (8 * host.sizeofULong - 1)) :
    (templateValueLength host tpl < key.len + 2 ^ (8 * host.sizeofULong - 1) →
      ∃ o b,
        SecretKey_SecretKey junk host id handle (some key) tpl tpl.length = some (o, some b) ∧
        SecretKey_adjustToKeyValueLength junk host (some key) (templateValueLength host tpl)
          = some (some b) ∧
        getAttribute o.attributes CKA_CLASS
          = some ((templateValue tpl CKA_CLASS).getD (host.encodeULong CKO_SECRET_KEY)) ∧
        getAttribute o.attributes CKA_KEY_TYPE
          = some ((templateValue tpl CKA_KEY_TYPE).getD
              (host.encodeULong CKK_GENERIC_SECRET)) ∧
        getAttribute o.attributes CKA_TOKEN = some ((templateValue tpl CKA_TOKEN).getD [1]) ∧
        getAttribute o.attributes CKA_DERIVE = some ((templateValue tpl CKA_DERIVE).getD [1]) ∧
        getAttribute o.attributes CKA_VALUE_LEN = none ∧
        getAttribute o.attributes CKA_VALUE = some (CKYBuffer_Data b)) ∧
    (key.len + 2 ^ (8 * host.sizeofULong - 1) ≤ templateValueLength host tpl →
      templateValueLength host tpl < 2 ^ (8 * host.sizeofULong) →
      key.data.length < 2 ^ (8 * host.sizeofULong) →
      SecretKey_SecretKey junk host id handle (some key) tpl tpl.length = none) := by
  constructor
  · intro hv
    obtain ⟨a, vl, h1, h2, h3, h4⟩ := SecretKey_loop_spec junk host tpl [] 0 hread
    have hvl : vl = templateValueLength host tpl := h2
    obtain ⟨b, hb, _⟩ := adjustToKeyValueLength_spec junk host key _ hwf hv hn
    have hor : ∀ t, t ≠ CKA_VALUE_LEN → getAttribute a t = templateValue tpl t := fun t ht => by
      rw [h4 t ht]
      cases templateValue tpl t <;> rfl
    have hnone : getAttribute a CKA_VALUE_LEN = none := h3
    have c : ¬ tpl.length < tpl.length := Nat.lt_irrefl _
    have ha : (PKCS11Object_PKCS11Object id handle).attributes = [] := rfl
    unfold SecretKey_SecretKey
    simp only [toInt_small tpl.length hcount, c, if_false, List.take_length, ha, h1, hvl, hb]
    refine ⟨_, b, rfl, rfl, ?_⟩
    · simp only [setAttributeULong, setAttributeBool, getAttribute_setAttribute,
        getAttribute_fallback, hnone,
        hor CKA_CLASS (by decide), hor CKA_KEY_TYPE (by decide), hor CKA_TOKEN (by decide),
        hor CKA_DERIVE (by decide),
        (by decide : ¬ CKA_CLASS = CKA_VALUE), (by decide : ¬ CKA_CLASS = CKA_DERIVE),
        (by decide : ¬ CKA_CLASS = CKA_TOKEN), (by decide : ¬ CKA_CLASS = CKA_KEY_TYPE),
        (by decide : ¬ CKA_KEY_TYPE = CKA_VALUE), (by decide : ¬ CKA_KEY_TYPE = CKA_DERIVE),
        (by decide : ¬ CKA_KEY_TYPE = CKA_TOKEN), (by decide : ¬ CKA_KEY_TYPE = CKA_CLASS),
        (by decide : ¬ CKA_TOKEN = CKA_VALUE), (by decide : ¬ CKA_TOKEN = CKA_DERIVE),
        (by decide : ¬ CKA_TOKEN = CKA_KEY_TYPE), (by decide : ¬ CKA_TOKEN = CKA_CLASS),
        (by decide : ¬ CKA_DERIVE = CKA_VALUE), (by decide : ¬ CKA_DERIVE = CKA_TOKEN),
        (by decide : ¬ CKA_DERIVE = CKA_KEY_TYPE), (by decide : ¬ CKA_DERIVE = CKA_CLASS),
        (by decide : ¬ CKA_VALUE_LEN = CKA_VALUE), (by decide : ¬ CKA_VALUE_LEN = CKA_DERIVE),
        (by decide : ¬ CKA_VALUE_LEN = CKA_TOKEN), (by decide : ¬ CKA_VALUE_LEN = CKA_KEY_TYPE),
        (by decide : ¬ CKA_VALUE_LEN = CKA_CLASS), if_false, if_true, and_self]
  · intro hv hv2 hsize
    obtain ⟨a, vl, h1, h2, _, _⟩ := SecretKey_loop_spec junk host tpl [] 0 hread
    have hvl : vl = templateValueLength host tpl := h2
    have hw := adjustToKeyValueLength_wrap junk host key _ hn hv hv2 hsize
    have c : ¬ tpl.length < tpl.length := Nat.lt_irrefl _
    have ha : (PKCS11Object_PKCS11Object id handle).attributes = [] := rfl
    unfold SecretKey_SecretKey
    simp only [toInt_small tpl.length hcount, c, if_false, List.take_length, ha, h1, hvl, hw]

/-- C36, at the key `01 02 03` on a host with an `unsigned long` of 4 bytes.
With the template of a `CKA_TOKEN` false, a `CKA_VALUE_LEN` 2, a `CKA_VALUE`
`09` and a `CKA_TOKEN` true, the token flag is the last one given, the class,
the key type and the derive flag are the defaults, and the value is `02 03`.
With the template of a `CKA_VALUE_LEN` `FF FF FF FF` the constructor builds no
object. -/
theorem secret_key_attributes_witness :
    (∃ o b, SecretKey_SecretKey junkAA host32 7 99 (some ⟨[1, 2, 3], 3⟩)
        [⟨CKA_TOKEN, some [0], 1⟩, ⟨CKA_VALUE_LEN, some [2, 0, 0, 0], 4⟩,
          ⟨CKA_VALUE, some [9], 1⟩, ⟨CKA_TOKEN, some [1], 1⟩] 4 = some (o, some b) ∧
      getAttribute o.attributes CKA_CLASS = some [4, 0, 0, 0] ∧
      getAttribute o.attributes CKA_KEY_TYPE = some [0x10, 0, 0, 0] ∧
      getAttribute o.attributes CKA_TOKEN = some [1] ∧
      getAttribute o.attributes CKA_DERIVE = some [1] ∧
      getAttribute o.attributes CKA_VALUE_LEN = none ∧
      getAttribute o.attributes CKA_VALUE = some [2, 3]) ∧
    SecretKey_SecretKey junkAA host32 7 99 (some ⟨[1, 2, 3], 3⟩)
      [⟨CKA_VALUE_LEN, some [0xFF, 0xFF, 0xFF, 0xFF], 4⟩] 1 = none := by
  obtain ⟨o, b, h, hb, h1, h2, h3, h4, h5, h6⟩ := (secret_key_attributes junkAA host32 7 99
    ⟨[1, 2, 3], 3⟩
    [⟨CKA_TOKEN, some [0], 1⟩, ⟨CKA_VALUE_LEN, some [2, 0, 0, 0], 4⟩,
      ⟨CKA_VALUE, some [9], 1⟩, ⟨CKA_TOKEN, some [1], 1⟩] (by decide) (by decide) (by decide)
    (by decide)).1 (by decide)
  have hb2 : b = (CKYBuffer_InitFromCopy junkAA (CKYBuffer_InitFromData junkAA [2, 3]).2).2 := by
    have e : SecretKey_adjustToKeyValueLength junkAA host32 (some ⟨[1, 2, 3], 3⟩)
        (templateValueLength host32 [⟨CKA_TOKEN, some [0], 1⟩,
          ⟨CKA_VALUE_LEN, some [2, 0, 0, 0], 4⟩, ⟨CKA_VALUE, some [9], 1⟩,
          ⟨CKA_TOKEN, some [1], 1⟩])
        = some (some (CKYBuffer_InitFromCopy junkAA (CKYBuffer_InitFromData junkAA [2, 3]).2).2)
        := by decide
    rw [e] at hb
    exact (Option.some.inj (Option.some.inj hb)).symm
  refine ⟨⟨o, b, h, h1, h2, h3, h4, h5, ?_⟩, ?_⟩
  · rw [h6, hb2]
    rfl
  · exact (secret_key_attributes junkAA host32 7 99 ⟨[1, 2, 3], 3⟩
      [⟨CKA_VALUE_LEN, some [0xFF, 0xFF, 0xFF, 0xFF], 4⟩] (by decide) (by decide) (by decide)
      (by decide)).2 (by decide) (by decide) (by decide)

section InsideLemmas1

theorem GetChar_ne_zero {data : CKYBuffer} {i : Nat} (h : CKYBuffer_GetChar data i ≠ 0) :
    i + 1 ≤ data.len := by
  unfold CKYBuffer_GetChar at h
  by_cases c : data.len < i + 1
  · rw [if_pos c] at h
    exact absurd rfl h
  · omega

/-- Every attribute that the loop of `parseNewObject` adds is stored for a
record whose header lies inside the blob; the loop adds at most as many as it
is asked for, and fewer only when the blob ends. -/
theorem parseNewObject_loop_inside (host : Host) (data : CKYBuffer) :
    ∀ (n off : Nat) (acc res : List PKCS11Attribute),
      parseNewObject_loop host data n off acc = Except.ok res →
      ∃ new j, res = acc ++ new ∧ StoredFrom host data off new j ∧ new.length ≤ n ∧
        (new.length < n → data.len ≤ j) := by
  intro n
  induction n with
  | zero =>
    intro off acc res h
    rw [parseNewObject_loop] at h
    cases h
    exact ⟨[], off, (List.append_nil _).symm, rfl, Nat.le_refl _, fun h => absurd h (by decide)⟩
  | succ n ih =>
    intro off acc res h
    rw [parseNewObject_loop] at h
    by_cases c0 : off < CKYBuffer_Size data
    · simp only [c0, not_true_eq_false, if_false] at h
      by_cases k0 : CKYBuffer_GetChar data (off + 4) = DATATYPE_STRING
      · simp only [k0, if_true] at h
        by_cases c1 : CKYBuffer_GetShort data (off + 5) > CKYBuffer_Size data ∨
            off + 5 + 2 + CKYBuffer_GetShort data (off + 5) > CKYBuffer_Size data
        · rw [if_pos c1] at h
          cases h
        · rw [if_neg c1] at h
          obtain ⟨new, j, h1, h2, h3, h4⟩ := ih _ _ _ h
          have hin : off + 7 + CKYBuffer_GetShort data (off + 5) ≤ data.len := by
            unfold CKYBuffer_Size at c1
            omega
          refine ⟨_ :: new, j, by rw [h1, List.append_assoc]; rfl, ⟨⟨by omega, rfl,
            Or.inl ⟨k0, hin, ?_⟩⟩, ?_⟩, by rw [List.length_cons]; omega,
            fun hl => h4 (by rw [List.length_cons] at hl; omega)⟩
          · exact bytesAt_eq_Data data _ _ (by omega)
          · unfold recordEnd
            rw [if_pos k0]
            exact h2
      · simp only [k0, if_false] at h
        have hdr : off + 5 ≤ data.len := by
          have := @GetChar_ne_zero data (off + 4) k0
          omega
        by_cases k1 : CKYBuffer_GetChar data (off + 4) = DATATYPE_BOOL_FALSE ∨
            CKYBuffer_GetChar data (off + 4) = DATATYPE_BOOL_TRUE
        · rw [if_pos k1] at h
          obtain ⟨new, j, h1, h2, h3, h4⟩ := ih _ _ _ h
          have kI : ¬ CKYBuffer_GetChar data (off + 4) = DATATYPE_INTEGER := by
            rcases k1 with e | e <;> rw [e] <;> decide
          refine ⟨_ :: new, j, by rw [h1, List.append_assoc]; rfl, ⟨⟨hdr, rfl, ?_⟩, ?_⟩,
            by rw [List.length_cons]; omega,
            fun hl => h4 (by rw [List.length_cons] at hl; omega)⟩
          · rcases k1 with e | e
            · exact Or.inr (Or.inl ⟨e, by
                show [CKYBuffer_GetChar data (off + 4) &&& 1] = [0]
                rw [e]; rfl⟩)
            · exact Or.inr (Or.inr (Or.inl ⟨e, by
                show [CKYBuffer_GetChar data (off + 4) &&& 1] = [1]
                rw [e]; rfl⟩))
          · unfold recordEnd
            rw [if_neg k0, if_neg kI]
            exact h2
        · rw [if_neg k1] at h
          by_cases k2 : CKYBuffer_GetChar data (off + 4) = DATATYPE_INTEGER
          · rw [if_pos k2] at h
            obtain ⟨new, j, h1, h2, h3, h4⟩ := ih _ _ _ h
            refine ⟨_ :: new, j, by rw [h1, List.append_assoc]; rfl, ⟨⟨hdr, rfl,
              Or.inr (Or.inr (Or.inr ⟨k2, fun _ => rfl⟩))⟩, ?_⟩,
              by rw [List.length_cons]; omega,
              fun hl => h4 (by rw [List.length_cons] at hl; omega)⟩
            unfold recordEnd
            rw [if_neg k0, if_pos k2]
            exact h2
          · rw [if_neg k2] at h
            cases h
    · simp only [c0, not_false_eq_true, if_true] at h
      cases h
      exact ⟨[], off, (List.append_nil _).symm, rfl, Nat.zero_le _, fun _ => by
        unfold CKYBuffer_Size at c0
        omega⟩

end InsideLemmas1
/-- C39, the claim as stated fails: the blob `blobShort` declares 2 records in
bytes 9 and 10 and holds one; the loop of `parseNewObject` stops at the end of
the blob, the decode succeeds and one explicit record is stored. And the blob
`blobCut` holds an integer record with one payload byte; the decode succeeds
and stores the value 0, read beyond the end of the blob. -/
theorem record_count_counterexample :
    (∃ o, PKCS11Object_PKCS11Object_data host32 7 blobShort 99 = some (Except.ok o)) ∧
    CKYBuffer_GetShort blobShort 9 = 2 ∧
    parseNewObject_loop host32 blobShort 2 11 [] = Except.ok [⟨CKA_TOKEN, [1]⟩] ∧
    (∃ o, PKCS11Object_PKCS11Object_data host32 7 blobCut 99 = some (Except.ok o)) ∧
    CKYBuffer_Size blobCut = 17 ∧
    parseNewObject_loop host32 blobCut 1 11 [] = Except.ok [⟨CKA_KEY_TYPE, [0, 0, 0, 0]⟩] :=
  ⟨⟨_, rfl⟩, rfl, rfl, ⟨_, rfl⟩, rfl, rfl⟩

/-- C39, amended: whenever the constructor builds an object from a blob with
tag 1, the explicit attributes are stored for records that follow one another
from offset 11, each with its header inside the blob and, for a string, with
its length and bytes inside the blob; their number is at most the count in
bytes 9 and 10, and it is smaller only when the records stored reach the end
of the blob. -/
theorem decode_format1_inside (host : Host) (id handle : Nat) (data : CKYBuffer)
    (o : PKCS11Object) (htag : CKYBuffer_GetChar data 0 = 1)
    (hok : PKCS11Object_PKCS11Object_data host id data handle = some (Except.ok o)) :
    ∃ explicit j,
      parseNewObject_loop host data (CKYBuffer_GetShort data 9) 11 [] = Except.ok explicit ∧
      o.attributes = expandAttributes host explicit (CKYBuffer_GetLong data 5) ∧
      StoredFrom host data 11 explicit j ∧
      explicit.length ≤ CKYBuffer_GetShort data 9 ∧
      (explicit.length < CKYBuffer_GetShort data 9 → data.len ≤ j) := by
  obtain ⟨explicit, hl, ha⟩ := decode_format1_ok host id handle data o htag hok
  obtain ⟨new, j, h1, h2, h3, h4⟩ := parseNewObject_loop_inside host data _ _ _ _ hl
  rw [List.nil_append] at h1
  subst h1
  exact ⟨explicit, j, hl, ha, h2, h3, h4⟩

/-- C39, amended, at the blob `blobShort`: one record is stored where the
count is 2, and the record ends at offset 16, the end of the blob. -/
theorem decode_format1_inside_witness :
    ∃ explicit j,
      parseNewObject_loop host32 blobShort (CKYBuffer_GetShort blobShort 9) 11 []
        = Except.ok explicit ∧
      ({ PKCS11Object_PKCS11Object 7 99 with
          attributes := expandAttributes host32 [⟨CKA_TOKEN, [1]⟩] 0 } : PKCS11Object).attributes
        = expandAttributes host32 explicit (CKYBuffer_GetLong blobShort 5) ∧
      StoredFrom host32 blobShort 11 explicit j ∧
      explicit.length ≤ CKYBuffer_GetShort blobShort 9 ∧
      (explicit.length < CKYBuffer_GetShort blobShort 9 → blobShort.len ≤ j) :=
  decode_format1_inside host32 7 99 blobShort
    { PKCS11Object_PKCS11Object 7 99 with
      attributes := expandAttributes host32 [⟨CKA_TOKEN, [1]⟩] 0 } rfl rfl
section SignatureLemmas

theorem getRawSignature_loop_At (p : Ptr) (z rest : List Nat) (hat : At p (z ++ rest)) :
    ∀ n i, i + n = z.length →
      getRawSignature_loop p n i = some (decide (allZero (z.drop i))) := by
  obtain ⟨pre, post, hm, ho⟩ := hat
  intro n
  induction n with
  | zero =>
    intro i hi
    rw [getRawSignature_loop, List.drop_eq_nil_of_le (by omega)]
    rfl
  | succ n ih =>
    intro i hi
    have hlt : i < z.length := by omega
    have hr : p.read i = some (z.get ⟨i, hlt⟩) := by
      unfold Ptr.read
      rw [hm, ho, getElem?_mid pre (z ++ rest) post i
        (by rw [List.length_append]; omega), List.getElem?_append_left hlt,
        List.getElem?_eq_getElem hlt]
      rfl
    have hd : z.drop i = z.get ⟨i, hlt⟩ :: z.drop (i + 1) := by
      rw [List.get_eq_getElem]
      exact List.drop_eq_getElem_cons hlt
    rw [getRawSignature_loop, hr]
    simp only
    by_cases hb : z.get ⟨i, hlt⟩ ≠ 0
    · rw [if_pos hb, hd]
      congr 1
      symm
      apply decide_eq_false
      intro hz
      exact hb (hz _ (List.mem_cons_self _ _))
    · rw [if_neg hb, ih (i + 1) (by omega), hd]
      congr 1
      apply decide_eq_decide.mpr
      unfold allZero
      constructor
      · intro h b hmem
        rcases List.mem_cons.mp hmem with e | e
        · rw [e]; exact Decidable.of_not_not hb
        · exact h b e
      · intro h b hmem
        exact h b (List.mem_cons_of_mem _ hmem)

/-- The block of `getRawSignature` that cuts an integer `c` down to the
expected size `w`: it fails when one of the first `|c| - w` bytes is not zero
and else leaves the last `w` bytes, or all of `c` when it is not longer. -/
theorem getRawSignature_chop_At (p : Ptr) (c rest : List Nat) (w : Nat) (hat : At p (c ++ rest))
    (hlt : c.length < 2 ^ 31) :
    getRawSignature_chop p c.length w
      = if allZero (c.take (c.length - w)) then
          some (some (p.add (c.length - w), (c.drop (c.length - w)).length))
        else some none := by
  unfold getRawSignature_chop
  by_cases hgt : c.length > w
  · have hat2 : At p (c.take (c.length - w) ++ (c.drop (c.length - w) ++ rest)) := by
      rw [← List.append_assoc, List.take_append_drop]
      exact hat
    have hl : (c.take (c.length - w)).length = c.length - w := by
      rw [List.length_take]
      omega
    have hloop := getRawSignature_loop_At p _ _ hat2 (c.length - w) 0 (by rw [hl]; omega)
    rw [List.drop_zero] at hloop
    rw [if_pos hgt]
    simp only [toInt_small (c.length - w) (by omega), hloop]
    by_cases hz : allZero (c.take (c.length - w))
    · rw [if_pos hz]
      simp only [hz, decide_True, List.length_drop]
    · rw [if_neg hz]
      simp only [hz, decide_False]
  · have e : c.length - w = 0 := by omega
    have hz : allZero ([] : List Nat) := fun b hb => absurd hb (List.not_mem_nil _)
    rw [if_neg hgt, e, List.take_zero, List.drop_zero, if_pos hz]
    rfl

end SignatureLemmas
section SignatureSpec

theorem Zero_spec (buf : CKYBuffer) :
    (CKYBuffer_Zero buf).WF ∧ CKYBuffer_Data (CKYBuffer_Zero buf) = [] := by
  unfold CKYBuffer_Zero CKYBuffer.WF CKYBuffer_Data
  exact ⟨Nat.zero_le _, List.take_zero _⟩

theorem At_drop {p : Ptr} {c : List Nat} (d : Nat) (hat : At p c) (hd : d ≤ c.length) :
    At (p.add d) (c.drop d) := by
  have h : At p (c.take d ++ c.drop d) := by
    rw [List.take_append_drop]
    exact hat
  have := At_right h
  rw [List.length_take, Nat.min_eq_left hd] at this
  exact this

/-- The method `getRawSignature` on a signature whose outer element starts
with two elements of contents `r` and `s`: with `w` the expected size of a
piece, it returns -1 when one of the first `|r| - w` bytes of `r` or of the
first `|s| - w` bytes of `s` is not zero, and else appends to the emptied
buffer `r` and `s` without these bytes. -/
theorem getRawSignature_spec (junk : Nat → Nat) (der raw : CKYBuffer) (k : Nat) (hwf : der.WF)
    (hlt : der.len < 2 ^ 31) (hk : k + 7 < 2 ^ 32) (SIG R S r s rest : List Nat)
    (t0 tR tS : Nat) (h0 : IsTLV SIG t0 (R ++ (S ++ rest))) (hR : IsTLV R tR r)
    (hS : IsTLV S tS s) (hdata : CKYBuffer_Data der = SIG) :
    DEREncodedSignature_getRawSignature junk der (some raw) k
      = if allZero (r.take (r.length - (k + 7) / 8)) then
          if allZero (s.take (s.length - (k + 7) / 8)) then
            some (0, some (CKYBuffer_AppendData junk
              (CKYBuffer_AppendData junk (CKYBuffer_Zero raw)
                (r.drop (r.length - (k + 7) / 8))).2 (s.drop (s.length - (k + 7) / 8))).2)
          else some (-1, some (CKYBuffer_Zero raw))
        else some (-1, some (CKYBuffer_Zero raw)) := by
  obtain ⟨ht0, lf0, hlf0, h0eq⟩ := h0
  obtain ⟨htR, lfR, hlfR, hReq⟩ := hR
  obtain ⟨htS, lfS, hlfS, hSeq⟩ := hS
  have hne : CKYBuffer_Data der ≠ [] := by rw [hdata, h0eq]; simp
  have hlen0 : ¬ der.len = 0 := by
    intro h
    apply hne
    unfold CKYBuffer_Data
    rw [h, List.take_zero]
  have hat0 : At (Ptr.mk der.data 0) (SIG ++ []) := by
    rw [List.append_nil, ← hdata]; exact At_of_buffer der
  have hL : der.len = (SIG ++ []).length := by
    rw [List.append_nil, ← hdata, length_Data hwf]
  have hSIGlen : SIG.length < 2 ^ 31 := by
    rw [List.append_nil] at hL
    omega
  have hlenS : SIG.length = 1 + lf0.length + (R.length + (S.length + rest.length)) := by
    rw [h0eq]
    simp only [List.length_cons, List.length_append]
    omega
  have hlenR : R.length = 1 + lfR.length + r.length := by
    rw [hReq]
    simp only [List.length_cons, List.length_append]
    omega
  have hlenSS : S.length = 1 + lfS.length + s.length := by
    rw [hSeq]
    simp only [List.length_cons, List.length_append]
    omega
  have s0 := dataStart_step (Ptr.mk der.data 0) der.len SIG t0 lf0 (R ++ (S ++ rest)) []
    false h0eq ht0 hlf0 hat0 hL (by omega)
  simp only [Bool.false_eq_true, if_false] at s0
  have s1 := dataStart_step ((Ptr.mk der.data 0).add (1 + lf0.length))
    (R ++ (S ++ rest)).length R tR lfR r (S ++ rest) false hReq htR hlfR s0.2.2.2.2.1 rfl
    (by simp only [List.length_append]; omega)
  simp only [Bool.false_eq_true, if_false] at s1
  have s2 := dataStart_step (((Ptr.mk der.data 0).add (1 + lf0.length)).add R.length)
    (S ++ rest).length S tS lfS s rest false hSeq htS hlfS s1.2.2.2.1 rfl
    (by simp only [List.length_append]; omega)
  simp only [Bool.false_eq_true, if_false] at s2
  have atr : At (((Ptr.mk der.data 0).add (1 + lf0.length)).add (1 + lfR.length)) (r ++ []) := by
    rw [List.append_nil]
    exact s1.2.2.2.2.1
  have ats : At ((((Ptr.mk der.data 0).add (1 + lf0.length)).add R.length).add
      (1 + lfS.length)) (s ++ []) := by
    rw [List.append_nil]
    exact s2.2.2.2.2.1
  have c1 := getRawSignature_chop_At _ r [] ((k + 7) / 8) atr (by omega)
  have c2 := getRawSignature_chop_At _ s [] ((k + 7) / 8) ats (by omega)
  have hw : (((k + 7) % 2 ^ 32) / 8 * 2) % 2 ^ 32 / 2 = (k + 7) / 8 := by omega
  have e1 : (R ++ (S ++ rest)).length
      - (((((Ptr.mk der.data 0).add (1 + lf0.length)).add (1 + lfR.length)).add
          (r.length - (k + 7) / 8)).diff ((Ptr.mk der.data 0).add (1 + lf0.length))
        + (r.drop (r.length - (k + 7) / 8)).length) = (S ++ rest).length := by
    rw [add_add, diff_add, List.length_drop]
    simp only [List.length_append]
    omega
  have e2 : ((((Ptr.mk der.data 0).add (1 + lf0.length)).add (1 + lfR.length)).add
      (r.length - (k + 7) / 8)).add (r.drop (r.length - (k + 7) / 8)).length
      = ((Ptr.mk der.data 0).add (1 + lf0.length)).add R.length := by
    rw [add_add, add_add, add_add, add_add, List.length_drop]
    congr 1
    omega
  have b1 := At_bytes (At_drop (r.length - (k + 7) / 8) s1.2.2.2.2.1 (Nat.sub_le _ _))
  have b2 := At_bytes (At_drop (s.length - (k + 7) / 8) s2.2.2.2.2.1 (Nat.sub_le _ _))
  unfold DEREncodedSignature_getRawSignature
  simp only [CKYBuffer_Size, hlen0, if_false, DataPtr_of_ne der hne, s0.1, s1.1, hw, c1]
  by_cases hz1 : allZero (r.take (r.length - (k + 7) / 8))
  · simp only [hz1, if_true, e1, e2, s2.1, c2]
    by_cases hz2 : allZero (s.take (s.length - (k + 7) / 8))
    · simp only [hz2, if_true, b1, b2]
    · simp only [hz2, if_false]
  · simp only [hz1, if_false]

end SignatureSpec
section SignatureValue

theorem BEvalue_drop_zeros (c : List Nat) (d : Nat) (hz : allZero (c.take d)) :
    BEvalue (c.drop d) = BEvalue c := by
  have h : c.take d = List.replicate (c.take d).length 0 :=
    List.eq_replicate_iff.mpr ⟨rfl, hz⟩
  have e : BEvalue c = BEvalue (c.take d ++ c.drop d) := by rw [List.take_append_drop]
  rw [e, h, BEvalue_zeros]

theorem raw_data (junk : Nat → Nat) (raw : CKYBuffer) (a b : List Nat) :
    CKYBuffer_Data (CKYBuffer_AppendData junk
      (CKYBuffer_AppendData junk (CKYBuffer_Zero raw) a).2 b).2 = a ++ b := by
  obtain ⟨z1, z2⟩ := Zero_spec raw
  obtain ⟨_, _, a3, a4⟩ := AppendData_spec junk (CKYBuffer_Zero raw) a z1
  obtain ⟨_, _, _, b4⟩ := AppendData_spec junk (CKYBuffer_AppendData junk (CKYBuffer_Zero raw) a).2
    b a3
  rw [b4, a4, z2, List.nil_append]

end SignatureValue

/-- C34: take a key size `k` with `k + 7` in the range of `unsigned int`, the
width `w = (k + 7) / 8`, and a signature of fewer than `2^31` bytes whose
outer element starts with two elements of contents `r` and `s`, both of at
least `w` bytes. When the first `|r| - w` bytes of `r` and the first `|s| - w`
bytes of `s` are all zero, `getRawSignature` returns 0 and the raw signature
is the last `w` bytes of `r` followed by the last `w` bytes of `s`: `2 w`
bytes, with the big-endian values of `r` and `s`. When one of these bytes is
not zero it returns -1. -/
theorem raw_signature (junk : Nat → Nat) (der raw : CKYBuffer) (k : Nat) (hwf : der.WF)
    (hlt : der.len < 2 ^ 31) (hk : k + 7 < 2 ^ 32) (SIG R S r s rest : List Nat)
    (t0 tR tS : Nat) (h0 : IsTLV SIG t0 (R ++ (S ++ rest))) (hR : IsTLV R tR r)
    (hS : IsTLV S tS s) (hdata : CKYBuffer_Data der = SIG) (hr : (k + 7) / 8 ≤ r.length)
    (hs : (k + 7) / 8 ≤ s.length) :
    (allZero (r.take (r.length - (k + 7) / 8)) ∧ allZero (s.take (s.length - (k + 7) / 8)) →
      ∃ out, DEREncodedSignature_getRawSignature junk der (some raw) k = some (0, some out) ∧
        CKYBuffer_Data out
          = r.drop (r.length - (k + 7) / 8) ++ s.drop (s.length - (k + 7) / 8) ∧
        (r.drop (r.length - (k + 7) / 8)).length = (k + 7) / 8 ∧
        (s.drop (s.length - (k + 7) / 8)).length = (k + 7) / 8 ∧
        (CKYBuffer_Data out).length = 2 * ((k + 7) / 8) ∧
        BEvalue (r.drop (r.length - (k + 7) / 8)) = BEvalue r ∧
        BEvalue (s.drop (s.length - (k + 7) / 8)) = BEvalue s) ∧
    (¬ (allZero (r.take (r.length - (k + 7) / 8)) ∧
        allZero (s.take (s.length - (k + 7) / 8))) →
      ∃ out, DEREncodedSignature_getRawSignature junk der (some raw) k
        = some (-1, some out)) := by
  have spec := getRawSignature_spec junk der raw k hwf hlt hk SIG R S r s rest t0 tR tS h0 hR hS
    hdata
  have l1 : (r.drop (r.length - (k + 7) / 8)).length = (k + 7) / 8 := by
    rw [List.length_drop]
    omega
  have l2 : (s.drop (s.length - (k + 7) / 8)).length = (k + 7) / 8 := by
    rw [List.length_drop]
    omega
  constructor
  · intro hz
    rw [if_pos hz.1, if_pos hz.2] at spec
    refine ⟨_, spec, raw_data junk raw _ _, l1, l2, ?_, BEvalue_drop_zeros r _ hz.1,
      BEvalue_drop_zeros s _ hz.2⟩
    rw [raw_data, List.length_append, l1, l2]
    omega
  · intro hz
    by_cases h1 : allZero (r.take (r.length - (k + 7) / 8))
    · have h2 : ¬ allZero (s.take (s.length - (k + 7) / 8)) := fun h => hz ⟨h1, h⟩
      rw [if_pos h1, if_neg h2] at spec
      exact ⟨_, spec⟩
    · rw [if_neg h1] at spec
      exact ⟨_, spec⟩

/-- C34, at the signatures `sig33`, two integers of 33 bytes with a leading
zero each, and `sig32`, two integers of 32 bytes, for a key of 256 bits: both
give the 64 bytes `11 .. 11 22 .. 22`. -/
theorem raw_signature_witness :
    (∃ out, DEREncodedSignature_getRawSignature junkAA sig33 (some ckyBuffer_initBuffer) 256
        = some (0, some out) ∧
      CKYBuffer_Data out = List.replicate 32 0x11 ++ List.replicate 32 0x22 ∧
      (CKYBuffer_Data out).length = 64) ∧
    (∃ out, DEREncodedSignature_getRawSignature junkAA sig32 (some ckyBuffer_initBuffer) 256
        = some (0, some out) ∧
      CKYBuffer_Data out = List.replicate 32 0x11 ++ List.replicate 32 0x22 ∧
      (CKYBuffer_Data out).length = 64) := by
  obtain ⟨out, h1, h2, _, _, h3, _⟩ := (raw_signature junkAA sig33 ckyBuffer_initBuffer 256
    (by decide) (by decide) (by decide) sig33.data (TLV 0x02 (0 :: List.replicate 32 0x11))
    (TLV 0x02 (0 :: List.replicate 32 0x22)) (0 :: List.replicate 32 0x11)
    (0 :: List.replicate 32 0x22) [] 0x30 0x02 0x02 (IsTLV_TLV _ _ (by decide) (by decide))
    (IsTLV_TLV _ _ (by decide) (by decide)) (IsTLV_TLV _ _ (by decide) (by decide))
    (by decide) (by decide) (by decide)).1 (by decide)
  obtain ⟨out2, g1, g2, _, _, g3, _⟩ := (raw_signature junkAA sig32 ckyBuffer_initBuffer 256
    (by decide) (by decide) (by decide) sig32.data (TLV 0x02 (List.replicate 32 0x11))
    (TLV 0x02 (List.replicate 32 0x22)) (List.replicate 32 0x11)
    (List.replicate 32 0x22) [] 0x30 0x02 0x02 (IsTLV_TLV _ _ (by decide) (by decide))
    (IsTLV_TLV _ _ (by decide) (by decide)) (IsTLV_TLV _ _ (by decide) (by decide))
    (by decide) (by decide) (by decide)).1 (by decide)
  exact ⟨⟨out, h1, h2, h3⟩, ⟨out2, g1, g2, g3⟩⟩

/-- C33, where the code leaves the claim: `getRawSignature` cuts an integer
that is longer than the expected size and does nothing for one that is
shorter. For a signature whose two integers `r` and `s` have at most
`w = (k + 7) / 8` bytes it returns 0 and the raw signature is `r` followed by
`s`, of `|r| + |s|` bytes, which is less than `2 w` as soon as one of them is
shorter than `w`. -/
theorem raw_signature_short (junk : Nat → Nat) (der raw : CKYBuffer) (k : Nat) (hwf : der.WF)
    (hlt : der.len < 2 ^ 31) (hk : k + 7 < 2 ^ 32) (SIG R S r s rest : List Nat)
    (t0 tR tS : Nat) (h0 : IsTLV SIG t0 (R ++ (S ++ rest))) (hR : IsTLV R tR r)
    (hS : IsTLV S tS s) (hdata : CKYBuffer_Data der = SIG) (hr : r.length ≤ (k + 7) / 8)
    (hs : s.length ≤ (k + 7) / 8) :
    ∃ out, DEREncodedSignature_getRawSignature junk der (some raw) k = some (0, some out) ∧
      CKYBuffer_Data out = r ++ s ∧ (CKYBuffer_Data out).length = r.length + s.length := by
  have spec := getRawSignature_spec junk der raw k hwf hlt hk SIG R S r s rest t0 tR tS h0 hR hS
    hdata
  have e1 : r.length - (k + 7) / 8 = 0 := by omega
  have e2 : s.length - (k + 7) / 8 = 0 := by omega
  have hz : allZero ([] : List Nat) := fun b hb => absurd hb (List.not_mem_nil _)
  rw [e1, e2, List.take_zero, List.take_zero, List.drop_zero, List.drop_zero, if_pos hz,
    if_pos hz] at spec
  refine ⟨_, spec, raw_data junk raw r s, ?_⟩
  rw [raw_data, List.length_append]

/-- C33, at the signature `sig31`, an integer of 31 bytes and one of 32, for a
key of 256 bits: the call succeeds and the raw signature has 63 bytes, not
64. -/
theorem raw_signature_short_witness :
    ∃ out, DEREncodedSignature_getRawSignature junkAA sig31 (some ckyBuffer_initBuffer) 256
        = some (0, some out) ∧
      CKYBuffer_Data out = List.replicate 31 0x11 ++ List.replicate 32 0x22 ∧
      (CKYBuffer_Data out).length = 63 ∧ 2 * ((256 + 7) / 8) = 64 := by
  obtain ⟨out, h1, h2, h3⟩ := raw_signature_short junkAA sig31 ckyBuffer_initBuffer 256
    (by decide) (by decide) (by decide) sig31.data (TLV 0x02 (List.replicate 31 0x11))
    (TLV 0x02 (List.replicate 32 0x22)) (List.replicate 31 0x11)
    (List.replicate 32 0x22) [] 0x30 0x02 0x02 (IsTLV_TLV _ _ (by decide) (by decide))
    (IsTLV_TLV _ _ (by decide) (by decide)) (IsTLV_TLV _ _ (by decide) (by decide))
    (by decide) (by decide) (by decide)
  exact ⟨out, h1, h2, h3, by decide⟩

section NameLemmas

theorem IsTLV_length {t : List Nat} {tag : Nat} {c : List Nat} (h : IsTLV t tag c) :
    2 ≤ t.length ∧ c.length < t.length := by
  obtain ⟨_, lf, hlf, ht⟩ := h
  have h1 : 1 ≤ lf.length := by
    unfold lengthField at hlf
    rcases hlf with ⟨_, h⟩ | ⟨n, _, _, h, _⟩ <;> rw [h] <;> simp
  rw [ht]
  simp only [List.length_cons, List.length_append]
  omega

/-- One round of the loop of `GetCN` at a set `X` that the bytes `rest`
follow: with another object identifier than that of the common name the loop
goes on behind `X`, and with that of the common name the result is that of
`dataStart` at the bytes `after` that follow the identifier. -/
theorem GetCN_round (cn : CCItem) (fuel : Nat) (buf : Ptr) (L : Nat)
    (X rest SEQ more OID oid after : List Nat) (tX tQ tO : Nat)
    (hX : IsTLV X tX (SEQ ++ more)) (hQ : IsTLV SEQ tQ (OID ++ after)) (hO : IsTLV OID tO oid)
    (hat : At buf (X ++ rest)) (hL : L = (X ++ rest).length) (hlt : L < 2 ^ 32) :
    (oid ≠ CN_DATA →
      GetCN_loop cn (fuel + 1) buf L = GetCN_loop cn fuel (buf.add X.length) rest.length) ∧
    (oid = CN_DATA → ∃ q, At q after ∧
      (∀ len, dataStart (some q) after.length false = some (none, len) →
        GetCN_loop cn (fuel + 1) buf L = some (SECFailure, { data := none, len := len })) ∧
      (∀ data len, dataStart (some q) after.length false = some (some data, len) →
        GetCN_loop cn (fuel + 1) buf L = some (SECSuccess, { data := some data, len := len })))
      := by
  have lX := IsTLV_length hX
  have lQ := IsTLV_length hQ
  have lO := IsTLV_length hO
  obtain ⟨htX, lfX, hlfX, hXeq⟩ := hX
  obtain ⟨htQ, lfQ, hlfQ, hQeq⟩ := hQ
  obtain ⟨htO, lfO, hlfO, hOeq⟩ := hO
  have hL0 : ¬ L = 0 := by
    rw [hL, List.length_append]
    omega
  have hlen : (X ++ rest).length = X.length + rest.length := List.length_append _ _
  have hlen1 : (SEQ ++ more).length = SEQ.length + more.length := List.length_append _ _
  have hlen2 : (OID ++ after).length = OID.length + after.length := List.length_append _ _
  have s1 := dataStart_step buf L X tX lfX (SEQ ++ more) rest false hXeq htX hlfX hat hL hlt
  simp only [Bool.false_eq_true, if_false] at s1
  have s2 := dataStart_step (buf.add (1 + lfX.length)) (SEQ ++ more).length SEQ tQ lfQ
    (OID ++ after) more false hQeq htQ hlfQ s1.2.2.2.2.1 rfl (by omega)
  simp only [Bool.false_eq_true, if_false] at s2
  have s3 := dataStart_step ((buf.add (1 + lfX.length)).add (1 + lfQ.length))
    (OID ++ after).length OID tO lfO oid after false hOeq htO hlfO s2.2.2.2.2.1 rfl (by omega)
  simp only [Bool.false_eq_true, if_false] at s3
  have hb := At_bytes s3.2.2.2.2.1
  have hloop : GetCN_loop cn (fuel + 1) buf L
      = if oid.length ≠ CN_LENGTH then GetCN_loop cn fuel (buf.add X.length) rest.length
        else
          match (((buf.add (1 + lfX.length)).add (1 + lfQ.length)).add
              (1 + lfO.length)).bytes CN_LENGTH with
          | none => none
          | some bytes =>
            if bytes ≠ CN_DATA then GetCN_loop cn fuel (buf.add X.length) rest.length
            else
              match dataStart (some (((buf.add (1 + lfX.length)).add (1 + lfQ.length)).add
                  OID.length)) after.length false with
              | none => none
              | some (none, len) => some (SECFailure, { data := none, len := len })
              | some (some data, len) => some (SECSuccess, { data := some data, len := len }) := by
    rw [GetCN_loop]
    simp only [hL0, if_false, s1.1, s2.1, s3.1, s1.2.1, s1.2.2.1, s3.2.1, s3.2.2.1]
  constructor
  · intro hne
    rw [hloop]
    by_cases hl : oid.length ≠ CN_LENGTH
    · rw [if_pos hl]
    · have hl3 : oid.length = CN_LENGTH := Decidable.of_not_not hl
      rw [if_neg hl, ← hl3, hb]
      simp only [hne, ne_eq, not_false_eq_true, if_true]
  · intro heq
    refine ⟨_, s3.2.2.2.1, fun len hd => ?_, fun data len hd => ?_⟩
    · have hl3 : oid.length = CN_LENGTH := by rw [heq]; rfl
      rw [hloop, if_neg (by rw [hl3]; exact fun h => h rfl), ← hl3, hb]
      simp only [heq, ne_eq, not_true_eq_false, if_false, hd]
    · have hl3 : oid.length = CN_LENGTH := by rw [heq]; rfl
      rw [hloop, if_neg (by rw [hl3]; exact fun h => h rfl), ← hl3, hb]
      simp only [heq, ne_eq, not_true_eq_false, if_false, hd]

end NameLemmas
section NameWalk

theorem GetCN_loop_zero (cn : CCItem) (fuel : Nat) (buf : Ptr) :
    GetCN_loop cn fuel buf 0 = some (SECFailure, cn) := by
  cases fuel <;> rw [GetCN_loop] <;> rfl

/-- The loop of `GetCN` over sets with other object identifiers than that of
the common name: it goes on behind them. -/
theorem GetCN_skip (cn : CCItem) (tail : List Nat) :
    ∀ (skipped : List (List Nat)) (buf : Ptr) (fuel : Nat),
      (∀ X ∈ skipped, ∃ oid after, NameSet X oid after ∧ oid ≠ CN_DATA) →
      At buf (skipped.flatten ++ tail) → (skipped.flatten ++ tail).length ≤ fuel →
      (skipped.flatten ++ tail).length < 2 ^ 32 →
      ∃ fuel2, tail.length ≤ fuel2 ∧
        GetCN_loop cn fuel buf (skipped.flatten ++ tail).length
          = GetCN_loop cn fuel2 (buf.add skipped.flatten.length) tail.length := by
  intro skipped
  induction skipped with
  | nil =>
    intro buf fuel _ _ hfuel _
    exact ⟨fuel, hfuel, rfl⟩
  | cons X xs ih =>
    intro buf fuel hall hat hfuel hlt
    obtain ⟨oid, after, ⟨tX, tQ, tO, SEQ, more, OID, hX, hQ, hO⟩, hne⟩ :=
      hall X (List.mem_cons_self _ _)
    have lX := IsTLV_length hX
    rw [List.flatten_cons, List.append_assoc] at hat hfuel hlt ⊢
    have hlen : (X ++ (xs.flatten ++ tail)).length = X.length + (xs.flatten ++ tail).length :=
      List.length_append _ _
    cases fuel with
    | zero => omega
    | succ f =>
      have r := (GetCN_round cn f buf _ X (xs.flatten ++ tail) SEQ more OID oid after tX tQ tO
        hX hQ hO hat rfl hlt).1 hne
      obtain ⟨fuel2, h1, h2⟩ := ih (buf.add X.length) f
        (fun Y hY => hall Y (List.mem_cons_of_mem _ hY)) (At_right hat) (by omega) (by omega)
      refine ⟨fuel2, h1, ?_⟩
      rw [r, h2, add_add, List.length_append]

theorem mem_content {t : List Nat} {tag : Nat} {c : List Nat} (h : IsTLV t tag c) :
    ∀ b ∈ c, b ∈ t := by
  obtain ⟨_, lf, _, ht⟩ := h
  intro b hb
  rw [ht]
  exact List.mem_append_right _ hb

/-- One round of the loop of `GetCN` at bytes that do not start with a set it
reads through: the function fails. -/
theorem GetCN_round_bad (cn : CCItem) (fuel : Nat) (buf : Ptr) (tail : List Nat)
    (hat : At buf tail) (hlt : tail.length < 2 ^ 32) (hne : tail ≠ [])
    (hb : ∀ b ∈ tail, b < 256) (hbad : MalformedName tail) :
    ∃ cn2, GetCN_loop cn (fuel + 1) buf tail.length = some (SECFailure, cn2) := by
  have hL0 : ¬ tail.length = 0 := fun h => hne (List.length_eq_zero.mp h)
  rcases hbad with hf | ⟨X, rest, tX, c, ht, hX, hf⟩ |
    ⟨X, rest, tX, tQ, SEQ, more, c, ht, hX, hQ, hf⟩ | ⟨X, rest, after, ht, hN, hf⟩
  · obtain ⟨n, hd⟩ := dataStart_fails_At buf tail false hat hf hb hlt
    refine ⟨cn, ?_⟩
    rw [GetCN_loop]
    simp only [hL0, if_false, hd]
  · have lX := IsTLV_length hX
    have hbc : ∀ b ∈ c, b < 256 := fun b hm =>
      hb b (by rw [ht]; exact List.mem_append_left _ (mem_content hX b hm))
    obtain ⟨htX, lfX, hlfX, hXeq⟩ := hX
    subst ht
    have s1 := dataStart_step buf _ X tX lfX c rest false hXeq htX hlfX hat rfl hlt
    simp only [Bool.false_eq_true, if_false] at s1
    obtain ⟨n, hd⟩ := dataStart_fails_At _ c false s1.2.2.2.2.1 hf hbc (by
      rw [List.length_append] at hlt
      omega)
    refine ⟨cn, ?_⟩
    rw [GetCN_loop]
    simp only [hL0, if_false, s1.1, hd]
  · have lX := IsTLV_length hX
    have lQ := IsTLV_length hQ
    have hbc : ∀ b ∈ c, b < 256 := fun b hm =>
      hb b (by
        rw [ht]
        exact List.mem_append_left _ (mem_content hX b
          (List.mem_append_left _ (mem_content hQ b hm))))
    obtain ⟨htX, lfX, hlfX, hXeq⟩ := hX
    obtain ⟨htQ, lfQ, hlfQ, hQeq⟩ := hQ
    subst ht
    have hl1 : (X ++ rest).length = X.length + rest.length := List.length_append _ _
    have hl2 : (SEQ ++ more).length = SEQ.length + more.length := List.length_append _ _
    have s1 := dataStart_step buf _ X tX lfX (SEQ ++ more) rest false hXeq htX hlfX hat rfl hlt
    simp only [Bool.false_eq_true, if_false] at s1
    have s2 := dataStart_step (buf.add (1 + lfX.length)) (SEQ ++ more).length SEQ tQ lfQ
      c more false hQeq htQ hlfQ s1.2.2.2.2.1 rfl (by omega)
    simp only [Bool.false_eq_true, if_false] at s2
    obtain ⟨n, hd⟩ := dataStart_fails_At _ c false s2.2.2.2.2.1 hf hbc (by omega)
    refine ⟨cn, ?_⟩
    rw [GetCN_loop]
    simp only [hL0, if_false, s1.1, s2.1, hd]
  · obtain ⟨tX, tQ, tO, SEQ, more, OID, hX, hQ, hO⟩ := hN
    have lX := IsTLV_length hX
    have lQ := IsTLV_length hQ
    have hl1 : (X ++ rest).length = X.length + rest.length := List.length_append _ _
    have hl2 : (SEQ ++ more).length = SEQ.length + more.length := List.length_append _ _
    have hl3 : (OID ++ after).length = OID.length + after.length := List.length_append _ _
    have hbc : ∀ b ∈ after, b < 256 := fun b hm =>
      hb b (by
        rw [ht]
        exact List.mem_append_left _ (mem_content hX b
          (List.mem_append_left _ (mem_content hQ b (List.mem_append_right _ hm)))))
    subst ht
    obtain ⟨q, hq, h1, _⟩ := (GetCN_round cn fuel buf _ X rest SEQ more OID CN_DATA after tX tQ tO
      hX hQ hO hat rfl hlt).2 rfl
    obtain ⟨n, hd⟩ := dataStart_fails_At q after false hq hf hbc (by omega)
    exact ⟨_, h1 n hd⟩

end NameWalk
section NameFront

/-- The function `GetCN` on a distinguished name: the loop at its content. -/
theorem GetCN_front (cn : CCItem) (p : Ptr) (DN content : List Nat) (t0 : Nat)
    (h0 : IsTLV DN t0 content) (hat : At p DN) (hlt : DN.length < 2 ^ 32) :
    ∃ buf, At buf content ∧ content.length < 2 ^ 32 ∧
      GetCN (some p) DN.length cn = GetCN_loop cn content.length buf content.length := by
  have l0 := IsTLV_length h0
  obtain ⟨ht0, lf0, hlf0, h0eq⟩ := h0
  have hat0 : At p (DN ++ []) := by rw [List.append_nil]; exact hat
  have s0 := dataStart_step p DN.length DN t0 lf0 content [] false h0eq ht0 hlf0 hat0
    (by rw [List.append_nil]) hlt
  simp only [Bool.false_eq_true, if_false] at s0
  refine ⟨_, s0.2.2.2.2.1, by omega, ?_⟩
  unfold GetCN
  simp only [s0.1]

end NameFront

/-- C32: take a distinguished name, an element whose content starts with the
sets `skipped`, each a set whose sequence starts with an object identifier
other than `55 04 03`. When a set follows whose sequence starts with the
identifier `55 04 03` and an element of content `v`, `GetCN` succeeds and
returns the bytes `v`. When nothing follows, `GetCN` fails. When bytes follow
that do not start with a set it reads through, because an element on the way
is malformed, `GetCN` fails. -/
theorem common_name (cn : CCItem) (p : Ptr) (DN content : List Nat) (t0 : Nat)
    (skipped : List (List Nat)) (h0 : IsTLV DN t0 content) (hat : At p DN)
    (hlt : DN.length < 2 ^ 32)
    (hskip : ∀ X ∈ skipped, ∃ oid after, NameSet X oid after ∧ oid ≠ CN_DATA) :
    (∀ X rest VAL after tv v, content = skipped.flatten ++ (X ++ rest) →
      NameSet X CN_DATA (VAL ++ after) → IsTLV VAL tv v →
      ∃ q, GetCN (some p) DN.length cn = some (SECSuccess, { data := some q, len := v.length }) ∧
        q.bytes v.length = some v) ∧
    (content = skipped.flatten → GetCN (some p) DN.length cn = some (SECFailure, cn)) ∧
    (∀ tail, content = skipped.flatten ++ tail → tail ≠ [] → MalformedName tail →
      (∀ b ∈ tail, b < 256) →
      ∃ cn2, GetCN (some p) DN.length cn = some (SECFailure, cn2)) := by
  obtain ⟨buf, hbuf, hltc, hfront⟩ := GetCN_front cn p DN content t0 h0 hat hlt
  refine ⟨?_, ?_, ?_⟩
  · intro X rest VAL after tv v hc hN hV
    subst hc
    obtain ⟨fuel2, hf, hs⟩ := GetCN_skip cn (X ++ rest) skipped buf _ hskip hbuf (Nat.le_refl _)
      hltc
    obtain ⟨tX, tQ, tO, SEQ, more, OID, hX, hQ, hO⟩ := hN
    have lX := IsTLV_length hX
    have hlen : (X ++ rest).length = X.length + rest.length := List.length_append _ _
    have hl0 : (skipped.flatten ++ (X ++ rest)).length
        = skipped.flatten.length + (X ++ rest).length := List.length_append _ _
    obtain ⟨f, hf2⟩ : ∃ f, fuel2 = f + 1 := ⟨fuel2 - 1, by omega⟩
    subst hf2
    obtain ⟨q, hq, _, h2⟩ := (GetCN_round cn f (buf.add skipped.flatten.length) _ X rest SEQ more
      OID CN_DATA (VAL ++ after) tX tQ tO hX hQ hO (At_right hbuf) rfl (by omega)).2 rfl
    have lQ := IsTLV_length hQ
    have hl2 : (SEQ ++ more).length = SEQ.length + more.length := List.length_append _ _
    have hl3 : (OID ++ (VAL ++ after)).length = OID.length + (VAL ++ after).length :=
      List.length_append _ _
    obtain ⟨htV, lfV, hlfV, hVeq⟩ := hV
    have s := dataStart_step q (VAL ++ after).length VAL tv lfV v after false hVeq htV hlfV hq
      rfl (by omega)
    simp only [Bool.false_eq_true, if_false] at s
    refine ⟨_, ?_, At_bytes s.2.2.2.2.1⟩
    rw [hfront, hs]
    exact h2 _ _ s.1
  · intro hc
    subst hc
    have hb2 : At buf (skipped.flatten ++ []) := by rw [List.append_nil]; exact hbuf
    obtain ⟨fuel2, _, hs⟩ := GetCN_skip cn [] skipped buf skipped.flatten.length hskip hb2
      (by rw [List.append_nil]) (by rw [List.append_nil]; exact hltc)
    rw [List.append_nil] at hs
    rw [hfront, hs]
    exact GetCN_loop_zero cn fuel2 _
  · intro tail hc hne hbad hb
    subst hc
    obtain ⟨fuel2, hf, hs⟩ := GetCN_skip cn tail skipped buf _ hskip hbuf (Nat.le_refl _) hltc
    have hpos : 0 < tail.length := List.length_pos.mpr hne
    have hl0 : (skipped.flatten ++ tail).length = skipped.flatten.length + tail.length :=
      List.length_append _ _
    obtain ⟨f, hf2⟩ : ∃ f, fuel2 = f + 1 := ⟨fuel2 - 1, by omega⟩
    subst hf2
    obtain ⟨cn2, h⟩ := GetCN_round_bad cn f (buf.add skipped.flatten.length) tail
      (At_right hbuf) (by omega) hne hb hbad
    exact ⟨cn2, by rw [hfront, hs, h]⟩

/-- C32, at the distinguished name `dnExample`, a set of the country `US`
before a set of the common name `Jo`: `GetCN` returns the bytes `4A 6F`. -/
theorem common_name_witness :
    ∃ q, GetCN (some (Ptr.mk dnExample.data 0)) dnExample.data.length ⟨none, 0⟩
        = some (SECSuccess, { data := some q, len := 2 }) ∧
      q.bytes 2 = some [0x4A, 0x6F] :=
  (common_name ⟨none, 0⟩ (Ptr.mk dnExample.data 0) dnExample.data
    (TLV 0x31 (TLV 0x30 (TLV 0x06 [0x55, 4, 6] ++ TLV 0x13 [0x55, 0x53]) ++ [])
      ++ (TLV 0x31 (TLV 0x30 (TLV 0x06 [0x55, 4, 3] ++ (TLV 0x0C [0x4A, 0x6F] ++ [])) ++ [])
      ++ []))
    0x30 [TLV 0x31 (TLV 0x30 (TLV 0x06 [0x55, 4, 6] ++ TLV 0x13 [0x55, 0x53]) ++ [])]
    (IsTLV_TLV _ _ (by decide) (by decide)) ⟨[], [], rfl, rfl⟩ (by decide)
    (fun X hX => by
      rw [List.mem_singleton.mp hX]
      exact ⟨[0x55, 4, 6], TLV 0x13 [0x55, 0x53], ⟨0x31, 0x30, 0x06, _, [], _,
        IsTLV_TLV _ _ (by decide) (by decide), IsTLV_TLV _ _ (by decide) (by decide),
        IsTLV_TLV _ _ (by decide) (by decide)⟩, by decide⟩)).1
    (TLV 0x31 (TLV 0x30 (TLV 0x06 [0x55, 4, 3] ++ (TLV 0x0C [0x4A, 0x6F] ++ [])) ++ []))
    [] (TLV 0x0C [0x4A, 0x6F]) [] 0x0C [0x4A, 0x6F] (by decide)
    ⟨0x31, 0x30, 0x06, _, [], _, IsTLV_TLV _ _ (by decide) (by decide),
      IsTLV_TLV _ _ (by decide) (by decide), IsTLV_TLV _ _ (by decide) (by decide)⟩
    (IsTLV_TLV _ _ (by decide) (by decide))

section CacLemmas

/-- The buffer `id` of the CAC objects holds a zero byte and the byte
`instance + 1`. -/
theorem CAC_id_Data (junk : Nat → Nat) (inst : Nat) :
    CKYBuffer_Data (CAC_id junk inst) = [0, (inst + 1) % 256] := by
  obtain ⟨i1, i2, i3⟩ := InitFromLen_spec junk 1
  obtain ⟨_, _, _, s4⟩ := SetChar_spec junk (CKYBuffer_InitFromLen junk 1).2 1
    ((inst + 1) % 256) i2
  unfold CAC_id
  simp only
  rw [s4, i3]
  rfl

theorem getAttribute_setAttributeBool (junk : Nat → Nat) (attrs : List PKCS11Attribute)
    (t v u : Nat) (h : u ≠ t) :
    getAttribute (setAttributeBool junk attrs t v) u = getAttribute attrs u := by
  unfold setAttributeBool
  simp only [getAttribute_setAttribute, h, if_false]

theorem getAttribute_setAttributeULong (junk : Nat → Nat) (host : Host)
    (attrs : List PKCS11Attribute) (t v u : Nat) (h : u ≠ t) :
    getAttribute (setAttributeULong junk host attrs t v) u = getAttribute attrs u := by
  unfold setAttributeULong
  simp only [getAttribute_setAttribute, h, if_false]

theorem getAttribute_setAttribute_string (junk : Nat → Nat) (attrs : List PKCS11Attribute)
    (t : Nat) (v : List Nat) (u : Nat) (h : u ≠ t) :
    getAttribute (setAttribute_string junk attrs t v) u = getAttribute attrs u := by
  unfold setAttribute_string
  simp only [getAttribute_setAttribute, h, if_false]

theorem getAttribute_setAttribute_ne (attrs : List PKCS11Attribute) (t : Nat) (v : CKYBuffer)
    (u : Nat) (h : u ≠ t) : getAttribute (setAttribute attrs t v) u = getAttribute attrs u := by
  rw [getAttribute_setAttribute, if_neg h]

theorem getAttribute_setAttribute_self (attrs : List PKCS11Attribute) (t : Nat)
    (v : CKYBuffer) : getAttribute (setAttribute attrs t v) t = some (CKYBuffer_Data v) := by
  rw [getAttribute_setAttribute, if_pos rfl]

end CacLemmas
section CacObjects

/-- The certificate object of a CAC card: when the constructor builds it, the
instance number is at most 2 and `CKA_ID` holds a zero byte and the byte
`instance + 1`. -/
theorem CACCert_id (junk : Nat → Nat) (host : Host) (stack : CCItem) (inst : Nat)
    (derCert : CKYBuffer) (cert : PKCS11Object)
    (h : CACCert_CACCert junk host stack inst derCert = some (Except.ok cert)) :
    inst ≤ 2 ∧ getAttribute cert.attributes CKA_ID = some [0, (inst + 1) % 256] := by
  unfold CACCert_CACCert at h
  simp only at h
  split at h
  · cases h
  · rename_i label hl
    have hi : inst ≤ 2 := by
      have := (List.getElem?_eq_some.mp hl).1
      have e : CAC_Label.length = 3 := rfl
      omega
    split at h
    · cases h
    · cases h
    · split at h
      · cases h
      · simp only [Option.some.injEq, Except.ok.injEq] at h
        subst h
        refine ⟨hi, ?_⟩
        simp only [setAttributeULong, setAttribute_string, getAttribute_setAttribute,
          CAC_id_Data, (by decide : ¬ CKA_ID = CKA_ISSUER), (by decide : ¬ CKA_ID = CKA_SUBJECT),
          (by decide : ¬ CKA_ID = CKA_SERIAL_NUMBER), (by decide : ¬ CKA_ID = CKA_VALUE),
          (by decide : ¬ CKA_ID = CKA_LABEL), (by decide : ¬ CKA_ID = CKA_CERTIFICATE_TYPE),
          if_false, if_true]

theorem id_facts :
    (¬ CKA_ID = CKA_CLASS) ∧ (¬ CKA_ID = CKA_TOKEN) ∧ (¬ CKA_ID = CKA_PRIVATE) ∧
    (¬ CKA_ID = CKA_LABEL) ∧ (¬ CKA_ID = CKA_MODIFIABLE) ∧ (¬ CKA_ID = CKA_START_DATE) ∧
    (¬ CKA_ID = CKA_END_DATE) ∧ (¬ CKA_ID = CKA_DERIVE) ∧ (¬ CKA_ID = CKA_LOCAL) ∧
    (¬ CKA_ID = CKA_KEY_TYPE) ∧ (¬ CKA_ID = CKA_SIGN) ∧ (¬ CKA_ID = CKA_SIGN_RECOVER) ∧
    (¬ CKA_ID = CKA_UNWRAP) ∧ (¬ CKA_ID = CKA_SENSITIVE) ∧ (¬ CKA_ID = CKA_EXTRACTABLE) ∧
    (¬ CKA_ID = CKA_MODULUS) ∧ (¬ CKA_ID = CKA_PUBLIC_EXPONENT) ∧ (¬ CKA_ID = CKA_DECRYPT) ∧
    (¬ CKA_ID = CKA_EC_POINT) ∧ (¬ CKA_ID = CKA_EC_PARAMS) ∧ (¬ CKA_ID = CKA_ENCRYPT) ∧
    (¬ CKA_ID = CKA_VERIFY) ∧ (¬ CKA_ID = CKA_VERIFY_RECOVER) ∧ (¬ CKA_ID = CKA_WRAP) := by
  decide

/-- The private key object of a CAC card: when the constructor builds it,
`CKA_ID` holds a zero byte and the byte `instance + 1`. -/
theorem CACPrivKey_id (junk : Nat → Nat) (host : Host) (stack : CCItem) (inst : Nat)
    (cert priv : PKCS11Object)
    (h : CACPrivKey_CACPrivKey junk host stack inst cert = some (Except.ok priv)) :
    getAttribute priv.attributes CKA_ID = some [0, (inst + 1) % 256] := by
  obtain ⟨f1, f2, f3, f4, f5, f6, f7, f8, f9, f10, f11, f12, f13, f14, f15, f16, f17, f18, f19,
    f20, f21, f22, f23, f24⟩ := id_facts
  unfold CACPrivKey_CACPrivKey at h
  simp only at h
  split at h
  · cases h
  · split at h
    · cases h
    · cases h
    · split at h
      · cases h
      · cases h
      · simp only [Option.some.injEq, Except.ok.injEq] at h
        subst h
        simp only [setAttributeULong, setAttributeBool, getAttribute_setAttribute, CAC_id_Data,
          f1, f2, f3, f4, f5, f6, f7, f8, f9, f10, f11, f12, f13, f14, f15, f16, f17, f18,
          if_false, if_true]
    · split at h
      · cases h
      · cases h
      · simp only [Option.some.injEq, Except.ok.injEq] at h
        subst h
        simp only [setAttributeULong, setAttributeBool, getAttribute_setAttribute, CAC_id_Data,
          f1, f2, f3, f4, f5, f6, f7, f8, f9, f10, f11, f12, f13, f14, f15, f18, f19, f20,
          if_false, if_true]
    · simp only [Option.some.injEq, Except.ok.injEq] at h
      subst h
      simp only [setAttributeULong, setAttributeBool, getAttribute_setAttribute, CAC_id_Data,
        f1, f2, f3, f4, f5, f6, f7, f8, f9, f10, f11, f12, f13, f14, f15, if_false, if_true]

/-- The public key object of a CAC card: when the constructor builds it,
`CKA_ID` holds a zero byte and the byte `instance + 1`. -/
theorem CACPubKey_id (junk : Nat → Nat) (host : Host) (stack : CCItem) (inst : Nat)
    (cert pub : PKCS11Object)
    (h : CACPubKey_CACPubKey junk host stack inst cert = some (Except.ok pub)) :
    getAttribute pub.attributes CKA_ID = some [0, (inst + 1) % 256] := by
  obtain ⟨f1, f2, f3, f4, f5, f6, f7, f8, f9, f10, f11, f12, f13, f14, f15, f16, f17, f18, f19,
    f20, f21, f22, f23, f24⟩ := id_facts
  unfold CACPubKey_CACPubKey at h
  simp only at h
  split at h
  · cases h
  · split at h
    · cases h
    · cases h
    · split at h
      · cases h
      · cases h
      · simp only [Option.some.injEq, Except.ok.injEq] at h
        subst h
        simp only [setAttributeULong, setAttributeBool, getAttribute_setAttribute, CAC_id_Data,
          f1, f2, f3, f4, f5, f6, f7, f8, f9, f10, f16, f17, f21, f22, f23, f24,
          if_false, if_true]
    · split at h
      · cases h
      · cases h
      · simp only [Option.some.injEq, Except.ok.injEq] at h
        subst h
        simp only [setAttributeULong, setAttributeBool, getAttribute_setAttribute, CAC_id_Data,
          f1, f2, f3, f4, f5, f6, f7, f8, f9, f10, f19, f20, f21, f22, f23, f24,
          if_false, if_true]
    · simp only [Option.some.injEq, Except.ok.injEq] at h
      subst h
      simp only [setAttributeULong, setAttributeBool, getAttribute_setAttribute, CAC_id_Data,
        f1, f2, f3, f4, f5, f6, f7, f8, f9, f10, f21, f22, f23, f24, if_false, if_true]

end CacObjects

/-- C40: when the constructors `CACCert`, `CACPubKey` and `CACPrivKey` build
the three objects of an instance number `inst`, the number is at most 2, as
`CACCert` takes its label from the three entries of `CAC_Label`, and each of
the three objects carries the same `CKA_ID`, the two bytes `00` and
`inst + 1`. An object that one of the constructors builds for another instance
number up to 2 carries another `CKA_ID`. -/
theorem cac_objects_id (junk : Nat → Nat) (host : Host) (stack : CCItem) (inst : Nat)
    (derCert : CKYBuffer) (cert pub priv : PKCS11Object)
    (hc : CACCert_CACCert junk host stack inst derCert = some (Except.ok cert))
    (hp : CACPubKey_CACPubKey junk host stack inst cert = some (Except.ok pub))
    (hv : CACPrivKey_CACPrivKey junk host stack inst cert = some (Except.ok priv)) :
    inst ≤ 2 ∧
    getAttribute cert.attributes CKA_ID = some [0, inst + 1] ∧
    getAttribute pub.attributes CKA_ID = some [0, inst + 1] ∧
    getAttribute priv.attributes CKA_ID = some [0, inst + 1] ∧
    (∀ inst2 o2, inst2 ≤ 2 → inst2 ≠ inst →
      ((∃ d, CACCert_CACCert junk host stack inst2 d = some (Except.ok o2)) ∨
        (∃ c, CACPubKey_CACPubKey junk host stack inst2 c = some (Except.ok o2)) ∨
        (∃ c, CACPrivKey_CACPrivKey junk host stack inst2 c = some (Except.ok o2))) →
      getAttribute o2.attributes CKA_ID = some [0, inst2 + 1] ∧
      getAttribute o2.attributes CKA_ID ≠ some [0, inst + 1]) := by
  obtain ⟨hi, h1⟩ := CACCert_id junk host stack inst derCert cert hc
  have h2 := CACPubKey_id junk host stack inst cert pub hp
  have h3 := CACPrivKey_id junk host stack inst cert priv hv
  have e : (inst + 1) % 256 = inst + 1 := Nat.mod_eq_of_lt (by omega)
  rw [e] at h1 h2 h3
  refine ⟨hi, h1, h2, h3, ?_⟩
  intro inst2 o2 hi2 hne hb
  have e2 : (inst2 + 1) % 256 = inst2 + 1 := Nat.mod_eq_of_lt (by omega)
  have hid : getAttribute o2.attributes CKA_ID = some [0, inst2 + 1] := by
    rcases hb with ⟨d, h⟩ | ⟨c, h⟩ | ⟨c, h⟩
    · rw [(CACCert_id junk host stack inst2 d o2 h).2, e2]
    · rw [CACPubKey_id junk host stack inst2 c o2 h, e2]
    · rw [CACPrivKey_id junk host stack inst2 c o2 h, e2]
  refine ⟨hid, ?_⟩
  rw [hid]
  intro h
  simp only [Option.some.injEq, List.cons.injEq, and_true, true_and] at h
  omega

/-- C40, at the instance 0 and the certificate `certExample`: the three
objects are built and each carries the `CKA_ID` `00 01`. -/
theorem cac_objects_id_witness :
    CACCert_CACCert junkAA host32 ⟨none, 0⟩ 0 certExample = some (Except.ok cacCert0) ∧
    CACPubKey_CACPubKey junkAA host32 ⟨none, 0⟩ 0 cacCert0 = some (Except.ok cacPub0) ∧
    CACPrivKey_CACPrivKey junkAA host32 ⟨none, 0⟩ 0 cacCert0 = some (Except.ok cacPriv0) ∧
    getAttribute cacCert0.attributes CKA_ID = some [0, 1] ∧
    getAttribute cacPub0.attributes CKA_ID = some [0, 1] ∧
    getAttribute cacPriv0.attributes CKA_ID = some [0, 1] := by
  have hc : CACCert_CACCert junkAA host32 ⟨none, 0⟩ 0 certExample
      = some (Except.ok cacCert0) := rfl
  have hp : CACPubKey_CACPubKey junkAA host32 ⟨none, 0⟩ 0 cacCert0
      = some (Except.ok cacPub0) := rfl
  have hv : CACPrivKey_CACPrivKey junkAA host32 ⟨none, 0⟩ 0 cacCert0
      = some (Except.ok cacPriv0) := rfl
  have h := cac_objects_id junkAA host32 ⟨none, 0⟩ 0 certExample cacCert0 cacPub0 cacPriv0
    hc hp hv
  exact ⟨hc, hp, hv, h.2.1, h.2.2.1, h.2.2.2.1⟩

end CoolKey
